import Mathlib

/-! # bitkub-go: signing, formatting, error catalogue and response gates

A shallow embedding of `api.go`, `internal/errors.go` and the parts of
`internal/httpclient.go` and `internal/model` those files use.

Conventions of the embedding

* Go `int` / `int64` values are `Int`; where the source multiplies machine integers the
  result is wrapped to 64 bits (`wrapInt64`).
* Go strings are `String`; byte slices holding JSON text are `String` as well.
* A Go `map[string]interface{}` is an association list with pairwise distinct keys
  (`Payload`); the order of the list stands for the unspecified iteration order of the
  Go map and carries no meaning.
* What the standard library and `fasthttp` do is not part of the repository. Their
  behaviour is either modelled from their documentation (`fmt.Sprintf("%f", _)`,
  `strings.TrimRight`, `hex.EncodeToString`, the key ordering of `json.Marshal`) or taken
  as a parameter (`Lib`: string quoting, number rendering, HMAC-SHA256, `json.Unmarshal`).
-/

namespace Bitkub

/-! ## internal/errors.go -/

/-- The table `BitkubApiErrorCodes` of `internal/errors.go`, in source order. -/
def BitkubApiErrorCodes : List (Int × String) := [
  (0, "No error"),
  (1, "Invalid JSON payload"),
  (2, "Missing X-BTK-APIKEY"),
  (3, "Invalid API key"),
  (4, "API pending for activation"),
  (5, "IP not allowed"),
  (6, "Missing / invalid signature"),
  (7, "Missing timestamp"),
  (8, "Invalid timestamp"),
  (9, "Invalid user"),
  (10, "Invalid parameter"),
  (11, "Invalid symbol"),
  (12, "Invalid amount"),
  (13, "Invalid rate"),
  (14, "Improper rate"),
  (15, "Amount too low"),
  (16, "Failed to get balance"),
  (17, "Wallet is empty"),
  (18, "Insufficient balance"),
  (19, "Failed to insert order into db"),
  (20, "Failed to deduct balance"),
  (21, "Invalid order for cancellation"),
  (22, "Invalid side"),
  (23, "Failed to update order status"),
  (24, "Invalid order for lookup"),
  (25, "KYC level 1 is required to proceed"),
  (30, "Limit exceeds"),
  (40, "Pending withdrawal exists"),
  (41, "Invalid currency for withdrawal"),
  (42, "Address is not in whitelist"),
  (43, "Failed to deduct crypto"),
  (44, "Failed to create withdrawal record"),
  (45, "Nonce has to be numeric"),
  (46, "Invalid nonce"),
  (47, "Withdrawal limit exceeds"),
  (48, "Invalid bank account"),
  (49, "Bank limit exceeds"),
  (50, "Pending withdrawal exists"),
  (51, "Withdrawal is under maintenance"),
  (52, "Invalid permission"),
  (53, "Invalid internal address"),
  (54, "Address has been deprecated"),
  (90, "Server error (please contact support)")]

/-- `GetErrorMessage` of `internal/errors.go`: the comma-ok map read, then the fallback. -/
def GetErrorMessage (code : Int) : String :=
  match BitkubApiErrorCodes.lookup code with
  | some msg => msg
  | none => "Unknown error"

/-! ## float64 and `fmt.Sprintf("%f", _)` -/

/-- A `float64`: a finite value `± mant * 2 ^ exp`, an infinity, or NaN. Every IEEE double
is of this form (`mant < 2 ^ 53`, `-1074 ≤ exp ≤ 971`); the definitions below do not need
the bounds. -/
inductive Float64 where
  | finite (neg : Bool) (mant : Nat) (exp : Int)
  | inf (neg : Bool)
  | nan
  deriving DecidableEq

/-- The quotient `num / den` rounded to the nearest integer, ties to the even one: the
rounding of `strconv` (`decimal.Round`, `shouldRoundUp`). -/
def roundHalfEven (num den : Nat) : Nat :=
  let q := num / den
  let r := num % den
  if den < 2 * r ∨ (2 * r = den ∧ q % 2 = 1) then q + 1 else q

/-- The magnitude `mant * 2 ^ exp` in millionths, rounded to a whole number of millionths:
what precision 6 of the verb `%f` keeps of the value. -/
def micros (mant : Nat) (exp : Int) : Nat :=
  match exp with
  | Int.ofNat e => mant * 2 ^ e * 10 ^ 6
  | Int.negSucc e => roundHalfEven (mant * 10 ^ 6) (2 ^ (e + 1))

/-- Left-pads a digit list with '0' to six characters. -/
def pad6 (ds : List Char) : List Char :=
  List.replicate (6 - ds.length) '0' ++ ds

/-- The text of `fmt.Sprintf("%f", num)`: optional '-', the integer digits, '.', and exactly
six fraction digits; "+Inf", "-Inf" and "NaN" for the values that are not finite. -/
def Sprintf_f (num : Float64) : String :=
  match num with
  | Float64.nan => "NaN"
  | Float64.inf neg => if neg then "-Inf" else "+Inf"
  | Float64.finite neg mant exp =>
    let n := micros mant exp
    String.mk ((if neg then ['-'] else []) ++ Nat.toDigits 10 (n / 10 ^ 6) ++ ['.'] ++
      pad6 (Nat.toDigits 10 (n % 10 ^ 6)))

/-- The function `strings.TrimRight(s, cutset)`: `s` without its longest suffix made of
characters of `cutset`. -/
def TrimRight (s cutset : String) : String :=
  String.mk (s.data.rdropWhile (fun c => cutset.data.contains c))

/-! ## api.go: formatFloatWithoutZeroTrail -/

/-- `formatFloatWithoutZeroTrail` of `api.go`. -/
def formatFloatWithoutZeroTrail (num : Float64) : String :=
  let zero := "0"
  let dot := "."
  let str := Sprintf_f num
  TrimRight (TrimRight str zero) dot

/-- The whole number a string of decimal digits denotes. -/
def digitsValue (cs : List Char) : Nat :=
  cs.foldl (fun acc c => 10 * acc + (c.toNat - 48)) 0

/-- The magnitude of a decimal numeral without sign: the digits before the first '.' as a
whole number plus the digits after it as a fraction. -/
def decimalMagnitude (cs : List Char) : ℚ :=
  let ip := cs.takeWhile (fun c => c != '.')
  let fp := (cs.dropWhile (fun c => c != '.')).drop 1
  (digitsValue ip : ℚ) + (digitsValue fp : ℚ) / 10 ^ fp.length

/-- The number a decimal numeral `[-]digits[.digits]` denotes. -/
def decimalValue (s : String) : ℚ :=
  match s.data with
  | '-' :: cs => - decimalMagnitude cs
  | cs => decimalMagnitude cs

/-- The number a finite `float64` holds (0 for the values that are not finite). -/
def Float64.toRat : Float64 → ℚ
  | Float64.finite neg mant exp => (if neg then -1 else 1) * (mant : ℚ) * (2 : ℚ) ^ exp
  | Float64.inf _ => 0
  | Float64.nan => 0

/-- The `float64` of the Go literal `10.0` (bits 0x4024000000000000). -/
def f64_10 : Float64 := Float64.finite false 5629499534213120 (-49)

/-- The `float64` of the Go literal `0.0010` (bits 0x3F50624DD2F1A9FC), the double nearest
to one thousandth. -/
def f64_0_001 : Float64 := Float64.finite false 4611686018427388 (-62)

/-- The `float64` of the Go literal `100.100` (bits 0x4059066666666666), the double
nearest to 100.1. -/
def f64_100_1 : Float64 := Float64.finite false 7043911292184166 (-46)

/-- The `float64` of the Go literal `0.0` (all bits zero). -/
def f64_0 : Float64 := Float64.finite false 0 (-1074)

/-- The `float64` of the Go literal `0.00000001` (bits 0x3E45798EE2308C3A), the double
nearest to one hundred-millionth. -/
def f64_1e_8 : Float64 := Float64.finite false 6044629098073146 (-79)

/-! ## Values, payload maps and decoded responses -/

/-- A value stored in a `map[string]interface{}` payload: a Go `string`, an `int` or
`int64`, a `float64`, or a value `json.Marshal` has no encoding for (a channel, a
function, ...). -/
inductive Value where
  | str (s : String)
  | int (n : Int)
  | float (f : Float64)
  | unsupported
  deriving DecidableEq

/-- A `map[string]interface{}` payload: finitely many entries with pairwise distinct keys.
The order of the entries is the unspecified iteration order of the Go map. -/
abbrev Payload := AList (fun _ : String => Value)

/-- The assignment `payload[key] = v`. -/
def Payload.set (payload : Payload) (key : String) (v : Value) : Payload :=
  AList.insert key v payload

/-- What `json.Unmarshal` stores in an `interface{}`: nil for null, `bool`, `float64` for
every number, `string`, `[]interface{}` and `map[string]interface{}`. -/
inductive Dyn where
  | null
  | bool (b : Bool)
  | float64 (f : Float64)
  | string (s : String)
  | slice (items : List Dyn)
  | map (entries : List (String × Dyn))

/-- The response structs of `internal/model` that `api.go` unmarshals into. -/
inductive ResponseType where
  | ErrorResponse
  | DefaultResponse
  | MarketSymbolResponse
  | OrderResponse
  | OpenOrderResponse
  | OrderHistoryResponse
  | OrderInfoResponse
  | CryptoAddressResponse
  | CryptoWithdrawResponse
  | CryptoWithdrawHistoryResponse
  | CryptoDepositResponse
  | CryptoGenerateAddressResponse
  | FiatAccountsResponse
  | FiatWithdrawResponse
  | FiatDepositResponse
  | FiatWithdrawHistoryResponse
  | UserLimitsResponse

/-- A decoded response struct: its `Error` field, its `Result` field and its `Pagination`
field (null where the struct has none). The typed results of `internal/model` are kept as
the tree of their fields. -/
structure Envelope where
  Error : Int
  Result : Dyn
  Pagination : Dyn

/-- `model.MarketSymbol`. -/
structure MarketSymbol where
  ID : Int
  Symbol : String
  Info : String
  deriving DecidableEq

/-- `model.MarketSymbolResponse`. -/
structure MarketSymbolResponse where
  Error : Int
  Result : List MarketSymbol
  deriving DecidableEq

/-- The typed targets, other than the response structs, that `api.go` unmarshals into:
`[]model.ServerStatus` and `map[string]model.MarketTicker`. -/
inductive TypedTarget where
  | ServerStatusList
  | MarketTickerMap

/-- The behaviour of the libraries the repository calls and does not contain. -/
structure Lib where
  /-- The JSON string literal `encoding/json` writes for a Go string. -/
  quote : String → String
  /-- The JSON number `encoding/json` writes for a finite `float64`. -/
  formatFloat : Float64 → String
  /-- HMAC-SHA256 of a message under a key (`hmac.New(sha256.New, key)`, `Write`, `Sum`). -/
  hmacSha256 : String → String → List UInt8
  /-- A SHA-256 MAC has 32 bytes. -/
  hmacSha256_size : ∀ key msg, (hmacSha256 key msg).length = 32
  /-- The result of `json.Unmarshal(body, &ret)` for `ret` of the given struct type; `none`
  when it returns an error. -/
  unmarshal : ResponseType → String → Option Envelope
  /-- The result of `json.Unmarshal(body, &ret)` for `ret` a `model.MarketSymbolResponse`;
  `none` when it returns an error. -/
  unmarshalSymbols : String → Option MarketSymbolResponse
  /-- The result of `json.Unmarshal(body, &ret)` for `ret` of the given typed target, as the
  tree of its fields; `none` when it returns an error. -/
  unmarshalTyped : TypedTarget → String → Option Dyn
  /-- The result of `json.Unmarshal(body, &ret)` for `ret` an empty
  `map[string]interface{}`: the entries of the map; `none` when it returns an error. -/
  unmarshalMap : String → Option (List (String × Dyn))
  /-- The integer a conversion `int(f)` yields when the truncated value of `f` does not
  fit in 64 bits or `f` is not finite (the language leaves it to the implementation). -/
  convertOutOfRange : Float64 → Int

/-- The errors the operations return. -/
inductive GoError where
  /-- An error made by `fmt.Errorf` with the given text. -/
  | errorf (msg : String)
  /-- An error returned by `json.Marshal` or `json.Unmarshal`. -/
  | json
  /-- An error returned by `fasthttp.DoTimeout`. -/
  | transport (detail : String)
  /-- An error returned by `strconv.Atoi`. -/
  | strconv
  deriving DecidableEq

/-! ## `json.Marshal` of a payload, `hex.EncodeToString`, 64-bit arithmetic, time -/

/-- The order `encoding/json` sorts map keys by: bytewise comparison of the keys. -/
def keyLE (a b : String) : Prop := a.data ≤ b.data

instance keyLE_decidable : DecidableRel keyLE :=
  fun a b => inferInstanceAs (Decidable (a.data ≤ b.data))

instance keyLE_isTotal : IsTotal String keyLE := ⟨fun a b => le_total a.data b.data⟩

instance keyLE_isTrans : IsTrans String keyLE := ⟨fun _ _ _ h₁ h₂ => le_trans h₁ h₂⟩

instance keyLE_isAntisymm : IsAntisymm String keyLE :=
  ⟨fun _ _ h₁ h₂ => String.ext (le_antisymm h₁ h₂)⟩

/-- The keys of a payload in the order `json.Marshal` emits them. -/
def sortedKeys (payload : Payload) : List String :=
  payload.keys.insertionSort keyLE

/-- The encoding of one value by `json.Marshal`; `none` when it returns an error. -/
def marshalValue (lib : Lib) : Value → Option String
  | Value.str s => some (lib.quote s)
  | Value.int n => some (toString n)
  | Value.float (Float64.finite neg mant exp) =>
      some (lib.formatFloat (Float64.finite neg mant exp))
  | Value.float (Float64.inf _) => none
  | Value.float Float64.nan => none
  | Value.unsupported => none

/-- The member `"key":value` of the object `json.Marshal` writes for a map entry. -/
def marshalMember (lib : Lib) (payload : Payload) (key : String) : Option String :=
  match payload.lookup key with
  | none => none
  | some v =>
    match marshalValue lib v with
    | none => none
    | some enc => some (lib.quote key ++ ":" ++ enc)

/-- The members for a list of keys, in that order; `none` as soon as one has no encoding. -/
def marshalMembers (lib : Lib) (payload : Payload) : List String → Option (List String)
  | [] => some []
  | key :: keys =>
    match marshalMember lib payload key with
    | none => none
    | some m =>
      match marshalMembers lib payload keys with
      | none => none
      | some ms => some (m :: ms)

/-- The bytes of `json.Marshal(payload)` for a `map[string]interface{}`: the members in
sorted key order, separated by commas, in braces; `none` when it returns an error. -/
def marshal (lib : Lib) (payload : Payload) : Option String :=
  match marshalMembers lib payload (sortedKeys payload) with
  | none => none
  | some members => some ("\x7b" ++ ",".intercalate members ++ "\x7d")

/-- The digits of `encoding/hex`. -/
def hextable : String := "0123456789abcdef"

/-- `hex.EncodeToString`: two lowercase hexadecimal digits per byte, high nibble first. -/
def hexEncode (src : List UInt8) : String :=
  String.mk ((src.map (fun v =>
    [hextable.data.getD (v.toNat / 16) '0', hextable.data.getD (v.toNat % 16) '0'])).flatten)

/-- The value of an `int64` computation whose exact result is `x`: `x` wrapped to 64 bits
in two's complement. -/
def wrapInt64 (x : Int) : Int :=
  (x + 2 ^ 63) % 2 ^ 64 - 2 ^ 63

/-- A reading of the wall clock (`time.Time`): whole seconds since the Unix epoch and the
nanoseconds into that second. -/
structure Time where
  sec : Int
  nsec : Fin 1000000000

/-- `Time.Unix`: the number of seconds elapsed since the epoch. -/
def Time.Unix (t : Time) : Int := t.sec

/-- `Time.UnixMilli`: the number of milliseconds elapsed since the epoch. -/
def Time.UnixMilli (t : Time) : Int := t.sec * 1000 + (t.nsec.val / 1000000 : Nat)

/-! ## api.go: the client and sigPayload -/

def baseURL : String := "https://api.bitkub.com"
def OrderTypeLimit : String := "limit"
def OrderTypeMarket : String := "market"
def OrderSideBuy : String := "buy"
def OrderSideSell : String := "sell"

/-- The struct `bitkubApi`; `Timeout` in nanoseconds. -/
structure bitkubApi where
  Timeout : Int
  ApiKey : String
  ApiSecret : String

/-- `NewBitkub` of `api.go`. -/
def NewBitkub (key secret : String) (timeout : List Int) : bitkubApi :=
  match timeout with
  | t :: _ => { ApiKey := key, ApiSecret := secret, Timeout := t }
  | [] => { ApiKey := key, ApiSecret := secret, Timeout := 1000000000 * 10 }

/-- `sigPayload` of `api.go`, with the reading `now` of the clock that `time.Now()` returns.
The first component is what the function returns, the second the caller's map as the call
leaves it. -/
def sigPayload (lib : Lib) (b : bitkubApi) (now : Time) (payload : Payload) :
    Except GoError String × Payload :=
  let payload := payload.set "ts" (Value.int (wrapInt64 (now.Unix * 1000)))
  match marshal lib payload with
  | none => (Except.error GoError.json, payload)
  | some body =>
    let mac := lib.hmacSha256 b.ApiSecret body
    let payload := payload.set "sig" (Value.str (hexEncode mac))
    match marshal lib payload with
    | none => (Except.error GoError.json, payload)
    | some body => (Except.ok body, payload)

/-- A stand-in for the library parameters with which the definitions evaluate: strings are
quoted without escapes, floats are written with `%f`, the MAC is 32 zero bytes and no body
decodes. -/
def plainLib : Lib where
  quote := fun s => "\"" ++ s ++ "\""
  formatFloat := Sprintf_f
  hmacSha256 := fun _ _ => List.replicate 32 0
  hmacSha256_size := fun _ _ => List.length_replicate 32 0
  unmarshal := fun _ _ => none
  unmarshalSymbols := fun _ => none
  unmarshalTyped := fun _ _ => none
  unmarshalMap := fun _ => none
  convertOutOfRange := fun _ => 0

/-! ## internal/httpclient.go -/

/-- The request handed to `fasthttp.DoTimeout`: method, URI, header lines in the order they
were added, and body. -/
structure Request where
  method : String
  uri : String
  headers : List (String × String)
  body : String
  deriving DecidableEq

/-- The response of the transport: status code, body, and the text of `resp.String()`. -/
structure Response where
  statusCode : Int
  body : String
  text : String
  deriving DecidableEq

/-- The world outside the process: the reading `time.Now()` returns and what
`fasthttp.DoTimeout` answers to a request with a timeout (an error text or a response). -/
structure Env where
  now : Time
  DoTimeout : Request → Int → Except String Response

/-- `doRequest` of `internal/httpclient.go`. The second component lists the requests handed
to the transport. -/
def doRequest (env : Env) (req : Request) (url : String) (headers : List (String × String))
    (timeout : List Int) : Except GoError Response × List Request :=
  let req := { req with uri := url }
  let req := { req with headers := req.headers ++ [("User-Agent", "bitkub-go/1.0")] }
  let req := { req with headers := req.headers ++ headers }
  let timeOut : Int := match timeout with
    | t :: _ => t
    | [] => 10 * 1000000000
  match env.DoTimeout req timeOut with
  | Except.error detail => (Except.error (GoError.transport detail), [req])
  | Except.ok resp => (Except.ok resp, [req])

/-- `Get` of `internal/httpclient.go`. -/
def Get (env : Env) (url : String) (headers : List (String × String)) (timeout : List Int) :
    Except GoError Response × List Request :=
  let req : Request := { method := "GET", uri := "", headers := [], body := "" }
  doRequest env req url headers timeout

/-- `Post` of `internal/httpclient.go`. -/
def Post (env : Env) (url : String) (headers : List (String × String)) (payload : String)
    (timeout : List Int) : Except GoError Response × List Request :=
  let req : Request := { method := "POST", uri := "", headers := [], body := payload }
  doRequest env req url headers timeout

/-! ## api.go: results of a call -/

/-- How a call of an operation ends: it returns a value, returns an error, or panics (a
failed type assertion or an index out of range). -/
inductive Outcome (α : Type) where
  | ok (value : α)
  | error (err : GoError)
  | panic

/-- A call of an operation: how it ends, the maps it handed to `sigPayload`, and the
requests it handed to the transport. -/
structure Run (α : Type) where
  outcome : Outcome α
  signed : List Payload
  sent : List Request

/-- The text of `fmt.Errorf("got server error (%d) : %s", code, msg)`. -/
def serverErrorText (code : Int) (msg : String) : String :=
  "got server error (" ++ toString code ++ ") : " ++ msg

/-- The type assertion `x.([]interface{})`; `none` when it panics. -/
def Dyn.asSlice : Dyn → Option (List Dyn)
  | Dyn.slice items => some items
  | _ => none

/-- The type assertion `x.(map[string]interface{})`; `none` when it panics. -/
def Dyn.asMap : Dyn → Option (List (String × Dyn))
  | Dyn.map entries => some entries
  | _ => none

/-- The type assertion `x.(float64)`; `none` when it panics. -/
def Dyn.asFloat64 : Dyn → Option Float64
  | Dyn.float64 f => some f
  | _ => none

/-- The type assertion `x.(string)`; `none` when it panics. -/
def Dyn.asString : Dyn → Option String
  | Dyn.string s => some s
  | _ => none

/-- The conversions `int(f)` and `int64(f)` of a `float64`: the fraction is discarded
(truncation towards zero). -/
def floatToInt (lib : Lib) (f : Float64) : Int :=
  match f with
  | Float64.finite neg mant exp =>
    let mag : Nat := match exp with
      | Int.ofNat e => mant * 2 ^ e
      | Int.negSucc e => mant / 2 ^ (e + 1)
    let v : Int := if neg then -(mag : Int) else (mag : Int)
    if -2 ^ 63 ≤ v ∧ v < 2 ^ 63 then v else lib.convertOutOfRange f
  | _ => lib.convertOutOfRange f

/-- A loop that appends `f item` for every item, in order; `none` when an iteration
panics. -/
def collect {α β : Type} (f : α → Option β) : List α → Option (List β)
  | [] => some []
  | item :: rest =>
    match f item with
    | none => none
    | some v =>
      match collect f rest with
      | none => none
      | some vs => some (v :: vs)

/-- `model.MarketTrade`. -/
structure MarketTrade where
  Timestamp : Int
  Rate : Float64
  Amount : Float64
  Side : String
  deriving DecidableEq

/-- `model.MarketBidAndAsk`. -/
structure MarketBidAndAsk where
  OrderID : Int
  Timestamp : Int
  Volumn : Float64
  Rate : Float64
  Amount : Float64
  deriving DecidableEq

/-- The body of the loop of `GetMarketTrades`: one row to one `MarketTrade`. -/
def tradeOfRow (lib : Lib) (item : Dyn) : Option MarketTrade := do
  let t ← item.asSlice
  let t0 ← (← t.get? 0).asFloat64
  let t1 ← (← t.get? 1).asFloat64
  let t2 ← (← t.get? 2).asFloat64
  let t3 ← (← t.get? 3).asString
  pure { Timestamp := floatToInt lib t0, Rate := t1, Amount := t2, Side := t3 }

/-- The body of the loops of `GetMarketBids`, `GetMarketAsks` and `GetMarketBooks`: one
row to one `MarketBidAndAsk`. -/
def bidAndAskOfRow (lib : Lib) (item : Dyn) : Option MarketBidAndAsk := do
  let b ← item.asSlice
  let b0 ← (← b.get? 0).asFloat64
  let b1 ← (← b.get? 1).asFloat64
  let b2 ← (← b.get? 2).asFloat64
  let b3 ← (← b.get? 3).asFloat64
  let b4 ← (← b.get? 4).asFloat64
  pure { OrderID := floatToInt lib b0, Timestamp := floatToInt lib b1, Volumn := b2,
         Rate := b3, Amount := b4 }

/-- The query string the market operations build from `symbol` and `limit`. -/
def marketQuery (symbol : String) (limit : Int) : String :=
  let params : List String := []
  let params := if symbol ≠ "" then params ++ ["sym=" ++ symbol] else params
  let params := if limit > 0 then params ++ ["lmt=" ++ toString limit] else params
  "?" ++ "&".intercalate params

/-- The common beginning of `GetMarketTrades`, `GetMarketBids`, `GetMarketAsks` and
`GetMarketBooks`: the GET, the status check, the unmarshal into `model.DefaultResponse` and
the check of the error code. It yields `ret.Result`. -/
def getMarketResult (lib : Lib) (env : Env) (b : bitkubApi) (url : String) : Run Dyn :=
  match Get env url [] [b.Timeout] with
  | (Except.error err, sent) => { outcome := Outcome.error err, signed := [], sent := sent }
  | (Except.ok resp, sent) =>
    if resp.statusCode ≠ 200 then
      { outcome := Outcome.error
          (GoError.errorf ("response status code is " ++ toString resp.statusCode)),
        signed := [], sent := sent }
    else
      match lib.unmarshal ResponseType.DefaultResponse resp.body with
      | none => { outcome := Outcome.error GoError.json, signed := [], sent := sent }
      | some ret =>
        if ret.Error ≠ 0 then
          { outcome := Outcome.error
              (GoError.errorf (serverErrorText ret.Error (GetErrorMessage ret.Error))),
            signed := [], sent := sent }
        else
          { outcome := Outcome.ok ret.Result, signed := [], sent := sent }

/-- The end of an operation: the decoding `decode` of what was unmarshalled, which panics
when it yields `none`. -/
def Run.decode {α β : Type} (r : Run α) (decode : α → Option β) : Run β :=
  match r.outcome with
  | Outcome.ok result =>
    match decode result with
    | none => { outcome := Outcome.panic, signed := r.signed, sent := r.sent }
    | some v => { outcome := Outcome.ok v, signed := r.signed, sent := r.sent }
  | Outcome.error err => { outcome := Outcome.error err, signed := r.signed, sent := r.sent }
  | Outcome.panic => { outcome := Outcome.panic, signed := r.signed, sent := r.sent }

/-- `GetMarketTrades` of `api.go`. -/
def GetMarketTrades (lib : Lib) (env : Env) (b : bitkubApi) (symbol : String) (limit : Int) :
    Run (List MarketTrade) :=
  let url := baseURL ++ "/api/market/trades"
  let url := url ++ marketQuery symbol limit
  (getMarketResult lib env b url).decode (fun result => do
    let items ← result.asSlice
    collect (tradeOfRow lib) items)

/-- `GetMarketBids` of `api.go`. -/
def GetMarketBids (lib : Lib) (env : Env) (b : bitkubApi) (symbol : String) (limit : Int) :
    Run (List MarketBidAndAsk) :=
  let url := baseURL ++ "/api/market/bids"
  let url := url ++ marketQuery symbol limit
  (getMarketResult lib env b url).decode (fun result => do
    let items ← result.asSlice
    collect (bidAndAskOfRow lib) items)

/-- `GetMarketAsks` of `api.go`. -/
def GetMarketAsks (lib : Lib) (env : Env) (b : bitkubApi) (symbol : String) (limit : Int) :
    Run (List MarketBidAndAsk) :=
  let url := baseURL ++ "/api/market/asks"
  let url := url ++ marketQuery symbol limit
  (getMarketResult lib env b url).decode (fun result => do
    let items ← result.asSlice
    collect (bidAndAskOfRow lib) items)

/-- `GetMarketBooks` of `api.go`; the resulting map is listed in the order of the entries
of `ret.Result`. -/
def GetMarketBooks (lib : Lib) (env : Env) (b : bitkubApi) (symbol : String) (limit : Int) :
    Run (List (String × List MarketBidAndAsk)) :=
  let url := baseURL ++ "/api/market/books"
  let url := url ++ marketQuery symbol limit
  (getMarketResult lib env b url).decode (fun result => do
    let entries ← result.asMap
    collect (fun (entry : String × Dyn) => do
      let bidOrAsk ← entry.2.asSlice
      let rows ← collect (bidAndAskOfRow lib) bidOrAsk
      pure (entry.1, rows)) entries)

/-! ## api.go: the private operations -/

/-- A call that returns `fmt.Errorf(msg)` before anything is signed or sent. -/
def failLocal {α : Type} (msg : String) : Run α :=
  { outcome := Outcome.error (GoError.errorf msg), signed := [], sent := [] }

/-- The comparison `f <= 0` of a `float64` (false for NaN). -/
def Float64.leZero : Float64 → Bool
  | Float64.finite neg mant _ => neg || mant == 0
  | Float64.inf neg => neg
  | Float64.nan => false

/-- The block every private operation repeats once its checks have passed: `sigPayload`,
the POST with the operation's headers, the status check, the unmarshal into the
operation's response struct `rt`, and the check of the error code. -/
def signedPost (lib : Lib) (env : Env) (b : bitkubApi) (url : String)
    (headers : List (String × String)) (payload : Payload) (rt : ResponseType) :
    Run Envelope :=
  match (sigPayload lib b env.now payload).1 with
  | Except.error err => { outcome := Outcome.error err, signed := [payload], sent := [] }
  | Except.ok payloadBytes =>
    match Post env url headers payloadBytes [b.Timeout] with
    | (Except.error err, sent) =>
      { outcome := Outcome.error err, signed := [payload], sent := sent }
    | (Except.ok resp, sent) =>
      if resp.statusCode ≠ 200 then
        { outcome := Outcome.error
            (GoError.errorf (serverErrorText resp.statusCode resp.text)),
          signed := [payload], sent := sent }
      else
        match lib.unmarshal rt resp.body with
        | none => { outcome := Outcome.error GoError.json, signed := [payload], sent := sent }
        | some ret =>
          if ret.Error ≠ 0 then
            { outcome := Outcome.error
                (GoError.errorf (serverErrorText ret.Error (GetErrorMessage ret.Error))),
              signed := [payload], sent := sent }
          else
            { outcome := Outcome.ok ret, signed := [payload], sent := sent }

/-- `model.Balance`. -/
structure Balance where
  Available : Float64
  Reserved : Float64
  deriving DecidableEq

/-- `GetWallet` of `api.go`. -/
def GetWallet (lib : Lib) (env : Env) (b : bitkubApi) : Run (List (String × Dyn)) :=
  if b.ApiKey = "" then failLocal "api key is empty"
  else if b.ApiSecret = "" then failLocal "api secret is empty"
  else
    let url := baseURL ++ "/api/market/wallet"
    let headers := [("X-BTK-APIKEY", b.ApiKey)]
    (signedPost lib env b url headers (∅ : Payload) ResponseType.DefaultResponse).decode
      (fun ret => ret.Result.asMap)

/-- `GetBalances` of `api.go`; the resulting map is listed in the order of the entries of
`ret.Result`. -/
def GetBalances (lib : Lib) (env : Env) (b : bitkubApi) : Run (List (String × Balance)) :=
  if b.ApiKey = "" then failLocal "api key is empty"
  else if b.ApiSecret = "" then failLocal "api secret is empty"
  else
    let url := baseURL ++ "/api/market/balances"
    let headers := [("X-BTK-APIKEY", b.ApiKey)]
    (signedPost lib env b url headers (∅ : Payload) ResponseType.DefaultResponse).decode
      (fun ret => do
        let entries ← ret.Result.asMap
        collect (fun (entry : String × Dyn) => do
          let fields ← entry.2.asMap
          let available ← ((fields.lookup "available").getD Dyn.null).asFloat64
          let reserved ← ((fields.lookup "reserved").getD Dyn.null).asFloat64
          pure (entry.1, { Available := available, Reserved := reserved })) entries)

/-- `PlaceBid` of `api.go`. -/
def PlaceBid (lib : Lib) (env : Env) (b : bitkubApi) (symbol bitType : String)
    (amount rate : Float64) (clientID : List String) : Run Dyn :=
  if b.ApiKey = "" then failLocal "api key is empty"
  else if b.ApiSecret = "" then failLocal "api secret is empty"
  else if symbol = "" then failLocal "symbol is empty"
  else if bitType = "" then failLocal "bit type is empty"
  else if bitType ≠ OrderTypeLimit ∧ bitType ≠ OrderTypeMarket then
    failLocal "bit type is invalid"
  else
    let rate := if bitType = OrderTypeMarket then f64_0 else rate
    let url := baseURL ++ "/api/market/place-bid"
    let payload : Payload := ((((∅ : Payload).set "sym" (Value.str symbol)).set "typ"
      (Value.str bitType)).set "amt" (Value.str (formatFloatWithoutZeroTrail amount))).set
      "rat" (Value.str (formatFloatWithoutZeroTrail rate))
    let payload := match clientID with
      | first :: _ => payload.set "client_id" (Value.str first)
      | [] => payload
    let headers := [("X-BTK-APIKEY", b.ApiKey), ("Content-Type", "application/json"),
      ("Accept", "application/json")]
    (signedPost lib env b url headers payload ResponseType.OrderResponse).decode
      (fun ret => some ret.Result)

/-- `PlaceBidTest` of `api.go`. -/
def PlaceBidTest (lib : Lib) (env : Env) (b : bitkubApi) (symbol bitType : String)
    (amount rate : Float64) (clientID : List String) : Run Dyn :=
  if b.ApiKey = "" then failLocal "api key is empty"
  else if b.ApiSecret = "" then failLocal "api secret is empty"
  else if symbol = "" then failLocal "symbol is empty"
  else if bitType = "" then failLocal "bit type is empty"
  else if bitType ≠ OrderTypeLimit ∧ bitType ≠ OrderTypeMarket then
    failLocal "bit type is invalid"
  else
    let rate := if bitType = OrderTypeMarket then f64_0 else rate
    let url := baseURL ++ "/api/market/place-bid/test"
    let payload : Payload := ((((∅ : Payload).set "sym" (Value.str symbol)).set "typ"
      (Value.str bitType)).set "amt" (Value.str (formatFloatWithoutZeroTrail amount))).set
      "rat" (Value.str (formatFloatWithoutZeroTrail rate))
    let payload := match clientID with
      | first :: _ => payload.set "client_id" (Value.str first)
      | [] => payload
    let headers := [("X-BTK-APIKEY", b.ApiKey), ("Content-Type", "application/json"),
      ("Accept", "application/json")]
    (signedPost lib env b url headers payload ResponseType.OrderResponse).decode
      (fun ret => some ret.Result)

/-- `PlaceAsk` of `api.go`. -/
def PlaceAsk (lib : Lib) (env : Env) (b : bitkubApi) (symbol bitType : String)
    (amount rate : Float64) (clientID : List String) : Run Dyn :=
  if b.ApiKey = "" then failLocal "api key is empty"
  else if b.ApiSecret = "" then failLocal "api secret is empty"
  else if symbol = "" then failLocal "symbol is empty"
  else if bitType = "" then failLocal "bit type is empty"
  else if bitType ≠ OrderTypeLimit ∧ bitType ≠ OrderTypeMarket then
    failLocal "bit type is invalid"
  else
    let rate := if bitType = OrderTypeMarket then f64_0 else rate
    let url := baseURL ++ "/api/market/place-ask"
    let payload : Payload := ((((∅ : Payload).set "sym" (Value.str symbol)).set "typ"
      (Value.str bitType)).set "amt" (Value.str (formatFloatWithoutZeroTrail amount))).set
      "rat" (Value.str (formatFloatWithoutZeroTrail rate))
    let payload := match clientID with
      | first :: _ => payload.set "client_id" (Value.str first)
      | [] => payload
    let headers := [("X-BTK-APIKEY", b.ApiKey), ("Content-Type", "application/json"),
      ("Accept", "application/json")]
    (signedPost lib env b url headers payload ResponseType.OrderResponse).decode
      (fun ret => some ret.Result)

/-- `PlaceAskTest` of `api.go`. -/
def PlaceAskTest (lib : Lib) (env : Env) (b : bitkubApi) (symbol bitType : String)
    (amount rate : Float64) (clientID : List String) : Run Dyn :=
  if b.ApiKey = "" then failLocal "api key is empty"
  else if b.ApiSecret = "" then failLocal "api secret is empty"
  else if symbol = "" then failLocal "symbol is empty"
  else if bitType = "" then failLocal "bit type is empty"
  else if bitType ≠ OrderTypeLimit ∧ bitType ≠ OrderTypeMarket then
    failLocal "bit type is invalid"
  else
    let rate := if bitType = OrderTypeMarket then f64_0 else rate
    let url := baseURL ++ "/api/market/place-ask/test"
    let payload : Payload := ((((∅ : Payload).set "sym" (Value.str symbol)).set "typ"
      (Value.str bitType)).set "amt" (Value.str (formatFloatWithoutZeroTrail amount))).set
      "rat" (Value.str (formatFloatWithoutZeroTrail rate))
    let payload := match clientID with
      | first :: _ => payload.set "client_id" (Value.str first)
      | [] => payload
    let headers := [("X-BTK-APIKEY", b.ApiKey), ("Content-Type", "application/json"),
      ("Accept", "application/json")]
    (signedPost lib env b url headers payload ResponseType.OrderResponse).decode
      (fun ret => some ret.Result)

/-- `PlaceAskByFiat` of `api.go`. -/
def PlaceAskByFiat (lib : Lib) (env : Env) (b : bitkubApi) (symbol bitType : String)
    (amount rate : Float64) : Run Dyn :=
  if b.ApiKey = "" then failLocal "api key is empty"
  else if b.ApiSecret = "" then failLocal "api secret is empty"
  else if symbol = "" then failLocal "symbol is empty"
  else if bitType = "" then failLocal "bit type is empty"
  else if bitType ≠ OrderTypeLimit ∧ bitType ≠ OrderTypeMarket then
    failLocal "bit type is invalid"
  else
    let rate := if bitType = OrderTypeMarket then f64_0 else rate
    let url := baseURL ++ "/api/market/place-ask-by-fiat"
    let payload : Payload := ((((∅ : Payload).set "sym" (Value.str symbol)).set "typ"
      (Value.str bitType)).set "amt" (Value.str (formatFloatWithoutZeroTrail amount))).set
      "rat" (Value.str (formatFloatWithoutZeroTrail rate))
    let headers := [("X-BTK-APIKEY", b.ApiKey), ("Content-Type", "application/json")]
    (signedPost lib env b url headers payload ResponseType.OrderResponse).decode
      (fun ret => some ret.Result)

/-- `CancelOrder` of `api.go`. -/
def CancelOrder (lib : Lib) (env : Env) (b : bitkubApi) (symbol side hash : String) (id : Int) :
    Run Unit :=
  if b.ApiKey = "" then failLocal "api key is empty"
  else if b.ApiSecret = "" then failLocal "api secret is empty"
  else if hash = "" then
    if symbol = "" then failLocal "symbol is empty"
    else if side = "" then failLocal "side is empty"
    else if id = 0 then failLocal "id is empty"
    else if side ≠ OrderSideBuy ∧ side ≠ OrderSideSell then failLocal "side is invalid"
    else
      let payload : Payload := (((∅ : Payload).set "sym" (Value.str symbol)).set "id"
        (Value.str (toString id))).set "sd" (Value.str side)
      let url := baseURL ++ "/api/market/cancel-order"
      let headers := [("X-BTK-APIKEY", b.ApiKey), ("Content-Type", "application/json"),
      ("Accept", "application/json")]
      (signedPost lib env b url headers payload ResponseType.ErrorResponse).decode
        (fun _ => some ())
  else
    let payload : Payload := (∅ : Payload).set "hash" (Value.str hash)
    let url := baseURL ++ "/api/market/cancel-order"
    let headers := [("X-BTK-APIKEY", b.ApiKey), ("Content-Type", "application/json"),
      ("Accept", "application/json")]
    (signedPost lib env b url headers payload ResponseType.ErrorResponse).decode
      (fun _ => some ())

/-- `GetOpenOrder` of `api.go`. -/
def GetOpenOrder (lib : Lib) (env : Env) (b : bitkubApi) (symbol : String) : Run Dyn :=
  if b.ApiKey = "" then failLocal "api key is empty"
  else if b.ApiSecret = "" then failLocal "api secret is empty"
  else if symbol = "" then failLocal "symbol is empty"
  else
    let url := baseURL ++ "/api/market/my-open-orders"
    let payload : Payload := (∅ : Payload).set "sym" (Value.str symbol)
    let headers := [("X-BTK-APIKEY", b.ApiKey), ("Content-Type", "application/json"),
      ("Accept", "application/json")]
    (signedPost lib env b url headers payload ResponseType.OpenOrderResponse).decode
      (fun ret => some ret.Result)

/-- `GetOrderHistory` of `api.go`. -/
def GetOrderHistory (lib : Lib) (env : Env) (b : bitkubApi) (symbol : String)
    (page limit start end_ : Int) : Run (Dyn × Dyn) :=
  if b.ApiKey = "" then failLocal "api key is empty"
  else if b.ApiSecret = "" then failLocal "api secret is empty"
  else if symbol = "" then failLocal "symbol is empty"
  else
    let url := baseURL ++ "/api/market/my-order-history"
    let payload : Payload := (∅ : Payload).set "sym" (Value.str symbol)
    let payload := if page > 0 then payload.set "p" (Value.int page) else payload
    let payload := if limit > 0 then payload.set "lmt" (Value.int limit) else payload
    let payload := if start > 0 then payload.set "start" (Value.int start) else payload
    let payload := if end_ > 0 then payload.set "end" (Value.int end_) else payload
    let headers := [("X-BTK-APIKEY", b.ApiKey), ("Content-Type", "application/json"),
      ("Accept", "application/json")]
    (signedPost lib env b url headers payload ResponseType.OrderHistoryResponse).decode
      (fun ret => some (ret.Result, ret.Pagination))

/-- `GetOrderInfo` of `api.go`. -/
def GetOrderInfo (lib : Lib) (env : Env) (b : bitkubApi) (symbol side hash : String) (id : Int) :
    Run Dyn :=
  if b.ApiKey = "" then failLocal "api key is empty"
  else if b.ApiSecret = "" then failLocal "api secret is empty"
  else if hash = "" then
    if symbol = "" then failLocal "symbol is empty"
    else if side = "" then failLocal "side is empty"
    else if id = 0 then failLocal "id is empty"
    else if side ≠ OrderSideBuy ∧ side ≠ OrderSideSell then failLocal "side is invalid"
    else
      let payload : Payload := (((∅ : Payload).set "sym" (Value.str symbol)).set "id"
        (Value.str (toString id))).set "sd" (Value.str side)
      let url := baseURL ++ "/api/market/order-info"
      let headers := [("X-BTK-APIKEY", b.ApiKey), ("Content-Type", "application/json"),
      ("Accept", "application/json")]
      (signedPost lib env b url headers payload ResponseType.OrderInfoResponse).decode
        (fun ret => some ret.Result)
  else
    let payload : Payload := (∅ : Payload).set "hash" (Value.str hash)
    let url := baseURL ++ "/api/market/order-info"
    let headers := [("X-BTK-APIKEY", b.ApiKey), ("Content-Type", "application/json"),
      ("Accept", "application/json")]
    (signedPost lib env b url headers payload ResponseType.OrderInfoResponse).decode
      (fun ret => some ret.Result)

/-- `GetCryptoAddresses` of `api.go`. -/
def GetCryptoAddresses (lib : Lib) (env : Env) (b : bitkubApi) (page limit : Int) : Run (Dyn × Dyn) :=
  if b.ApiKey = "" then failLocal "api key is empty"
  else if b.ApiSecret = "" then failLocal "api secret is empty"
  else
    let payload : Payload := ∅
    let payload := if page > 0 then payload.set "p" (Value.int page) else payload
    let payload := if limit > 0 then payload.set "lmt" (Value.int limit) else payload
    let url := baseURL ++ "/api/crypto/addresses"
    let headers := [("X-BTK-APIKEY", b.ApiKey), ("Content-Type", "application/json"),
      ("Accept", "application/json")]
    (signedPost lib env b url headers payload ResponseType.CryptoAddressResponse).decode
      (fun ret => some (ret.Result, ret.Pagination))

/-- `CryptoWithdraw` of `api.go`. -/
def CryptoWithdraw (lib : Lib) (env : Env) (b : bitkubApi) (currency address : String)
    (amount : Float64) (memo : String) : Run Dyn :=
  if b.ApiKey = "" then failLocal "api key is empty"
  else if b.ApiSecret = "" then failLocal "api secret is empty"
  else if currency = "" then failLocal "currency is empty"
  else if address = "" then failLocal "address is empty"
  else if amount.leZero then failLocal "amount is invalid"
  else
    let payload : Payload := (((∅ : Payload).set "cur" (Value.str currency)).set "adr"
      (Value.str address)).set "amt" (Value.str (Sprintf_f amount))
    let payload := if memo ≠ "" then payload.set "mem" (Value.str memo) else payload
    let url := baseURL ++ "/api/crypto/withdraw"
    let headers := [("X-BTK-APIKEY", b.ApiKey), ("Content-Type", "application/json"),
      ("Accept", "application/json")]
    (signedPost lib env b url headers payload ResponseType.CryptoWithdrawResponse).decode
      (fun ret => some ret.Result)

/-- `CryptoInternalWithdraw` of `api.go`. -/
def CryptoInternalWithdraw (lib : Lib) (env : Env) (b : bitkubApi) (currency address : String)
    (amount : Float64) (memo : String) : Run Dyn :=
  if b.ApiKey = "" then failLocal "api key is empty"
  else if b.ApiSecret = "" then failLocal "api secret is empty"
  else if currency = "" then failLocal "currency is empty"
  else if address = "" then failLocal "address is empty"
  else if amount.leZero then failLocal "amount is invalid"
  else
    let payload : Payload := (((∅ : Payload).set "cur" (Value.str currency)).set "adr"
      (Value.str address)).set "amt" (Value.str (Sprintf_f amount))
    let payload := if memo ≠ "" then payload.set "mem" (Value.str memo) else payload
    let url := baseURL ++ "/api/crypto/internal-withdraw"
    let headers := [("X-BTK-APIKEY", b.ApiKey), ("Content-Type", "application/json"),
      ("Accept", "application/json")]
    (signedPost lib env b url headers payload ResponseType.CryptoWithdrawResponse).decode
      (fun ret => some ret.Result)

/-- `GetCryptoDepositHistory` of `api.go`. -/
def GetCryptoDepositHistory (lib : Lib) (env : Env) (b : bitkubApi) (page limit : Int) : Run (Dyn × Dyn) :=
  if b.ApiKey = "" then failLocal "api key is empty"
  else if b.ApiSecret = "" then failLocal "api secret is empty"
  else
    let payload : Payload := ∅
    let payload := if page > 0 then payload.set "p" (Value.int page) else payload
    let payload := if limit > 0 then payload.set "lmt" (Value.int limit) else payload
    let url := baseURL ++ "/api/crypto/deposit-history"
    let headers := [("X-BTK-APIKEY", b.ApiKey), ("Content-Type", "application/json"),
      ("Accept", "application/json")]
    (signedPost lib env b url headers payload ResponseType.CryptoDepositResponse).decode
      (fun ret => some (ret.Result, ret.Pagination))

/-- `GetCryptoWithdrawHistory` of `api.go`. -/
def GetCryptoWithdrawHistory (lib : Lib) (env : Env) (b : bitkubApi) (page limit : Int) : Run (Dyn × Dyn) :=
  if b.ApiKey = "" then failLocal "api key is empty"
  else if b.ApiSecret = "" then failLocal "api secret is empty"
  else
    let payload : Payload := ∅
    let payload := if page > 0 then payload.set "p" (Value.int page) else payload
    let payload := if limit > 0 then payload.set "lmt" (Value.int limit) else payload
    let url := baseURL ++ "/api/crypto/withdraw-history"
    let headers := [("X-BTK-APIKEY", b.ApiKey), ("Content-Type", "application/json"),
      ("Accept", "application/json")]
    (signedPost lib env b url headers payload ResponseType.CryptoWithdrawHistoryResponse).decode
      (fun ret => some (ret.Result, ret.Pagination))

/-- `CryptoGenerateAddress` of `api.go`. -/
def CryptoGenerateAddress (lib : Lib) (env : Env) (b : bitkubApi) (symbol : String) : Run Dyn :=
  if b.ApiKey = "" then failLocal "api key is empty"
  else if b.ApiSecret = "" then failLocal "api secret is empty"
  else if symbol = "" then failLocal "symbol is empty"
  else
    let url := baseURL ++ "/api/crypto/generate-address"
    let payload : Payload := (∅ : Payload).set "sym" (Value.str symbol)
    let headers := [("X-BTK-APIKEY", b.ApiKey), ("Content-Type", "application/json"),
      ("Accept", "application/json")]
    (signedPost lib env b url headers payload ResponseType.CryptoGenerateAddressResponse).decode
      (fun ret => some ret.Result)

/-- `GetBankAccounts` of `api.go`. -/
def GetBankAccounts (lib : Lib) (env : Env) (b : bitkubApi) (page limit : Int) : Run (Dyn × Dyn) :=
  if b.ApiKey = "" then failLocal "api key is empty"
  else if b.ApiSecret = "" then failLocal "api secret is empty"
  else
    let payload : Payload := ∅
    let payload := if page > 0 then payload.set "p" (Value.int page) else payload
    let payload := if limit > 0 then payload.set "lmt" (Value.int limit) else payload
    let url := baseURL ++ "/api/fiat/accounts"
    let headers := [("X-BTK-APIKEY", b.ApiKey), ("Content-Type", "application/json"),
      ("Accept", "application/json")]
    (signedPost lib env b url headers payload ResponseType.FiatAccountsResponse).decode
      (fun ret => some (ret.Result, ret.Pagination))

/-- `FiatWithdraw` of `api.go`. -/
def FiatWithdraw (lib : Lib) (env : Env) (b : bitkubApi) (bankID : String)
    (amount : Float64) : Run Dyn :=
  if b.ApiKey = "" then failLocal "api key is empty"
  else if b.ApiSecret = "" then failLocal "api secret is empty"
  else if bankID = "" then failLocal "bank id is empty"
  else if amount.leZero then failLocal "amount is invalid"
  else
    let payload : Payload := ((∅ : Payload).set "id" (Value.str bankID)).set "amount"
      (Value.float amount)
    let url := baseURL ++ "/api/fiat/withdraw"
    let headers := [("X-BTK-APIKEY", b.ApiKey), ("Content-Type", "application/json"),
      ("Accept", "application/json")]
    (signedPost lib env b url headers payload ResponseType.FiatWithdrawResponse).decode
      (fun ret => some ret.Result)

/-- `GetFiatDepositHistory` of `api.go`. -/
def GetFiatDepositHistory (lib : Lib) (env : Env) (b : bitkubApi) (page limit : Int) : Run (Dyn × Dyn) :=
  if b.ApiKey = "" then failLocal "api key is empty"
  else if b.ApiSecret = "" then failLocal "api secret is empty"
  else
    let payload : Payload := ∅
    let payload := if page > 0 then payload.set "p" (Value.int page) else payload
    let payload := if limit > 0 then payload.set "lmt" (Value.int limit) else payload
    let url := baseURL ++ "/api/fiat/deposit-history"
    let headers := [("X-BTK-APIKEY", b.ApiKey), ("Content-Type", "application/json"),
      ("Accept", "application/json")]
    (signedPost lib env b url headers payload ResponseType.FiatDepositResponse).decode
      (fun ret => some (ret.Result, ret.Pagination))

/-- `GetFiatWithdrawHistory` of `api.go`. -/
def GetFiatWithdrawHistory (lib : Lib) (env : Env) (b : bitkubApi) (page limit : Int) : Run (Dyn × Dyn) :=
  if b.ApiKey = "" then failLocal "api key is empty"
  else if b.ApiSecret = "" then failLocal "api secret is empty"
  else
    let payload : Payload := ∅
    let payload := if page > 0 then payload.set "p" (Value.int page) else payload
    let payload := if limit > 0 then payload.set "lmt" (Value.int limit) else payload
    let url := baseURL ++ "/api/fiat/withdraw-history"
    let headers := [("X-BTK-APIKEY", b.ApiKey), ("Content-Type", "application/json"),
      ("Accept", "application/json")]
    (signedPost lib env b url headers payload ResponseType.FiatWithdrawHistoryResponse).decode
      (fun ret => some (ret.Result, ret.Pagination))

/-- `GetWebSocketToken` of `api.go`. -/
def GetWebSocketToken (lib : Lib) (env : Env) (b : bitkubApi) : Run String :=
  if b.ApiKey = "" then failLocal "api key is empty"
  else if b.ApiSecret = "" then failLocal "api secret is empty"
  else
    let url := baseURL ++ "/api/market/wstoken"
    let headers := [("X-BTK-APIKEY", b.ApiKey), ("Content-Type", "application/json"),
      ("Accept", "application/json")]
    (signedPost lib env b url headers (∅ : Payload) ResponseType.DefaultResponse).decode
      (fun ret => ret.Result.asString)

/-- `GetUserLimits` of `api.go`. -/
def GetUserLimits (lib : Lib) (env : Env) (b : bitkubApi) : Run Dyn :=
  if b.ApiKey = "" then failLocal "api key is empty"
  else if b.ApiSecret = "" then failLocal "api secret is empty"
  else
    let url := baseURL ++ "/api/user/limits"
    let headers := [("X-BTK-APIKEY", b.ApiKey), ("Content-Type", "application/json"),
      ("Accept", "application/json")]
    (signedPost lib env b url headers (∅ : Payload) ResponseType.UserLimitsResponse).decode
      (fun ret => some ret.Result)

/-- `GetUserTradingCredits` of `api.go`. -/
def GetUserTradingCredits (lib : Lib) (env : Env) (b : bitkubApi) : Run Float64 :=
  if b.ApiKey = "" then failLocal "api key is empty"
  else if b.ApiSecret = "" then failLocal "api secret is empty"
  else
    let url := baseURL ++ "/api/user/trading-credits"
    let headers := [("X-BTK-APIKEY", b.ApiKey), ("Content-Type", "application/json"),
      ("Accept", "application/json")]
    (signedPost lib env b url headers (∅ : Payload) ResponseType.DefaultResponse).decode
      (fun ret => ret.Result.asFloat64)

/-- The call ended with the error `fmt.Errorf(msg)`, signed no payload and handed no
request to the transport. -/
def Run.failedLocally {α : Type} (r : Run α) (msg : String) : Prop :=
  r.outcome = Outcome.error (GoError.errorf msg) ∧ r.signed = [] ∧ r.sent = []

/-- The stand-in `plainLib` with a `json.Unmarshal` that decodes every body to `ret`. -/
def decodingLib (ret : Envelope) : Lib :=
  { plainLib with unmarshal := fun _ _ => some ret }

/-- A world whose clock reads `now` and whose transport answers every request with
`resp`. -/
def answering (now : Time) (resp : Response) : Env :=
  { now := now, DoTimeout := fun _ _ => Except.ok resp }

/-! ## api.go: the remaining public operations -/

/-- The zero `time.Time{}`: January 1 of year 1, 00:00:00 UTC. -/
def Time.zero : Time := { sec := -62135596800, nsec := 0 }

/-- `strconv.Atoi`: an optional sign and at least one decimal digit, within 64 bits; `none`
when it returns an error. -/
def Atoi (s : String) : Option Int :=
  let signed : Bool × List Char := match s.data with
    | '-' :: rest => (true, rest)
    | '+' :: rest => (false, rest)
    | rest => (false, rest)
  if signed.2 = [] ∨ signed.2.all Char.isDigit = false then none
  else
    let v : Int := if signed.1 then -(digitsValue signed.2 : Int) else (digitsValue signed.2 : Int)
    if -2 ^ 63 ≤ v ∧ v < 2 ^ 63 then some v else none

/-- The beginning of the public operations that do not unmarshal into
`model.DefaultResponse`: the GET without headers and the status check. It yields
`resp.Body()`. -/
def getBody (env : Env) (b : bitkubApi) (url : String) : Run String :=
  match Get env url [] [b.Timeout] with
  | (Except.error err, sent) => { outcome := Outcome.error err, signed := [], sent := sent }
  | (Except.ok resp, sent) =>
    if resp.statusCode ≠ 200 then
      { outcome := Outcome.error
          (GoError.errorf ("response status code is " ++ toString resp.statusCode)),
        signed := [], sent := sent }
    else
      { outcome := Outcome.ok resp.body, signed := [], sent := sent }

/-- What follows the status check in an operation: `next` is applied to the body and yields
the value to return or the error to return. -/
def Run.andThen {α β : Type} (r : Run α) (next : α → Except GoError β) : Run β :=
  match r.outcome with
  | Outcome.ok v =>
    match next v with
    | Except.ok w => { outcome := Outcome.ok w, signed := r.signed, sent := r.sent }
    | Except.error err => { outcome := Outcome.error err, signed := r.signed, sent := r.sent }
  | Outcome.error err => { outcome := Outcome.error err, signed := r.signed, sent := r.sent }
  | Outcome.panic => { outcome := Outcome.panic, signed := r.signed, sent := r.sent }

/-- `GetServerStatus` of `api.go`; the list of `model.ServerStatus` is kept as the tree of
its fields. -/
def GetServerStatus (lib : Lib) (env : Env) (b : bitkubApi) : Run Dyn :=
  let url := baseURL ++ "/api/status"
  (getBody env b url).andThen (fun body =>
    match lib.unmarshalTyped TypedTarget.ServerStatusList body with
    | none => Except.error GoError.json
    | some ret => Except.ok ret)

/-- `GetServerTime` of `api.go` (the line it prints to standard output is left out). -/
def GetServerTime (env : Env) (b : bitkubApi) : Run Time :=
  let url := baseURL ++ "/api/servertime"
  (getBody env b url).andThen (fun body =>
    match Atoi body with
    | none => Except.error GoError.strconv
    | some _ => Except.ok Time.zero)

/-- `GetMarketSymbols` of `api.go`. -/
def GetMarketSymbols (lib : Lib) (env : Env) (b : bitkubApi) : Run (List MarketSymbol) :=
  let url := baseURL ++ "/api/market/symbols"
  (getBody env b url).andThen (fun body =>
    match lib.unmarshalSymbols body with
    | none => Except.error GoError.json
    | some ret =>
      if ret.Error ≠ 0 then
        Except.error (GoError.errorf (serverErrorText ret.Error (GetErrorMessage ret.Error)))
      else Except.ok ret.Result)

/-- `GetMarketTickers` of `api.go`; the map of `model.MarketTicker` is kept as the tree of
its fields. -/
def GetMarketTickers (lib : Lib) (env : Env) (b : bitkubApi) (symbol : String) : Run Dyn :=
  let url := baseURL ++ "/api/market/ticker"
  let url := if symbol ≠ "" then url ++ "?sym=" ++ symbol else url
  (getBody env b url).andThen (fun body =>
    match lib.unmarshalTyped TypedTarget.MarketTickerMap body with
    | none => Except.error GoError.json
    | some ret => Except.ok ret)

/-- `GetTradingViewHistory` of `api.go`. -/
def GetTradingViewHistory (lib : Lib) (env : Env) (b : bitkubApi) (symbol resolution : String)
    (from_ to_ : Int) : Run (List (String × Dyn)) :=
  let url := baseURL ++ "/tradingview/history"
  let params : List String := []
  let params := if symbol ≠ "" then params ++ ["sym=" ++ symbol] else params
  let params := if resolution ≠ "" then params ++ ["resolution=" ++ resolution] else params
  let params := if from_ > 0 then params ++ ["from=" ++ toString from_] else params
  let params := if to_ > 0 then params ++ ["to=" ++ toString to_] else params
  let url := url ++ "?" ++ "&".intercalate params
  (getBody env b url).andThen (fun body =>
    match lib.unmarshalMap body with
    | none => Except.error GoError.json
    | some ret => Except.ok ret)

/-- `model.MarketDepth`, with the fields `GetMarketDepth` sets. -/
structure MarketDepth where
  Price : Float64
  Volumn : Float64
  deriving DecidableEq

/-- `GetMarketDepth` of `api.go`; the resulting map is listed in the order of the entries
of the decoded map. -/
def GetMarketDepth (lib : Lib) (env : Env) (b : bitkubApi) (symbol : String) (limit : Int) :
    Run (List (String × List MarketDepth)) :=
  let url := baseURL ++ "/api/market/depth"
  let url := url ++ marketQuery symbol limit
  ((getBody env b url).andThen (fun body =>
    match lib.unmarshalMap body with
    | none => Except.error GoError.json
    | some ret => Except.ok ret)).decode (fun ret =>
      collect (fun (entry : String × Dyn) => do
        let itemList ← entry.2.asSlice
        let rows ← collect (fun (item : Dyn) => do
          let item ← item.asSlice
          let price ← (← item.get? 0).asFloat64
          let volumn ← (← item.get? 1).asFloat64
          pure ({ Price := price, Volumn := volumn } : MarketDepth)) itemList
        pure (entry.1, rows)) ret)

/-- Every value of the payload has a JSON encoding. -/
def Encodable (lib : Lib) (payload : Payload) : Prop :=
  ∀ k v, payload.lookup k = some v → (marshalValue lib v).isSome = true

/-- The request a private operation hands to the transport: the POST of the signed body to
`url`, with the User-Agent line `doRequest` adds and the operation's headers. -/
def postRequest (url : String) (headers : List (String × String)) (body : String) : Request :=
  { method := "POST", uri := url, headers := ("User-Agent", "bitkub-go/1.0") :: headers,
    body := body }

/-- The `float64` of the JSON number `1627000000` (bits 0x41D83E8330000000). -/
def f64_1627000000 : Float64 := Float64.finite false 6824132608000000 (-22)

/-- The `float64` of the JSON number `123` (bits 0x405EC00000000000). -/
def f64_123 : Float64 := Float64.finite false 8655355533852672 (-46)

/-- The `float64` of the JSON number `0.5` (bits 0x3FE0000000000000). -/
def f64_0_5 : Float64 := Float64.finite false 4503599627370496 (-53)

/-- The `float64` of the JSON number `216000.0` (bits 0x410A5E0000000000). -/
def f64_216000 : Float64 := Float64.finite false 7421703487488000 (-35)

/-- The outcome of a decoding step: the value, or a panic when there is none. -/
def Outcome.ofOption {α : Type} : Option α → Outcome α
  | some v => Outcome.ok v
  | none => Outcome.panic

/-- The decoded JSON row `[t0, t1, t2, side, extra...]`: numbers at positions 0 to 2, a
string at position 3, and whatever follows. -/
def tradeRow (r : Float64 × Float64 × Float64 × String × List Dyn) : Dyn :=
  Dyn.slice (Dyn.float64 r.1 :: Dyn.float64 r.2.1 :: Dyn.float64 r.2.2.1 ::
    Dyn.string r.2.2.2.1 :: r.2.2.2.2)

/-- The decoded JSON row `[b0, b1, b2, b3, b4, extra...]`: numbers at positions 0 to 4 and
whatever follows. -/
def bidAskRow (r : Float64 × Float64 × Float64 × Float64 × Float64 × List Dyn) : Dyn :=
  Dyn.slice (Dyn.float64 r.1 :: Dyn.float64 r.2.1 :: Dyn.float64 r.2.2.1 ::
    Dyn.float64 r.2.2.2.1 :: Dyn.float64 r.2.2.2.2.1 :: r.2.2.2.2.2)

/-! ## `json.Unmarshal` into `model.MarketSymbolResponse` -/

/-- A JSON text as a tree; a number keeps its literal. -/
inductive Json where
  | null
  | bool (b : Bool)
  | number (literal : String)
  | string (s : String)
  | array (items : List Json)
  | object (members : List (String × Json))

/-- Simple case folding as far as it concerns ASCII names: the upper-case letters, the long
s (U+017F) and the Kelvin sign (U+212A) fold to the lower-case ASCII letters. -/
def foldChar (c : Char) : Char :=
  if c = Char.ofNat 0x17F then 's' else if c = Char.ofNat 0x212A then 'k' else c.toLower

/-- The key of an object member selects the struct field with this `json` name: an exact
match or a case-insensitive one. -/
def fieldMatch (key name : String) : Bool :=
  key.data.map foldChar == name.data.map foldChar

/-- `json.Unmarshal` of a JSON value into an `int` holding `cur`: null leaves it, an integer
literal within 64 bits sets it, anything else is an `UnmarshalTypeError`. -/
def decodeInt (cur : Int) : Json → Option Int
  | Json.null => some cur
  | Json.number literal => Atoi literal
  | _ => none

/-- `json.Unmarshal` of a JSON value into a `string` holding `cur`. -/
def decodeString (cur : String) : Json → Option String
  | Json.null => some cur
  | Json.string s => some s
  | _ => none

/-- The members of a JSON object applied to a struct in order; `none` when a member has a
value its field cannot take (`json.Unmarshal` then returns an error). -/
def decodeFields {σ : Type} (field : σ → String → Json → Option σ) :
    List (String × Json) → σ → Option σ
  | [], s => some s
  | (key, v) :: rest, s =>
    match field s key v with
    | none => none
    | some s' => decodeFields field rest s'

/-- One member of a JSON object applied to a `model.MarketSymbol` (fields `id`, `symbol`,
`info`; other keys are ignored). -/
def symbolField (s : MarketSymbol) (key : String) (v : Json) : Option MarketSymbol :=
  if fieldMatch key "id" then (decodeInt s.ID v).map (fun n => { s with ID := n })
  else if fieldMatch key "symbol" then
    (decodeString s.Symbol v).map (fun x => { s with Symbol := x })
  else if fieldMatch key "info" then (decodeString s.Info v).map (fun x => { s with Info := x })
  else some s

/-- `json.Unmarshal` of a JSON value into a zero `model.MarketSymbol`: a JSON object sets
fields, null leaves the zero value, anything else is an `UnmarshalTypeError`. -/
def decodeMarketSymbol : Json → Option MarketSymbol
  | Json.null => some { ID := 0, Symbol := "", Info := "" }
  | Json.object members => decodeFields symbolField members { ID := 0, Symbol := "", Info := "" }
  | _ => none

/-- `json.Unmarshal` of a JSON value into a `[]model.MarketSymbol`: a JSON array gives one
element per item, null gives the nil slice, anything else (a JSON object too) is an
`UnmarshalTypeError`. -/
def decodeMarketSymbols : Json → Option (List MarketSymbol)
  | Json.null => some []
  | Json.array items => collect decodeMarketSymbol items
  | _ => none

/-- One member of a JSON object applied to a `model.MarketSymbolResponse` (fields `error`
and `result`). -/
def responseField (r : MarketSymbolResponse) (key : String) (v : Json) :
    Option MarketSymbolResponse :=
  if fieldMatch key "error" then (decodeInt r.Error v).map (fun n => { r with Error := n })
  else if fieldMatch key "result" then
    (decodeMarketSymbols v).map (fun x => { r with Result := x })
  else some r

/-- `json.Unmarshal(body, &ret)` for a zero `model.MarketSymbolResponse`, on the tree of the
body's JSON text; `none` when it returns an error. -/
def unmarshalMarketSymbolResponse : Json → Option MarketSymbolResponse
  | Json.null => some { Error := 0, Result := [] }
  | Json.object members => decodeFields responseField members { Error := 0, Result := [] }
  | _ => none

/-- The stand-in `plainLib` with a `json.Unmarshal` into `model.MarketSymbolResponse` that
reads every body as the JSON text with tree `tree`. -/
def treeLib (tree : Json) : Lib :=
  { plainLib with unmarshalSymbols := fun _ => unmarshalMarketSymbolResponse tree }

/-- The tree of
`{"error":0,"result":{"THB_BTC":{"id":1,"symbol":"THB_BTC","info":"Thai Baht to Bitcoin"}}}`. -/
def symbolsKeyedEnvelope : Json :=
  Json.object [("error", Json.number "0"),
    ("result", Json.object [("THB_BTC", Json.object [("id", Json.number "1"),
      ("symbol", Json.string "THB_BTC"), ("info", Json.string "Thai Baht to Bitcoin")])])]

/-- The tree of
`{"error":0,"result":[{"id":1,"symbol":"THB_BTC","info":"Thai Baht to Bitcoin"}]}`. -/
def symbolsListEnvelope : Json :=
  Json.object [("error", Json.number "0"),
    ("result", Json.array [Json.object [("id", Json.number "1"),
      ("symbol", Json.string "THB_BTC"), ("info", Json.string "Thai Baht to Bitcoin")]])]

/-- The outcome of a step that returns a value or an error. -/
def Outcome.ofExcept {α : Type} : Except GoError α → Outcome α
  | Except.ok v => Outcome.ok v
  | Except.error err => Outcome.error err

/-- The texts of the errors the private operations make before they sign anything. -/
def localMessages : List String :=
  ["api key is empty", "api secret is empty", "symbol is empty", "bit type is empty",
   "bit type is invalid", "side is empty", "id is empty", "side is invalid",
   "currency is empty", "address is empty", "amount is invalid", "bank id is empty"]

/-- The two ways a call of a private operation goes: it stops at one of its checks, or it
continues with the block `signedPost` and decodes what that yields. -/
def PrivateShape {α : Type} (lib : Lib) (env : Env) (b : bitkubApi) (r : Run α) : Prop :=
  (∃ msg, msg ∈ localMessages ∧ r = failLocal msg) ∨
  (∃ (url : String) (headers : List (String × String)) (payload : Payload)
    (rt : ResponseType) (f : Envelope → Option α),
    r = (signedPost lib env b url headers payload rt).decode f)

/-- The property `P` holds of the call of every private operation, for all its
arguments. -/
def AllPrivate (P : {α : Type} → Run α → Prop) (lib : Lib) (env : Env) (b : bitkubApi) : Prop :=
  P (GetWallet lib env b) ∧
  P (GetBalances lib env b) ∧
  (∀ symbol bitType amount rate clientID, P (PlaceBid lib env b symbol bitType amount rate clientID)) ∧
  (∀ symbol bitType amount rate clientID, P (PlaceBidTest lib env b symbol bitType amount rate clientID)) ∧
  (∀ symbol bitType amount rate clientID, P (PlaceAsk lib env b symbol bitType amount rate clientID)) ∧
  (∀ symbol bitType amount rate clientID, P (PlaceAskTest lib env b symbol bitType amount rate clientID)) ∧
  (∀ symbol bitType amount rate, P (PlaceAskByFiat lib env b symbol bitType amount rate)) ∧
  (∀ symbol side hash id, P (CancelOrder lib env b symbol side hash id)) ∧
  (∀ symbol, P (GetOpenOrder lib env b symbol)) ∧
  (∀ symbol page limit start end_, P (GetOrderHistory lib env b symbol page limit start end_)) ∧
  (∀ symbol side hash id, P (GetOrderInfo lib env b symbol side hash id)) ∧
  (∀ page limit, P (GetCryptoAddresses lib env b page limit)) ∧
  (∀ currency address amount memo, P (CryptoWithdraw lib env b currency address amount memo)) ∧
  (∀ currency address amount memo, P (CryptoInternalWithdraw lib env b currency address amount memo)) ∧
  (∀ page limit, P (GetCryptoDepositHistory lib env b page limit)) ∧
  (∀ page limit, P (GetCryptoWithdrawHistory lib env b page limit)) ∧
  (∀ symbol, P (CryptoGenerateAddress lib env b symbol)) ∧
  (∀ page limit, P (GetBankAccounts lib env b page limit)) ∧
  (∀ bankID amount, P (FiatWithdraw lib env b bankID amount)) ∧
  (∀ page limit, P (GetFiatDepositHistory lib env b page limit)) ∧
  (∀ page limit, P (GetFiatWithdrawHistory lib env b page limit)) ∧
  P (GetWebSocketToken lib env b) ∧
  P (GetUserLimits lib env b) ∧
  P (GetUserTradingCredits lib env b)

/-- The payload has neither a "ts" nor a "sig" entry, and every value it holds is a string
or an integer. -/
def PlainPayload (p : Payload) : Prop :=
  "ts" ∉ p.keys ∧ "sig" ∉ p.keys ∧
  ∀ k v, p.lookup k = some v → (∃ s, v = Value.str s) ∨ (∃ n, v = Value.int n)

/-- What a private operation hands to `signedPost`: a URL under `baseURL`, a header map
whose "X-BTK-APIKEY" is the client's key and whose "Content-Type" is `contentType` (`none`
when the map has no such entry), and a payload with the property `Qp`. -/
def CallSpec (b : bitkubApi) (contentType : Option String) (Qp : Payload → Prop)
    (url : String) (headers : List (String × String)) (payload : Payload) : Prop :=
  baseURL.data <+: url.data ∧
  headers.lookup "X-BTK-APIKEY" = some b.ApiKey ∧
  headers.lookup "Content-Type" = contentType ∧
  Qp payload

/-- The two ways a call of a private operation goes, with what it hands to `signedPost`
when it gets there: `Q` holds of the URL, the header map and the payload. -/
def PrivateCall {α : Type} (lib : Lib) (env : Env) (b : bitkubApi)
    (Q : String → List (String × String) → Payload → Prop) (r : Run α) : Prop :=
  (∃ msg, msg ∈ localMessages ∧ r = failLocal msg) ∨
  (∃ (url : String) (headers : List (String × String)) (payload : Payload)
    (rt : ResponseType) (f : Envelope → Option α),
    Q url headers payload ∧ r = (signedPost lib env b url headers payload rt).decode f)

/-- The private operations by name. -/
inductive PrivateOp where
  | GetWallet
  | GetBalances
  | PlaceBid
  | PlaceBidTest
  | PlaceAsk
  | PlaceAskTest
  | PlaceAskByFiat
  | CancelOrder
  | GetOpenOrder
  | GetOrderHistory
  | GetOrderInfo
  | GetCryptoAddresses
  | CryptoWithdraw
  | CryptoInternalWithdraw
  | GetCryptoDepositHistory
  | GetCryptoWithdrawHistory
  | CryptoGenerateAddress
  | GetBankAccounts
  | FiatWithdraw
  | GetFiatDepositHistory
  | GetFiatWithdrawHistory
  | GetWebSocketToken
  | GetUserLimits
  | GetUserTradingCredits
  deriving DecidableEq

/-- The property `P op` holds of the call of every private operation `op`, for all its
arguments. -/
def EachPrivate (P : PrivateOp → {α : Type} → Run α → Prop) (lib : Lib) (env : Env)
    (b : bitkubApi) : Prop :=
  P PrivateOp.GetWallet (GetWallet lib env b) ∧
  P PrivateOp.GetBalances (GetBalances lib env b) ∧
  (∀ symbol bitType amount rate clientID, P PrivateOp.PlaceBid (PlaceBid lib env b symbol bitType amount rate clientID)) ∧
  (∀ symbol bitType amount rate clientID, P PrivateOp.PlaceBidTest (PlaceBidTest lib env b symbol bitType amount rate clientID)) ∧
  (∀ symbol bitType amount rate clientID, P PrivateOp.PlaceAsk (PlaceAsk lib env b symbol bitType amount rate clientID)) ∧
  (∀ symbol bitType amount rate clientID, P PrivateOp.PlaceAskTest (PlaceAskTest lib env b symbol bitType amount rate clientID)) ∧
  (∀ symbol bitType amount rate, P PrivateOp.PlaceAskByFiat (PlaceAskByFiat lib env b symbol bitType amount rate)) ∧
  (∀ symbol side hash id, P PrivateOp.CancelOrder (CancelOrder lib env b symbol side hash id)) ∧
  (∀ symbol, P PrivateOp.GetOpenOrder (GetOpenOrder lib env b symbol)) ∧
  (∀ symbol page limit start end_, P PrivateOp.GetOrderHistory (GetOrderHistory lib env b symbol page limit start end_)) ∧
  (∀ symbol side hash id, P PrivateOp.GetOrderInfo (GetOrderInfo lib env b symbol side hash id)) ∧
  (∀ page limit, P PrivateOp.GetCryptoAddresses (GetCryptoAddresses lib env b page limit)) ∧
  (∀ currency address amount memo, P PrivateOp.CryptoWithdraw (CryptoWithdraw lib env b currency address amount memo)) ∧
  (∀ currency address amount memo, P PrivateOp.CryptoInternalWithdraw (CryptoInternalWithdraw lib env b currency address amount memo)) ∧
  (∀ page limit, P PrivateOp.GetCryptoDepositHistory (GetCryptoDepositHistory lib env b page limit)) ∧
  (∀ page limit, P PrivateOp.GetCryptoWithdrawHistory (GetCryptoWithdrawHistory lib env b page limit)) ∧
  (∀ symbol, P PrivateOp.CryptoGenerateAddress (CryptoGenerateAddress lib env b symbol)) ∧
  (∀ page limit, P PrivateOp.GetBankAccounts (GetBankAccounts lib env b page limit)) ∧
  (∀ bankID amount, P PrivateOp.FiatWithdraw (FiatWithdraw lib env b bankID amount)) ∧
  (∀ page limit, P PrivateOp.GetFiatDepositHistory (GetFiatDepositHistory lib env b page limit)) ∧
  (∀ page limit, P PrivateOp.GetFiatWithdrawHistory (GetFiatWithdrawHistory lib env b page limit)) ∧
  P PrivateOp.GetWebSocketToken (GetWebSocketToken lib env b) ∧
  P PrivateOp.GetUserLimits (GetUserLimits lib env b) ∧
  P PrivateOp.GetUserTradingCredits (GetUserTradingCredits lib env b)

/-- The request a public operation hands to the transport: the GET of `url` with the
User-Agent line `doRequest` adds and no other header, the header map being empty. -/
def getRequest (url : String) : Request :=
  { method := "GET", uri := url, headers := [("User-Agent", "bitkub-go/1.0")], body := "" }

/-- The `float64` of the Go literal `1.5` (bits 0x3FF8000000000000). -/
def f64_1_5 : Float64 := Float64.finite false 6755399441055744 (-52)

/-- The `float64` of the Go literal `10.01` (bits 0x4024051EB851EB85), the double nearest
to 10.01. -/
def f64_10_01 : Float64 := Float64.finite false 5635129033747333 (-49)

/-- The characters that follow the first member in the text `json.Marshal` writes for the
members `ms`: each member after a comma. -/
def membersTail (ms : List String) : List Char :=
  (ms.map (fun m => ',' :: m.data)).flatten

/-- The two values `GetServerTime` of `api.go` returns, the time and the error (`none` for
`nil`), statement by statement. -/
def GetServerTimeReturn (env : Env) (b : bitkubApi) : Time × Option GoError :=
  let url := baseURL ++ "/api/servertime"
  match (Get env url [] [b.Timeout]).1 with
  | Except.error err => (Time.zero, some err)
  | Except.ok resp =>
    if resp.statusCode ≠ 200 then
      (Time.zero,
        some (GoError.errorf ("response status code is " ++ toString resp.statusCode)))
    else
      match Atoi resp.body with
      | none => (Time.zero, some GoError.strconv)
      | some _ => (Time.zero, none)

/-- Truncation toward zero, as a rule on numbers: the floor of a number that is not
negative, the ceiling of a negative one. -/
def truncateTowardZero (q : ℚ) : Int :=
  if 0 ≤ q then ⌊q⌋ else ⌈q⌉

/-- The `float64` of the JSON number `1.9` (bits 0x3FFE666666666666), the double nearest
to 1.9. -/
def f64_1_9 : Float64 := Float64.finite false 8556839292003942 (-52)

/-- The `float64` of the JSON number `-1.9` (bits 0xBFFE666666666666). -/
def f64_neg_1_9 : Float64 := Float64.finite true 8556839292003942 (-52)

/-- The `float64` of the JSON number `11` (bits 0x4026000000000000). -/
def f64_11 : Float64 := Float64.finite false 6192449487634432 (-49)

/-- The stand-in `plainLib` with a `json.Unmarshal` that decodes every body into the map
with the entries `entries`. -/
def mapLib (entries : List (String × Dyn)) : Lib :=
  { plainLib with unmarshalMap := fun _ => some entries }

/-- The map `{sym, typ, amt, rat}` of an order, as a lookup: the symbol, the type, the
trimmed amount, the trimmed rate with 0 in place of the rate for the type "market", and
"client_id" with the first client id when one is supplied; no other key. -/
def orderMap (symbol bitType : String) (amount rate : Float64) (clientID : List String)
    (k : String) : Option Value :=
  if k = "sym" then some (Value.str symbol)
  else if k = "typ" then some (Value.str bitType)
  else if k = "amt" then some (Value.str (formatFloatWithoutZeroTrail amount))
  else if k = "rat" then
    some (Value.str (formatFloatWithoutZeroTrail (if bitType = "market" then f64_0 else rate)))
  else if k = "client_id" then clientID.head?.map Value.str
  else none

/-- The `float64` of the Go literal `100.0` (bits 0x4059000000000000). -/
def f64_100 : Float64 := Float64.finite false 7036874417766400 (-46)

/-- The `float64` of the Go literal `-12.503` (bits 0xC0290189374BC6A8), the double nearest
to -12.503. -/
def f64_neg_12_503 : Float64 := Float64.finite true 7038563267626664 (-49)

/-- A Go slice value as far as a comparison with `nil` and the elements tell: the nil slice,
or a slice that is not nil with its elements in order (possibly none, as the literal
`[]T{}`). -/
inductive Slice (α : Type) where
  | nil
  | mk (items : List α)
  deriving DecidableEq

/-- The elements of a slice; the nil slice has none. -/
def Slice.items {α : Type} : Slice α → List α
  | Slice.nil => []
  | Slice.mk items => items

/-- The built-in `append(s, x)`: the elements of `s` followed by `x`; the result has an
element, so it is not nil. -/
def Slice.append {α : Type} (s : Slice α) (x : α) : Slice α :=
  Slice.mk (s.items ++ [x])

/-- The loop of `GetMarketTrades` over the rows still to visit, from the value `trades` has
reached: each row is unpacked and appended to `trades`. `none` when a type assertion or an
index panics. -/
def tradesLoop (lib : Lib) : List Dyn → Slice MarketTrade → Option (Slice MarketTrade)
  | [], trades => some trades
  | item :: rest, trades =>
    match tradeOfRow lib item with
    | none => none
    | some t => tradesLoop lib rest (trades.append t)

/-- The two values `GetMarketTrades` of `api.go` returns, the slice and the error (`none`
for `nil`), statement by statement; `none` when the call panics. The error paths return the
nil slice, the last statement returns `trades`, which starts as the literal
`[]model.MarketTrade{}`. -/
def GetMarketTradesReturn (lib : Lib) (env : Env) (b : bitkubApi) (symbol : String)
    (limit : Int) : Option (Slice MarketTrade × Option GoError) :=
  let url := baseURL ++ "/api/market/trades"
  let url := url ++ marketQuery symbol limit
  match (Get env url [] [b.Timeout]).1 with
  | Except.error err => some (Slice.nil, some err)
  | Except.ok resp =>
    if resp.statusCode ≠ 200 then
      some (Slice.nil,
        some (GoError.errorf ("response status code is " ++ toString resp.statusCode)))
    else
      match lib.unmarshal ResponseType.DefaultResponse resp.body with
      | none => some (Slice.nil, some GoError.json)
      | some ret =>
        if ret.Error ≠ 0 then
          some (Slice.nil,
            some (GoError.errorf (serverErrorText ret.Error (GetErrorMessage ret.Error))))
        else
          let trades : Slice MarketTrade := Slice.mk []
          match ret.Result.asSlice with
          | none => none
          | some items =>
            match tradesLoop lib items trades with
            | none => none
            | some trades => some (trades, none)

/-- How a call that returns a slice and an error ends, as the outcome over the elements of
the slice. -/
def Outcome.ofReturn {α : Type} : Option (Slice α × Option GoError) → Outcome (List α)
  | none => Outcome.panic
  | some (_, some err) => Outcome.error err
  | some (s, none) => Outcome.ok s.items

/-- The `float64` of the Go literal `1.0` (bits 0x3FF0000000000000). -/
def f64_1 : Float64 := Float64.finite false 4503599627370496 (-52)

/-- The Go string of 257 characters that has '1' at the positions where `x` holds and '0'
at the others. -/
def bitString (x : Fin 257 → Bool) : String :=
  String.mk ((List.finRange 257).map (fun i => if x i then '1' else '0'))

/-! ## Theorems -/

theorem lookup_isSome_iff (code : Int) :
    (BitkubApiErrorCodes.lookup code).isSome = true ↔
      ((0 ≤ code ∧ code ≤ 25) ∨ code = 30 ∨ (40 ≤ code ∧ code ≤ 54) ∨ code = 90) := by
  by_cases h : 0 ≤ code ∧ code ≤ 90
  · obtain ⟨h0, h1⟩ := h
    interval_cases code <;> simp [BitkubApiErrorCodes, List.lookup]
  · have hne : ∀ k : Int, 0 ≤ k → k ≤ 90 → (code == k) = false := by
      intro k hk0 hk1
      simp only [beq_eq_false_iff_ne, ne_eq]
      omega
    have hnone : BitkubApiErrorCodes.lookup code = none := by
      simp [BitkubApiErrorCodes, List.lookup, hne]
    rw [hnone]
    simp only [Option.isSome_none, Bool.false_eq_true, false_iff]
    omega

theorem GetErrorMessage_unknown_iff (code : Int) :
    GetErrorMessage code = "Unknown error" ↔
      ¬ ((0 ≤ code ∧ code ≤ 25) ∨ code = 30 ∨ (40 ≤ code ∧ code ≤ 54) ∨ code = 90) := by
  by_cases h : 0 ≤ code ∧ code ≤ 90
  · obtain ⟨h0, h1⟩ := h
    interval_cases code <;> simp [GetErrorMessage, BitkubApiErrorCodes, List.lookup]
  · have hne : ∀ k : Int, 0 ≤ k → k ≤ 90 → (code == k) = false := by
      intro k hk0 hk1
      simp only [beq_eq_false_iff_ne, ne_eq]
      omega
    have hnone : GetErrorMessage code = "Unknown error" := by
      simp [GetErrorMessage, BitkubApiErrorCodes, List.lookup, hne]
    simp only [hnone, true_iff]
    omega

/-- C3: `GetErrorMessage` is a total function on the integers. The table has 43 entries,
whose codes are exactly 0-25, 30, 40-54 and 90; a code of the table gets the table's text
(11 gets "Invalid symbol"); the result is "Unknown error" if and only if the code is not in
the table, so 9999, every negative code and every gap code (26-29, 31-39, 55-89) get
"Unknown error". -/
theorem GetErrorMessage_total :
    BitkubApiErrorCodes.length = 43 ∧
    (∀ code : Int, (∃ msg, BitkubApiErrorCodes.lookup code = some msg) ↔
      ((0 ≤ code ∧ code ≤ 25) ∨ code = 30 ∨ (40 ≤ code ∧ code ≤ 54) ∨ code = 90)) ∧
    (∀ (code : Int) (msg : String),
      BitkubApiErrorCodes.lookup code = some msg → GetErrorMessage code = msg) ∧
    (∀ code : Int, GetErrorMessage code = "Unknown error" ↔
      BitkubApiErrorCodes.lookup code = none) ∧
    GetErrorMessage 11 = "Invalid symbol" ∧
    GetErrorMessage 9999 = "Unknown error" ∧
    (∀ code : Int, code < 0 → GetErrorMessage code = "Unknown error") ∧
    (∀ code : Int, (26 ≤ code ∧ code ≤ 29) ∨ (31 ≤ code ∧ code ≤ 39) ∨
      (55 ≤ code ∧ code ≤ 89) → GetErrorMessage code = "Unknown error") := by
  refine ⟨by decide, ?_, ?_, ?_, by decide, by decide, ?_, ?_⟩
  · intro code
    rw [← lookup_isSome_iff code, Option.isSome_iff_exists]
  · intro code msg h
    simp [GetErrorMessage, h]
  · intro code
    rw [GetErrorMessage_unknown_iff, ← lookup_isSome_iff code]
    cases BitkubApiErrorCodes.lookup code <;> simp
  · intro code h
    rw [GetErrorMessage_unknown_iff]
    omega
  · intro code h
    rw [GetErrorMessage_unknown_iff]
    omega


theorem micros_zero (exp : Int) : micros 0 exp = 0 := by
  cases exp with
  | ofNat e => simp [micros]
  | negSucc e =>
    simp [micros, roundHalfEven]

/-- C6: `formatFloatWithoutZeroTrail` gives "10" for 10.0, "0.001" for 0.0010, "100.1" for
100.100 and "0" for 0.0. -/
theorem formatFloatWithoutZeroTrail_examples :
    formatFloatWithoutZeroTrail f64_10 = "10" ∧
    formatFloatWithoutZeroTrail f64_0_001 = "0.001" ∧
    formatFloatWithoutZeroTrail f64_100_1 = "100.1" ∧
    formatFloatWithoutZeroTrail f64_0 = "0" := by
  refine ⟨by decide, by decide, by decide, ?_⟩
  have h : Sprintf_f f64_0 = "0.000000" := by
    simp only [f64_0, Sprintf_f, micros_zero]
    decide
  simp only [formatFloatWithoutZeroTrail, h]
  decide

/-! ### Trimming a fixed-point numeral -/

theorem rdropWhile_append_cons_of_neg {α : Type} (p : α → Bool) (l₁ : List α) (a : α)
    (ha : ¬ p a = true) (l₂ : List α) :
    (l₁ ++ a :: l₂).rdropWhile p = l₁ ++ a :: l₂.rdropWhile p := by
  induction l₂ using List.reverseRecOn with
  | nil =>
    rw [List.rdropWhile_concat_neg _ _ _ ha]
    simp
  | append_singleton l₂ b ih =>
    have e : l₁ ++ a :: (l₂ ++ [b]) = (l₁ ++ a :: l₂) ++ [b] := by simp
    rw [e]
    by_cases hb : p b = true
    · rw [List.rdropWhile_concat_pos _ _ _ hb, List.rdropWhile_concat_pos _ _ _ hb, ih]
    · rw [List.rdropWhile_concat_neg _ _ _ hb, List.rdropWhile_concat_neg _ _ _ hb]
      simp

theorem rdropWhile_beq_append_replicate (c : Char) (l : List Char) :
    ∃ k, l = l.rdropWhile (fun x => x == c) ++ List.replicate k c := by
  induction l using List.reverseRecOn with
  | nil => exact ⟨0, by simp⟩
  | append_singleton l b ih =>
    by_cases hb : (b == c) = true
    · obtain ⟨k, hk⟩ := ih
      refine ⟨k + 1, ?_⟩
      rw [List.rdropWhile_concat_pos (fun x => x == c) l b hb]
      have hbc : b = c := by simpa using hb
      rw [List.replicate_succ', ← List.append_assoc, ← hk, hbc]
    · refine ⟨0, ?_⟩
      rw [List.rdropWhile_concat_neg (fun x => x == c) l b hb]
      simp

theorem digitsValue_append_singleton (xs : List Char) (c : Char) :
    digitsValue (xs ++ [c]) = 10 * digitsValue xs + (c.toNat - 48) := by
  simp [digitsValue, List.foldl_append]

theorem digitsValue_append_replicate_zero (xs : List Char) (k : Nat) :
    digitsValue (xs ++ List.replicate k '0') = digitsValue xs * 10 ^ k := by
  induction k with
  | zero => simp
  | succ k ih =>
    rw [List.replicate_succ', ← List.append_assoc, digitsValue_append_singleton, ih]
    have : ('0' : Char).toNat - 48 = 0 := by decide
    rw [this, pow_succ]
    ring

theorem isDigit_ne_dot {c : Char} (h : c.isDigit = true) : c ≠ '.' := by
  rintro rfl
  exact absurd h (by decide)

theorem isDigit_ne_minus {c : Char} (h : c.isDigit = true) : c ≠ '-' := by
  rintro rfl
  exact absurd h (by decide)

theorem TrimRight_zero (s : String) :
    TrimRight s "0" = String.mk (s.data.rdropWhile (fun c => c == '0')) := by
  have : (fun c : Char => "0".data.contains c) = (fun c => c == '0') := by
    funext c
    simp [List.contains, beq_iff_eq]
    rfl
  simp only [TrimRight, this]

theorem TrimRight_dot (s : String) :
    TrimRight s "." = String.mk (s.data.rdropWhile (fun c => c == '.')) := by
  have : (fun c : Char => ".".data.contains c) = (fun c => c == '.') := by
    funext c
    simp [List.contains, beq_iff_eq]
    rfl
  simp only [TrimRight, this]

/-- The two trims on the characters of `A ++ I ++ "." ++ F`, where `I` is a non-empty digit
string and `F` a digit string: the zeros at the end of `F` go, and the '.' goes with them
when nothing of `F` is left. -/
theorem trim_chars (A I F : List Char) (hI : I ≠ []) (hId : ∀ c ∈ I, c.isDigit = true)
    (hFd : ∀ c ∈ F, c.isDigit = true) :
    ∃ (F' : List Char) (k : Nat), F = F' ++ List.replicate k '0' ∧
      F'.getLast? ≠ some '0' ∧ (∀ c ∈ F', c.isDigit = true) ∧
      ((A ++ I ++ '.' :: F).rdropWhile (fun c => c == '0')).rdropWhile (fun c => c == '.') =
        if F' = [] then A ++ I else A ++ I ++ '.' :: F' := by
  obtain ⟨k, hk⟩ := rdropWhile_beq_append_replicate '0' F
  have hpre : F.rdropWhile (fun c => c == '0') <+: F := List.rdropWhile_prefix _ _
  have hdig : ∀ c ∈ F.rdropWhile (fun c => c == '0'), c.isDigit = true :=
    fun c hc => hFd c (hpre.subset hc)
  have hlast : (F.rdropWhile (fun c => c == '0')).getLast? ≠ some '0' := by
    intro h
    have hne : F.rdropWhile (fun c => c == '0') ≠ [] := by
      intro h0
      rw [h0] at h
      simp at h
    have := List.rdropWhile_last_not (fun c => c == '0') F hne
    rw [List.getLast?_eq_getLast _ hne] at h
    simp only [Option.some.injEq] at h
    rw [h] at this
    simp at this
  refine ⟨F.rdropWhile (fun c => c == '0'), k, hk, hlast, hdig, ?_⟩
  rw [rdropWhile_append_cons_of_neg (fun c => c == '0') (A ++ I) '.' (by decide) F]
  by_cases hF' : F.rdropWhile (fun c => c == '0') = []
  · rw [if_pos hF', hF']
    have e : A ++ I ++ ['.'] = (A ++ I) ++ ['.'] := rfl
    rw [e, List.rdropWhile_concat_pos (fun c => c == '.') (A ++ I) '.' (by decide)]
    rw [List.rdropWhile_eq_self_iff]
    intro hne
    have hIlast : (A ++ I).getLast hne = I.getLast hI := List.getLast_append_of_ne_nil hI
    rw [hIlast]
    have := isDigit_ne_dot (hId _ (List.getLast_mem hI))
    simpa using this
  · rw [if_neg hF']
    rw [List.rdropWhile_eq_self_iff]
    intro hne
    have hcons : ('.' :: F.rdropWhile (fun c => c == '0')) ≠ [] := by simp
    have h1 : (A ++ I ++ '.' :: F.rdropWhile (fun c => c == '0')).getLast hne =
        ('.' :: F.rdropWhile (fun c => c == '0')).getLast hcons :=
      List.getLast_append_of_ne_nil hcons
    rw [h1, List.getLast_cons hF']
    have := isDigit_ne_dot (hdig _ (List.getLast_mem hF'))
    simpa using this

theorem decimalMagnitude_fixed (I F : List Char) (hId : ∀ c ∈ I, c.isDigit = true) :
    decimalMagnitude (I ++ '.' :: F) =
      (digitsValue I : ℚ) + (digitsValue F : ℚ) / 10 ^ F.length := by
  have hp : ∀ a ∈ I, (fun c : Char => c != '.') a = true := by
    intro a ha
    simpa using isDigit_ne_dot (hId a ha)
  simp only [decimalMagnitude]
  rw [List.takeWhile_append_of_pos hp, List.dropWhile_append_of_pos hp]
  simp

theorem decimalMagnitude_whole (I : List Char) (hId : ∀ c ∈ I, c.isDigit = true) :
    decimalMagnitude I = (digitsValue I : ℚ) := by
  have hp : ∀ a ∈ I, (fun c : Char => c != '.') a = true := by
    intro a ha
    simpa using isDigit_ne_dot (hId a ha)
  have h1 : I.takeWhile (fun c : Char => c != '.') = I := List.takeWhile_eq_self_iff.mpr hp
  have h2 : I.dropWhile (fun c : Char => c != '.') = [] := List.dropWhile_eq_nil_iff.mpr hp
  simp only [decimalMagnitude, h1, h2]
  simp [digitsValue]

theorem decimalValue_signed (neg : Bool) (I R : List Char) (hI : I ≠ [])
    (hId : ∀ c ∈ I, c.isDigit = true) :
    decimalValue (String.mk ((if neg then ['-'] else []) ++ I ++ R)) =
      (if neg then -1 else 1) * decimalMagnitude (I ++ R) := by
  cases neg with
  | true => simp [decimalValue]
  | false =>
    obtain ⟨c, cs, rfl⟩ := List.exists_cons_of_ne_nil hI
    have hc : c ≠ '-' := isDigit_ne_minus (hId c (by simp))
    simp only [decimalValue, Bool.false_eq_true, if_false, List.nil_append, List.cons_append,
      one_mul]
    split
    · rename_i cs' heq
      simp only [List.cons.injEq] at heq
      exact absurd heq.1 hc
    · rfl

/-! ### The digits `%f` prints -/

theorem digitChar_spec (k : Nat) (hk : k < 10) :
    (Nat.digitChar k).isDigit = true ∧ (Nat.digitChar k).toNat - 48 = k := by
  interval_cases k <;> decide

theorem toDigitsCore_spec (fuel : Nat) : ∀ (n : Nat) (ds : List Char), n < fuel →
    ∃ I : List Char, Nat.toDigitsCore 10 fuel n ds = I ++ ds ∧ I ≠ [] ∧
      (∀ c ∈ I, c.isDigit = true) ∧ digitsValue I = n := by
  induction fuel with
  | zero => intro n ds h; omega
  | succ fuel ih =>
    intro n ds h
    have hd := digitChar_spec (n % 10) (Nat.mod_lt _ (by decide))
    by_cases h0 : n / 10 = 0
    · refine ⟨[Nat.digitChar (n % 10)], ?_, by simp, ?_, ?_⟩
      · simp [Nat.toDigitsCore, h0]
      · intro c hc
        rw [List.mem_singleton] at hc
        rw [hc]; exact hd.1
      · have := digitsValue_append_singleton [] (Nat.digitChar (n % 10))
        simp only [List.nil_append] at this
        rw [this, hd.2]
        simp [digitsValue]
        omega
    · obtain ⟨I, hI, hne, hdig, hval⟩ := ih (n / 10) (Nat.digitChar (n % 10) :: ds) (by omega)
      refine ⟨I ++ [Nat.digitChar (n % 10)], ?_, by simp, ?_, ?_⟩
      · simp [Nat.toDigitsCore, h0, hI]
      · intro c hc
        rw [List.mem_append, List.mem_singleton] at hc
        rcases hc with hc | hc
        · exact hdig c hc
        · rw [hc]; exact hd.1
      · rw [digitsValue_append_singleton, hval, hd.2]
        omega

theorem toDigits_spec (n : Nat) :
    Nat.toDigits 10 n ≠ [] ∧ (∀ c ∈ Nat.toDigits 10 n, c.isDigit = true) ∧
      digitsValue (Nat.toDigits 10 n) = n := by
  obtain ⟨I, hI, hne, hdig, hval⟩ := toDigitsCore_spec (n + 1) n [] (by omega)
  simp only [List.append_nil] at hI
  simp only [Nat.toDigits, hI]
  exact ⟨hne, hdig, hval⟩

theorem toDigits_length_le_six (n : Nat) (h : n < 10 ^ 6) : (Nat.toDigits 10 n).length ≤ 6 :=
  Nat.toDigitsCore_length 10 (by decide) (n + 1) n 6 h (by decide)

/-- The trimming step on `[-]I.F`: the shape of the result and its decimal value. -/
theorem trim_spec (neg : Bool) (I F : List Char) (hI : I ≠ [])
    (hId : ∀ c ∈ I, c.isDigit = true) (hFd : ∀ c ∈ F, c.isDigit = true) :
    ∃ (F' : List Char) (k : Nat), F = F' ++ List.replicate k '0' ∧
      F'.getLast? ≠ some '0' ∧ (∀ c ∈ F', c.isDigit = true) ∧
      ((∀ c ∈ F, c = '0') ↔ F' = []) ∧
      TrimRight (TrimRight (String.mk ((if neg then ['-'] else []) ++ I ++ '.' :: F)) "0") "."
        = String.mk (if F' = [] then (if neg then ['-'] else []) ++ I
            else (if neg then ['-'] else []) ++ I ++ '.' :: F') ∧
      decimalValue (String.mk (if F' = [] then (if neg then ['-'] else []) ++ I
            else (if neg then ['-'] else []) ++ I ++ '.' :: F')) =
        decimalValue (String.mk ((if neg then ['-'] else []) ++ I ++ '.' :: F)) := by
  obtain ⟨F', k, hFk, hlast, hdig, htrim⟩ :=
    trim_chars (if neg then ['-'] else []) I F hI hId hFd
  have hzero : (∀ c ∈ F, c = '0') ↔ F' = [] := by
    constructor
    · intro h
      by_contra hne
      have hmem : F'.getLast hne ∈ F := by
        rw [hFk]
        exact List.mem_append_left _ (List.getLast_mem hne)
      apply hlast
      rw [List.getLast?_eq_getLast _ hne, h _ hmem]
    · intro h c hc
      rw [hFk, h] at hc
      simpa using (List.eq_of_mem_replicate hc)
  refine ⟨F', k, hFk, hlast, hdig, hzero, ?_, ?_⟩
  · rw [TrimRight_zero, TrimRight_dot, htrim]
  · rw [decimalValue_signed neg I ('.' :: F) hI hId, decimalMagnitude_fixed I F hId]
    by_cases h : F' = []
    · rw [if_pos h]
      have e : (if neg then ['-'] else []) ++ I = (if neg then ['-'] else []) ++ I ++ [] := by
        simp
      rw [e, decimalValue_signed neg I [] hI hId, List.append_nil, decimalMagnitude_whole I hId]
      have hv : digitsValue F = 0 := by
        rw [hFk, h, List.nil_append]
        have := digitsValue_append_replicate_zero [] k
        simpa [digitsValue] using this
      rw [hv]
      simp
    · rw [if_neg h, decimalValue_signed neg I ('.' :: F') hI hId, decimalMagnitude_fixed I F' hId]
      have hv : digitsValue F = digitsValue F' * 10 ^ k := by
        rw [hFk]
        exact digitsValue_append_replicate_zero F' k
      have hl : F.length = F'.length + k := by
        rw [hFk]
        simp
      rw [hv, hl, pow_add]
      congr 1
      push_cast
      field_simp
      ring

/-! ### What `%f` keeps of the value -/

theorem digitsValue_replicate_zero_append (k : Nat) (ds : List Char) :
    digitsValue (List.replicate k '0' ++ ds) = digitsValue ds := by
  induction k with
  | zero => simp
  | succ k ih =>
    have h : digitsValue ('0' :: (List.replicate k '0' ++ ds)) =
        digitsValue (List.replicate k '0' ++ ds) := by
      simp [digitsValue, List.foldl_cons]
    rw [List.replicate_succ, List.cons_append, h, ih]

theorem pad6_spec (ds : List Char) (hlen : ds.length ≤ 6) (hd : ∀ c ∈ ds, c.isDigit = true) :
    (pad6 ds).length = 6 ∧ (∀ c ∈ pad6 ds, c.isDigit = true) ∧
      digitsValue (pad6 ds) = digitsValue ds := by
  refine ⟨?_, ?_, digitsValue_replicate_zero_append _ ds⟩
  · simp only [pad6, List.length_append, List.length_replicate]
    omega
  · intro c hc
    simp only [pad6, List.mem_append] at hc
    rcases hc with hc | hc
    · rw [List.eq_of_mem_replicate hc]
      decide
    · exact hd c hc

theorem roundHalfEven_close (num den : Nat) (hden : 0 < den) :
    |(roundHalfEven num den : ℚ) - (num : ℚ) / den| ≤ 1 / 2 := by
  have hdq : (0 : ℚ) < den := by exact_mod_cast hden
  have hsplit : (num : ℚ) = den * (num / den : ℕ) + (num % den : ℕ) := by
    exact_mod_cast (Nat.div_add_mod num den).symm
  have hr : num % den < den := Nat.mod_lt _ hden
  have hrq : ((num % den : ℕ) : ℚ) < den := by exact_mod_cast hr
  have hr0 : (0 : ℚ) ≤ ((num % den : ℕ) : ℚ) := by positivity
  have hquot : (num : ℚ) / den = (num / den : ℕ) + ((num % den : ℕ) : ℚ) / den := by
    rw [hsplit]
    field_simp
    ring
  simp only [roundHalfEven]
  split_ifs with h
  · have h2 : den ≤ 2 * (num % den) := by omega
    have h2q : (den : ℚ) ≤ 2 * ((num % den : ℕ) : ℚ) := by exact_mod_cast h2
    rw [hquot, abs_le]
    push_cast
    constructor
    · have : ((num % den : ℕ) : ℚ) / den ≤ 1 := by
        rw [div_le_one hdq]
        exact le_of_lt hrq
      linarith
    · have : (1 : ℚ) / 2 ≤ ((num % den : ℕ) : ℚ) / den := by
        rw [le_div_iff₀ hdq]
        linarith
      linarith
  · have h2 : 2 * (num % den) ≤ den := by omega
    have h2q : 2 * ((num % den : ℕ) : ℚ) ≤ den := by exact_mod_cast h2
    rw [hquot, abs_le]
    constructor
    · have : ((num % den : ℕ) : ℚ) / den ≤ 1 / 2 := by
        rw [div_le_iff₀ hdq]
        linarith
      linarith
    · have : (0 : ℚ) ≤ ((num % den : ℕ) : ℚ) / den := by positivity
      linarith

theorem micros_close (mant : Nat) (exp : Int) :
    |(micros mant exp : ℚ) / 10 ^ 6 - (mant : ℚ) * (2 : ℚ) ^ exp| ≤ 1 / (2 * 10 ^ 6) := by
  cases exp with
  | ofNat e =>
    have h : (micros mant (Int.ofNat e) : ℚ) / 10 ^ 6 = (mant : ℚ) * (2 : ℚ) ^ (Int.ofNat e) := by
      simp only [micros, Int.ofNat_eq_coe, zpow_natCast]
      push_cast
      field_simp
      left
      norm_num
    rw [h, sub_self, abs_zero]
    positivity
  | negSucc e =>
    have hden : 0 < 2 ^ (e + 1) := Nat.pos_pow_of_pos _ (by decide)
    have hc := roundHalfEven_close (mant * 10 ^ 6) (2 ^ (e + 1)) hden
    have hx : (mant : ℚ) * (2 : ℚ) ^ (Int.negSucc e) =
        ((mant * 10 ^ 6 : ℕ) : ℚ) / ((2 ^ (e + 1) : ℕ) : ℚ) / 10 ^ 6 := by
      rw [zpow_negSucc]
      push_cast
      field_simp
      ring
    rw [hx]
    simp only [micros]
    rw [← sub_div, abs_div]
    have h6 : |(10 : ℚ) ^ 6| = 10 ^ 6 := abs_of_pos (by positivity)
    rw [h6, div_le_iff₀ (by positivity)]
    calc |((roundHalfEven (mant * 10 ^ 6) (2 ^ (e + 1)) : ℕ) : ℚ) -
          ((mant * 10 ^ 6 : ℕ) : ℚ) / ((2 ^ (e + 1) : ℕ) : ℚ)| ≤ 1 / 2 := hc
      _ = 1 / (2 * 10 ^ 6) * 10 ^ 6 := by norm_num

theorem Sprintf_f_finite (neg : Bool) (mant : Nat) (exp : Int) :
    ∃ I F : List Char, I ≠ [] ∧ (∀ c ∈ I, c.isDigit = true) ∧ F.length = 6 ∧
      (∀ c ∈ F, c.isDigit = true) ∧
      Sprintf_f (Float64.finite neg mant exp) =
        String.mk ((if neg then ['-'] else []) ++ I ++ '.' :: F) ∧
      (digitsValue I : ℚ) + (digitsValue F : ℚ) / 10 ^ F.length =
        (micros mant exp : ℚ) / 10 ^ 6 := by
  obtain ⟨hIne, hId, hIv⟩ := toDigits_spec (micros mant exp / 10 ^ 6)
  obtain ⟨hFne, hFd, hFv⟩ := toDigits_spec (micros mant exp % 10 ^ 6)
  have hlen := toDigits_length_le_six (micros mant exp % 10 ^ 6) (Nat.mod_lt _ (by decide))
  obtain ⟨hp1, hp2, hp3⟩ := pad6_spec _ hlen hFd
  refine ⟨Nat.toDigits 10 (micros mant exp / 10 ^ 6),
    pad6 (Nat.toDigits 10 (micros mant exp % 10 ^ 6)), hIne, hId, hp1, hp2, ?_, ?_⟩
  · simp [Sprintf_f]
  · rw [hp1, hp3, hIv, hFv]
    have h := Nat.div_add_mod (micros mant exp) (10 ^ 6)
    have hq : ((10 ^ 6 : ℕ) : ℚ) * ((micros mant exp / 10 ^ 6 : ℕ) : ℚ) +
        ((micros mant exp % 10 ^ 6 : ℕ) : ℚ) = (micros mant exp : ℚ) := by
      exact_mod_cast h
    rw [← hq]
    push_cast
    field_simp
    norm_num
    ring

/-- C7: let the rendering `fmt.Sprintf("%f", num)` inside `formatFloatWithoutZeroTrail` be a
fixed-point text `[-]I.F` (`I` a non-empty digit string, `F` six digits), as it is for
every finite `num`. Then `formatFloatWithoutZeroTrail num` keeps the sign and every digit
of `I`; it is `[-]I` when `F` is all zeros and otherwise `[-]I.F'`, where `F'` is `F`
without its trailing zeros; it never ends in '.', and its decimal value is that of the
rendering. The rendering "100.000000" of 100.0 gives "100". The function is the two
`TrimRight` calls on the rendering, zeros first, and the same holds of the two calls on
every text `[-]I.F`, rendering of a number or not. -/
theorem trim_fixed_point (num : Float64) (neg : Bool) (I F : List Char)
    (hs : Sprintf_f num = String.mk ((if neg then ['-'] else []) ++ I ++ '.' :: F))
    (hI : I ≠ []) (hId : ∀ c ∈ I, c.isDigit = true) (_hF : F.length = 6)
    (hFd : ∀ c ∈ F, c.isDigit = true) :
    ((∀ c ∈ F, c = '0') →
      formatFloatWithoutZeroTrail num = String.mk ((if neg then ['-'] else []) ++ I)) ∧
    ((∃ c ∈ F, c ≠ '0') → ∃ (F' : List Char) (k : Nat),
      F = F' ++ List.replicate k '0' ∧ F' ≠ [] ∧ F'.getLast? ≠ some '0' ∧
      formatFloatWithoutZeroTrail num =
        String.mk ((if neg then ['-'] else []) ++ I ++ '.' :: F')) ∧
    ((if neg then ['-'] else []) ++ I) <+: (formatFloatWithoutZeroTrail num).data ∧
    (formatFloatWithoutZeroTrail num).data.getLast? ≠ some '.' ∧
    decimalValue (formatFloatWithoutZeroTrail num) = decimalValue (Sprintf_f num) ∧
    (∀ (neg₀ : Bool) (mant₀ : Nat) (exp₀ : Int), ∃ I₀ F₀ : List Char,
      I₀ ≠ [] ∧ (∀ c ∈ I₀, c.isDigit = true) ∧ F₀.length = 6 ∧
      (∀ c ∈ F₀, c.isDigit = true) ∧
      Sprintf_f (Float64.finite neg₀ mant₀ exp₀) =
        String.mk ((if neg₀ then ['-'] else []) ++ I₀ ++ '.' :: F₀)) ∧
    Sprintf_f f64_100 = "100.000000" ∧
    formatFloatWithoutZeroTrail f64_100 = "100" ∧
    (∀ num₀ : Float64, formatFloatWithoutZeroTrail num₀ =
      TrimRight (TrimRight (Sprintf_f num₀) "0") ".") ∧
    (∀ (neg₀ : Bool) (I₀ F₀ : List Char), I₀ ≠ [] → (∀ c ∈ I₀, c.isDigit = true) →
      (∀ c ∈ F₀, c.isDigit = true) →
      ∃ (F' : List Char) (k : Nat), F₀ = F' ++ List.replicate k '0' ∧
        F'.getLast? ≠ some '0' ∧ (∀ c ∈ F', c.isDigit = true) ∧
        ((∀ c ∈ F₀, c = '0') ↔ F' = []) ∧
        TrimRight (TrimRight (String.mk ((if neg₀ then ['-'] else []) ++ I₀ ++ '.' :: F₀))
            "0") "."
          = String.mk (if F' = [] then (if neg₀ then ['-'] else []) ++ I₀
              else (if neg₀ then ['-'] else []) ++ I₀ ++ '.' :: F') ∧
        decimalValue (String.mk (if F' = [] then (if neg₀ then ['-'] else []) ++ I₀
              else (if neg₀ then ['-'] else []) ++ I₀ ++ '.' :: F')) =
          decimalValue (String.mk ((if neg₀ then ['-'] else []) ++ I₀ ++ '.' :: F₀))) := by
  obtain ⟨F', k, hFk, hlast, hdig, hzero, ht, hval⟩ := trim_spec neg I F hI hId hFd
  have hfmt : formatFloatWithoutZeroTrail num =
      String.mk (if F' = [] then (if neg then ['-'] else []) ++ I
        else (if neg then ['-'] else []) ++ I ++ '.' :: F') := by
    simp only [formatFloatWithoutZeroTrail, hs]
    exact ht
  rw [hfmt, hs]
  refine ⟨?_, ?_, ?_, ?_, hval, ?_, by decide, by decide, fun _ => rfl, trim_spec⟩
  · intro h
    rw [if_pos (hzero.mp h)]
  · rintro ⟨c, hc, hc0⟩
    have hne : F' ≠ [] := fun h => hc0 (hzero.mpr h c hc)
    exact ⟨F', k, hFk, hne, hlast, by rw [if_neg hne]⟩
  · by_cases h : F' = []
    · rw [if_pos h]
    · rw [if_neg h]
      exact List.prefix_append _ _
  · by_cases h : F' = []
    · rw [if_pos h]
      have hne : (if neg then ['-'] else []) ++ I ≠ [] := by simp [hI]
      rw [List.getLast?_eq_getLast _ hne, List.getLast_append_of_ne_nil hI]
      have := isDigit_ne_dot (hId _ (List.getLast_mem hI))
      simpa using this
    · rw [if_neg h]
      have hcons : ('.' :: F') ≠ [] := by simp
      have hne : (if neg then ['-'] else []) ++ I ++ '.' :: F' ≠ [] := by simp
      rw [List.getLast?_eq_getLast _ hne, List.getLast_append_of_ne_nil hcons,
        List.getLast_cons h]
      have := isDigit_ne_dot (hdig _ (List.getLast_mem h))
      simpa using this
  · intro neg₀ mant₀ exp₀
    obtain ⟨I₀, F₀, h₁, h₂, h₃, h₄, h₅, _⟩ := Sprintf_f_finite neg₀ mant₀ exp₀
    exact ⟨I₀, F₀, h₁, h₂, h₃, h₄, h₅⟩

theorem trim_fixed_point_witness :
    formatFloatWithoutZeroTrail f64_100 = "100" ∧
    Sprintf_f f64_neg_12_503 = "-12.503000" ∧
    formatFloatWithoutZeroTrail f64_neg_12_503 = "-12.503" ∧
    decimalValue (formatFloatWithoutZeroTrail f64_neg_12_503) =
      decimalValue (Sprintf_f f64_neg_12_503) :=
  ⟨(trim_fixed_point f64_100 false ['1', '0', '0'] ['0', '0', '0', '0', '0', '0']
      (by decide) (by decide) (by decide) (by decide) (by decide)).1 (by decide),
   by decide,
   by decide,
   (trim_fixed_point f64_neg_12_503 true ['1', '2'] ['5', '0', '3', '0', '0', '0']
      (by decide) (by decide) (by decide) (by decide) (by decide)).2.2.2.2.1⟩

theorem micros_small (mant : Nat) (exp : Int)
    (h : (mant : ℚ) * (2 : ℚ) ^ exp < 1 / (2 * 10 ^ 6)) : micros mant exp = 0 := by
  cases exp with
  | ofNat e =>
    have hm : mant = 0 := by
      by_contra hne
      have h1 : (1 : ℚ) ≤ (mant : ℚ) := by exact_mod_cast Nat.one_le_iff_ne_zero.2 hne
      have h2 : (1 : ℚ) ≤ (2 : ℚ) ^ (Int.ofNat e) := by
        simp only [Int.ofNat_eq_coe, zpow_natCast]
        exact one_le_pow₀ (by norm_num)
      have h3 : (1 : ℚ) ≤ (mant : ℚ) * (2 : ℚ) ^ (Int.ofNat e) := by
        calc (1 : ℚ) = 1 * 1 := by norm_num
          _ ≤ (mant : ℚ) * (2 : ℚ) ^ (Int.ofNat e) :=
            mul_le_mul h1 h2 (by norm_num) (by linarith)
      have : (1 : ℚ) / (2 * 10 ^ 6) < 1 := by norm_num
      linarith
    subst hm
    exact micros_zero _
  | negSucc e =>
    simp only [zpow_negSucc] at h
    have hden : (0 : ℚ) < (2 : ℚ) ^ (e + 1) := by positivity
    have hq : (2 : ℚ) * ((mant : ℚ) * 10 ^ 6) < (2 : ℚ) ^ (e + 1) := by
      have h' := (mul_lt_mul_right hden).2 h
      rw [mul_assoc, inv_mul_cancel₀ (ne_of_gt hden), mul_one] at h'
      have : (mant : ℚ) * (2 * 10 ^ 6) < (2 : ℚ) ^ (e + 1) := by
        have h6 : (0 : ℚ) < 2 * 10 ^ 6 := by positivity
        have h7 := (mul_lt_mul_right h6).2 h'
        have e2 : (1 / (2 * 10 ^ 6) * (2 : ℚ) ^ (e + 1)) * (2 * 10 ^ 6) =
            (2 : ℚ) ^ (e + 1) := by
          field_simp
        rw [e2] at h7
        exact h7
      linarith
    have hn : 2 * (mant * 10 ^ 6) < 2 ^ (e + 1) := by exact_mod_cast hq
    have hlt : mant * 10 ^ 6 < 2 ^ (e + 1) := by omega
    have hdiv : mant * 10 ^ 6 / 2 ^ (e + 1) = 0 := Nat.div_eq_of_lt hlt
    have hmod : mant * 10 ^ 6 % 2 ^ (e + 1) = mant * 10 ^ 6 := Nat.mod_eq_of_lt hlt
    simp only [micros, roundHalfEven, hdiv, hmod]
    rw [if_neg]
    rintro (hc | ⟨hc, _⟩) <;> omega

theorem formatFloatWithoutZeroTrail_of_micros_zero (neg : Bool) (mant : Nat) (exp : Int)
    (h : micros mant exp = 0) :
    formatFloatWithoutZeroTrail (Float64.finite neg mant exp) = (if neg then "-0" else "0") := by
  cases neg with
  | false =>
    have hS : Sprintf_f (Float64.finite false mant exp) = "0.000000" := by
      simp only [Sprintf_f, h]
      decide
    simp only [formatFloatWithoutZeroTrail, hS]
    decide
  | true =>
    have hS : Sprintf_f (Float64.finite true mant exp) = "-0.000000" := by
      simp only [Sprintf_f, h]
      decide
    simp only [formatFloatWithoutZeroTrail, hS]
    decide

/-- C8 (as amended): a finite amount is non-negative exactly when its sign bit is clear or
it is negative zero. For every finite amount with the sign bit clear the result of
`formatFloatWithoutZeroTrail` is a non-empty fixed-point numeral (digits with at most one
'.', hence no exponent) whose decimal value is the amount rounded to six decimal places
(to the nearest millionth, ties to even): it is within 0.0000005 of the amount and equals
the amount when the amount is a whole number of millionths; every such amount below
0.0000005, the non-zero ones like 0.00000001 included, is formatted as "0". Negative zero
is formatted as "-0", whose decimal value is 0. -/
theorem formatFloatWithoutZeroTrail_six_decimals (mant : Nat) (exp : Int) :
    (formatFloatWithoutZeroTrail (Float64.finite false mant exp)).data ≠ [] ∧
    (∀ c ∈ (formatFloatWithoutZeroTrail (Float64.finite false mant exp)).data,
      c.isDigit = true ∨ c = '.') ∧
    (formatFloatWithoutZeroTrail (Float64.finite false mant exp)).data.count '.' ≤ 1 ∧
    decimalValue (formatFloatWithoutZeroTrail (Float64.finite false mant exp)) =
      (micros mant exp : ℚ) / 10 ^ 6 ∧
    |decimalValue (formatFloatWithoutZeroTrail (Float64.finite false mant exp)) -
      (Float64.finite false mant exp).toRat| ≤ 1 / (2 * 10 ^ 6) ∧
    (∀ n : ℕ, (Float64.finite false mant exp).toRat * 10 ^ 6 = (n : ℚ) →
      decimalValue (formatFloatWithoutZeroTrail (Float64.finite false mant exp)) =
        (Float64.finite false mant exp).toRat) ∧
    ((Float64.finite false mant exp).toRat < 1 / (2 * 10 ^ 6) →
      formatFloatWithoutZeroTrail (Float64.finite false mant exp) = "0") ∧
    (formatFloatWithoutZeroTrail (Float64.finite true 0 exp) = "-0" ∧
      (Float64.finite true 0 exp).toRat = 0 ∧ decimalValue "-0" = 0) ∧
    (∀ (neg₀ : Bool) (mant₀ : Nat) (exp₀ : Int),
      0 ≤ (Float64.finite neg₀ mant₀ exp₀).toRat ↔ (neg₀ = false ∨ mant₀ = 0)) ∧
    0 < f64_1e_8.toRat ∧
    f64_1e_8.toRat < 1 / (2 * 10 ^ 6) ∧
    formatFloatWithoutZeroTrail f64_1e_8 = "0" := by
  obtain ⟨I, F, hI, hId, hF6, hFd, hS, hv⟩ := Sprintf_f_finite false mant exp
  obtain ⟨F', k, hFk, hlast, hdig, hzero, ht, hval⟩ := trim_spec false I F hI hId hFd
  have hfmt : formatFloatWithoutZeroTrail (Float64.finite false mant exp) =
      String.mk (if F' = [] then (if false then ['-'] else []) ++ I
        else (if false then ['-'] else []) ++ I ++ '.' :: F') := by
    simp only [formatFloatWithoutZeroTrail, hS]
    exact ht
  have hvalue : decimalValue (formatFloatWithoutZeroTrail (Float64.finite false mant exp)) =
      (micros mant exp : ℚ) / 10 ^ 6 := by
    rw [hfmt, hval, decimalValue_signed false I ('.' :: F) hI hId,
      decimalMagnitude_fixed I F hId, hv]
    simp
  have hrat : (Float64.finite false mant exp).toRat = (mant : ℚ) * (2 : ℚ) ^ exp := by
    simp [Float64.toRat]
  have hclose : |decimalValue (formatFloatWithoutZeroTrail (Float64.finite false mant exp)) -
      (Float64.finite false mant exp).toRat| ≤ 1 / (2 * 10 ^ 6) := by
    rw [hvalue, hrat]
    exact micros_close mant exp
  have hnodot : ∀ l : List Char, (∀ c ∈ l, c.isDigit = true) → l.count '.' = 0 := by
    intro l hl
    rw [List.count_eq_zero]
    intro hmem
    exact isDigit_ne_dot (hl _ hmem) rfl
  refine ⟨?_, ?_, ?_, hvalue, hclose, ?_, ?_, ?_, ?_, ?_, ?_, by decide⟩
  · rw [hfmt]
    by_cases h : F' = []
    · simpa [h] using hI
    · simp [h]
  · rw [hfmt]
    intro c hc
    by_cases h : F' = []
    · simp only [h, if_true, Bool.false_eq_true, if_false, List.nil_append] at hc
      exact Or.inl (hId c hc)
    · simp only [h, if_false, Bool.false_eq_true, List.nil_append, List.mem_append,
        List.mem_cons] at hc
      rcases hc with hc | hc | hc
      · exact Or.inl (hId c hc)
      · exact Or.inr hc
      · exact Or.inl (hdig c hc)
  · rw [hfmt]
    by_cases h : F' = []
    · simp only [h, if_true, Bool.false_eq_true, if_false, List.nil_append]
      rw [hnodot I hId]
      omega
    · simp only [h, if_false, Bool.false_eq_true, List.nil_append, List.count_append,
        List.count_cons_self]
      rw [hnodot I hId, hnodot F' hdig]
  · intro n hn
    rw [hvalue]
    rw [hvalue] at hclose
    have h6 : (0 : ℚ) < 10 ^ 6 := by positivity
    have hx : (Float64.finite false mant exp).toRat = (n : ℚ) / 10 ^ 6 := by
      rw [← hn]
      field_simp
    rw [hx] at hclose ⊢
    rw [← sub_div, abs_div, abs_of_pos h6, div_le_iff₀ h6] at hclose
    have hlt : |(micros mant exp : ℚ) - (n : ℚ)| < 1 := by
      calc |(micros mant exp : ℚ) - (n : ℚ)| ≤ 1 / (2 * 10 ^ 6) * 10 ^ 6 := hclose
        _ < 1 := by norm_num
    have hint : |((micros mant exp : ℤ) - (n : ℤ))| < 1 := by
      exact_mod_cast hlt
    have heq : (micros mant exp : ℤ) = (n : ℤ) := by
      have := Int.abs_lt_one_iff.mp hint
      omega
    have heq' : micros mant exp = n := by exact_mod_cast heq
    rw [heq']
  · intro hsmall
    rw [hrat] at hsmall
    have h := formatFloatWithoutZeroTrail_of_micros_zero false mant exp
      (micros_small mant exp hsmall)
    simpa using h
  · refine ⟨?_, ?_, ?_⟩
    · have h := formatFloatWithoutZeroTrail_of_micros_zero true 0 exp (micros_zero exp)
      simpa using h
    · simp [Float64.toRat]
    · simp [decimalValue, decimalMagnitude, digitsValue]
  · intro neg₀ mant₀ exp₀
    have hpow : (0 : ℚ) < (2 : ℚ) ^ exp₀ := zpow_pos (by norm_num) _
    cases neg₀ with
    | false =>
      simp only [Float64.toRat, Bool.false_eq_true, if_false, one_mul, true_or, iff_true]
      positivity
    | true =>
      simp only [Float64.toRat, if_true, Bool.true_eq_false, false_or]
      constructor
      · intro h
        by_contra hne
        have hm : (0 : ℚ) < (mant₀ : ℚ) := by exact_mod_cast Nat.pos_of_ne_zero hne
        have : (0 : ℚ) < (mant₀ : ℚ) * (2 : ℚ) ^ exp₀ := mul_pos hm hpow
        linarith
      · intro h
        subst h
        simp
  · simp only [f64_1e_8, Float64.toRat, Bool.false_eq_true, if_false, one_mul]
    positivity
  · simp only [f64_1e_8, Float64.toRat, Bool.false_eq_true, if_false, one_mul]
    rw [show ((-79 : Int)) = -((79 : Nat) : Int) by norm_num, zpow_neg, zpow_natCast]
    norm_num

/-- C8 (counterexample): 0.00000001 is a finite, non-negative, non-zero amount, it is
formatted as "0", and the decimal value of that string is not the amount. -/
theorem formatFloatWithoutZeroTrail_not_exact :
    f64_1e_8 = Float64.finite false 6044629098073146 (-79) ∧
    0 < f64_1e_8.toRat ∧
    formatFloatWithoutZeroTrail f64_1e_8 = "0" ∧
    decimalValue (formatFloatWithoutZeroTrail f64_1e_8) ≠ f64_1e_8.toRat := by
  have hfmt : formatFloatWithoutZeroTrail f64_1e_8 = "0" := by decide
  have hpos : 0 < f64_1e_8.toRat := by
    simp only [f64_1e_8, Float64.toRat, Bool.false_eq_true, if_false, one_mul]
    positivity
  refine ⟨rfl, hpos, hfmt, ?_⟩
  rw [hfmt]
  have h0 : decimalValue "0" = 0 := by
    simp [decimalValue, decimalMagnitude, digitsValue]
  rw [h0]
  exact ne_of_lt hpos

/-! ### Payload maps and their serialization -/

theorem lookup_set (payload : Payload) (key : String) (v : Value) (k : String) :
    (payload.set key v).lookup k = if k = key then some v else payload.lookup k := by
  by_cases h : k = key
  · subst h
    simp [Payload.set]
  · simp [Payload.set, h, AList.lookup_insert_ne h]

theorem mem_keys_set (payload : Payload) (key : String) (v : Value) (k : String) :
    k ∈ (payload.set key v).keys ↔ k = key ∨ k ∈ payload.keys := by
  have h := @AList.mem_insert String (fun _ => Value) _ k key v payload
  simp only [AList.mem_keys] at h
  rw [Payload.set, h]

theorem mem_keys_iff_lookup (payload : Payload) (k : String) :
    k ∈ payload.keys ↔ (payload.lookup k).isSome = true := by
  rw [AList.lookup_isSome, AList.mem_keys]

/-- Two payloads with the same content have the same sorted key list, whatever the order
of their entries. -/
theorem sortedKeys_congr (p₁ p₂ : Payload) (h : ∀ k, p₁.lookup k = p₂.lookup k) :
    sortedKeys p₁ = sortedKeys p₂ := by
  have hperm : p₁.keys.Perm p₂.keys := by
    rw [List.perm_ext_iff_of_nodup p₁.keys_nodup p₂.keys_nodup]
    intro k
    rw [mem_keys_iff_lookup, mem_keys_iff_lookup, h k]
  exact List.eq_of_perm_of_sorted
    (((List.perm_insertionSort keyLE p₁.keys).trans hperm).trans
      (List.perm_insertionSort keyLE p₂.keys).symm)
    (List.sorted_insertionSort keyLE _) (List.sorted_insertionSort keyLE _)

theorem marshalMember_congr (lib : Lib) (p₁ p₂ : Payload)
    (h : ∀ k, p₁.lookup k = p₂.lookup k) (k : String) :
    marshalMember lib p₁ k = marshalMember lib p₂ k := by
  simp only [marshalMember, h k]

theorem marshal_congr (lib : Lib) (p₁ p₂ : Payload) (h : ∀ k, p₁.lookup k = p₂.lookup k) :
    marshal lib p₁ = marshal lib p₂ := by
  have hf : marshalMember lib p₁ = marshalMember lib p₂ :=
    funext (marshalMember_congr lib p₁ p₂ h)
  have hms : ∀ keys, marshalMembers lib p₁ keys = marshalMembers lib p₂ keys := by
    intro keys
    induction keys with
    | nil => rfl
    | cons a l ih => simp only [marshalMembers, hf, ih]
  simp only [marshal, sortedKeys_congr p₁ p₂ h, hms]

theorem set_congr (p₁ p₂ : Payload) (h : ∀ k, p₁.lookup k = p₂.lookup k) (key : String)
    (v : Value) : ∀ k, (p₁.set key v).lookup k = (p₂.set key v).lookup k := by
  intro k
  rw [lookup_set, lookup_set, h k]

theorem marshalMembers_isSome (lib : Lib) (payload : Payload) (keys : List String)
    (h : ∀ k ∈ keys, (marshalMember lib payload k).isSome = true) :
    (marshalMembers lib payload keys).isSome = true := by
  induction keys with
  | nil => simp [marshalMembers]
  | cons a l ih =>
    obtain ⟨b, hb⟩ := Option.isSome_iff_exists.mp (h a (by simp))
    obtain ⟨bs, hbs⟩ := Option.isSome_iff_exists.mp (ih (fun x hx => h x (by simp [hx])))
    simp [marshalMembers, hb, hbs]

/-- `json.Marshal` succeeds on a payload all of whose values have an encoding. -/
theorem marshal_isSome (lib : Lib) (payload : Payload)
    (h : ∀ k v, payload.lookup k = some v → (marshalValue lib v).isSome = true) :
    (marshal lib payload).isSome = true := by
  have hm : ∀ k ∈ sortedKeys payload, (marshalMember lib payload k).isSome = true := by
    intro k hk
    have hk' : k ∈ payload.keys :=
      (List.perm_insertionSort keyLE payload.keys).subset hk
    obtain ⟨v, hv⟩ := Option.isSome_iff_exists.mp ((mem_keys_iff_lookup payload k).mp hk')
    obtain ⟨e, he⟩ := Option.isSome_iff_exists.mp (h k v hv)
    simp [marshalMember, hv, he]
  obtain ⟨ms, hms⟩ := Option.isSome_iff_exists.mp (marshalMembers_isSome _ _ _ hm)
  simp [marshal, hms]

/-! ### sigPayload -/

/-- The shape of a successful `sigPayload` call: both serializations exist, the first is
the one that is signed, the second is returned, and the map is left with both keys set. -/
theorem sigPayload_ok (lib : Lib) (b : bitkubApi) (now : Time) (p : Payload)
    (signedBytes body : String)
    (h₁ : marshal lib (p.set "ts" (Value.int (wrapInt64 (now.Unix * 1000)))) = some signedBytes)
    (h₂ : marshal lib ((p.set "ts" (Value.int (wrapInt64 (now.Unix * 1000)))).set "sig"
      (Value.str (hexEncode (lib.hmacSha256 b.ApiSecret signedBytes)))) = some body) :
    sigPayload lib b now p = (Except.ok body,
      (p.set "ts" (Value.int (wrapInt64 (now.Unix * 1000)))).set "sig"
        (Value.str (hexEncode (lib.hmacSha256 b.ApiSecret signedBytes)))) := by
  simp only [sigPayload, h₁, h₂]

/-- A successful `sigPayload` call went through both serializations. -/
theorem sigPayload_ok_inv (lib : Lib) (b : bitkubApi) (now : Time) (p : Payload)
    (body : String) (h : (sigPayload lib b now p).1 = Except.ok body) :
    ∃ signedBytes : String,
      marshal lib (p.set "ts" (Value.int (wrapInt64 (now.Unix * 1000)))) = some signedBytes ∧
      marshal lib ((p.set "ts" (Value.int (wrapInt64 (now.Unix * 1000)))).set "sig"
        (Value.str (hexEncode (lib.hmacSha256 b.ApiSecret signedBytes)))) = some body := by
  simp only [sigPayload] at h
  cases h₁ : marshal lib (p.set "ts" (Value.int (wrapInt64 (now.Unix * 1000)))) with
  | none =>
    rw [h₁] at h
    simp at h
  | some signedBytes =>
    rw [h₁] at h
    simp only at h
    cases h₂ : marshal lib ((p.set "ts" (Value.int (wrapInt64 (now.Unix * 1000)))).set "sig"
        (Value.str (hexEncode (lib.hmacSha256 b.ApiSecret signedBytes)))) with
    | none =>
      rw [h₂] at h
      simp at h
    | some body' =>
      rw [h₂] at h
      simp only [Except.ok.injEq] at h
      exact ⟨signedBytes, rfl, by rw [h₂, h]⟩

theorem sigPayload_lookup_ts (lib : Lib) (b : bitkubApi) (now : Time) (p : Payload) :
    (sigPayload lib b now p).2.lookup "ts" = some (Value.int (wrapInt64 (now.Unix * 1000))) := by
  have hne : ("ts" : String) ≠ "sig" := by decide
  simp only [sigPayload]
  cases marshal lib (p.set "ts" (Value.int (wrapInt64 (now.Unix * 1000)))) with
  | none => simp [lookup_set]
  | some signedBytes =>
    simp only
    cases marshal lib ((p.set "ts" (Value.int (wrapInt64 (now.Unix * 1000)))).set "sig"
        (Value.str (hexEncode (lib.hmacSha256 b.ApiSecret signedBytes)))) with
    | none => simp [lookup_set, hne]
    | some body => simp [lookup_set, hne]

/-- C1: for every secret, clock reading and parameter map without a "sig" key whose
values all have a JSON encoding, `sigPayload` succeeds and returns
`marshal(p + {ts: T, sig: S})`, where `T` is the timestamp taken from the one clock reading
and `S = hex(HMAC-SHA256(secret, marshal(p + {ts: T})))`. The signed map holds "ts" and no
"sig"; the transmitted map holds both, with the same `T`. -/
theorem sigPayload_body (lib : Lib) (b : bitkubApi) (now : Time) (p : Payload) (T : Int)
    (hT : T = wrapInt64 (now.Unix * 1000))
    (hsig : p.lookup "sig" = none)
    (henc : ∀ k v, p.lookup k = some v → (marshalValue lib v).isSome = true) :
    ∃ (signedBytes body S : String),
      marshal lib (p.set "ts" (Value.int T)) = some signedBytes ∧
      S = hexEncode (lib.hmacSha256 b.ApiSecret signedBytes) ∧
      marshal lib ((p.set "ts" (Value.int T)).set "sig" (Value.str S)) = some body ∧
      (sigPayload lib b now p).1 = Except.ok body ∧
      (p.set "ts" (Value.int T)).lookup "ts" = some (Value.int T) ∧
      (p.set "ts" (Value.int T)).lookup "sig" = none ∧
      "ts" ∈ sortedKeys (p.set "ts" (Value.int T)) ∧
      "sig" ∉ sortedKeys (p.set "ts" (Value.int T)) ∧
      ((p.set "ts" (Value.int T)).set "sig" (Value.str S)).lookup "ts" = some (Value.int T) ∧
      ((p.set "ts" (Value.int T)).set "sig" (Value.str S)).lookup "sig" = some (Value.str S) ∧
      "ts" ∈ sortedKeys ((p.set "ts" (Value.int T)).set "sig" (Value.str S)) ∧
      "sig" ∈ sortedKeys ((p.set "ts" (Value.int T)).set "sig" (Value.str S)) := by
  have hne : ("ts" : String) ≠ "sig" := by decide
  have hne' : ("sig" : String) ≠ "ts" := by decide
  have hsorted : ∀ (m : Payload) (k : String),
      k ∈ sortedKeys m ↔ (m.lookup k).isSome = true := by
    intro m k
    rw [← mem_keys_iff_lookup]
    exact (List.perm_insertionSort keyLE m.keys).mem_iff
  have henc₁ : ∀ k v, (p.set "ts" (Value.int T)).lookup k = some v →
      (marshalValue lib v).isSome = true := by
    intro k v hk
    rw [lookup_set] at hk
    by_cases h : k = "ts"
    · rw [if_pos h] at hk
      cases hk
      rfl
    · rw [if_neg h] at hk
      exact henc k v hk
  obtain ⟨signedBytes, h₁⟩ := Option.isSome_iff_exists.mp (marshal_isSome lib _ henc₁)
  have henc₂ : ∀ k v, ((p.set "ts" (Value.int T)).set "sig"
      (Value.str (hexEncode (lib.hmacSha256 b.ApiSecret signedBytes)))).lookup k = some v →
      (marshalValue lib v).isSome = true := by
    intro k v hk
    rw [lookup_set] at hk
    by_cases h : k = "sig"
    · rw [if_pos h] at hk
      cases hk
      rfl
    · rw [if_neg h] at hk
      exact henc₁ k v hk
  obtain ⟨body, h₂⟩ := Option.isSome_iff_exists.mp (marshal_isSome lib _ henc₂)
  refine ⟨signedBytes, body, hexEncode (lib.hmacSha256 b.ApiSecret signedBytes), h₁, rfl, h₂,
    ?_, ?_, ?_, ?_, ?_, ?_, ?_, ?_, ?_⟩
  · subst hT
    rw [sigPayload_ok lib b now p signedBytes body h₁ h₂]
  · simp [lookup_set]
  · simp [lookup_set, hne', hsig]
  · rw [hsorted]
    simp [lookup_set]
  · rw [hsorted]
    simp [lookup_set, hne', hsig]
  · simp [lookup_set, hne]
  · simp [lookup_set]
  · rw [hsorted]
    simp [lookup_set, hne]
  · rw [hsorted]
    simp [lookup_set]

theorem sigPayload_body_witness :
    ∃ (signedBytes body S : String),
      marshal plainLib (((∅ : Payload).set "sym" (Value.str "THB_BTC")).set "ts"
        (Value.int 1627000000000)) = some signedBytes ∧
      S = hexEncode (plainLib.hmacSha256 "secret" signedBytes) ∧
      marshal plainLib ((((∅ : Payload).set "sym" (Value.str "THB_BTC")).set "ts"
        (Value.int 1627000000000)).set "sig" (Value.str S)) = some body ∧
      (sigPayload plainLib (NewBitkub "key" "secret" []) ⟨1627000000, 0⟩
        ((∅ : Payload).set "sym" (Value.str "THB_BTC"))).1 = Except.ok body := by
  obtain ⟨signedBytes, body, S, h₁, h₂, h₃, h₄, _⟩ :=
    sigPayload_body plainLib (NewBitkub "key" "secret" []) ⟨1627000000, 0⟩
      ((∅ : Payload).set "sym" (Value.str "THB_BTC")) 1627000000000 (by decide) (by decide)
      (by
        intro k v hk
        rw [lookup_set] at hk
        by_cases h : k = "sym"
        · rw [if_pos h] at hk
          cases hk
          rfl
        · rw [if_neg h] at hk
          simp at hk)
  exact ⟨signedBytes, body, S, h₁, h₂, h₃, h₄⟩

/-- C2: `sigPayload` is a function of the secret, the clock reading and the content of the
map. Two maps with the same content (the same value under every key), in whatever order
their entries were inserted, give the same returned body and the same "sig" for the same
clock reading; `json.Marshal` gives the same bytes for both, because it emits the keys in
one order, sorted, that depends on the key set alone. -/
theorem sigPayload_deterministic (lib : Lib) (b : bitkubApi) (now : Time) (p₁ p₂ : Payload)
    (h : ∀ k, p₁.lookup k = p₂.lookup k) :
    (sigPayload lib b now p₁).1 = (sigPayload lib b now p₂).1 ∧
    (sigPayload lib b now p₁).2.lookup "sig" = (sigPayload lib b now p₂).2.lookup "sig" ∧
    (∀ k, (sigPayload lib b now p₁).2.lookup k = (sigPayload lib b now p₂).2.lookup k) ∧
    marshal lib p₁ = marshal lib p₂ ∧
    sortedKeys p₁ = sortedKeys p₂ ∧
    (sortedKeys p₁).Sorted keyLE ∧
    (sortedKeys p₁).Perm p₁.keys := by
  have hts := set_congr p₁ p₂ h "ts" (Value.int (wrapInt64 (now.Unix * 1000)))
  have hm₁ := marshal_congr lib _ _ hts
  have hall : (sigPayload lib b now p₁).1 = (sigPayload lib b now p₂).1 ∧
      ∀ k, (sigPayload lib b now p₁).2.lookup k = (sigPayload lib b now p₂).2.lookup k := by
    simp only [sigPayload, ← hm₁]
    cases marshal lib (p₁.set "ts" (Value.int (wrapInt64 (now.Unix * 1000)))) with
    | none => exact ⟨rfl, hts⟩
    | some signedBytes =>
      have hsig := set_congr _ _ hts "sig"
        (Value.str (hexEncode (lib.hmacSha256 b.ApiSecret signedBytes)))
      have hm₂ := marshal_congr lib _ _ hsig
      simp only [← hm₂]
      cases marshal lib ((p₁.set "ts" (Value.int (wrapInt64 (now.Unix * 1000)))).set "sig"
          (Value.str (hexEncode (lib.hmacSha256 b.ApiSecret signedBytes)))) with
      | none => exact ⟨rfl, hsig⟩
      | some body => exact ⟨rfl, hsig⟩
  exact ⟨hall.1, hall.2 "sig", hall.2, marshal_congr lib p₁ p₂ h, sortedKeys_congr p₁ p₂ h,
    List.sorted_insertionSort keyLE _, List.perm_insertionSort keyLE _⟩

theorem sigPayload_deterministic_witness :
    (((∅ : Payload).set "sym" (Value.str "THB_BTC")).set "amt" (Value.str "1.5")).entries ≠
      (((∅ : Payload).set "amt" (Value.str "1.5")).set "sym" (Value.str "THB_BTC")).entries ∧
    (sigPayload plainLib (NewBitkub "key" "secret" []) ⟨1627000000, 0⟩
      (((∅ : Payload).set "sym" (Value.str "THB_BTC")).set "amt" (Value.str "1.5"))).1 =
    (sigPayload plainLib (NewBitkub "key" "secret" []) ⟨1627000000, 0⟩
      (((∅ : Payload).set "amt" (Value.str "1.5")).set "sym" (Value.str "THB_BTC"))).1 :=
  ⟨by decide,
   (sigPayload_deterministic plainLib (NewBitkub "key" "secret" []) ⟨1627000000, 0⟩
      (((∅ : Payload).set "sym" (Value.str "THB_BTC")).set "amt" (Value.str "1.5"))
      (((∅ : Payload).set "amt" (Value.str "1.5")).set "sym" (Value.str "THB_BTC"))
      (by
        intro k
        simp only [lookup_set]
        by_cases h₁ : k = "amt"
        · subst h₁
          simp
        · simp [h₁])).1⟩

/-- C9 (as amended): for every clock reading whose second count times 1000 fits in 64
bits, the value `sigPayload` stores under "ts" is 1000 times the number of whole seconds
since the epoch: the Unix-millisecond reading with the milliseconds inside the current
second dropped. It is at most the Unix-millisecond reading and less than 1000 below it, and
equal to it exactly when the reading is less than a millisecond into its second. -/
theorem sigPayload_ts_whole_seconds (lib : Lib) (b : bitkubApi) (now : Time) (p : Payload)
    (hlo : -2 ^ 63 ≤ now.Unix * 1000) (hhi : now.Unix * 1000 < 2 ^ 63) :
    (sigPayload lib b now p).2.lookup "ts" = some (Value.int (now.Unix * 1000)) ∧
    now.Unix * 1000 = now.UnixMilli - (now.nsec.val / 1000000 : Nat) ∧
    now.Unix * 1000 ≤ now.UnixMilli ∧
    now.UnixMilli < now.Unix * 1000 + 1000 ∧
    (now.Unix * 1000 = now.UnixMilli ↔ now.nsec.val < 1000000) := by
  have hw : wrapInt64 (now.Unix * 1000) = now.Unix * 1000 := by
    simp only [wrapInt64]
    omega
  have hn : now.nsec.val < 1000000000 := now.nsec.isLt
  refine ⟨?_, ?_, ?_, ?_, ?_⟩
  · rw [sigPayload_lookup_ts, hw]
  · simp only [Time.UnixMilli, Time.Unix]
    omega
  · simp only [Time.UnixMilli, Time.Unix]
    omega
  · simp only [Time.UnixMilli, Time.Unix]
    omega
  · simp only [Time.UnixMilli, Time.Unix]
    omega

theorem sigPayload_ts_whole_seconds_witness :
    (sigPayload plainLib (NewBitkub "key" "secret" []) ⟨1627000000, 999000000⟩ ∅).2.lookup "ts"
      = some (Value.int ((⟨1627000000, 999000000⟩ : Time).Unix * 1000)) :=
  (sigPayload_ts_whole_seconds plainLib (NewBitkub "key" "secret" [])
    ⟨1627000000, 999000000⟩ ∅ (by decide) (by decide)).1

/-- C9 (counterexample): one and a half seconds after the epoch the Unix-millisecond
reading is 1500 and the value stored under "ts" is 1000. -/
theorem sigPayload_ts_not_unix_milli :
    (⟨1, 500000000⟩ : Time).UnixMilli = 1500 ∧
    (sigPayload plainLib (NewBitkub "key" "secret" []) ⟨1, 500000000⟩ ∅).2.lookup "ts"
      = some (Value.int 1000) ∧
    (sigPayload plainLib (NewBitkub "key" "secret" []) ⟨1, 500000000⟩ ∅).2.lookup "ts"
      ≠ some (Value.int (⟨1, 500000000⟩ : Time).UnixMilli) := by
  refine ⟨by decide, ?_, ?_⟩
  · rw [sigPayload_lookup_ts]
    decide
  · rw [sigPayload_lookup_ts]
    decide

/-- C10: after a successful `sigPayload` call the caller's map has exactly the keys it had
before plus "ts" and "sig"; every other key keeps its value; "ts" holds the injected
timestamp whatever the caller had stored under it. -/
theorem sigPayload_frame (lib : Lib) (b : bitkubApi) (now : Time) (p : Payload)
    (body : String) (hok : (sigPayload lib b now p).1 = Except.ok body) :
    (∀ k, k ∈ (sigPayload lib b now p).2.keys ↔ (k ∈ p.keys ∨ k = "ts" ∨ k = "sig")) ∧
    (∀ k, k ≠ "ts" → k ≠ "sig" → (sigPayload lib b now p).2.lookup k = p.lookup k) ∧
    (sigPayload lib b now p).2.lookup "ts" =
      some (Value.int (wrapInt64 (now.Unix * 1000))) ∧
    (∃ S, (sigPayload lib b now p).2.lookup "sig" = some (Value.str S)) := by
  obtain ⟨signedBytes, h₁, h₂⟩ := sigPayload_ok_inv lib b now p body hok
  rw [sigPayload_ok lib b now p signedBytes body h₁ h₂]
  refine ⟨?_, ?_, ?_, ?_⟩
  · intro k
    simp only [mem_keys_set]
    tauto
  · intro k hts hsig
    simp only [lookup_set, if_neg hts, if_neg hsig]
  · have hne : ("ts" : String) ≠ "sig" := by decide
    simp [lookup_set, hne]
  · exact ⟨hexEncode (lib.hmacSha256 b.ApiSecret signedBytes), by simp [lookup_set]⟩

theorem sigPayload_frame_witness :
    (sigPayload plainLib (NewBitkub "key" "secret" []) ⟨1627000000, 0⟩
      (((∅ : Payload).set "ts" (Value.str "mine")).set "sym" (Value.str "THB_BTC"))).2.lookup
        "ts" = some (Value.int (wrapInt64 ((⟨1627000000, 0⟩ : Time).Unix * 1000))) :=
  (sigPayload_frame plainLib (NewBitkub "key" "secret" []) ⟨1627000000, 0⟩
    (((∅ : Payload).set "ts" (Value.str "mine")).set "sym" (Value.str "THB_BTC"))
    "\x7b\"sig\":\"0000000000000000000000000000000000000000000000000000000000000000\",\"sym\":\"THB_BTC\",\"ts\":1627000000000\x7d"
    rfl).2.2.1

/-! ### The error gate of the market operations -/

theorem getMarketResult_error (lib : Lib) (env : Env) (b : bitkubApi) (url : String)
    (resp : Response) (c : Int) (r pag : Dyn)
    (htransport : ∀ req t, env.DoTimeout req t = Except.ok resp)
    (hstatus : resp.statusCode = 200)
    (hbody : lib.unmarshal ResponseType.DefaultResponse resp.body =
      some { Error := c, Result := r, Pagination := pag })
    (hc : c ≠ 0) :
    (getMarketResult lib env b url).outcome =
      Outcome.error (GoError.errorf (serverErrorText c (GetErrorMessage c))) := by
  simp [getMarketResult, Get, doRequest, htransport, hstatus, hbody, hc]

/-- C4: for `GetMarketTrades`, `GetMarketBids`, `GetMarketAsks` and `GetMarketBooks`, when
the transport answers with status 200 and the body decodes to an envelope with error code
`c ≠ 0`, the operation returns the error "got server error (c) : " followed by
`GetErrorMessage c`, whatever the result field holds: it does not panic and the outcome
does not depend on the result. For code 11 the text is
"got server error (11) : Invalid symbol". -/
theorem market_error_gate (lib : Lib) (env : Env) (b : bitkubApi) (symbol : String)
    (limit : Int) (resp : Response) (c : Int) (r pag : Dyn)
    (htransport : ∀ req t, env.DoTimeout req t = Except.ok resp)
    (hstatus : resp.statusCode = 200)
    (hbody : lib.unmarshal ResponseType.DefaultResponse resp.body =
      some { Error := c, Result := r, Pagination := pag })
    (hc : c ≠ 0) :
    (GetMarketTrades lib env b symbol limit).outcome =
      Outcome.error (GoError.errorf
        ("got server error (" ++ toString c ++ ") : " ++ GetErrorMessage c)) ∧
    (GetMarketBids lib env b symbol limit).outcome =
      Outcome.error (GoError.errorf
        ("got server error (" ++ toString c ++ ") : " ++ GetErrorMessage c)) ∧
    (GetMarketAsks lib env b symbol limit).outcome =
      Outcome.error (GoError.errorf
        ("got server error (" ++ toString c ++ ") : " ++ GetErrorMessage c)) ∧
    (GetMarketBooks lib env b symbol limit).outcome =
      Outcome.error (GoError.errorf
        ("got server error (" ++ toString c ++ ") : " ++ GetErrorMessage c)) ∧
    "got server error (" ++ toString (11 : Int) ++ ") : " ++ GetErrorMessage 11 =
      "got server error (11) : Invalid symbol" := by
  have h := fun url => getMarketResult_error lib env b url resp c r pag htransport hstatus
    hbody hc
  simp only [serverErrorText] at h
  refine ⟨?_, ?_, ?_, ?_, by decide⟩
  · simp only [GetMarketTrades, Run.decode, h]
  · simp only [GetMarketBids, Run.decode, h]
  · simp only [GetMarketAsks, Run.decode, h]
  · simp only [GetMarketBooks, Run.decode, h]

theorem market_error_gate_witness :
    (GetMarketTrades (decodingLib { Error := 11, Result := Dyn.null, Pagination := Dyn.null })
        (answering ⟨1627000000, 0⟩ { statusCode := 200, body := "", text := "" })
        (NewBitkub "" "" []) "THB_BTC" 10).outcome =
      Outcome.error (GoError.errorf
        ("got server error (" ++ toString (11 : Int) ++ ") : " ++ GetErrorMessage 11)) :=
  (market_error_gate (decodingLib { Error := 11, Result := Dyn.null, Pagination := Dyn.null })
    (answering ⟨1627000000, 0⟩ { statusCode := 200, body := "", text := "" })
    (NewBitkub "" "" []) "THB_BTC" 10 { statusCode := 200, body := "", text := "" } 11
    Dyn.null Dyn.null (fun _ _ => rfl) rfl rfl (by decide)).1

/-! ### The credentials gate of the private operations -/

/-- C5: each of the 24 private operations, for all its other arguments, returns the error
"api key is empty" when the API key is empty, and "api secret is empty" when the key is
not empty and the secret is; in both cases no payload is handed to `sigPayload` and no
request is handed to the transport. -/
theorem private_credentials_gate (lib : Lib) (env : Env) (b : bitkubApi) :
    (b.ApiKey = "" →
      ((GetWallet lib env b).failedLocally "api key is empty") ∧
      ((GetBalances lib env b).failedLocally "api key is empty") ∧
      (∀ symbol bitType amount rate clientID, (PlaceBid lib env b symbol bitType amount rate clientID).failedLocally "api key is empty") ∧
      (∀ symbol bitType amount rate clientID, (PlaceBidTest lib env b symbol bitType amount rate clientID).failedLocally "api key is empty") ∧
      (∀ symbol bitType amount rate clientID, (PlaceAsk lib env b symbol bitType amount rate clientID).failedLocally "api key is empty") ∧
      (∀ symbol bitType amount rate clientID, (PlaceAskTest lib env b symbol bitType amount rate clientID).failedLocally "api key is empty") ∧
      (∀ symbol bitType amount rate, (PlaceAskByFiat lib env b symbol bitType amount rate).failedLocally "api key is empty") ∧
      (∀ symbol side hash id, (CancelOrder lib env b symbol side hash id).failedLocally "api key is empty") ∧
      (∀ symbol, (GetOpenOrder lib env b symbol).failedLocally "api key is empty") ∧
      (∀ symbol page limit start end_, (GetOrderHistory lib env b symbol page limit start end_).failedLocally "api key is empty") ∧
      (∀ symbol side hash id, (GetOrderInfo lib env b symbol side hash id).failedLocally "api key is empty") ∧
      (∀ page limit, (GetCryptoAddresses lib env b page limit).failedLocally "api key is empty") ∧
      (∀ currency address amount memo, (CryptoWithdraw lib env b currency address amount memo).failedLocally "api key is empty") ∧
      (∀ currency address amount memo, (CryptoInternalWithdraw lib env b currency address amount memo).failedLocally "api key is empty") ∧
      (∀ page limit, (GetCryptoDepositHistory lib env b page limit).failedLocally "api key is empty") ∧
      (∀ page limit, (GetCryptoWithdrawHistory lib env b page limit).failedLocally "api key is empty") ∧
      (∀ symbol, (CryptoGenerateAddress lib env b symbol).failedLocally "api key is empty") ∧
      (∀ page limit, (GetBankAccounts lib env b page limit).failedLocally "api key is empty") ∧
      (∀ bankID amount, (FiatWithdraw lib env b bankID amount).failedLocally "api key is empty") ∧
      (∀ page limit, (GetFiatDepositHistory lib env b page limit).failedLocally "api key is empty") ∧
      (∀ page limit, (GetFiatWithdrawHistory lib env b page limit).failedLocally "api key is empty") ∧
      ((GetWebSocketToken lib env b).failedLocally "api key is empty") ∧
      ((GetUserLimits lib env b).failedLocally "api key is empty") ∧
      ((GetUserTradingCredits lib env b).failedLocally "api key is empty")) ∧
    (b.ApiKey ≠ "" → b.ApiSecret = "" →
      ((GetWallet lib env b).failedLocally "api secret is empty") ∧
      ((GetBalances lib env b).failedLocally "api secret is empty") ∧
      (∀ symbol bitType amount rate clientID, (PlaceBid lib env b symbol bitType amount rate clientID).failedLocally "api secret is empty") ∧
      (∀ symbol bitType amount rate clientID, (PlaceBidTest lib env b symbol bitType amount rate clientID).failedLocally "api secret is empty") ∧
      (∀ symbol bitType amount rate clientID, (PlaceAsk lib env b symbol bitType amount rate clientID).failedLocally "api secret is empty") ∧
      (∀ symbol bitType amount rate clientID, (PlaceAskTest lib env b symbol bitType amount rate clientID).failedLocally "api secret is empty") ∧
      (∀ symbol bitType amount rate, (PlaceAskByFiat lib env b symbol bitType amount rate).failedLocally "api secret is empty") ∧
      (∀ symbol side hash id, (CancelOrder lib env b symbol side hash id).failedLocally "api secret is empty") ∧
      (∀ symbol, (GetOpenOrder lib env b symbol).failedLocally "api secret is empty") ∧
      (∀ symbol page limit start end_, (GetOrderHistory lib env b symbol page limit start end_).failedLocally "api secret is empty") ∧
      (∀ symbol side hash id, (GetOrderInfo lib env b symbol side hash id).failedLocally "api secret is empty") ∧
      (∀ page limit, (GetCryptoAddresses lib env b page limit).failedLocally "api secret is empty") ∧
      (∀ currency address amount memo, (CryptoWithdraw lib env b currency address amount memo).failedLocally "api secret is empty") ∧
      (∀ currency address amount memo, (CryptoInternalWithdraw lib env b currency address amount memo).failedLocally "api secret is empty") ∧
      (∀ page limit, (GetCryptoDepositHistory lib env b page limit).failedLocally "api secret is empty") ∧
      (∀ page limit, (GetCryptoWithdrawHistory lib env b page limit).failedLocally "api secret is empty") ∧
      (∀ symbol, (CryptoGenerateAddress lib env b symbol).failedLocally "api secret is empty") ∧
      (∀ page limit, (GetBankAccounts lib env b page limit).failedLocally "api secret is empty") ∧
      (∀ bankID amount, (FiatWithdraw lib env b bankID amount).failedLocally "api secret is empty") ∧
      (∀ page limit, (GetFiatDepositHistory lib env b page limit).failedLocally "api secret is empty") ∧
      (∀ page limit, (GetFiatWithdrawHistory lib env b page limit).failedLocally "api secret is empty") ∧
      ((GetWebSocketToken lib env b).failedLocally "api secret is empty") ∧
      ((GetUserLimits lib env b).failedLocally "api secret is empty") ∧
      ((GetUserTradingCredits lib env b).failedLocally "api secret is empty")) := by
  constructor
  · intro hkey
    refine ⟨?_, ?_, ?_, ?_, ?_, ?_, ?_, ?_, ?_, ?_, ?_, ?_, ?_, ?_, ?_, ?_, ?_, ?_, ?_, ?_, ?_, ?_, ?_, ?_⟩
    · simp [GetWallet, hkey, failLocal, Run.failedLocally]
    · simp [GetBalances, hkey, failLocal, Run.failedLocally]
    · intro symbol bitType amount rate clientID
      simp [PlaceBid, hkey, failLocal, Run.failedLocally]
    · intro symbol bitType amount rate clientID
      simp [PlaceBidTest, hkey, failLocal, Run.failedLocally]
    · intro symbol bitType amount rate clientID
      simp [PlaceAsk, hkey, failLocal, Run.failedLocally]
    · intro symbol bitType amount rate clientID
      simp [PlaceAskTest, hkey, failLocal, Run.failedLocally]
    · intro symbol bitType amount rate
      simp [PlaceAskByFiat, hkey, failLocal, Run.failedLocally]
    · intro symbol side hash id
      simp [CancelOrder, hkey, failLocal, Run.failedLocally]
    · intro symbol
      simp [GetOpenOrder, hkey, failLocal, Run.failedLocally]
    · intro symbol page limit start end_
      simp [GetOrderHistory, hkey, failLocal, Run.failedLocally]
    · intro symbol side hash id
      simp [GetOrderInfo, hkey, failLocal, Run.failedLocally]
    · intro page limit
      simp [GetCryptoAddresses, hkey, failLocal, Run.failedLocally]
    · intro currency address amount memo
      simp [CryptoWithdraw, hkey, failLocal, Run.failedLocally]
    · intro currency address amount memo
      simp [CryptoInternalWithdraw, hkey, failLocal, Run.failedLocally]
    · intro page limit
      simp [GetCryptoDepositHistory, hkey, failLocal, Run.failedLocally]
    · intro page limit
      simp [GetCryptoWithdrawHistory, hkey, failLocal, Run.failedLocally]
    · intro symbol
      simp [CryptoGenerateAddress, hkey, failLocal, Run.failedLocally]
    · intro page limit
      simp [GetBankAccounts, hkey, failLocal, Run.failedLocally]
    · intro bankID amount
      simp [FiatWithdraw, hkey, failLocal, Run.failedLocally]
    · intro page limit
      simp [GetFiatDepositHistory, hkey, failLocal, Run.failedLocally]
    · intro page limit
      simp [GetFiatWithdrawHistory, hkey, failLocal, Run.failedLocally]
    · simp [GetWebSocketToken, hkey, failLocal, Run.failedLocally]
    · simp [GetUserLimits, hkey, failLocal, Run.failedLocally]
    · simp [GetUserTradingCredits, hkey, failLocal, Run.failedLocally]
  · intro hkey hsecret
    refine ⟨?_, ?_, ?_, ?_, ?_, ?_, ?_, ?_, ?_, ?_, ?_, ?_, ?_, ?_, ?_, ?_, ?_, ?_, ?_, ?_, ?_, ?_, ?_, ?_⟩
    · simp [GetWallet, hkey, hsecret, failLocal, Run.failedLocally]
    · simp [GetBalances, hkey, hsecret, failLocal, Run.failedLocally]
    · intro symbol bitType amount rate clientID
      simp [PlaceBid, hkey, hsecret, failLocal, Run.failedLocally]
    · intro symbol bitType amount rate clientID
      simp [PlaceBidTest, hkey, hsecret, failLocal, Run.failedLocally]
    · intro symbol bitType amount rate clientID
      simp [PlaceAsk, hkey, hsecret, failLocal, Run.failedLocally]
    · intro symbol bitType amount rate clientID
      simp [PlaceAskTest, hkey, hsecret, failLocal, Run.failedLocally]
    · intro symbol bitType amount rate
      simp [PlaceAskByFiat, hkey, hsecret, failLocal, Run.failedLocally]
    · intro symbol side hash id
      simp [CancelOrder, hkey, hsecret, failLocal, Run.failedLocally]
    · intro symbol
      simp [GetOpenOrder, hkey, hsecret, failLocal, Run.failedLocally]
    · intro symbol page limit start end_
      simp [GetOrderHistory, hkey, hsecret, failLocal, Run.failedLocally]
    · intro symbol side hash id
      simp [GetOrderInfo, hkey, hsecret, failLocal, Run.failedLocally]
    · intro page limit
      simp [GetCryptoAddresses, hkey, hsecret, failLocal, Run.failedLocally]
    · intro currency address amount memo
      simp [CryptoWithdraw, hkey, hsecret, failLocal, Run.failedLocally]
    · intro currency address amount memo
      simp [CryptoInternalWithdraw, hkey, hsecret, failLocal, Run.failedLocally]
    · intro page limit
      simp [GetCryptoDepositHistory, hkey, hsecret, failLocal, Run.failedLocally]
    · intro page limit
      simp [GetCryptoWithdrawHistory, hkey, hsecret, failLocal, Run.failedLocally]
    · intro symbol
      simp [CryptoGenerateAddress, hkey, hsecret, failLocal, Run.failedLocally]
    · intro page limit
      simp [GetBankAccounts, hkey, hsecret, failLocal, Run.failedLocally]
    · intro bankID amount
      simp [FiatWithdraw, hkey, hsecret, failLocal, Run.failedLocally]
    · intro page limit
      simp [GetFiatDepositHistory, hkey, hsecret, failLocal, Run.failedLocally]
    · intro page limit
      simp [GetFiatWithdrawHistory, hkey, hsecret, failLocal, Run.failedLocally]
    · simp [GetWebSocketToken, hkey, hsecret, failLocal, Run.failedLocally]
    · simp [GetUserLimits, hkey, hsecret, failLocal, Run.failedLocally]
    · simp [GetUserTradingCredits, hkey, hsecret, failLocal, Run.failedLocally]

theorem private_credentials_gate_witness :
    (CancelOrder plainLib (answering ⟨1627000000, 0⟩ ⟨200, "", ""⟩) (NewBitkub "" "secret" [])
      "THB_BTC" "buy" "" 7).failedLocally "api key is empty" ∧
    (FiatWithdraw plainLib (answering ⟨1627000000, 0⟩ ⟨200, "", ""⟩) (NewBitkub "key" "" [])
      "bank" f64_10).failedLocally "api secret is empty" :=
  ⟨(private_credentials_gate plainLib (answering ⟨1627000000, 0⟩ ⟨200, "", ""⟩)
      (NewBitkub "" "secret" [])).1 rfl |>.2.2.2.2.2.2.2.1 "THB_BTC" "buy" "" 7,
   (private_credentials_gate plainLib (answering ⟨1627000000, 0⟩ ⟨200, "", ""⟩)
      (NewBitkub "key" "" [])).2 (by decide) rfl
      |>.2.2.2.2.2.2.2.2.2.2.2.2.2.2.2.2.2.2.1 "bank" f64_10⟩

/-! ### The signature text and the members of the body -/

theorem hextable_getD_mem (i : Nat) (h : i < 16) :
    hextable.data.getD i '0' ∈ "0123456789abcdef".data := by
  interval_cases i <;> decide

theorem hexEncode_length (src : List UInt8) : (hexEncode src).length = 2 * src.length := by
  induction src with
  | nil => rfl
  | cons v rest ih =>
    simp only [hexEncode, String.length, List.map_cons, List.flatten_cons, List.length_append,
      List.length_cons, List.length_nil] at ih ⊢
    omega

theorem hexEncode_chars (src : List UInt8) :
    ∀ c ∈ (hexEncode src).data, c ∈ "0123456789abcdef".data := by
  intro c hc
  simp only [hexEncode, List.mem_flatten, List.mem_map] at hc
  obtain ⟨l, ⟨v, _, rfl⟩, hcl⟩ := hc
  have hv : v.toNat < 256 := v.toNat_lt
  simp only [List.mem_cons, List.mem_singleton, List.not_mem_nil, or_false] at hcl
  rcases hcl with rfl | rfl
  · exact hextable_getD_mem _ (by omega)
  · exact hextable_getD_mem _ (Nat.mod_lt _ (by decide))

theorem marshalMembers_mem (lib : Lib) (payload : Payload) (keys : List String) :
    ∀ ms, marshalMembers lib payload keys = some ms → ∀ k ∈ keys,
      ∃ m, marshalMember lib payload k = some m ∧ m ∈ ms := by
  induction keys with
  | nil => intro ms _ k hk; simp at hk
  | cons a l ih =>
    intro ms h k hk
    simp only [marshalMembers] at h
    cases ha : marshalMember lib payload a with
    | none => simp [ha] at h
    | some m =>
      cases hl : marshalMembers lib payload l with
      | none => simp [ha, hl] at h
      | some ml =>
        simp only [ha, hl, Option.some.injEq] at h
        subst h
        rcases List.mem_cons.mp hk with rfl | hk'
        · exact ⟨m, ha, by simp⟩
        · obtain ⟨m', hm', hmem⟩ := ih ml hl k hk'
          exact ⟨m', hm', by simp [hmem]⟩

theorem marshal_members (lib : Lib) (payload : Payload) (body : String)
    (h : marshal lib payload = some body) :
    ∃ ms, marshalMembers lib payload (sortedKeys payload) = some ms ∧
      body = "\x7b" ++ ",".intercalate ms ++ "\x7d" := by
  simp only [marshal] at h
  cases hm : marshalMembers lib payload (sortedKeys payload) with
  | none => simp [hm] at h
  | some ms =>
    simp only [hm, Option.some.injEq] at h
    exact ⟨ms, rfl, h.symm⟩

theorem mem_sortedKeys (payload : Payload) (k : String) :
    k ∈ sortedKeys payload ↔ (payload.lookup k).isSome = true := by
  rw [← mem_keys_iff_lookup]
  exact (List.perm_insertionSort keyLE payload.keys).mem_iff

/-- C11: after a successful `sigPayload` call, for every secret and payload, the value
stored under "sig" is a string of exactly 64 characters, each one of `0123456789abcdef`
(the lowercase hex of the 32-byte MAC), and the returned body is the JSON object whose
members include one for "ts" (the injected timestamp) and one for "sig" (that string). -/
theorem sigPayload_sig_hex (lib : Lib) (b : bitkubApi) (now : Time) (p : Payload)
    (body : String) (hok : (sigPayload lib b now p).1 = Except.ok body) :
    ∃ (S : String) (members : List String),
      (sigPayload lib b now p).2.lookup "sig" = some (Value.str S) ∧
      S.length = 64 ∧
      (∀ c ∈ S.data, c ∈ "0123456789abcdef".data) ∧
      body = "\x7b" ++ ",".intercalate members ++ "\x7d" ∧
      (lib.quote "ts" ++ ":" ++ toString (wrapInt64 (now.Unix * 1000))) ∈ members ∧
      (lib.quote "sig" ++ ":" ++ lib.quote S) ∈ members := by
  obtain ⟨signedBytes, h₁, h₂⟩ := sigPayload_ok_inv lib b now p body hok
  obtain ⟨ms, hms, hbody⟩ := marshal_members lib _ body h₂
  have hne : ("ts" : String) ≠ "sig" := by decide
  refine ⟨hexEncode (lib.hmacSha256 b.ApiSecret signedBytes), ms, ?_, ?_, ?_, hbody, ?_, ?_⟩
  · rw [sigPayload_ok lib b now p signedBytes body h₁ h₂]
    simp [lookup_set]
  · rw [hexEncode_length, lib.hmacSha256_size]
  · exact hexEncode_chars _
  · obtain ⟨m, hm, hmem⟩ := marshalMembers_mem lib _ _ ms hms "ts"
      ((mem_sortedKeys _ _).mpr (by simp [lookup_set, hne]))
    simp only [marshalMember, lookup_set, if_neg hne, if_true, marshalValue,
      Option.some.injEq] at hm
    rw [hm]
    exact hmem
  · obtain ⟨m, hm, hmem⟩ := marshalMembers_mem lib _ _ ms hms "sig"
      ((mem_sortedKeys _ _).mpr (by simp [lookup_set]))
    simp only [marshalMember, lookup_set, if_true, marshalValue, Option.some.injEq] at hm
    rw [hm]
    exact hmem

theorem sigPayload_sig_hex_witness :
    ∃ (S : String) (members : List String),
      (sigPayload plainLib (NewBitkub "key" "" []) ⟨1627000000, 0⟩
        ((∅ : Payload).set "sym" (Value.str "THB_BTC"))).2.lookup "sig" = some (Value.str S) ∧
      S.length = 64 ∧
      (∀ c ∈ S.data, c ∈ "0123456789abcdef".data) ∧
      "\x7b\"sig\":\"0000000000000000000000000000000000000000000000000000000000000000\",\"sym\":\"THB_BTC\",\"ts\":1627000000000\x7d"
        = "\x7b" ++ ",".intercalate members ++ "\x7d" ∧
      (plainLib.quote "ts" ++ ":" ++
        toString (wrapInt64 ((⟨1627000000, 0⟩ : Time).Unix * 1000))) ∈ members ∧
      (plainLib.quote "sig" ++ ":" ++ plainLib.quote S) ∈ members :=
  sigPayload_sig_hex plainLib (NewBitkub "key" "" []) ⟨1627000000, 0⟩
    ((∅ : Payload).set "sym" (Value.str "THB_BTC"))
    "\x7b\"sig\":\"0000000000000000000000000000000000000000000000000000000000000000\",\"sym\":\"THB_BTC\",\"ts\":1627000000000\x7d"
    rfl

/-! ### The private operations once their checks have passed -/

theorem encodable_empty (lib : Lib) : Encodable lib (∅ : Payload) := by
  intro k v h
  simp at h

theorem encodable_set_str (lib : Lib) (payload : Payload) (key s : String)
    (h : Encodable lib payload) : Encodable lib (payload.set key (Value.str s)) := by
  intro k v hk
  rw [lookup_set] at hk
  by_cases hkey : k = key
  · rw [if_pos hkey] at hk
    cases hk
    rfl
  · rw [if_neg hkey] at hk
    exact h k v hk

theorem encodable_set_int (lib : Lib) (payload : Payload) (key : String) (n : Int)
    (h : Encodable lib payload) : Encodable lib (payload.set key (Value.int n)) := by
  intro k v hk
  rw [lookup_set] at hk
  by_cases hkey : k = key
  · rw [if_pos hkey] at hk
    cases hk
    rfl
  · rw [if_neg hkey] at hk
    exact h k v hk

/-- `sigPayload` succeeds on a payload all of whose values have an encoding. -/
theorem sigPayload_succeeds (lib : Lib) (b : bitkubApi) (now : Time) (p : Payload)
    (h : Encodable lib p) : ∃ body, (sigPayload lib b now p).1 = Except.ok body := by
  have h₁' := encodable_set_int lib p "ts" (wrapInt64 (now.Unix * 1000)) h
  obtain ⟨signedBytes, h₁⟩ := Option.isSome_iff_exists.mp (marshal_isSome lib _ h₁')
  have h₂' := encodable_set_str lib _ "sig"
    (hexEncode (lib.hmacSha256 b.ApiSecret signedBytes)) h₁'
  obtain ⟨body, h₂⟩ := Option.isSome_iff_exists.mp (marshal_isSome lib _ h₂')
  exact ⟨body, by rw [sigPayload_ok lib b now p signedBytes body h₁ h₂]⟩

theorem decode_signed {α β : Type} (r : Run α) (f : α → Option β) :
    (r.decode f).signed = r.signed := by
  simp only [Run.decode]
  split
  · split <;> rfl
  · rfl
  · rfl

theorem decode_sent {α β : Type} (r : Run α) (f : α → Option β) :
    (r.decode f).sent = r.sent := by
  simp only [Run.decode]
  split
  · split <;> rfl
  · rfl
  · rfl

theorem decode_error {α β : Type} (r : Run α) (f : α → Option β) (e : GoError)
    (h : r.outcome = Outcome.error e) : (r.decode f).outcome = Outcome.error e := by
  simp only [Run.decode, h]

theorem signedPost_signed (lib : Lib) (env : Env) (b : bitkubApi) (url : String)
    (headers : List (String × String)) (payload : Payload) (rt : ResponseType) :
    (signedPost lib env b url headers payload rt).signed = [payload] := by
  simp only [signedPost, Post, doRequest]
  cases (sigPayload lib b env.now payload).1 with
  | error e => rfl
  | ok body =>
    simp only
    cases env.DoTimeout _ _ with
    | error d => rfl
    | ok resp =>
      simp only
      split_ifs
      · rfl
      · cases lib.unmarshal rt resp.body with
        | none => rfl
        | some ret =>
          simp only
          split_ifs <;> rfl

theorem signedPost_sent (lib : Lib) (env : Env) (b : bitkubApi) (url : String)
    (headers : List (String × String)) (payload : Payload) (rt : ResponseType)
    (body : String) (h : (sigPayload lib b env.now payload).1 = Except.ok body) :
    (signedPost lib env b url headers payload rt).sent = [postRequest url headers body] := by
  simp only [signedPost, Post, doRequest, h, postRequest]
  cases env.DoTimeout _ _ with
  | error d => rfl
  | ok resp =>
    simp only
    split_ifs
    · rfl
    · cases lib.unmarshal rt resp.body with
      | none => rfl
      | some ret =>
        simp only
        split_ifs <;> rfl

/-- A private operation whose checks have passed and whose payload has an encoding hands
its payload to `sigPayload` and exactly one request to the transport. -/
theorem signedPost_reached {α : Type} (lib : Lib) (env : Env) (b : bitkubApi) (url : String)
    (headers : List (String × String)) (payload : Payload) (rt : ResponseType)
    (f : Envelope → Option α) (h : Encodable lib payload) :
    ((signedPost lib env b url headers payload rt).decode f).signed = [payload] ∧
    ∃ body, (sigPayload lib b env.now payload).1 = Except.ok body ∧
      ((signedPost lib env b url headers payload rt).decode f).sent =
        [postRequest url headers body] := by
  obtain ⟨body, hbody⟩ := sigPayload_succeeds lib b env.now payload h
  exact ⟨by rw [decode_signed, signedPost_signed],
    body, hbody, by rw [decode_sent, signedPost_sent _ _ _ _ _ _ _ body hbody]⟩

/-! ### The gates of CancelOrder and GetOrderInfo -/

theorem CancelOrder_local (lib : Lib) (env : Env) (b : bitkubApi) (symbol side hash : String)
    (id : Int)
    (h : (b.ApiKey = "" ∨ b.ApiSecret = "" ∨
        (hash = "" ∧ (symbol = "" ∨ (side ≠ "buy" ∧ side ≠ "sell") ∨ id = 0)))) :
    ∃ msg, (CancelOrder lib env b symbol side hash id).failedLocally msg := by
  by_cases hk : b.ApiKey = ""
  · exact ⟨"api key is empty", by simp [CancelOrder, hk, failLocal, Run.failedLocally]⟩
  by_cases hs : b.ApiSecret = ""
  · exact ⟨"api secret is empty", by simp [CancelOrder, hk, hs, failLocal, Run.failedLocally]⟩
  rcases h with h | h | ⟨hh, h⟩
  · exact absurd h hk
  · exact absurd h hs
  by_cases hsym : symbol = ""
  · exact ⟨"symbol is empty",
      by simp [CancelOrder, hk, hs, hh, hsym, failLocal, Run.failedLocally]⟩
  by_cases hside : side = ""
  · exact ⟨"side is empty",
      by simp [CancelOrder, hk, hs, hh, hsym, hside, failLocal, Run.failedLocally]⟩
  by_cases hid : id = 0
  · exact ⟨"id is empty",
      by simp [CancelOrder, hk, hs, hh, hsym, hside, hid, failLocal, Run.failedLocally]⟩
  rcases h with h | h | h
  · exact absurd h hsym
  · exact ⟨"side is invalid", by simp [CancelOrder, hk, hs, hh, hsym, hside, hid, h.1, h.2,
      OrderSideBuy, OrderSideSell, failLocal, Run.failedLocally]⟩
  · exact absurd h hid

theorem CancelOrder_reached (lib : Lib) (env : Env) (b : bitkubApi) (symbol side hash : String)
    (id : Int)
    (h : ¬ (b.ApiKey = "" ∨ b.ApiSecret = "" ∨
        (hash = "" ∧ (symbol = "" ∨ (side ≠ "buy" ∧ side ≠ "sell") ∨ id = 0)))) :
    (CancelOrder lib env b symbol side hash id).signed ≠ [] ∧
    (CancelOrder lib env b symbol side hash id).sent.length = 1 := by
  simp only [not_or, not_and] at h
  obtain ⟨hk, hs, h⟩ := h
  by_cases hh : hash = ""
  · obtain ⟨hsym, hside, hid⟩ := h hh
    have hvalid : side = "buy" ∨ side = "sell" := by
      by_contra hc
      simp only [not_or] at hc
      exact hside hc.1 hc.2
    have hne : side ≠ "" := by
      rcases hvalid with hv | hv <;> rw [hv] <;> decide
    have hr : (CancelOrder lib env b symbol side hash id) =
        (signedPost lib env b (baseURL ++ "/api/market/cancel-order")
          [("X-BTK-APIKEY", b.ApiKey), ("Content-Type", "application/json"),
            ("Accept", "application/json")]
          ((((∅ : Payload).set "sym" (Value.str symbol)).set "id"
            (Value.str (toString id))).set "sd" (Value.str side))
          ResponseType.ErrorResponse).decode (fun ret => some ()) := by
      rcases hvalid with hv | hv <;>
        simp [CancelOrder, hk, hs, hh, hsym, hid, hv, OrderSideBuy, OrderSideSell]
    rw [hr]
    obtain ⟨h₁, body, _, h₂⟩ := signedPost_reached lib env b _ _ _ ResponseType.ErrorResponse
      (fun ret => some ())
      (encodable_set_str lib _ "sd" side (encodable_set_str lib _ "id" (toString id)
        (encodable_set_str lib _ "sym" symbol (encodable_empty lib))))
    exact ⟨by rw [h₁]; simp, by rw [h₂]; rfl⟩
  · have hr : (CancelOrder lib env b symbol side hash id) =
        (signedPost lib env b (baseURL ++ "/api/market/cancel-order")
          [("X-BTK-APIKEY", b.ApiKey), ("Content-Type", "application/json"),
            ("Accept", "application/json")]
          ((∅ : Payload).set "hash" (Value.str hash))
          ResponseType.ErrorResponse).decode (fun ret => some ()) := by
      simp [CancelOrder, hk, hs, hh]
    rw [hr]
    obtain ⟨h₁, body, _, h₂⟩ := signedPost_reached lib env b _ _ _ ResponseType.ErrorResponse
      (fun ret => some ())
      (encodable_set_str lib _ "hash" hash (encodable_empty lib))
    exact ⟨by rw [h₁]; simp, by rw [h₂]; rfl⟩

theorem GetOrderInfo_local (lib : Lib) (env : Env) (b : bitkubApi) (symbol side hash : String)
    (id : Int)
    (h : (b.ApiKey = "" ∨ b.ApiSecret = "" ∨
        (hash = "" ∧ (symbol = "" ∨ (side ≠ "buy" ∧ side ≠ "sell") ∨ id = 0)))) :
    ∃ msg, (GetOrderInfo lib env b symbol side hash id).failedLocally msg := by
  by_cases hk : b.ApiKey = ""
  · exact ⟨"api key is empty", by simp [GetOrderInfo, hk, failLocal, Run.failedLocally]⟩
  by_cases hs : b.ApiSecret = ""
  · exact ⟨"api secret is empty", by simp [GetOrderInfo, hk, hs, failLocal, Run.failedLocally]⟩
  rcases h with h | h | ⟨hh, h⟩
  · exact absurd h hk
  · exact absurd h hs
  by_cases hsym : symbol = ""
  · exact ⟨"symbol is empty",
      by simp [GetOrderInfo, hk, hs, hh, hsym, failLocal, Run.failedLocally]⟩
  by_cases hside : side = ""
  · exact ⟨"side is empty",
      by simp [GetOrderInfo, hk, hs, hh, hsym, hside, failLocal, Run.failedLocally]⟩
  by_cases hid : id = 0
  · exact ⟨"id is empty",
      by simp [GetOrderInfo, hk, hs, hh, hsym, hside, hid, failLocal, Run.failedLocally]⟩
  rcases h with h | h | h
  · exact absurd h hsym
  · exact ⟨"side is invalid", by simp [GetOrderInfo, hk, hs, hh, hsym, hside, hid, h.1, h.2,
      OrderSideBuy, OrderSideSell, failLocal, Run.failedLocally]⟩
  · exact absurd h hid

theorem GetOrderInfo_reached (lib : Lib) (env : Env) (b : bitkubApi) (symbol side hash : String)
    (id : Int)
    (h : ¬ (b.ApiKey = "" ∨ b.ApiSecret = "" ∨
        (hash = "" ∧ (symbol = "" ∨ (side ≠ "buy" ∧ side ≠ "sell") ∨ id = 0)))) :
    (GetOrderInfo lib env b symbol side hash id).signed ≠ [] ∧
    (GetOrderInfo lib env b symbol side hash id).sent.length = 1 := by
  simp only [not_or, not_and] at h
  obtain ⟨hk, hs, h⟩ := h
  by_cases hh : hash = ""
  · obtain ⟨hsym, hside, hid⟩ := h hh
    have hvalid : side = "buy" ∨ side = "sell" := by
      by_contra hc
      simp only [not_or] at hc
      exact hside hc.1 hc.2
    have hne : side ≠ "" := by
      rcases hvalid with hv | hv <;> rw [hv] <;> decide
    have hr : (GetOrderInfo lib env b symbol side hash id) =
        (signedPost lib env b (baseURL ++ "/api/market/order-info")
          [("X-BTK-APIKEY", b.ApiKey), ("Content-Type", "application/json"),
            ("Accept", "application/json")]
          ((((∅ : Payload).set "sym" (Value.str symbol)).set "id"
            (Value.str (toString id))).set "sd" (Value.str side))
          ResponseType.OrderInfoResponse).decode (fun ret => some ret.Result) := by
      rcases hvalid with hv | hv <;>
        simp [GetOrderInfo, hk, hs, hh, hsym, hid, hv, OrderSideBuy, OrderSideSell]
    rw [hr]
    obtain ⟨h₁, body, _, h₂⟩ := signedPost_reached lib env b _ _ _ ResponseType.OrderInfoResponse
      (fun ret => some ret.Result)
      (encodable_set_str lib _ "sd" side (encodable_set_str lib _ "id" (toString id)
        (encodable_set_str lib _ "sym" symbol (encodable_empty lib))))
    exact ⟨by rw [h₁]; simp, by rw [h₂]; rfl⟩
  · have hr : (GetOrderInfo lib env b symbol side hash id) =
        (signedPost lib env b (baseURL ++ "/api/market/order-info")
          [("X-BTK-APIKEY", b.ApiKey), ("Content-Type", "application/json"),
            ("Accept", "application/json")]
          ((∅ : Payload).set "hash" (Value.str hash))
          ResponseType.OrderInfoResponse).decode (fun ret => some ret.Result) := by
      simp [GetOrderInfo, hk, hs, hh]
    rw [hr]
    obtain ⟨h₁, body, _, h₂⟩ := signedPost_reached lib env b _ _ _ ResponseType.OrderInfoResponse
      (fun ret => some ret.Result)
      (encodable_set_str lib _ "hash" hash (encodable_empty lib))
    exact ⟨by rw [h₁]; simp, by rw [h₂]; rfl⟩

/-- C12: `CancelOrder` and `GetOrderInfo` fail locally (an error made by `fmt.Errorf`,
nothing signed, nothing sent) if and only if the key is empty, or the secret is empty, or
the hash is empty and the symbol is empty, the side is neither "buy" nor "sell", or the id
is 0; in every other case exactly one request reaches the transport. With credentials
present and an empty hash the checks run in source order: an empty symbol is reported as
"symbol is empty", then an empty side as "side is empty", then id 0 as "id is empty", then
any other side outside the set as "side is invalid". With a non-empty hash none of symbol,
side and id causes a local failure. -/
theorem order_reference_gate (lib : Lib) (env : Env) (b : bitkubApi) (symbol side hash : String)
    (id : Int) :
    (((∃ msg, (CancelOrder lib env b symbol side hash id).failedLocally msg) ↔
        (b.ApiKey = "" ∨ b.ApiSecret = "" ∨
        (hash = "" ∧ (symbol = "" ∨ (side ≠ "buy" ∧ side ≠ "sell") ∨ id = 0)))) ∧
      ((CancelOrder lib env b symbol side hash id).sent = [] ↔
        (b.ApiKey = "" ∨ b.ApiSecret = "" ∨
        (hash = "" ∧ (symbol = "" ∨ (side ≠ "buy" ∧ side ≠ "sell") ∨ id = 0)))) ∧
      (b.ApiKey ≠ "" → b.ApiSecret ≠ "" → hash = "" → symbol = "" →
        (CancelOrder lib env b symbol side hash id).failedLocally "symbol is empty") ∧
      (b.ApiKey ≠ "" → b.ApiSecret ≠ "" → hash = "" → symbol ≠ "" → side = "" →
        (CancelOrder lib env b symbol side hash id).failedLocally "side is empty") ∧
      (b.ApiKey ≠ "" → b.ApiSecret ≠ "" → hash = "" → symbol ≠ "" → side ≠ "" → id = 0 →
        (CancelOrder lib env b symbol side hash id).failedLocally "id is empty") ∧
      (b.ApiKey ≠ "" → b.ApiSecret ≠ "" → hash = "" → symbol ≠ "" → side ≠ "" → id ≠ 0 →
        side ≠ "buy" → side ≠ "sell" →
        (CancelOrder lib env b symbol side hash id).failedLocally "side is invalid") ∧
      (b.ApiKey ≠ "" → b.ApiSecret ≠ "" → hash ≠ "" →
        (¬ ∃ msg, (CancelOrder lib env b symbol side hash id).failedLocally msg) ∧
        (CancelOrder lib env b symbol side hash id).sent.length = 1)) ∧
    (((∃ msg, (GetOrderInfo lib env b symbol side hash id).failedLocally msg) ↔
        (b.ApiKey = "" ∨ b.ApiSecret = "" ∨
        (hash = "" ∧ (symbol = "" ∨ (side ≠ "buy" ∧ side ≠ "sell") ∨ id = 0)))) ∧
      ((GetOrderInfo lib env b symbol side hash id).sent = [] ↔
        (b.ApiKey = "" ∨ b.ApiSecret = "" ∨
        (hash = "" ∧ (symbol = "" ∨ (side ≠ "buy" ∧ side ≠ "sell") ∨ id = 0)))) ∧
      (b.ApiKey ≠ "" → b.ApiSecret ≠ "" → hash = "" → symbol = "" →
        (GetOrderInfo lib env b symbol side hash id).failedLocally "symbol is empty") ∧
      (b.ApiKey ≠ "" → b.ApiSecret ≠ "" → hash = "" → symbol ≠ "" → side = "" →
        (GetOrderInfo lib env b symbol side hash id).failedLocally "side is empty") ∧
      (b.ApiKey ≠ "" → b.ApiSecret ≠ "" → hash = "" → symbol ≠ "" → side ≠ "" → id = 0 →
        (GetOrderInfo lib env b symbol side hash id).failedLocally "id is empty") ∧
      (b.ApiKey ≠ "" → b.ApiSecret ≠ "" → hash = "" → symbol ≠ "" → side ≠ "" → id ≠ 0 →
        side ≠ "buy" → side ≠ "sell" →
        (GetOrderInfo lib env b symbol side hash id).failedLocally "side is invalid") ∧
      (b.ApiKey ≠ "" → b.ApiSecret ≠ "" → hash ≠ "" →
        (¬ ∃ msg, (GetOrderInfo lib env b symbol side hash id).failedLocally msg) ∧
        (GetOrderInfo lib env b symbol side hash id).sent.length = 1)) := by
  constructor
  · have hA := CancelOrder_local lib env b symbol side hash id
    have hB := CancelOrder_reached lib env b symbol side hash id
    refine ⟨⟨?_, hA⟩, ⟨?_, ?_⟩, ?_, ?_, ?_, ?_, ?_⟩
    · rintro ⟨msg, hmsg⟩
      by_contra hc
      exact (hB hc).1 hmsg.2.1
    · intro hsent
      by_contra hc
      have := (hB hc).2
      rw [hsent] at this
      simp at this
    · intro hc
      obtain ⟨msg, hmsg⟩ := hA hc
      exact hmsg.2.2
    · intro hk hs hh hsym
      simp [CancelOrder, hk, hs, hh, hsym, failLocal, Run.failedLocally]
    · intro hk hs hh hsym hside
      simp [CancelOrder, hk, hs, hh, hsym, hside, failLocal, Run.failedLocally]
    · intro hk hs hh hsym hside hid
      simp [CancelOrder, hk, hs, hh, hsym, hside, hid, failLocal, Run.failedLocally]
    · intro hk hs hh hsym hside hid hb hsl
      simp [CancelOrder, hk, hs, hh, hsym, hside, hid, hb, hsl, OrderSideBuy, OrderSideSell,
        failLocal, Run.failedLocally]
    · intro hk hs hh
      have hc : ¬ (b.ApiKey = "" ∨ b.ApiSecret = "" ∨
        (hash = "" ∧ (symbol = "" ∨ (side ≠ "buy" ∧ side ≠ "sell") ∨ id = 0))) := by
        simp [hk, hs, hh]
      refine ⟨?_, (hB hc).2⟩
      rintro ⟨msg, hmsg⟩
      exact (hB hc).1 hmsg.2.1
  · have hA := GetOrderInfo_local lib env b symbol side hash id
    have hB := GetOrderInfo_reached lib env b symbol side hash id
    refine ⟨⟨?_, hA⟩, ⟨?_, ?_⟩, ?_, ?_, ?_, ?_, ?_⟩
    · rintro ⟨msg, hmsg⟩
      by_contra hc
      exact (hB hc).1 hmsg.2.1
    · intro hsent
      by_contra hc
      have := (hB hc).2
      rw [hsent] at this
      simp at this
    · intro hc
      obtain ⟨msg, hmsg⟩ := hA hc
      exact hmsg.2.2
    · intro hk hs hh hsym
      simp [GetOrderInfo, hk, hs, hh, hsym, failLocal, Run.failedLocally]
    · intro hk hs hh hsym hside
      simp [GetOrderInfo, hk, hs, hh, hsym, hside, failLocal, Run.failedLocally]
    · intro hk hs hh hsym hside hid
      simp [GetOrderInfo, hk, hs, hh, hsym, hside, hid, failLocal, Run.failedLocally]
    · intro hk hs hh hsym hside hid hb hsl
      simp [GetOrderInfo, hk, hs, hh, hsym, hside, hid, hb, hsl, OrderSideBuy, OrderSideSell,
        failLocal, Run.failedLocally]
    · intro hk hs hh
      have hc : ¬ (b.ApiKey = "" ∨ b.ApiSecret = "" ∨
        (hash = "" ∧ (symbol = "" ∨ (side ≠ "buy" ∧ side ≠ "sell") ∨ id = 0))) := by
        simp [hk, hs, hh]
      refine ⟨?_, (hB hc).2⟩
      rintro ⟨msg, hmsg⟩
      exact (hB hc).1 hmsg.2.1

theorem order_reference_gate_witness :
    (CancelOrder plainLib (answering ⟨1627000000, 0⟩ ⟨200, "", ""⟩) (NewBitkub "key" "secret" [])
      "THB_BTC" "hold" "" 7).failedLocally "side is invalid" ∧
    (GetOrderInfo plainLib (answering ⟨1627000000, 0⟩ ⟨200, "", ""⟩)
      (NewBitkub "key" "secret" []) "" "hold" "abc" 0).sent.length = 1 :=
  ⟨(order_reference_gate plainLib (answering ⟨1627000000, 0⟩ ⟨200, "", ""⟩)
      (NewBitkub "key" "secret" []) "THB_BTC" "hold" "" 7).1.2.2.2.2.2.1
      (by decide) (by decide) rfl (by decide) (by decide) (by decide) (by decide) (by decide),
   ((order_reference_gate plainLib (answering ⟨1627000000, 0⟩ ⟨200, "", ""⟩)
      (NewBitkub "key" "secret" []) "" "hold" "abc" 0).2.2.2.2.2.2.2
      (by decide) (by decide) (by decide)).2⟩

/-! ### The gates of the order-placing operations -/

theorem PlaceBid_local (lib : Lib) (env : Env) (b : bitkubApi) (symbol bitType : String)
    (amount rate : Float64) (clientID : List String)
    (h : (b.ApiKey = "" ∨ b.ApiSecret = "" ∨ symbol = "" ∨
        (bitType ≠ "limit" ∧ bitType ≠ "market"))) :
    ∃ msg, (PlaceBid lib env b symbol bitType amount rate clientID).failedLocally msg := by
  by_cases hk : b.ApiKey = ""
  · exact ⟨"api key is empty", by simp [PlaceBid, hk, failLocal, Run.failedLocally]⟩
  by_cases hs : b.ApiSecret = ""
  · exact ⟨"api secret is empty", by simp [PlaceBid, hk, hs, failLocal, Run.failedLocally]⟩
  by_cases hsym : symbol = ""
  · exact ⟨"symbol is empty", by simp [PlaceBid, hk, hs, hsym, failLocal, Run.failedLocally]⟩
  by_cases htype : bitType = ""
  · exact ⟨"bit type is empty",
      by simp [PlaceBid, hk, hs, hsym, htype, failLocal, Run.failedLocally]⟩
  rcases h with h | h | h | h
  · exact absurd h hk
  · exact absurd h hs
  · exact absurd h hsym
  · exact ⟨"bit type is invalid", by simp [PlaceBid, hk, hs, hsym, htype, h.1, h.2,
      OrderTypeLimit, OrderTypeMarket, failLocal, Run.failedLocally]⟩

theorem PlaceBid_reached (lib : Lib) (env : Env) (b : bitkubApi) (symbol bitType : String)
    (amount rate : Float64) (clientID : List String)
    (h : ¬ (b.ApiKey = "" ∨ b.ApiSecret = "" ∨ symbol = "" ∨
        (bitType ≠ "limit" ∧ bitType ≠ "market"))) :
    (PlaceBid lib env b symbol bitType amount rate clientID).signed ≠ [] ∧
    (PlaceBid lib env b symbol bitType amount rate clientID).sent.length = 1 := by
  simp only [not_or, not_and] at h
  obtain ⟨hk, hs, hsym, htype⟩ := h
  have hvalid : bitType = "limit" ∨ bitType = "market" := by
    by_contra hc
    simp only [not_or] at hc
    exact htype hc.1 hc.2
  cases clientID with
  | nil =>
    have hr : (PlaceBid lib env b symbol bitType amount rate []) =
        (signedPost lib env b (baseURL ++ "/api/market/place-bid")
            [("X-BTK-APIKEY", b.ApiKey), ("Content-Type", "application/json"),
              ("Accept", "application/json")]
            (((((∅ : Payload).set "sym" (Value.str symbol)).set "typ" (Value.str bitType)).set
              "amt" (Value.str (formatFloatWithoutZeroTrail amount))).set "rat"
              (Value.str (formatFloatWithoutZeroTrail
                (if bitType = OrderTypeMarket then f64_0 else rate))))
            ResponseType.OrderResponse).decode (fun ret => some ret.Result) := by
      rcases hvalid with hv | hv <;>
        simp [PlaceBid, hk, hs, hsym, hv, OrderTypeLimit, OrderTypeMarket]
    rw [hr]
    obtain ⟨h₁, body, _, h₂⟩ := signedPost_reached lib env b _ _ _ ResponseType.OrderResponse
      (fun ret => some ret.Result)
      (encodable_set_str lib _ "rat" _ (encodable_set_str lib _ "amt" _
          (encodable_set_str lib _ "typ" bitType (encodable_set_str lib _ "sym" symbol
            (encodable_empty lib)))))
    exact ⟨by rw [h₁]; simp, by rw [h₂]; rfl⟩
  | cons first rest =>
    have hr : (PlaceBid lib env b symbol bitType amount rate (first :: rest)) =
        (signedPost lib env b (baseURL ++ "/api/market/place-bid")
            [("X-BTK-APIKEY", b.ApiKey), ("Content-Type", "application/json"),
              ("Accept", "application/json")]
            ((((((∅ : Payload).set "sym" (Value.str symbol)).set "typ" (Value.str bitType)).set
              "amt" (Value.str (formatFloatWithoutZeroTrail amount))).set "rat"
              (Value.str (formatFloatWithoutZeroTrail
                (if bitType = OrderTypeMarket then f64_0 else rate)))).set "client_id"
              (Value.str first))
            ResponseType.OrderResponse).decode (fun ret => some ret.Result) := by
      rcases hvalid with hv | hv <;>
        simp [PlaceBid, hk, hs, hsym, hv, OrderTypeLimit, OrderTypeMarket]
    rw [hr]
    obtain ⟨h₁, body, _, h₂⟩ := signedPost_reached lib env b _ _ _ ResponseType.OrderResponse
      (fun ret => some ret.Result)
      (encodable_set_str lib _ "client_id" first (encodable_set_str lib _ "rat" _ (encodable_set_str lib _ "amt" _
          (encodable_set_str lib _ "typ" bitType (encodable_set_str lib _ "sym" symbol
            (encodable_empty lib))))))
    exact ⟨by rw [h₁]; simp, by rw [h₂]; rfl⟩

theorem PlaceBidTest_local (lib : Lib) (env : Env) (b : bitkubApi) (symbol bitType : String)
    (amount rate : Float64) (clientID : List String)
    (h : (b.ApiKey = "" ∨ b.ApiSecret = "" ∨ symbol = "" ∨
        (bitType ≠ "limit" ∧ bitType ≠ "market"))) :
    ∃ msg, (PlaceBidTest lib env b symbol bitType amount rate clientID).failedLocally msg := by
  by_cases hk : b.ApiKey = ""
  · exact ⟨"api key is empty", by simp [PlaceBidTest, hk, failLocal, Run.failedLocally]⟩
  by_cases hs : b.ApiSecret = ""
  · exact ⟨"api secret is empty", by simp [PlaceBidTest, hk, hs, failLocal, Run.failedLocally]⟩
  by_cases hsym : symbol = ""
  · exact ⟨"symbol is empty", by simp [PlaceBidTest, hk, hs, hsym, failLocal, Run.failedLocally]⟩
  by_cases htype : bitType = ""
  · exact ⟨"bit type is empty",
      by simp [PlaceBidTest, hk, hs, hsym, htype, failLocal, Run.failedLocally]⟩
  rcases h with h | h | h | h
  · exact absurd h hk
  · exact absurd h hs
  · exact absurd h hsym
  · exact ⟨"bit type is invalid", by simp [PlaceBidTest, hk, hs, hsym, htype, h.1, h.2,
      OrderTypeLimit, OrderTypeMarket, failLocal, Run.failedLocally]⟩

theorem PlaceBidTest_reached (lib : Lib) (env : Env) (b : bitkubApi) (symbol bitType : String)
    (amount rate : Float64) (clientID : List String)
    (h : ¬ (b.ApiKey = "" ∨ b.ApiSecret = "" ∨ symbol = "" ∨
        (bitType ≠ "limit" ∧ bitType ≠ "market"))) :
    (PlaceBidTest lib env b symbol bitType amount rate clientID).signed ≠ [] ∧
    (PlaceBidTest lib env b symbol bitType amount rate clientID).sent.length = 1 := by
  simp only [not_or, not_and] at h
  obtain ⟨hk, hs, hsym, htype⟩ := h
  have hvalid : bitType = "limit" ∨ bitType = "market" := by
    by_contra hc
    simp only [not_or] at hc
    exact htype hc.1 hc.2
  cases clientID with
  | nil =>
    have hr : (PlaceBidTest lib env b symbol bitType amount rate []) =
        (signedPost lib env b (baseURL ++ "/api/market/place-bid/test")
            [("X-BTK-APIKEY", b.ApiKey), ("Content-Type", "application/json"),
              ("Accept", "application/json")]
            (((((∅ : Payload).set "sym" (Value.str symbol)).set "typ" (Value.str bitType)).set
              "amt" (Value.str (formatFloatWithoutZeroTrail amount))).set "rat"
              (Value.str (formatFloatWithoutZeroTrail
                (if bitType = OrderTypeMarket then f64_0 else rate))))
            ResponseType.OrderResponse).decode (fun ret => some ret.Result) := by
      rcases hvalid with hv | hv <;>
        simp [PlaceBidTest, hk, hs, hsym, hv, OrderTypeLimit, OrderTypeMarket]
    rw [hr]
    obtain ⟨h₁, body, _, h₂⟩ := signedPost_reached lib env b _ _ _ ResponseType.OrderResponse
      (fun ret => some ret.Result)
      (encodable_set_str lib _ "rat" _ (encodable_set_str lib _ "amt" _
          (encodable_set_str lib _ "typ" bitType (encodable_set_str lib _ "sym" symbol
            (encodable_empty lib)))))
    exact ⟨by rw [h₁]; simp, by rw [h₂]; rfl⟩
  | cons first rest =>
    have hr : (PlaceBidTest lib env b symbol bitType amount rate (first :: rest)) =
        (signedPost lib env b (baseURL ++ "/api/market/place-bid/test")
            [("X-BTK-APIKEY", b.ApiKey), ("Content-Type", "application/json"),
              ("Accept", "application/json")]
            ((((((∅ : Payload).set "sym" (Value.str symbol)).set "typ" (Value.str bitType)).set
              "amt" (Value.str (formatFloatWithoutZeroTrail amount))).set "rat"
              (Value.str (formatFloatWithoutZeroTrail
                (if bitType = OrderTypeMarket then f64_0 else rate)))).set "client_id"
              (Value.str first))
            ResponseType.OrderResponse).decode (fun ret => some ret.Result) := by
      rcases hvalid with hv | hv <;>
        simp [PlaceBidTest, hk, hs, hsym, hv, OrderTypeLimit, OrderTypeMarket]
    rw [hr]
    obtain ⟨h₁, body, _, h₂⟩ := signedPost_reached lib env b _ _ _ ResponseType.OrderResponse
      (fun ret => some ret.Result)
      (encodable_set_str lib _ "client_id" first (encodable_set_str lib _ "rat" _ (encodable_set_str lib _ "amt" _
          (encodable_set_str lib _ "typ" bitType (encodable_set_str lib _ "sym" symbol
            (encodable_empty lib))))))
    exact ⟨by rw [h₁]; simp, by rw [h₂]; rfl⟩

theorem PlaceAsk_local (lib : Lib) (env : Env) (b : bitkubApi) (symbol bitType : String)
    (amount rate : Float64) (clientID : List String)
    (h : (b.ApiKey = "" ∨ b.ApiSecret = "" ∨ symbol = "" ∨
        (bitType ≠ "limit" ∧ bitType ≠ "market"))) :
    ∃ msg, (PlaceAsk lib env b symbol bitType amount rate clientID).failedLocally msg := by
  by_cases hk : b.ApiKey = ""
  · exact ⟨"api key is empty", by simp [PlaceAsk, hk, failLocal, Run.failedLocally]⟩
  by_cases hs : b.ApiSecret = ""
  · exact ⟨"api secret is empty", by simp [PlaceAsk, hk, hs, failLocal, Run.failedLocally]⟩
  by_cases hsym : symbol = ""
  · exact ⟨"symbol is empty", by simp [PlaceAsk, hk, hs, hsym, failLocal, Run.failedLocally]⟩
  by_cases htype : bitType = ""
  · exact ⟨"bit type is empty",
      by simp [PlaceAsk, hk, hs, hsym, htype, failLocal, Run.failedLocally]⟩
  rcases h with h | h | h | h
  · exact absurd h hk
  · exact absurd h hs
  · exact absurd h hsym
  · exact ⟨"bit type is invalid", by simp [PlaceAsk, hk, hs, hsym, htype, h.1, h.2,
      OrderTypeLimit, OrderTypeMarket, failLocal, Run.failedLocally]⟩

theorem PlaceAsk_reached (lib : Lib) (env : Env) (b : bitkubApi) (symbol bitType : String)
    (amount rate : Float64) (clientID : List String)
    (h : ¬ (b.ApiKey = "" ∨ b.ApiSecret = "" ∨ symbol = "" ∨
        (bitType ≠ "limit" ∧ bitType ≠ "market"))) :
    (PlaceAsk lib env b symbol bitType amount rate clientID).signed ≠ [] ∧
    (PlaceAsk lib env b symbol bitType amount rate clientID).sent.length = 1 := by
  simp only [not_or, not_and] at h
  obtain ⟨hk, hs, hsym, htype⟩ := h
  have hvalid : bitType = "limit" ∨ bitType = "market" := by
    by_contra hc
    simp only [not_or] at hc
    exact htype hc.1 hc.2
  cases clientID with
  | nil =>
    have hr : (PlaceAsk lib env b symbol bitType amount rate []) =
        (signedPost lib env b (baseURL ++ "/api/market/place-ask")
            [("X-BTK-APIKEY", b.ApiKey), ("Content-Type", "application/json"),
              ("Accept", "application/json")]
            (((((∅ : Payload).set "sym" (Value.str symbol)).set "typ" (Value.str bitType)).set
              "amt" (Value.str (formatFloatWithoutZeroTrail amount))).set "rat"
              (Value.str (formatFloatWithoutZeroTrail
                (if bitType = OrderTypeMarket then f64_0 else rate))))
            ResponseType.OrderResponse).decode (fun ret => some ret.Result) := by
      rcases hvalid with hv | hv <;>
        simp [PlaceAsk, hk, hs, hsym, hv, OrderTypeLimit, OrderTypeMarket]
    rw [hr]
    obtain ⟨h₁, body, _, h₂⟩ := signedPost_reached lib env b _ _ _ ResponseType.OrderResponse
      (fun ret => some ret.Result)
      (encodable_set_str lib _ "rat" _ (encodable_set_str lib _ "amt" _
          (encodable_set_str lib _ "typ" bitType (encodable_set_str lib _ "sym" symbol
            (encodable_empty lib)))))
    exact ⟨by rw [h₁]; simp, by rw [h₂]; rfl⟩
  | cons first rest =>
    have hr : (PlaceAsk lib env b symbol bitType amount rate (first :: rest)) =
        (signedPost lib env b (baseURL ++ "/api/market/place-ask")
            [("X-BTK-APIKEY", b.ApiKey), ("Content-Type", "application/json"),
              ("Accept", "application/json")]
            ((((((∅ : Payload).set "sym" (Value.str symbol)).set "typ" (Value.str bitType)).set
              "amt" (Value.str (formatFloatWithoutZeroTrail amount))).set "rat"
              (Value.str (formatFloatWithoutZeroTrail
                (if bitType = OrderTypeMarket then f64_0 else rate)))).set "client_id"
              (Value.str first))
            ResponseType.OrderResponse).decode (fun ret => some ret.Result) := by
      rcases hvalid with hv | hv <;>
        simp [PlaceAsk, hk, hs, hsym, hv, OrderTypeLimit, OrderTypeMarket]
    rw [hr]
    obtain ⟨h₁, body, _, h₂⟩ := signedPost_reached lib env b _ _ _ ResponseType.OrderResponse
      (fun ret => some ret.Result)
      (encodable_set_str lib _ "client_id" first (encodable_set_str lib _ "rat" _ (encodable_set_str lib _ "amt" _
          (encodable_set_str lib _ "typ" bitType (encodable_set_str lib _ "sym" symbol
            (encodable_empty lib))))))
    exact ⟨by rw [h₁]; simp, by rw [h₂]; rfl⟩

theorem PlaceAskTest_local (lib : Lib) (env : Env) (b : bitkubApi) (symbol bitType : String)
    (amount rate : Float64) (clientID : List String)
    (h : (b.ApiKey = "" ∨ b.ApiSecret = "" ∨ symbol = "" ∨
        (bitType ≠ "limit" ∧ bitType ≠ "market"))) :
    ∃ msg, (PlaceAskTest lib env b symbol bitType amount rate clientID).failedLocally msg := by
  by_cases hk : b.ApiKey = ""
  · exact ⟨"api key is empty", by simp [PlaceAskTest, hk, failLocal, Run.failedLocally]⟩
  by_cases hs : b.ApiSecret = ""
  · exact ⟨"api secret is empty", by simp [PlaceAskTest, hk, hs, failLocal, Run.failedLocally]⟩
  by_cases hsym : symbol = ""
  · exact ⟨"symbol is empty", by simp [PlaceAskTest, hk, hs, hsym, failLocal, Run.failedLocally]⟩
  by_cases htype : bitType = ""
  · exact ⟨"bit type is empty",
      by simp [PlaceAskTest, hk, hs, hsym, htype, failLocal, Run.failedLocally]⟩
  rcases h with h | h | h | h
  · exact absurd h hk
  · exact absurd h hs
  · exact absurd h hsym
  · exact ⟨"bit type is invalid", by simp [PlaceAskTest, hk, hs, hsym, htype, h.1, h.2,
      OrderTypeLimit, OrderTypeMarket, failLocal, Run.failedLocally]⟩

theorem PlaceAskTest_reached (lib : Lib) (env : Env) (b : bitkubApi) (symbol bitType : String)
    (amount rate : Float64) (clientID : List String)
    (h : ¬ (b.ApiKey = "" ∨ b.ApiSecret = "" ∨ symbol = "" ∨
        (bitType ≠ "limit" ∧ bitType ≠ "market"))) :
    (PlaceAskTest lib env b symbol bitType amount rate clientID).signed ≠ [] ∧
    (PlaceAskTest lib env b symbol bitType amount rate clientID).sent.length = 1 := by
  simp only [not_or, not_and] at h
  obtain ⟨hk, hs, hsym, htype⟩ := h
  have hvalid : bitType = "limit" ∨ bitType = "market" := by
    by_contra hc
    simp only [not_or] at hc
    exact htype hc.1 hc.2
  cases clientID with
  | nil =>
    have hr : (PlaceAskTest lib env b symbol bitType amount rate []) =
        (signedPost lib env b (baseURL ++ "/api/market/place-ask/test")
            [("X-BTK-APIKEY", b.ApiKey), ("Content-Type", "application/json"),
              ("Accept", "application/json")]
            (((((∅ : Payload).set "sym" (Value.str symbol)).set "typ" (Value.str bitType)).set
              "amt" (Value.str (formatFloatWithoutZeroTrail amount))).set "rat"
              (Value.str (formatFloatWithoutZeroTrail
                (if bitType = OrderTypeMarket then f64_0 else rate))))
            ResponseType.OrderResponse).decode (fun ret => some ret.Result) := by
      rcases hvalid with hv | hv <;>
        simp [PlaceAskTest, hk, hs, hsym, hv, OrderTypeLimit, OrderTypeMarket]
    rw [hr]
    obtain ⟨h₁, body, _, h₂⟩ := signedPost_reached lib env b _ _ _ ResponseType.OrderResponse
      (fun ret => some ret.Result)
      (encodable_set_str lib _ "rat" _ (encodable_set_str lib _ "amt" _
          (encodable_set_str lib _ "typ" bitType (encodable_set_str lib _ "sym" symbol
            (encodable_empty lib)))))
    exact ⟨by rw [h₁]; simp, by rw [h₂]; rfl⟩
  | cons first rest =>
    have hr : (PlaceAskTest lib env b symbol bitType amount rate (first :: rest)) =
        (signedPost lib env b (baseURL ++ "/api/market/place-ask/test")
            [("X-BTK-APIKEY", b.ApiKey), ("Content-Type", "application/json"),
              ("Accept", "application/json")]
            ((((((∅ : Payload).set "sym" (Value.str symbol)).set "typ" (Value.str bitType)).set
              "amt" (Value.str (formatFloatWithoutZeroTrail amount))).set "rat"
              (Value.str (formatFloatWithoutZeroTrail
                (if bitType = OrderTypeMarket then f64_0 else rate)))).set "client_id"
              (Value.str first))
            ResponseType.OrderResponse).decode (fun ret => some ret.Result) := by
      rcases hvalid with hv | hv <;>
        simp [PlaceAskTest, hk, hs, hsym, hv, OrderTypeLimit, OrderTypeMarket]
    rw [hr]
    obtain ⟨h₁, body, _, h₂⟩ := signedPost_reached lib env b _ _ _ ResponseType.OrderResponse
      (fun ret => some ret.Result)
      (encodable_set_str lib _ "client_id" first (encodable_set_str lib _ "rat" _ (encodable_set_str lib _ "amt" _
          (encodable_set_str lib _ "typ" bitType (encodable_set_str lib _ "sym" symbol
            (encodable_empty lib))))))
    exact ⟨by rw [h₁]; simp, by rw [h₂]; rfl⟩

theorem PlaceAskByFiat_local (lib : Lib) (env : Env) (b : bitkubApi) (symbol bitType : String)
    (amount rate : Float64)
    (h : (b.ApiKey = "" ∨ b.ApiSecret = "" ∨ symbol = "" ∨
        (bitType ≠ "limit" ∧ bitType ≠ "market"))) :
    ∃ msg, (PlaceAskByFiat lib env b symbol bitType amount rate).failedLocally msg := by
  by_cases hk : b.ApiKey = ""
  · exact ⟨"api key is empty", by simp [PlaceAskByFiat, hk, failLocal, Run.failedLocally]⟩
  by_cases hs : b.ApiSecret = ""
  · exact ⟨"api secret is empty", by simp [PlaceAskByFiat, hk, hs, failLocal, Run.failedLocally]⟩
  by_cases hsym : symbol = ""
  · exact ⟨"symbol is empty", by simp [PlaceAskByFiat, hk, hs, hsym, failLocal, Run.failedLocally]⟩
  by_cases htype : bitType = ""
  · exact ⟨"bit type is empty",
      by simp [PlaceAskByFiat, hk, hs, hsym, htype, failLocal, Run.failedLocally]⟩
  rcases h with h | h | h | h
  · exact absurd h hk
  · exact absurd h hs
  · exact absurd h hsym
  · exact ⟨"bit type is invalid", by simp [PlaceAskByFiat, hk, hs, hsym, htype, h.1, h.2,
      OrderTypeLimit, OrderTypeMarket, failLocal, Run.failedLocally]⟩

theorem PlaceAskByFiat_reached (lib : Lib) (env : Env) (b : bitkubApi) (symbol bitType : String)
    (amount rate : Float64)
    (h : ¬ (b.ApiKey = "" ∨ b.ApiSecret = "" ∨ symbol = "" ∨
        (bitType ≠ "limit" ∧ bitType ≠ "market"))) :
    (PlaceAskByFiat lib env b symbol bitType amount rate).signed ≠ [] ∧
    (PlaceAskByFiat lib env b symbol bitType amount rate).sent.length = 1 := by
  simp only [not_or, not_and] at h
  obtain ⟨hk, hs, hsym, htype⟩ := h
  have hvalid : bitType = "limit" ∨ bitType = "market" := by
    by_contra hc
    simp only [not_or] at hc
    exact htype hc.1 hc.2
  have hr : (PlaceAskByFiat lib env b symbol bitType amount rate) =
      (signedPost lib env b (baseURL ++ "/api/market/place-ask-by-fiat")
          [("X-BTK-APIKEY", b.ApiKey), ("Content-Type", "application/json")]
          (((((∅ : Payload).set "sym" (Value.str symbol)).set "typ" (Value.str bitType)).set
            "amt" (Value.str (formatFloatWithoutZeroTrail amount))).set "rat"
            (Value.str (formatFloatWithoutZeroTrail
              (if bitType = OrderTypeMarket then f64_0 else rate))))
          ResponseType.OrderResponse).decode (fun ret => some ret.Result) := by
    rcases hvalid with hv | hv <;>
      simp [PlaceAskByFiat, hk, hs, hsym, hv, OrderTypeLimit, OrderTypeMarket]
  rw [hr]
  obtain ⟨h₁, body, _, h₂⟩ := signedPost_reached lib env b _ _ _ ResponseType.OrderResponse
    (fun ret => some ret.Result)
    (encodable_set_str lib _ "rat" _ (encodable_set_str lib _ "amt" _
        (encodable_set_str lib _ "typ" bitType (encodable_set_str lib _ "sym" symbol
          (encodable_empty lib)))))
  exact ⟨by rw [h₁]; simp, by rw [h₂]; rfl⟩

/-- C13: `PlaceBid`, `PlaceBidTest`, `PlaceAsk`, `PlaceAskTest` and `PlaceAskByFiat` fail
locally (an error made by `fmt.Errorf`, nothing signed, nothing sent) if and only if the
key is empty, or the secret is empty, or the symbol is empty, or the order type is neither
"limit" nor "market"; in every other case exactly one request reaches the transport. With
credentials and symbol present an empty type is reported as "bit type is empty" and any
other type outside the set as "bit type is invalid". The condition does not mention amount
or rate: no value of them, NaN and the infinities included, causes a local failure. -/
theorem place_order_gate (lib : Lib) (env : Env) (b : bitkubApi) (symbol bitType : String)
    (amount rate : Float64) (clientID : List String) :
    (((∃ msg, (PlaceBid lib env b symbol bitType amount rate clientID).failedLocally msg) ↔
        (b.ApiKey = "" ∨ b.ApiSecret = "" ∨ symbol = "" ∨
        (bitType ≠ "limit" ∧ bitType ≠ "market"))) ∧
      ((PlaceBid lib env b symbol bitType amount rate clientID).sent = [] ↔
        (b.ApiKey = "" ∨ b.ApiSecret = "" ∨ symbol = "" ∨
        (bitType ≠ "limit" ∧ bitType ≠ "market"))) ∧
      (b.ApiKey ≠ "" → b.ApiSecret ≠ "" → symbol ≠ "" → bitType = "" →
        (PlaceBid lib env b symbol bitType amount rate clientID).failedLocally "bit type is empty") ∧
      (b.ApiKey ≠ "" → b.ApiSecret ≠ "" → symbol ≠ "" → bitType ≠ "" →
        bitType ≠ "limit" → bitType ≠ "market" →
        (PlaceBid lib env b symbol bitType amount rate clientID).failedLocally "bit type is invalid") ∧
      (¬ (b.ApiKey = "" ∨ b.ApiSecret = "" ∨ symbol = "" ∨
        (bitType ≠ "limit" ∧ bitType ≠ "market")) →
        (PlaceBid lib env b symbol bitType amount rate clientID).sent.length = 1)) ∧
    (((∃ msg, (PlaceBidTest lib env b symbol bitType amount rate clientID).failedLocally msg) ↔
        (b.ApiKey = "" ∨ b.ApiSecret = "" ∨ symbol = "" ∨
        (bitType ≠ "limit" ∧ bitType ≠ "market"))) ∧
      ((PlaceBidTest lib env b symbol bitType amount rate clientID).sent = [] ↔
        (b.ApiKey = "" ∨ b.ApiSecret = "" ∨ symbol = "" ∨
        (bitType ≠ "limit" ∧ bitType ≠ "market"))) ∧
      (b.ApiKey ≠ "" → b.ApiSecret ≠ "" → symbol ≠ "" → bitType = "" →
        (PlaceBidTest lib env b symbol bitType amount rate clientID).failedLocally "bit type is empty") ∧
      (b.ApiKey ≠ "" → b.ApiSecret ≠ "" → symbol ≠ "" → bitType ≠ "" →
        bitType ≠ "limit" → bitType ≠ "market" →
        (PlaceBidTest lib env b symbol bitType amount rate clientID).failedLocally "bit type is invalid") ∧
      (¬ (b.ApiKey = "" ∨ b.ApiSecret = "" ∨ symbol = "" ∨
        (bitType ≠ "limit" ∧ bitType ≠ "market")) →
        (PlaceBidTest lib env b symbol bitType amount rate clientID).sent.length = 1)) ∧
    (((∃ msg, (PlaceAsk lib env b symbol bitType amount rate clientID).failedLocally msg) ↔
        (b.ApiKey = "" ∨ b.ApiSecret = "" ∨ symbol = "" ∨
        (bitType ≠ "limit" ∧ bitType ≠ "market"))) ∧
      ((PlaceAsk lib env b symbol bitType amount rate clientID).sent = [] ↔
        (b.ApiKey = "" ∨ b.ApiSecret = "" ∨ symbol = "" ∨
        (bitType ≠ "limit" ∧ bitType ≠ "market"))) ∧
      (b.ApiKey ≠ "" → b.ApiSecret ≠ "" → symbol ≠ "" → bitType = "" →
        (PlaceAsk lib env b symbol bitType amount rate clientID).failedLocally "bit type is empty") ∧
      (b.ApiKey ≠ "" → b.ApiSecret ≠ "" → symbol ≠ "" → bitType ≠ "" →
        bitType ≠ "limit" → bitType ≠ "market" →
        (PlaceAsk lib env b symbol bitType amount rate clientID).failedLocally "bit type is invalid") ∧
      (¬ (b.ApiKey = "" ∨ b.ApiSecret = "" ∨ symbol = "" ∨
        (bitType ≠ "limit" ∧ bitType ≠ "market")) →
        (PlaceAsk lib env b symbol bitType amount rate clientID).sent.length = 1)) ∧
    (((∃ msg, (PlaceAskTest lib env b symbol bitType amount rate clientID).failedLocally msg) ↔
        (b.ApiKey = "" ∨ b.ApiSecret = "" ∨ symbol = "" ∨
        (bitType ≠ "limit" ∧ bitType ≠ "market"))) ∧
      ((PlaceAskTest lib env b symbol bitType amount rate clientID).sent = [] ↔
        (b.ApiKey = "" ∨ b.ApiSecret = "" ∨ symbol = "" ∨
        (bitType ≠ "limit" ∧ bitType ≠ "market"))) ∧
      (b.ApiKey ≠ "" → b.ApiSecret ≠ "" → symbol ≠ "" → bitType = "" →
        (PlaceAskTest lib env b symbol bitType amount rate clientID).failedLocally "bit type is empty") ∧
      (b.ApiKey ≠ "" → b.ApiSecret ≠ "" → symbol ≠ "" → bitType ≠ "" →
        bitType ≠ "limit" → bitType ≠ "market" →
        (PlaceAskTest lib env b symbol bitType amount rate clientID).failedLocally "bit type is invalid") ∧
      (¬ (b.ApiKey = "" ∨ b.ApiSecret = "" ∨ symbol = "" ∨
        (bitType ≠ "limit" ∧ bitType ≠ "market")) →
        (PlaceAskTest lib env b symbol bitType amount rate clientID).sent.length = 1)) ∧
    (((∃ msg, (PlaceAskByFiat lib env b symbol bitType amount rate).failedLocally msg) ↔
        (b.ApiKey = "" ∨ b.ApiSecret = "" ∨ symbol = "" ∨
        (bitType ≠ "limit" ∧ bitType ≠ "market"))) ∧
      ((PlaceAskByFiat lib env b symbol bitType amount rate).sent = [] ↔
        (b.ApiKey = "" ∨ b.ApiSecret = "" ∨ symbol = "" ∨
        (bitType ≠ "limit" ∧ bitType ≠ "market"))) ∧
      (b.ApiKey ≠ "" → b.ApiSecret ≠ "" → symbol ≠ "" → bitType = "" →
        (PlaceAskByFiat lib env b symbol bitType amount rate).failedLocally "bit type is empty") ∧
      (b.ApiKey ≠ "" → b.ApiSecret ≠ "" → symbol ≠ "" → bitType ≠ "" →
        bitType ≠ "limit" → bitType ≠ "market" →
        (PlaceAskByFiat lib env b symbol bitType amount rate).failedLocally "bit type is invalid") ∧
      (¬ (b.ApiKey = "" ∨ b.ApiSecret = "" ∨ symbol = "" ∨
        (bitType ≠ "limit" ∧ bitType ≠ "market")) →
        (PlaceAskByFiat lib env b symbol bitType amount rate).sent.length = 1)) := by
  refine ⟨?_, ?_, ?_, ?_, ?_⟩
  · have hA := PlaceBid_local lib env b symbol bitType amount rate clientID
    have hB := PlaceBid_reached lib env b symbol bitType amount rate clientID
    refine ⟨⟨?_, hA⟩, ⟨?_, ?_⟩, ?_, ?_, ?_⟩
    · rintro ⟨msg, hmsg⟩
      by_contra hc
      exact (hB hc).1 hmsg.2.1
    · intro hsent
      by_contra hc
      have := (hB hc).2
      rw [hsent] at this
      simp at this
    · intro hc
      obtain ⟨msg, hmsg⟩ := hA hc
      exact hmsg.2.2
    · intro hk hs hsym htype
      simp [PlaceBid, hk, hs, hsym, htype, failLocal, Run.failedLocally]
    · intro hk hs hsym htype hl hm
      simp [PlaceBid, hk, hs, hsym, htype, hl, hm, OrderTypeLimit, OrderTypeMarket, failLocal,
        Run.failedLocally]
    · intro hc
      exact (hB hc).2
  · have hA := PlaceBidTest_local lib env b symbol bitType amount rate clientID
    have hB := PlaceBidTest_reached lib env b symbol bitType amount rate clientID
    refine ⟨⟨?_, hA⟩, ⟨?_, ?_⟩, ?_, ?_, ?_⟩
    · rintro ⟨msg, hmsg⟩
      by_contra hc
      exact (hB hc).1 hmsg.2.1
    · intro hsent
      by_contra hc
      have := (hB hc).2
      rw [hsent] at this
      simp at this
    · intro hc
      obtain ⟨msg, hmsg⟩ := hA hc
      exact hmsg.2.2
    · intro hk hs hsym htype
      simp [PlaceBidTest, hk, hs, hsym, htype, failLocal, Run.failedLocally]
    · intro hk hs hsym htype hl hm
      simp [PlaceBidTest, hk, hs, hsym, htype, hl, hm, OrderTypeLimit, OrderTypeMarket, failLocal,
        Run.failedLocally]
    · intro hc
      exact (hB hc).2
  · have hA := PlaceAsk_local lib env b symbol bitType amount rate clientID
    have hB := PlaceAsk_reached lib env b symbol bitType amount rate clientID
    refine ⟨⟨?_, hA⟩, ⟨?_, ?_⟩, ?_, ?_, ?_⟩
    · rintro ⟨msg, hmsg⟩
      by_contra hc
      exact (hB hc).1 hmsg.2.1
    · intro hsent
      by_contra hc
      have := (hB hc).2
      rw [hsent] at this
      simp at this
    · intro hc
      obtain ⟨msg, hmsg⟩ := hA hc
      exact hmsg.2.2
    · intro hk hs hsym htype
      simp [PlaceAsk, hk, hs, hsym, htype, failLocal, Run.failedLocally]
    · intro hk hs hsym htype hl hm
      simp [PlaceAsk, hk, hs, hsym, htype, hl, hm, OrderTypeLimit, OrderTypeMarket, failLocal,
        Run.failedLocally]
    · intro hc
      exact (hB hc).2
  · have hA := PlaceAskTest_local lib env b symbol bitType amount rate clientID
    have hB := PlaceAskTest_reached lib env b symbol bitType amount rate clientID
    refine ⟨⟨?_, hA⟩, ⟨?_, ?_⟩, ?_, ?_, ?_⟩
    · rintro ⟨msg, hmsg⟩
      by_contra hc
      exact (hB hc).1 hmsg.2.1
    · intro hsent
      by_contra hc
      have := (hB hc).2
      rw [hsent] at this
      simp at this
    · intro hc
      obtain ⟨msg, hmsg⟩ := hA hc
      exact hmsg.2.2
    · intro hk hs hsym htype
      simp [PlaceAskTest, hk, hs, hsym, htype, failLocal, Run.failedLocally]
    · intro hk hs hsym htype hl hm
      simp [PlaceAskTest, hk, hs, hsym, htype, hl, hm, OrderTypeLimit, OrderTypeMarket, failLocal,
        Run.failedLocally]
    · intro hc
      exact (hB hc).2
  · have hA := PlaceAskByFiat_local lib env b symbol bitType amount rate
    have hB := PlaceAskByFiat_reached lib env b symbol bitType amount rate
    refine ⟨⟨?_, hA⟩, ⟨?_, ?_⟩, ?_, ?_, ?_⟩
    · rintro ⟨msg, hmsg⟩
      by_contra hc
      exact (hB hc).1 hmsg.2.1
    · intro hsent
      by_contra hc
      have := (hB hc).2
      rw [hsent] at this
      simp at this
    · intro hc
      obtain ⟨msg, hmsg⟩ := hA hc
      exact hmsg.2.2
    · intro hk hs hsym htype
      simp [PlaceAskByFiat, hk, hs, hsym, htype, failLocal, Run.failedLocally]
    · intro hk hs hsym htype hl hm
      simp [PlaceAskByFiat, hk, hs, hsym, htype, hl, hm, OrderTypeLimit, OrderTypeMarket, failLocal,
        Run.failedLocally]
    · intro hc
      exact (hB hc).2

theorem place_order_gate_witness :
    (PlaceAsk plainLib (answering ⟨1627000000, 0⟩ ⟨200, "", ""⟩) (NewBitkub "key" "secret" [])
      "THB_BTC" "stop" f64_10 Float64.nan []).failedLocally "bit type is invalid" ∧
    (PlaceAskByFiat plainLib (answering ⟨1627000000, 0⟩ ⟨200, "", ""⟩)
      (NewBitkub "key" "secret" []) "THB_BTC" "market" Float64.nan (Float64.inf true)).sent.length
        = 1 :=
  ⟨(place_order_gate plainLib (answering ⟨1627000000, 0⟩ ⟨200, "", ""⟩)
      (NewBitkub "key" "secret" []) "THB_BTC" "stop" f64_10 Float64.nan []).2.2.1.2.2.2.1
      (by decide) (by decide) (by decide) (by decide) (by decide) (by decide),
   (place_order_gate plainLib (answering ⟨1627000000, 0⟩ ⟨200, "", ""⟩)
      (NewBitkub "key" "secret" []) "THB_BTC" "market" Float64.nan (Float64.inf true)
      []).2.2.2.2.2.2.2.2 (by decide)⟩

/-! ### Decoding the rows of the market operations -/

theorem getMarketResult_ok (lib : Lib) (env : Env) (b : bitkubApi) (url : String)
    (resp : Response) (r pag : Dyn)
    (htransport : ∀ req t, env.DoTimeout req t = Except.ok resp)
    (hstatus : resp.statusCode = 200)
    (hbody : lib.unmarshal ResponseType.DefaultResponse resp.body =
      some { Error := 0, Result := r, Pagination := pag }) :
    (getMarketResult lib env b url).outcome = Outcome.ok r := by
  simp [getMarketResult, Get, doRequest, htransport, hstatus, hbody]

theorem decode_ok_some {α β : Type} (r : Run α) (f : α → Option β) (v : α) (w : β)
    (h : r.outcome = Outcome.ok v) (hf : f v = some w) :
    (r.decode f).outcome = Outcome.ok w := by
  simp only [Run.decode, h, hf]

theorem decode_ok_none {α β : Type} (r : Run α) (f : α → Option β) (v : α)
    (h : r.outcome = Outcome.ok v) (hf : f v = none) :
    (r.decode f).outcome = Outcome.panic := by
  simp only [Run.decode, h, hf]

theorem collect_map {α β γ : Type} (f : β → Option γ) (g : α → β) (h : α → γ) (l : List α)
    (hfg : ∀ x ∈ l, f (g x) = some (h x)) : collect f (l.map g) = some (l.map h) := by
  induction l with
  | nil => rfl
  | cons a l ih =>
    have ha := hfg a (by simp)
    have hl := ih (fun x hx => hfg x (by simp [hx]))
    simp only [List.map_cons, collect, ha, hl]

theorem collect_append {α β : Type} (f : α → Option β) (l₁ l₂ : List α) (v₁ v₂ : List β)
    (h₁ : collect f l₁ = some v₁) (h₂ : collect f l₂ = some v₂) :
    collect f (l₁ ++ l₂) = some (v₁ ++ v₂) := by
  induction l₁ generalizing v₁ with
  | nil =>
    simp only [collect, Option.some.injEq] at h₁
    subst h₁
    simpa using h₂
  | cons a l ih =>
    simp only [collect] at h₁
    cases ha : f a with
    | none => simp [ha] at h₁
    | some w =>
      cases hl : collect f l with
      | none => simp [ha, hl] at h₁
      | some ws =>
        simp only [ha, hl, Option.some.injEq] at h₁
        subst h₁
        have hih := ih ws hl
        show collect f (a :: (l ++ l₂)) = some (w :: ws ++ v₂)
        simp only [collect, ha, hih, List.cons_append]

theorem tradeOfRow_row (lib : Lib) (t0 t1 t2 : Float64) (side : String) (extra : List Dyn) :
    tradeOfRow lib (Dyn.slice (Dyn.float64 t0 :: Dyn.float64 t1 :: Dyn.float64 t2 ::
      Dyn.string side :: extra)) =
      some { Timestamp := floatToInt lib t0, Rate := t1, Amount := t2, Side := side } := by
  rfl

theorem bidAndAskOfRow_row (lib : Lib) (b0 b1 b2 b3 b4 : Float64) (extra : List Dyn) :
    bidAndAskOfRow lib (Dyn.slice (Dyn.float64 b0 :: Dyn.float64 b1 :: Dyn.float64 b2 ::
      Dyn.float64 b3 :: Dyn.float64 b4 :: extra)) =
      some { OrderID := floatToInt lib b0, Timestamp := floatToInt lib b1, Volumn := b2,
             Rate := b3, Amount := b4 } := by
  rfl

theorem floatToInt_1627000000 (lib : Lib) : floatToInt lib f64_1627000000 = 1627000000 := by
  rfl

theorem decode_outcome {α β : Type} (r₀ : Run α) (f : α → Option β) (r : α)
    (h : r₀.outcome = Outcome.ok r) :
    (r₀.decode f).outcome = Outcome.ofOption (f r) := by
  cases hf : f r with
  | none => simp only [Run.decode, h, hf, Outcome.ofOption]
  | some v => simp only [Run.decode, h, hf, Outcome.ofOption]

theorem GetMarketTrades_outcome (lib : Lib) (env : Env) (b : bitkubApi) (symbol : String)
    (limit : Int) (resp : Response) (r pag : Dyn)
    (htransport : ∀ req t, env.DoTimeout req t = Except.ok resp)
    (hstatus : resp.statusCode = 200)
    (hbody : lib.unmarshal ResponseType.DefaultResponse resp.body =
      some { Error := 0, Result := r, Pagination := pag }) :
    (GetMarketTrades lib env b symbol limit).outcome =
      Outcome.ofOption (r.asSlice.bind (collect (tradeOfRow lib))) := by
  simp only [GetMarketTrades]
  exact decode_outcome _ _ r
    (getMarketResult_ok lib env b
      (baseURL ++ "/api/market/trades" ++ marketQuery symbol limit) resp r pag htransport
      hstatus hbody)

theorem GetMarketBids_outcome (lib : Lib) (env : Env) (b : bitkubApi) (symbol : String)
    (limit : Int) (resp : Response) (r pag : Dyn)
    (htransport : ∀ req t, env.DoTimeout req t = Except.ok resp)
    (hstatus : resp.statusCode = 200)
    (hbody : lib.unmarshal ResponseType.DefaultResponse resp.body =
      some { Error := 0, Result := r, Pagination := pag }) :
    (GetMarketBids lib env b symbol limit).outcome =
      Outcome.ofOption (r.asSlice.bind (collect (bidAndAskOfRow lib))) := by
  simp only [GetMarketBids]
  exact decode_outcome _ _ r
    (getMarketResult_ok lib env b
      (baseURL ++ "/api/market/bids" ++ marketQuery symbol limit) resp r pag htransport
      hstatus hbody)

theorem GetMarketAsks_outcome (lib : Lib) (env : Env) (b : bitkubApi) (symbol : String)
    (limit : Int) (resp : Response) (r pag : Dyn)
    (htransport : ∀ req t, env.DoTimeout req t = Except.ok resp)
    (hstatus : resp.statusCode = 200)
    (hbody : lib.unmarshal ResponseType.DefaultResponse resp.body =
      some { Error := 0, Result := r, Pagination := pag }) :
    (GetMarketAsks lib env b symbol limit).outcome =
      Outcome.ofOption (r.asSlice.bind (collect (bidAndAskOfRow lib))) := by
  simp only [GetMarketAsks]
  exact decode_outcome _ _ r
    (getMarketResult_ok lib env b
      (baseURL ++ "/api/market/asks" ++ marketQuery symbol limit) resp r pag htransport
      hstatus hbody)

/-- C14 (as amended): the trade schema is (timestamp, rate, amount, side) at positions 0
to 3. Given an error-free envelope whose result contains the row
`[1627000000, 123, 0.5, "buy"]` among rows that decode, `GetMarketTrades` returns the
decoded rows in order, and this row as the `MarketTrade` with Timestamp 1627000000,
Rate 123, Amount 0.5 and Side "buy". -/
theorem market_trade_row (lib : Lib) (env : Env) (b : bitkubApi) (symbol : String)
    (limit : Int) (resp : Response) (pag : Dyn) (before after : List Dyn)
    (tb ta : List MarketTrade)
    (htransport : ∀ req t, env.DoTimeout req t = Except.ok resp)
    (hstatus : resp.statusCode = 200)
    (hbody : lib.unmarshal ResponseType.DefaultResponse resp.body =
      some { Error := 0,
             Result := Dyn.slice (before ++ Dyn.slice [Dyn.float64 f64_1627000000,
               Dyn.float64 f64_123, Dyn.float64 f64_0_5, Dyn.string "buy"] :: after),
             Pagination := pag })
    (hb : collect (tradeOfRow lib) before = some tb)
    (ha : collect (tradeOfRow lib) after = some ta) :
    (GetMarketTrades lib env b symbol limit).outcome =
      Outcome.ok (tb ++ { Timestamp := 1627000000, Rate := f64_123, Amount := f64_0_5,
                          Side := "buy" } :: ta) := by
  rw [GetMarketTrades_outcome lib env b symbol limit resp _ pag htransport hstatus hbody]
  have hrow : collect (tradeOfRow lib) (Dyn.slice [Dyn.float64 f64_1627000000,
      Dyn.float64 f64_123, Dyn.float64 f64_0_5, Dyn.string "buy"] :: after) =
      some ({ Timestamp := 1627000000, Rate := f64_123, Amount := f64_0_5,
              Side := "buy" } :: ta) := by
    simp only [collect, tradeOfRow_row, ha, floatToInt_1627000000]
  simp only [Dyn.asSlice, Option.some_bind, collect_append _ _ _ _ _ hb hrow, Outcome.ofOption]

theorem market_trade_row_witness :
    (GetMarketTrades
        (decodingLib { Error := 0,
                       Result := Dyn.slice ([] ++ Dyn.slice [Dyn.float64 f64_1627000000,
                         Dyn.float64 f64_123, Dyn.float64 f64_0_5, Dyn.string "buy"] :: []),
                       Pagination := Dyn.null })
        (answering ⟨1627000000, 0⟩ { statusCode := 200, body := "", text := "" })
        (NewBitkub "" "" []) "THB_BTC" 10).outcome =
      Outcome.ok ([] ++ { Timestamp := 1627000000, Rate := f64_123, Amount := f64_0_5,
                          Side := "buy" } :: []) :=
  market_trade_row
    (decodingLib { Error := 0,
                   Result := Dyn.slice ([] ++ Dyn.slice [Dyn.float64 f64_1627000000,
                     Dyn.float64 f64_123, Dyn.float64 f64_0_5, Dyn.string "buy"] :: []),
                   Pagination := Dyn.null })
    (answering ⟨1627000000, 0⟩ { statusCode := 200, body := "", text := "" })
    (NewBitkub "" "" []) "THB_BTC" 10 { statusCode := 200, body := "", text := "" } Dyn.null
    [] [] [] [] (fun _ _ => rfl) rfl rfl rfl rfl

/-- C14 (counterexample): for the envelope whose result is the one row
`[1627000000, 123, 0.5, 216000.0, "buy"]`, position 3 holds a number where the trade schema
has the side string: `GetMarketTrades` panics and returns no `MarketTrade`. -/
theorem market_trade_row_five :
    (GetMarketTrades
        (decodingLib { Error := 0,
                       Result := Dyn.slice [Dyn.slice [Dyn.float64 f64_1627000000,
                         Dyn.float64 f64_123, Dyn.float64 f64_0_5, Dyn.float64 f64_216000,
                         Dyn.string "buy"]],
                       Pagination := Dyn.null })
        (answering ⟨1627000000, 0⟩ { statusCode := 200, body := "", text := "" })
        (NewBitkub "" "" []) "THB_BTC" 10).outcome = Outcome.panic ∧
    ∀ trades : List MarketTrade,
      (GetMarketTrades
        (decodingLib { Error := 0,
                       Result := Dyn.slice [Dyn.slice [Dyn.float64 f64_1627000000,
                         Dyn.float64 f64_123, Dyn.float64 f64_0_5, Dyn.float64 f64_216000,
                         Dyn.string "buy"]],
                       Pagination := Dyn.null })
        (answering ⟨1627000000, 0⟩ { statusCode := 200, body := "", text := "" })
        (NewBitkub "" "" []) "THB_BTC" 10).outcome ≠ Outcome.ok trades := by
  have h : (GetMarketTrades
        (decodingLib { Error := 0,
                       Result := Dyn.slice [Dyn.slice [Dyn.float64 f64_1627000000,
                         Dyn.float64 f64_123, Dyn.float64 f64_0_5, Dyn.float64 f64_216000,
                         Dyn.string "buy"]],
                       Pagination := Dyn.null })
        (answering ⟨1627000000, 0⟩ { statusCode := 200, body := "", text := "" })
        (NewBitkub "" "" []) "THB_BTC" 10).outcome = Outcome.panic := rfl
  refine ⟨h, ?_⟩
  intro trades
  rw [h]
  exact fun hc => Outcome.noConfusion hc

theorem tradesLoop_collect (lib : Lib) (items : List Dyn) (acc : List MarketTrade) :
    tradesLoop lib items (Slice.mk acc) =
      (collect (tradeOfRow lib) items).map (fun l => Slice.mk (acc ++ l)) := by
  induction items generalizing acc with
  | nil => simp [tradesLoop, collect]
  | cons item rest ih =>
    simp only [tradesLoop, collect]
    cases tradeOfRow lib item with
    | none => rfl
    | some t =>
      simp only [Slice.append, Slice.items]
      rw [ih]
      cases collect (tradeOfRow lib) rest with
      | none => rfl
      | some vs => simp

/-- The slice the loop of `GetMarketTrades` ends with is never the nil slice when it starts
from a slice that is not nil. -/
theorem tradesLoop_not_nil (lib : Lib) (items : List Dyn) (acc : List MarketTrade)
    (s : Slice MarketTrade) (h : tradesLoop lib items (Slice.mk acc) = some s) :
    s ≠ Slice.nil := by
  rw [tradesLoop_collect] at h
  cases hc : collect (tradeOfRow lib) items with
  | none => simp [hc] at h
  | some l =>
    simp only [hc, Option.map_some', Option.some.injEq] at h
    subst h
    exact fun hn => Slice.noConfusion hn

/-- The statement-by-statement embedding of the return values of `GetMarketTrades` and the
embedding as a run end the same way. -/
theorem GetMarketTrades_return (lib : Lib) (env : Env) (b : bitkubApi) (symbol : String)
    (limit : Int) :
    Outcome.ofReturn (GetMarketTradesReturn lib env b symbol limit) =
      (GetMarketTrades lib env b symbol limit).outcome := by
  simp only [GetMarketTradesReturn, GetMarketTrades, getMarketResult]
  rcases hg : Get env (baseURL ++ "/api/market/trades" ++ marketQuery symbol limit) []
    [b.Timeout] with ⟨res, sent⟩
  cases res with
  | error err => rfl
  | ok resp =>
    simp only
    by_cases hs : resp.statusCode ≠ 200
    · simp only [if_pos hs, Run.decode, Outcome.ofReturn]
    · simp only [if_neg hs]
      cases hu : lib.unmarshal ResponseType.DefaultResponse resp.body with
      | none => rfl
      | some ret =>
        simp only
        by_cases he : ret.Error ≠ 0
        · simp only [if_pos he, Run.decode, Outcome.ofReturn]
        · simp only [if_neg he, Run.decode]
          cases hr : ret.Result.asSlice with
          | none => rfl
          | some items =>
            simp only [Option.some_bind, Option.bind_eq_bind, tradesLoop_collect,
              List.nil_append]
            cases hc : collect (tradeOfRow lib) items with
            | none => rfl
            | some l => rfl

/-- Whenever `GetMarketTrades` returns an error the slice it returns is nil, and whenever it
returns no error the slice is not nil. -/
theorem GetMarketTradesReturn_nil (lib : Lib) (env : Env) (b : bitkubApi) (symbol : String)
    (limit : Int) (s : Slice MarketTrade) (e : Option GoError)
    (h : GetMarketTradesReturn lib env b symbol limit = some (s, e)) :
    (s = Slice.nil ↔ e ≠ none) := by
  simp only [GetMarketTradesReturn] at h
  split at h
  · simp only [Option.some.injEq, Prod.mk.injEq] at h
    simp [← h.1, ← h.2]
  · split_ifs at h
    · simp only [Option.some.injEq, Prod.mk.injEq] at h
      simp [← h.1, ← h.2]
    · split at h
      · simp only [Option.some.injEq, Prod.mk.injEq] at h
        simp [← h.1, ← h.2]
      · split_ifs at h
        · simp only [Option.some.injEq, Prod.mk.injEq] at h
          simp [← h.1, ← h.2]
        · split at h
          · exact absurd h (by simp)
          · split at h
            · exact absurd h (by simp)
            · rename_i items trades hl
              simp only [Option.some.injEq, Prod.mk.injEq] at h
              have hn := tradesLoop_not_nil lib _ [] trades hl
              rw [← h.1, ← h.2]
              simp [hn]

/-- C16: for every error-free envelope whose result is an array of rows with a number at
positions 0, 1, 2, a string at position 3 and anything after, `GetMarketTrades` returns the
list with one `MarketTrade` per row, in the order of the rows: Timestamp is the integer
conversion of position 0, Rate is position 1, Amount is position 2, Side is position 3.
What follows position 3 does not occur in the result. The slice returned is not nil: it
holds these elements and comes with the nil error, and for the empty array it is the empty
slice that is not nil, the literal `[]model.MarketTrade{}`. In every call the slice
returned is nil exactly when the error returned is not nil. -/
theorem market_trades_decode (lib : Lib) (env : Env) (b : bitkubApi) (symbol : String)
    (limit : Int) (resp : Response) (pag : Dyn)
    (rows : List (Float64 × Float64 × Float64 × String × List Dyn))
    (htransport : ∀ req t, env.DoTimeout req t = Except.ok resp)
    (hstatus : resp.statusCode = 200)
    (hbody : lib.unmarshal ResponseType.DefaultResponse resp.body =
      some { Error := 0, Result := Dyn.slice (rows.map tradeRow), Pagination := pag }) :
    (GetMarketTrades lib env b symbol limit).outcome =
      Outcome.ok (rows.map (fun r =>
        { Timestamp := floatToInt lib r.1, Rate := r.2.1, Amount := r.2.2.1,
          Side := r.2.2.2.1 })) ∧
    (∃ trades, (GetMarketTrades lib env b symbol limit).outcome = Outcome.ok trades ∧
      trades.length = rows.length) ∧
    (rows = [] → (GetMarketTrades lib env b symbol limit).outcome = Outcome.ok []) ∧
    GetMarketTradesReturn lib env b symbol limit =
      some (Slice.mk (rows.map (fun r =>
        { Timestamp := floatToInt lib r.1, Rate := r.2.1, Amount := r.2.2.1,
          Side := r.2.2.2.1 })), none) ∧
    (rows = [] → GetMarketTradesReturn lib env b symbol limit = some (Slice.mk [], none)) ∧
    (Slice.mk [] : Slice MarketTrade) ≠ Slice.nil ∧
    (∀ (lib₀ : Lib) (env₀ : Env) (b₀ : bitkubApi) (symbol₀ : String) (limit₀ : Int)
        (s : Slice MarketTrade) (e : Option GoError),
      GetMarketTradesReturn lib₀ env₀ b₀ symbol₀ limit₀ = some (s, e) →
        (s = Slice.nil ↔ e ≠ none)) ∧
    (∀ (lib₀ : Lib) (env₀ : Env) (b₀ : bitkubApi) (symbol₀ : String) (limit₀ : Int),
      Outcome.ofReturn (GetMarketTradesReturn lib₀ env₀ b₀ symbol₀ limit₀) =
        (GetMarketTrades lib₀ env₀ b₀ symbol₀ limit₀).outcome) := by
  have hc := collect_map (tradeOfRow lib) tradeRow (fun r =>
      ({ Timestamp := floatToInt lib r.1, Rate := r.2.1, Amount := r.2.2.1,
         Side := r.2.2.2.1 } : MarketTrade)) rows
      (fun r _ => tradeOfRow_row lib r.1 r.2.1 r.2.2.1 r.2.2.2.1 r.2.2.2.2)
  have h : (GetMarketTrades lib env b symbol limit).outcome =
      Outcome.ok (rows.map (fun r =>
        { Timestamp := floatToInt lib r.1, Rate := r.2.1, Amount := r.2.2.1,
          Side := r.2.2.2.1 })) := by
    rw [GetMarketTrades_outcome lib env b symbol limit resp _ pag htransport hstatus hbody]
    simp only [Dyn.asSlice, Option.some_bind, hc, Outcome.ofOption]
  have hret : GetMarketTradesReturn lib env b symbol limit =
      some (Slice.mk (rows.map (fun r =>
        { Timestamp := floatToInt lib r.1, Rate := r.2.1, Amount := r.2.2.1,
          Side := r.2.2.2.1 })), none) := by
    simp [GetMarketTradesReturn, Get, doRequest, htransport, hstatus, hbody, Dyn.asSlice,
      tradesLoop_collect, hc]
  refine ⟨h, ⟨_, h, by simp⟩, ?_, hret, ?_, fun hn => Slice.noConfusion hn,
    GetMarketTradesReturn_nil, GetMarketTrades_return⟩
  · intro hrows
    rw [h, hrows]
    rfl
  · intro hrows
    rw [hret, hrows]
    rfl

theorem market_trades_decode_witness :
    (GetMarketTrades
        (decodingLib { Error := 0,
                       Result := Dyn.slice ([(f64_1627000000, f64_123, f64_0_5, "buy",
                         [Dyn.null, Dyn.string "more"])].map tradeRow),
                       Pagination := Dyn.null })
        (answering ⟨1627000000, 0⟩ { statusCode := 200, body := "", text := "" })
        (NewBitkub "" "" []) "THB_BTC" 10).outcome =
      Outcome.ok ([(f64_1627000000, f64_123, f64_0_5, "buy",
          [Dyn.null, Dyn.string "more"])].map (fun r =>
        { Timestamp := floatToInt
            (decodingLib { Error := 0,
                           Result := Dyn.slice ([(f64_1627000000, f64_123, f64_0_5, "buy",
                             [Dyn.null, Dyn.string "more"])].map tradeRow),
                           Pagination := Dyn.null }) r.1,
          Rate := r.2.1, Amount := r.2.2.1, Side := r.2.2.2.1 })) ∧
    GetMarketTradesReturn
        (decodingLib { Error := 0, Result := Dyn.slice ([].map tradeRow),
                       Pagination := Dyn.null })
        (answering ⟨1627000000, 0⟩ { statusCode := 200, body := "", text := "" })
        (NewBitkub "" "" []) "THB_BTC" 10 = some (Slice.mk [], none) :=
  ⟨(market_trades_decode
      (decodingLib { Error := 0,
                     Result := Dyn.slice ([(f64_1627000000, f64_123, f64_0_5, "buy",
                       [Dyn.null, Dyn.string "more"])].map tradeRow),
                     Pagination := Dyn.null })
      (answering ⟨1627000000, 0⟩ { statusCode := 200, body := "", text := "" })
      (NewBitkub "" "" []) "THB_BTC" 10 { statusCode := 200, body := "", text := "" } Dyn.null
      [(f64_1627000000, f64_123, f64_0_5, "buy", [Dyn.null, Dyn.string "more"])]
      (fun _ _ => rfl) rfl rfl).1,
   (market_trades_decode
      (decodingLib { Error := 0, Result := Dyn.slice ([].map tradeRow),
                     Pagination := Dyn.null })
      (answering ⟨1627000000, 0⟩ { statusCode := 200, body := "", text := "" })
      (NewBitkub "" "" []) "THB_BTC" 10 { statusCode := 200, body := "", text := "" } Dyn.null
      [] (fun _ _ => rfl) rfl rfl).2.2.2.2.1 rfl⟩

theorem collect_bidAskRows (lib : Lib)
    (rows : List (Float64 × Float64 × Float64 × Float64 × Float64 × List Dyn)) :
    collect (bidAndAskOfRow lib) (rows.map bidAskRow) =
      some (rows.map (fun r =>
        ({ OrderID := floatToInt lib r.1, Timestamp := floatToInt lib r.2.1, Volumn := r.2.2.1,
                  Rate := r.2.2.2.1, Amount := r.2.2.2.2.1 } : MarketBidAndAsk))) :=
  collect_map (bidAndAskOfRow lib) bidAskRow _ rows
    (fun r _ => bidAndAskOfRow_row lib r.1 r.2.1 r.2.2.1 r.2.2.2.1 r.2.2.2.2.1 r.2.2.2.2.2)

/-- C17: for every error-free envelope whose result maps labels to arrays of rows with
numbers at positions 0 to 4 (and anything after), `GetMarketBooks` returns a map with the
same labels, each with one `MarketBidAndAsk` per row in the order of the rows: OrderID and
Timestamp are the integer conversions of positions 0 and 1, Volumn, Rate and Amount are
positions 2, 3 and 4. `GetMarketBids` and `GetMarketAsks` decode each row of a plain array
with the same position mapping. -/
theorem market_books_decode (lib : Lib) (env : Env) (b : bitkubApi) (symbol : String)
    (limit : Int) (resp : Response) (pag : Dyn)
    (entries : List (String × List (Float64 × Float64 × Float64 × Float64 × Float64 ×
      List Dyn)))
    (rows : List (Float64 × Float64 × Float64 × Float64 × Float64 × List Dyn))
    (htransport : ∀ req t, env.DoTimeout req t = Except.ok resp)
    (hstatus : resp.statusCode = 200) :
    (lib.unmarshal ResponseType.DefaultResponse resp.body =
        some { Error := 0,
               Result := Dyn.map (entries.map (fun e => (e.1, Dyn.slice (e.2.map bidAskRow)))),
               Pagination := pag } →
      (GetMarketBooks lib env b symbol limit).outcome =
        Outcome.ok (entries.map (fun e => (e.1, e.2.map (fun r =>
          ({ OrderID := floatToInt lib r.1, Timestamp := floatToInt lib r.2.1, Volumn := r.2.2.1,
                  Rate := r.2.2.2.1, Amount := r.2.2.2.2.1 } : MarketBidAndAsk))))) ∧
      ∃ books, (GetMarketBooks lib env b symbol limit).outcome = Outcome.ok books ∧
        books.map Prod.fst = entries.map Prod.fst) ∧
    (lib.unmarshal ResponseType.DefaultResponse resp.body =
        some { Error := 0, Result := Dyn.slice (rows.map bidAskRow), Pagination := pag } →
      (GetMarketBids lib env b symbol limit).outcome =
        Outcome.ok (rows.map (fun r =>
          ({ OrderID := floatToInt lib r.1, Timestamp := floatToInt lib r.2.1, Volumn := r.2.2.1,
                  Rate := r.2.2.2.1, Amount := r.2.2.2.2.1 } : MarketBidAndAsk))) ∧
      (GetMarketAsks lib env b symbol limit).outcome =
        Outcome.ok (rows.map (fun r =>
          ({ OrderID := floatToInt lib r.1, Timestamp := floatToInt lib r.2.1, Volumn := r.2.2.1,
                  Rate := r.2.2.2.1, Amount := r.2.2.2.2.1 } : MarketBidAndAsk)))) := by
  constructor
  · intro hbody
    have h : (GetMarketBooks lib env b symbol limit).outcome =
        Outcome.ok (entries.map (fun e => (e.1, e.2.map (fun r =>
          ({ OrderID := floatToInt lib r.1, Timestamp := floatToInt lib r.2.1, Volumn := r.2.2.1,
                  Rate := r.2.2.2.1, Amount := r.2.2.2.2.1 } : MarketBidAndAsk))))) := by
      have hres := getMarketResult_ok lib env b
        (baseURL ++ "/api/market/books" ++ marketQuery symbol limit) resp _ pag htransport
        hstatus hbody
      simp only [GetMarketBooks]
      rw [decode_outcome _ _ _ hres]
      have hc := collect_map
        (fun (entry : String × Dyn) => do
          let bidOrAsk ← entry.2.asSlice
          let rows ← collect (bidAndAskOfRow lib) bidOrAsk
          pure (entry.1, rows))
        (fun (e : String × List (Float64 × Float64 × Float64 × Float64 × Float64 ×
          List Dyn)) => (e.1, Dyn.slice (e.2.map bidAskRow)))
        (fun e => (e.1, e.2.map (fun r =>
          ({ OrderID := floatToInt lib r.1, Timestamp := floatToInt lib r.2.1, Volumn := r.2.2.1,
                  Rate := r.2.2.2.1, Amount := r.2.2.2.2.1 } : MarketBidAndAsk)))) entries
        (fun e _ => by
          simp only [Dyn.asSlice, Option.bind_eq_bind, Option.some_bind, collect_bidAskRows]
          rfl)
      simp only [Option.bind_eq_bind] at hc
      simp only [Dyn.asMap, Option.bind_eq_bind, Option.some_bind, hc, Outcome.ofOption]
    exact ⟨h, _, h, by simp [Function.comp_def]⟩
  · intro hbody
    constructor
    · rw [GetMarketBids_outcome lib env b symbol limit resp _ pag htransport hstatus hbody]
      simp only [Dyn.asSlice, Option.some_bind, collect_bidAskRows, Outcome.ofOption]
    · rw [GetMarketAsks_outcome lib env b symbol limit resp _ pag htransport hstatus hbody]
      simp only [Dyn.asSlice, Option.some_bind, collect_bidAskRows, Outcome.ofOption]

theorem market_books_decode_witness :
    (GetMarketBids
        (decodingLib { Error := 0,
                       Result := Dyn.slice ([(f64_123, f64_1627000000, f64_0_5, f64_216000,
                         f64_10, [])].map bidAskRow),
                       Pagination := Dyn.null })
        (answering ⟨1627000000, 0⟩ { statusCode := 200, body := "", text := "" })
        (NewBitkub "" "" []) "THB_BTC" 10).outcome =
      Outcome.ok [{ OrderID := 123, Timestamp := 1627000000, Volumn := f64_0_5,
                    Rate := f64_216000, Amount := f64_10 }] :=
  ((market_books_decode
    (decodingLib { Error := 0,
                   Result := Dyn.slice ([(f64_123, f64_1627000000, f64_0_5, f64_216000,
                     f64_10, [])].map bidAskRow),
                   Pagination := Dyn.null })
    (answering ⟨1627000000, 0⟩ { statusCode := 200, body := "", text := "" })
    (NewBitkub "" "" []) "THB_BTC" 10 { statusCode := 200, body := "", text := "" } Dyn.null
    [] [(f64_123, f64_1627000000, f64_0_5, f64_216000, f64_10, [])]
    (fun _ _ => rfl) rfl).2 rfl).1

/-- C15 (the code at the failing inputs): with an error-free envelope, a trade row of three
positions, a bid row of four positions, an ask row with a string where a number is
required, a books result that is not a map, a trades result that is not an array and a
row that is not an array each make the operation panic: no error is returned. -/
theorem market_decode_panics :
    (GetMarketTrades
        (decodingLib { Error := 0,
                       Result := Dyn.slice [Dyn.slice [Dyn.float64 f64_1627000000,
                         Dyn.float64 f64_123, Dyn.float64 f64_0_5]],
                       Pagination := Dyn.null })
        (answering ⟨1627000000, 0⟩ { statusCode := 200, body := "", text := "" })
        (NewBitkub "" "" []) "THB_BTC" 10).outcome = Outcome.panic ∧
    (GetMarketBids
        (decodingLib { Error := 0,
                       Result := Dyn.slice [Dyn.slice [Dyn.float64 f64_123,
                         Dyn.float64 f64_1627000000, Dyn.float64 f64_0_5,
                         Dyn.float64 f64_216000]],
                       Pagination := Dyn.null })
        (answering ⟨1627000000, 0⟩ { statusCode := 200, body := "", text := "" })
        (NewBitkub "" "" []) "THB_BTC" 10).outcome = Outcome.panic ∧
    (GetMarketAsks
        (decodingLib { Error := 0,
                       Result := Dyn.slice [Dyn.slice [Dyn.float64 f64_123,
                         Dyn.string "1627000000", Dyn.float64 f64_0_5,
                         Dyn.float64 f64_216000, Dyn.float64 f64_10]],
                       Pagination := Dyn.null })
        (answering ⟨1627000000, 0⟩ { statusCode := 200, body := "", text := "" })
        (NewBitkub "" "" []) "THB_BTC" 10).outcome = Outcome.panic ∧
    (GetMarketBooks
        (decodingLib { Error := 0, Result := Dyn.slice [], Pagination := Dyn.null })
        (answering ⟨1627000000, 0⟩ { statusCode := 200, body := "", text := "" })
        (NewBitkub "" "" []) "THB_BTC" 10).outcome = Outcome.panic ∧
    (GetMarketTrades
        (decodingLib { Error := 0, Result := Dyn.null, Pagination := Dyn.null })
        (answering ⟨1627000000, 0⟩ { statusCode := 200, body := "", text := "" })
        (NewBitkub "" "" []) "THB_BTC" 10).outcome = Outcome.panic ∧
    (GetMarketTrades
        (decodingLib { Error := 0, Result := Dyn.slice [Dyn.float64 f64_123],
                       Pagination := Dyn.null })
        (answering ⟨1627000000, 0⟩ { statusCode := 200, body := "", text := "" })
        (NewBitkub "" "" []) "THB_BTC" 10).outcome = Outcome.panic :=
  ⟨rfl, rfl, rfl, rfl, rfl, rfl⟩

/-! ### The symbol listing -/

theorem getBody_ok (env : Env) (b : bitkubApi) (url : String) (resp : Response)
    (htransport : ∀ req t, env.DoTimeout req t = Except.ok resp)
    (hstatus : resp.statusCode = 200) :
    (getBody env b url).outcome = Outcome.ok resp.body := by
  simp [getBody, Get, doRequest, htransport, hstatus]

theorem andThen_outcome {α β : Type} (r : Run α) (next : α → Except GoError β) (v : α)
    (h : r.outcome = Outcome.ok v) :
    (r.andThen next).outcome = Outcome.ofExcept (next v) := by
  cases hn : next v with
  | ok w => simp only [Run.andThen, h, hn, Outcome.ofExcept]
  | error e => simp only [Run.andThen, h, hn, Outcome.ofExcept]

theorem GetMarketSymbols_outcome (lib : Lib) (env : Env) (b : bitkubApi) (resp : Response)
    (htransport : ∀ req t, env.DoTimeout req t = Except.ok resp)
    (hstatus : resp.statusCode = 200) :
    (GetMarketSymbols lib env b).outcome =
      Outcome.ofExcept (match lib.unmarshalSymbols resp.body with
        | none => Except.error GoError.json
        | some ret =>
          if ret.Error ≠ 0 then
            Except.error (GoError.errorf (serverErrorText ret.Error (GetErrorMessage ret.Error)))
          else Except.ok ret.Result) := by
  simp only [GetMarketSymbols]
  rw [andThen_outcome _ _ resp.body (getBody_ok env b _ resp htransport hstatus)]

/-- C18 (as amended): `model.MarketSymbolResponse` holds its result as a list. The envelope
`{"error":0,"result":[{"id":1,"symbol":"THB_BTC","info":"Thai Baht to Bitcoin"}]}` decodes
through `GetMarketSymbols` without error to a list with exactly one entry, whose fields are
ID 1, Symbol "THB_BTC" and Info "Thai Baht to Bitcoin"; an envelope whose result is a JSON
object, whatever its members, is refused by `json.Unmarshal` and the operation returns that
error. -/
theorem market_symbols_decode (lib : Lib) (env : Env) (b : bitkubApi) (resp : Response)
    (htransport : ∀ req t, env.DoTimeout req t = Except.ok resp)
    (hstatus : resp.statusCode = 200) :
    (lib.unmarshalSymbols resp.body = unmarshalMarketSymbolResponse symbolsListEnvelope →
      (GetMarketSymbols lib env b).outcome =
        Outcome.ok [{ ID := 1, Symbol := "THB_BTC", Info := "Thai Baht to Bitcoin" }]) ∧
    (∀ members : List (String × Json),
      lib.unmarshalSymbols resp.body = unmarshalMarketSymbolResponse
        (Json.object [("error", Json.number "0"), ("result", Json.object members)]) →
      (GetMarketSymbols lib env b).outcome = Outcome.error GoError.json) := by
  constructor
  · intro hlib
    have hdec : unmarshalMarketSymbolResponse symbolsListEnvelope =
        some { Error := 0,
               Result := [{ ID := 1, Symbol := "THB_BTC", Info := "Thai Baht to Bitcoin" }] } := by
      decide
    rw [GetMarketSymbols_outcome lib env b resp htransport hstatus, hlib, hdec]
    rfl
  · intro members hlib
    have hdec : unmarshalMarketSymbolResponse
        (Json.object [("error", Json.number "0"), ("result", Json.object members)]) = none := by
      rfl
    rw [GetMarketSymbols_outcome lib env b resp htransport hstatus, hlib, hdec]
    rfl

theorem market_symbols_decode_witness :
    (GetMarketSymbols (treeLib symbolsListEnvelope)
        (answering ⟨1627000000, 0⟩ { statusCode := 200, body := "", text := "" })
        (NewBitkub "" "" [])).outcome =
      Outcome.ok [{ ID := 1, Symbol := "THB_BTC", Info := "Thai Baht to Bitcoin" }] :=
  (market_symbols_decode (treeLib symbolsListEnvelope)
    (answering ⟨1627000000, 0⟩ { statusCode := 200, body := "", text := "" })
    (NewBitkub "" "" []) { statusCode := 200, body := "", text := "" }
    (fun _ _ => rfl) rfl).1 rfl

/-- C18 (counterexample): the envelope
`{"error":0,"result":{"THB_BTC":{"id":1,"symbol":"THB_BTC","info":"Thai Baht to Bitcoin"}}}`
does not decode into `model.MarketSymbolResponse`, whose result is a list, and
`GetMarketSymbols` returns the error of `json.Unmarshal`: no entry keyed "THB_BTC". -/
theorem market_symbols_keyed_envelope :
    unmarshalMarketSymbolResponse symbolsKeyedEnvelope = none ∧
    (GetMarketSymbols (treeLib symbolsKeyedEnvelope)
        (answering ⟨1627000000, 0⟩ { statusCode := 200, body := "", text := "" })
        (NewBitkub "" "" [])).outcome = Outcome.error GoError.json ∧
    ∀ symbols : List MarketSymbol,
      (GetMarketSymbols (treeLib symbolsKeyedEnvelope)
        (answering ⟨1627000000, 0⟩ { statusCode := 200, body := "", text := "" })
        (NewBitkub "" "" [])).outcome ≠ Outcome.ok symbols := by
  have h : (GetMarketSymbols (treeLib symbolsKeyedEnvelope)
        (answering ⟨1627000000, 0⟩ { statusCode := 200, body := "", text := "" })
        (NewBitkub "" "" [])).outcome = Outcome.error GoError.json := rfl
  refine ⟨by decide, h, ?_⟩
  intro symbols
  rw [h]
  exact fun hc => Outcome.noConfusion hc

/-! ### The shape of the private operations -/

theorem GetWallet_shape (lib : Lib) (env : Env) (b : bitkubApi) :
    PrivateShape lib env b (GetWallet lib env b) := by
  unfold GetWallet
  split_ifs <;>
    first
    | exact Or.inr ⟨_, _, _, _, _, rfl⟩
    | exact Or.inl ⟨_, by decide, rfl⟩

theorem GetBalances_shape (lib : Lib) (env : Env) (b : bitkubApi) :
    PrivateShape lib env b (GetBalances lib env b) := by
  unfold GetBalances
  split_ifs <;>
    first
    | exact Or.inr ⟨_, _, _, _, _, rfl⟩
    | exact Or.inl ⟨_, by decide, rfl⟩

theorem PlaceBid_shape (lib : Lib) (env : Env) (b : bitkubApi) (symbol : String) (bitType : String) (amount : Float64) (rate : Float64) (clientID : List String) :
    PrivateShape lib env b (PlaceBid lib env b symbol bitType amount rate clientID) := by
  unfold PlaceBid
  split_ifs <;>
    first
    | exact Or.inr ⟨_, _, _, _, _, rfl⟩
    | exact Or.inl ⟨_, by decide, rfl⟩

theorem PlaceBidTest_shape (lib : Lib) (env : Env) (b : bitkubApi) (symbol : String) (bitType : String) (amount : Float64) (rate : Float64) (clientID : List String) :
    PrivateShape lib env b (PlaceBidTest lib env b symbol bitType amount rate clientID) := by
  unfold PlaceBidTest
  split_ifs <;>
    first
    | exact Or.inr ⟨_, _, _, _, _, rfl⟩
    | exact Or.inl ⟨_, by decide, rfl⟩

theorem PlaceAsk_shape (lib : Lib) (env : Env) (b : bitkubApi) (symbol : String) (bitType : String) (amount : Float64) (rate : Float64) (clientID : List String) :
    PrivateShape lib env b (PlaceAsk lib env b symbol bitType amount rate clientID) := by
  unfold PlaceAsk
  split_ifs <;>
    first
    | exact Or.inr ⟨_, _, _, _, _, rfl⟩
    | exact Or.inl ⟨_, by decide, rfl⟩

theorem PlaceAskTest_shape (lib : Lib) (env : Env) (b : bitkubApi) (symbol : String) (bitType : String) (amount : Float64) (rate : Float64) (clientID : List String) :
    PrivateShape lib env b (PlaceAskTest lib env b symbol bitType amount rate clientID) := by
  unfold PlaceAskTest
  split_ifs <;>
    first
    | exact Or.inr ⟨_, _, _, _, _, rfl⟩
    | exact Or.inl ⟨_, by decide, rfl⟩

theorem PlaceAskByFiat_shape (lib : Lib) (env : Env) (b : bitkubApi) (symbol : String) (bitType : String) (amount : Float64) (rate : Float64) :
    PrivateShape lib env b (PlaceAskByFiat lib env b symbol bitType amount rate) := by
  unfold PlaceAskByFiat
  split_ifs <;>
    first
    | exact Or.inr ⟨_, _, _, _, _, rfl⟩
    | exact Or.inl ⟨_, by decide, rfl⟩

theorem CancelOrder_shape (lib : Lib) (env : Env) (b : bitkubApi) (symbol : String) (side : String) (hash : String) (id : Int) :
    PrivateShape lib env b (CancelOrder lib env b symbol side hash id) := by
  unfold CancelOrder
  split_ifs <;>
    first
    | exact Or.inr ⟨_, _, _, _, _, rfl⟩
    | exact Or.inl ⟨_, by decide, rfl⟩

theorem GetOpenOrder_shape (lib : Lib) (env : Env) (b : bitkubApi) (symbol : String) :
    PrivateShape lib env b (GetOpenOrder lib env b symbol) := by
  unfold GetOpenOrder
  split_ifs <;>
    first
    | exact Or.inr ⟨_, _, _, _, _, rfl⟩
    | exact Or.inl ⟨_, by decide, rfl⟩

theorem GetOrderHistory_shape (lib : Lib) (env : Env) (b : bitkubApi) (symbol : String) (page : Int) (limit : Int) (start : Int) (end_ : Int) :
    PrivateShape lib env b (GetOrderHistory lib env b symbol page limit start end_) := by
  unfold GetOrderHistory
  split_ifs <;>
    first
    | exact Or.inr ⟨_, _, _, _, _, rfl⟩
    | exact Or.inl ⟨_, by decide, rfl⟩

theorem GetOrderInfo_shape (lib : Lib) (env : Env) (b : bitkubApi) (symbol : String) (side : String) (hash : String) (id : Int) :
    PrivateShape lib env b (GetOrderInfo lib env b symbol side hash id) := by
  unfold GetOrderInfo
  split_ifs <;>
    first
    | exact Or.inr ⟨_, _, _, _, _, rfl⟩
    | exact Or.inl ⟨_, by decide, rfl⟩

theorem GetCryptoAddresses_shape (lib : Lib) (env : Env) (b : bitkubApi) (page : Int) (limit : Int) :
    PrivateShape lib env b (GetCryptoAddresses lib env b page limit) := by
  unfold GetCryptoAddresses
  split_ifs <;>
    first
    | exact Or.inr ⟨_, _, _, _, _, rfl⟩
    | exact Or.inl ⟨_, by decide, rfl⟩

theorem CryptoWithdraw_shape (lib : Lib) (env : Env) (b : bitkubApi) (currency : String) (address : String) (amount : Float64) (memo : String) :
    PrivateShape lib env b (CryptoWithdraw lib env b currency address amount memo) := by
  unfold CryptoWithdraw
  split_ifs <;>
    first
    | exact Or.inr ⟨_, _, _, _, _, rfl⟩
    | exact Or.inl ⟨_, by decide, rfl⟩

theorem CryptoInternalWithdraw_shape (lib : Lib) (env : Env) (b : bitkubApi) (currency : String) (address : String) (amount : Float64) (memo : String) :
    PrivateShape lib env b (CryptoInternalWithdraw lib env b currency address amount memo) := by
  unfold CryptoInternalWithdraw
  split_ifs <;>
    first
    | exact Or.inr ⟨_, _, _, _, _, rfl⟩
    | exact Or.inl ⟨_, by decide, rfl⟩

theorem GetCryptoDepositHistory_shape (lib : Lib) (env : Env) (b : bitkubApi) (page : Int) (limit : Int) :
    PrivateShape lib env b (GetCryptoDepositHistory lib env b page limit) := by
  unfold GetCryptoDepositHistory
  split_ifs <;>
    first
    | exact Or.inr ⟨_, _, _, _, _, rfl⟩
    | exact Or.inl ⟨_, by decide, rfl⟩

theorem GetCryptoWithdrawHistory_shape (lib : Lib) (env : Env) (b : bitkubApi) (page : Int) (limit : Int) :
    PrivateShape lib env b (GetCryptoWithdrawHistory lib env b page limit) := by
  unfold GetCryptoWithdrawHistory
  split_ifs <;>
    first
    | exact Or.inr ⟨_, _, _, _, _, rfl⟩
    | exact Or.inl ⟨_, by decide, rfl⟩

theorem CryptoGenerateAddress_shape (lib : Lib) (env : Env) (b : bitkubApi) (symbol : String) :
    PrivateShape lib env b (CryptoGenerateAddress lib env b symbol) := by
  unfold CryptoGenerateAddress
  split_ifs <;>
    first
    | exact Or.inr ⟨_, _, _, _, _, rfl⟩
    | exact Or.inl ⟨_, by decide, rfl⟩

theorem GetBankAccounts_shape (lib : Lib) (env : Env) (b : bitkubApi) (page : Int) (limit : Int) :
    PrivateShape lib env b (GetBankAccounts lib env b page limit) := by
  unfold GetBankAccounts
  split_ifs <;>
    first
    | exact Or.inr ⟨_, _, _, _, _, rfl⟩
    | exact Or.inl ⟨_, by decide, rfl⟩

theorem FiatWithdraw_shape (lib : Lib) (env : Env) (b : bitkubApi) (bankID : String) (amount : Float64) :
    PrivateShape lib env b (FiatWithdraw lib env b bankID amount) := by
  unfold FiatWithdraw
  split_ifs <;>
    first
    | exact Or.inr ⟨_, _, _, _, _, rfl⟩
    | exact Or.inl ⟨_, by decide, rfl⟩

theorem GetFiatDepositHistory_shape (lib : Lib) (env : Env) (b : bitkubApi) (page : Int) (limit : Int) :
    PrivateShape lib env b (GetFiatDepositHistory lib env b page limit) := by
  unfold GetFiatDepositHistory
  split_ifs <;>
    first
    | exact Or.inr ⟨_, _, _, _, _, rfl⟩
    | exact Or.inl ⟨_, by decide, rfl⟩

theorem GetFiatWithdrawHistory_shape (lib : Lib) (env : Env) (b : bitkubApi) (page : Int) (limit : Int) :
    PrivateShape lib env b (GetFiatWithdrawHistory lib env b page limit) := by
  unfold GetFiatWithdrawHistory
  split_ifs <;>
    first
    | exact Or.inr ⟨_, _, _, _, _, rfl⟩
    | exact Or.inl ⟨_, by decide, rfl⟩

theorem GetWebSocketToken_shape (lib : Lib) (env : Env) (b : bitkubApi) :
    PrivateShape lib env b (GetWebSocketToken lib env b) := by
  unfold GetWebSocketToken
  split_ifs <;>
    first
    | exact Or.inr ⟨_, _, _, _, _, rfl⟩
    | exact Or.inl ⟨_, by decide, rfl⟩

theorem GetUserLimits_shape (lib : Lib) (env : Env) (b : bitkubApi) :
    PrivateShape lib env b (GetUserLimits lib env b) := by
  unfold GetUserLimits
  split_ifs <;>
    first
    | exact Or.inr ⟨_, _, _, _, _, rfl⟩
    | exact Or.inl ⟨_, by decide, rfl⟩

theorem GetUserTradingCredits_shape (lib : Lib) (env : Env) (b : bitkubApi) :
    PrivateShape lib env b (GetUserTradingCredits lib env b) := by
  unfold GetUserTradingCredits
  split_ifs <;>
    first
    | exact Or.inr ⟨_, _, _, _, _, rfl⟩
    | exact Or.inl ⟨_, by decide, rfl⟩

theorem allPrivate_of_shape (P : {α : Type} → Run α → Prop) (lib : Lib) (env : Env)
    (b : bitkubApi)
    (h : ∀ {α : Type} (r : Run α), PrivateShape lib env b r → P r) :
    AllPrivate P lib env b :=
  ⟨h _ (GetWallet_shape lib env b),
   h _ (GetBalances_shape lib env b),
   fun symbol bitType amount rate clientID => h _ (PlaceBid_shape lib env b symbol bitType amount rate clientID),
   fun symbol bitType amount rate clientID => h _ (PlaceBidTest_shape lib env b symbol bitType amount rate clientID),
   fun symbol bitType amount rate clientID => h _ (PlaceAsk_shape lib env b symbol bitType amount rate clientID),
   fun symbol bitType amount rate clientID => h _ (PlaceAskTest_shape lib env b symbol bitType amount rate clientID),
   fun symbol bitType amount rate => h _ (PlaceAskByFiat_shape lib env b symbol bitType amount rate),
   fun symbol side hash id => h _ (CancelOrder_shape lib env b symbol side hash id),
   fun symbol => h _ (GetOpenOrder_shape lib env b symbol),
   fun symbol page limit start end_ => h _ (GetOrderHistory_shape lib env b symbol page limit start end_),
   fun symbol side hash id => h _ (GetOrderInfo_shape lib env b symbol side hash id),
   fun page limit => h _ (GetCryptoAddresses_shape lib env b page limit),
   fun currency address amount memo => h _ (CryptoWithdraw_shape lib env b currency address amount memo),
   fun currency address amount memo => h _ (CryptoInternalWithdraw_shape lib env b currency address amount memo),
   fun page limit => h _ (GetCryptoDepositHistory_shape lib env b page limit),
   fun page limit => h _ (GetCryptoWithdrawHistory_shape lib env b page limit),
   fun symbol => h _ (CryptoGenerateAddress_shape lib env b symbol),
   fun page limit => h _ (GetBankAccounts_shape lib env b page limit),
   fun bankID amount => h _ (FiatWithdraw_shape lib env b bankID amount),
   fun page limit => h _ (GetFiatDepositHistory_shape lib env b page limit),
   fun page limit => h _ (GetFiatWithdrawHistory_shape lib env b page limit),
   h _ (GetWebSocketToken_shape lib env b),
   h _ (GetUserLimits_shape lib env b),
   h _ (GetUserTradingCredits_shape lib env b)⟩

/-! ### The status check -/

theorem getMarketResult_status (lib : Lib) (env : Env) (b : bitkubApi) (url : String)
    (resp : Response) (htransport : ∀ req t, env.DoTimeout req t = Except.ok resp)
    (hstatus : resp.statusCode ≠ 200) :
    (getMarketResult lib env b url).outcome =
      Outcome.error (GoError.errorf ("response status code is " ++ toString resp.statusCode)) := by
  simp [getMarketResult, Get, doRequest, htransport, hstatus]

theorem getBody_status (env : Env) (b : bitkubApi) (url : String)
    (resp : Response) (htransport : ∀ req t, env.DoTimeout req t = Except.ok resp)
    (hstatus : resp.statusCode ≠ 200) :
    (getBody env b url).outcome =
      Outcome.error (GoError.errorf ("response status code is " ++ toString resp.statusCode)) := by
  simp [getBody, Get, doRequest, htransport, hstatus]

theorem andThen_error {α β : Type} (r : Run α) (next : α → Except GoError β) (e : GoError)
    (h : r.outcome = Outcome.error e) : (r.andThen next).outcome = Outcome.error e := by
  simp only [Run.andThen, h]

theorem signedPost_status (lib : Lib) (env : Env) (b : bitkubApi) (url : String)
    (headers : List (String × String)) (payload : Payload) (rt : ResponseType)
    (resp : Response) (htransport : ∀ req t, env.DoTimeout req t = Except.ok resp)
    (hstatus : resp.statusCode ≠ 200) :
    (∃ e, (signedPost lib env b url headers payload rt).outcome = Outcome.error e) ∧
    ((signedPost lib env b url headers payload rt).sent ≠ [] →
      (signedPost lib env b url headers payload rt).outcome =
        Outcome.error (GoError.errorf (serverErrorText resp.statusCode resp.text))) := by
  simp only [signedPost, Post, doRequest, htransport]
  cases (sigPayload lib b env.now payload).1 with
  | error e => exact ⟨⟨e, rfl⟩, fun h => absurd rfl h⟩
  | ok body => simp [hstatus]

theorem privateShape_status {α : Type} (lib : Lib) (env : Env) (b : bitkubApi)
    (resp : Response) (htransport : ∀ req t, env.DoTimeout req t = Except.ok resp)
    (hstatus : resp.statusCode ≠ 200) (r : Run α) (h : PrivateShape lib env b r) :
    (∃ e, r.outcome = Outcome.error e) ∧
    (r.sent ≠ [] →
      r.outcome = Outcome.error (GoError.errorf (serverErrorText resp.statusCode resp.text))) := by
  rcases h with ⟨msg, _, rfl⟩ | ⟨url, headers, payload, rt, f, rfl⟩
  · exact ⟨⟨_, rfl⟩, fun h => absurd rfl h⟩
  · obtain ⟨⟨e, he⟩, hs⟩ :=
      signedPost_status lib env b url headers payload rt resp htransport hstatus
    refine ⟨⟨e, decode_error _ _ _ he⟩, fun h => ?_⟩
    rw [decode_sent] at h
    exact decode_error _ _ _ (hs h)

/-- C19: when the transport answers a request with a status other than 200, every operation
returns an error and no result, whatever the body is and whatever the JSON decoder would
make of it (in particular when the body is an envelope with error code 0): the status is
checked before the body is parsed. Each of the ten public operations returns
"response status code is " followed by the status. Each of the twenty-four private
operations returns an error, and when its request went out that error is
"got server error (status) : " followed by the text of the response. -/
theorem status_check_first (lib : Lib) (env : Env) (b : bitkubApi) (resp : Response)
    (htransport : ∀ req t, env.DoTimeout req t = Except.ok resp)
    (hstatus : resp.statusCode ≠ 200) :
    (GetServerStatus lib env b).outcome =
      Outcome.error (GoError.errorf ("response status code is " ++ toString resp.statusCode)) ∧
    (GetServerTime env b).outcome =
      Outcome.error (GoError.errorf ("response status code is " ++ toString resp.statusCode)) ∧
    (GetMarketSymbols lib env b).outcome =
      Outcome.error (GoError.errorf ("response status code is " ++ toString resp.statusCode)) ∧
    (∀ symbol, (GetMarketTickers lib env b symbol).outcome =
      Outcome.error (GoError.errorf ("response status code is " ++ toString resp.statusCode))) ∧
    (∀ symbol limit, (GetMarketTrades lib env b symbol limit).outcome =
      Outcome.error (GoError.errorf ("response status code is " ++ toString resp.statusCode))) ∧
    (∀ symbol limit, (GetMarketBids lib env b symbol limit).outcome =
      Outcome.error (GoError.errorf ("response status code is " ++ toString resp.statusCode))) ∧
    (∀ symbol limit, (GetMarketAsks lib env b symbol limit).outcome =
      Outcome.error (GoError.errorf ("response status code is " ++ toString resp.statusCode))) ∧
    (∀ symbol limit, (GetMarketBooks lib env b symbol limit).outcome =
      Outcome.error (GoError.errorf ("response status code is " ++ toString resp.statusCode))) ∧
    (∀ symbol resolution from_ to_, (GetTradingViewHistory lib env b symbol resolution from_ to_).outcome =
      Outcome.error (GoError.errorf ("response status code is " ++ toString resp.statusCode))) ∧
    (∀ symbol limit, (GetMarketDepth lib env b symbol limit).outcome =
      Outcome.error (GoError.errorf ("response status code is " ++ toString resp.statusCode))) ∧
    AllPrivate (fun r => (∃ e, r.outcome = Outcome.error e) ∧
      (r.sent ≠ [] → r.outcome =
        Outcome.error (GoError.errorf (serverErrorText resp.statusCode resp.text))))
      lib env b :=
  ⟨andThen_error _ _ _ (getBody_status env b _ resp htransport hstatus),
   andThen_error _ _ _ (getBody_status env b _ resp htransport hstatus),
   andThen_error _ _ _ (getBody_status env b _ resp htransport hstatus),
   fun _ => andThen_error _ _ _ (getBody_status env b _ resp htransport hstatus),
   fun _ _ => decode_error _ _ _ (getMarketResult_status lib env b _ resp htransport hstatus),
   fun _ _ => decode_error _ _ _ (getMarketResult_status lib env b _ resp htransport hstatus),
   fun _ _ => decode_error _ _ _ (getMarketResult_status lib env b _ resp htransport hstatus),
   fun _ _ => decode_error _ _ _ (getMarketResult_status lib env b _ resp htransport hstatus),
   fun _ _ _ _ => andThen_error _ _ _ (getBody_status env b _ resp htransport hstatus),
   fun _ _ => decode_error _ _ _ (andThen_error _ _ _ (getBody_status env b _ resp htransport hstatus)),
   allPrivate_of_shape _ lib env b
     (fun r h => privateShape_status lib env b resp htransport hstatus r h)⟩

theorem status_check_first_witness :
    (GetMarketTrades (decodingLib ⟨0, Dyn.slice [], Dyn.null⟩)
      (answering ⟨1627000000, 0⟩
        ⟨404, "\x7b\"error\":0,\"result\":[]\x7d", "HTTP/1.1 404 Not Found"⟩)
      (NewBitkub "key" "secret" []) "THB_BTC" 10).outcome =
      Outcome.error (GoError.errorf "response status code is 404") ∧
    (GetWallet (decodingLib ⟨0, Dyn.slice [], Dyn.null⟩)
      (answering ⟨1627000000, 0⟩
        ⟨404, "\x7b\"error\":0,\"result\":[]\x7d", "HTTP/1.1 404 Not Found"⟩)
      (NewBitkub "key" "secret" [])).outcome =
      Outcome.error (GoError.errorf "got server error (404) : HTTP/1.1 404 Not Found") :=
  ⟨(status_check_first (decodingLib ⟨0, Dyn.slice [], Dyn.null⟩)
      (answering ⟨1627000000, 0⟩
        ⟨404, "\x7b\"error\":0,\"result\":[]\x7d", "HTTP/1.1 404 Not Found"⟩)
      (NewBitkub "key" "secret" []) _ (fun _ _ => rfl) (by decide)).2.2.2.2.1 "THB_BTC" 10,
   ((status_check_first (decodingLib ⟨0, Dyn.slice [], Dyn.null⟩)
      (answering ⟨1627000000, 0⟩
        ⟨404, "\x7b\"error\":0,\"result\":[]\x7d", "HTTP/1.1 404 Not Found"⟩)
      (NewBitkub "key" "secret" []) _ (fun _ _ => rfl)
      (by decide)).2.2.2.2.2.2.2.2.2.2.1).2 (by decide)⟩

/-! ### The three kinds of failure of a private operation -/

theorem digitChar_no_paren (k : Nat) (h : k < 10) : Nat.digitChar k ≠ ')' := by
  interval_cases k <;> decide

theorem toDigitsCore_no_paren (fuel : Nat) : ∀ (n : Nat) (ds : List Char),
    ')' ∉ ds → ')' ∉ Nat.toDigitsCore 10 fuel n ds := by
  induction fuel with
  | zero => intro n ds h; simpa [Nat.toDigitsCore] using h
  | succ fuel ih =>
    intro n ds h
    have hd : ')' ∉ Nat.digitChar (n % 10) :: ds := by
      intro hmem
      rcases List.mem_cons.1 hmem with h1 | h1
      · exact digitChar_no_paren (n % 10) (Nat.mod_lt _ (by decide)) h1.symm
      · exact h h1
    simp only [Nat.toDigitsCore]
    split_ifs
    · exact hd
    · exact ih _ _ hd

/-- The decimal text of an integer (`%d`) has no closing bracket. -/
theorem int_toString_no_paren (n : Int) : ')' ∉ (toString n).data := by
  cases n with
  | ofNat m =>
    show ')' ∉ (Nat.repr m).data
    exact toDigitsCore_no_paren _ _ _ (List.not_mem_nil _)
  | negSucc m =>
    show ')' ∉ ("-" ++ Nat.repr (m + 1)).data
    rw [String.data_append]
    intro h
    rcases List.mem_append.1 h with h1 | h1
    · exact absurd h1 (by decide)
    · exact toDigitsCore_no_paren _ _ _ (List.not_mem_nil _) h1

theorem split_at_paren : ∀ (d₁ d₂ r₁ r₂ : List Char), ')' ∉ d₁ → ')' ∉ d₂ →
    d₁ ++ ')' :: r₁ = d₂ ++ ')' :: r₂ → r₁ = r₂
  | [], [], _, _, _, _, h => by simpa using h
  | [], c :: d₂, _, _, _, h₂, h => by
    simp only [List.nil_append, List.cons_append, List.cons.injEq] at h
    exact absurd (List.mem_cons.2 (Or.inl h.1)) h₂
  | c :: d₁, [], _, _, h₁, _, h => by
    simp only [List.nil_append, List.cons_append, List.cons.injEq] at h
    exact absurd (List.mem_cons.2 (Or.inl h.1.symm)) h₁
  | c :: d₁, e :: d₂, r₁, r₂, h₁, h₂, h => by
    simp only [List.cons_append, List.cons.injEq] at h
    exact split_at_paren d₁ d₂ r₁ r₂ (fun hm => h₁ (List.mem_cons_of_mem _ hm))
      (fun hm => h₂ (List.mem_cons_of_mem _ hm)) h.2

/-- Two texts "got server error (code) : msg" that are equal end in the same `msg`. -/
theorem serverErrorText_tail (s c : Int) (t m : String)
    (h : serverErrorText s t = serverErrorText c m) : t = m := by
  have hd := congrArg String.data h
  simp only [serverErrorText, String.data_append] at hd
  have h1 : (toString s).data ++ ')' :: (" : ".data ++ t.data) =
      (toString c).data ++ ')' :: (" : ".data ++ m.data) := by
    simpa using hd
  have h2 := split_at_paren _ _ _ _ (int_toString_no_paren s) (int_toString_no_paren c) h1
  have h3 : t.data = m.data := List.append_cancel_left h2
  exact String.ext h3

theorem lookup_mem_values (code : Int) (msg : String) :
    ∀ (l : List (Int × String)), l.lookup code = some msg → msg ∈ l.map Prod.snd
  | [], h => by simp [List.lookup] at h
  | (k, v) :: l, h => by
    simp only [List.lookup] at h
    split at h
    · simp only [Option.some.injEq] at h
      simp [h]
    · exact List.mem_cons_of_mem _ (lookup_mem_values code msg l h)

/-- No text of the catalogue, and not the fallback text, begins like an HTTP response. -/
theorem GetErrorMessage_not_http (code : Int) :
    ¬ "HTTP/".data <+: (GetErrorMessage code).data := by
  have hall : ∀ m ∈ "Unknown error" :: BitkubApiErrorCodes.map Prod.snd,
      ¬ "HTTP/".data <+: m.data := by decide
  apply hall
  simp only [GetErrorMessage]
  cases hl : BitkubApiErrorCodes.lookup code with
  | none => exact List.mem_cons_self _ _
  | some msg => exact List.mem_cons_of_mem _ (lookup_mem_values code msg _ hl)

theorem serverErrorText_head (code : Int) (msg : String) :
    (serverErrorText code msg).data.head? = some 'g' := by
  simp only [serverErrorText, String.data_append]
  rfl

theorem local_ne_serverErrorText (msg : String) (hmsg : msg ∈ localMessages) (code : Int)
    (m : String) : serverErrorText code m ≠ msg := by
  have hall : ∀ x ∈ localMessages, x.data.head? ≠ some 'g' := by decide
  intro h
  exact hall msg hmsg (h ▸ serverErrorText_head code m)

theorem signedPost_domain (lib : Lib) (env : Env) (b : bitkubApi) (url : String)
    (headers : List (String × String)) (payload : Payload) (rt : ResponseType)
    (resp : Response) (c : Int) (res pag : Dyn)
    (htransport : ∀ req t, env.DoTimeout req t = Except.ok resp)
    (hstatus : resp.statusCode = 200)
    (hbody : ∀ rt, lib.unmarshal rt resp.body =
      some { Error := c, Result := res, Pagination := pag })
    (hc : c ≠ 0) :
    (signedPost lib env b url headers payload rt).sent ≠ [] →
      (signedPost lib env b url headers payload rt).outcome =
        Outcome.error (GoError.errorf (serverErrorText c (GetErrorMessage c))) := by
  simp only [signedPost, Post, doRequest, htransport]
  cases (sigPayload lib b env.now payload).1 with
  | error e => exact fun h => absurd rfl h
  | ok body => simp [hstatus, hbody, hc]

theorem privateShape_domain {α : Type} (lib : Lib) (env : Env) (b : bitkubApi)
    (resp : Response) (c : Int) (res pag : Dyn)
    (htransport : ∀ req t, env.DoTimeout req t = Except.ok resp)
    (hstatus : resp.statusCode = 200)
    (hbody : ∀ rt, lib.unmarshal rt resp.body =
      some { Error := c, Result := res, Pagination := pag })
    (hc : c ≠ 0) (r : Run α) (h : PrivateShape lib env b r) :
    r.sent ≠ [] →
      r.outcome = Outcome.error (GoError.errorf (serverErrorText c (GetErrorMessage c))) := by
  rcases h with ⟨msg, _, rfl⟩ | ⟨url, headers, payload, rt, f, rfl⟩
  · exact fun h => absurd rfl h
  · intro h
    rw [decode_sent] at h
    exact decode_error _ _ _
      (signedPost_domain lib env b url headers payload rt resp c res pag htransport hstatus
        hbody hc h)

theorem privateShape_local {α : Type} (lib : Lib) (env : Env) (b : bitkubApi) (r : Run α)
    (h : PrivateShape lib env b r) :
    r.signed = [] → ∃ msg, msg ∈ localMessages ∧ r.failedLocally msg := by
  rcases h with ⟨msg, hmsg, rfl⟩ | ⟨url, headers, payload, rt, f, rfl⟩
  · exact fun _ => ⟨msg, hmsg, rfl, rfl, rfl⟩
  · intro h
    rw [decode_signed, signedPost_signed] at h
    exact absurd h (List.cons_ne_nil _ _)

/-- The beginning "HTTP/" of the response text is what keeps the first two kinds apart: a
text equal to a catalogue message, which no response written on the wire has, would give
the error of the domain failure with the same number. -/
theorem serverErrorText_same_tail :
    serverErrorText 11 "Invalid symbol" = serverErrorText 11 (GetErrorMessage 11) := by
  decide

/-- C20: the three kinds of failure of a private operation never give the same error.
Take a world `envT` whose transport answers with a status other than 200 and a world
`envD` whose transport answers with status 200 and a body that decodes to an envelope with
code `c ≠ 0`. Every private operation whose request went out returns
"got server error (status) : " followed by the text of the response in `envT`, and
"got server error (c) : " followed by `GetErrorMessage c` in `envD`; in any world, a call
that signed nothing failed with one of the twelve texts of `localMessages`. The text of the
response (`resp.String()` of fasthttp) is the response as written on the wire, so it
begins with "HTTP/"; with that, the error of `envT` differs from the error of `envD` for
every status, body and code `c`, and both differ from every error of `localMessages`. -/
theorem failure_classes_disjoint (lib : Lib) (envT envD : Env) (b : bitkubApi)
    (respT respD : Response) (c : Int) (res pag : Dyn)
    (htransportT : ∀ req t, envT.DoTimeout req t = Except.ok respT)
    (hstatusT : respT.statusCode ≠ 200)
    (htext : "HTTP/".data <+: respT.text.data)
    (htransportD : ∀ req t, envD.DoTimeout req t = Except.ok respD)
    (hstatusD : respD.statusCode = 200)
    (hbody : ∀ rt, lib.unmarshal rt respD.body =
      some { Error := c, Result := res, Pagination := pag })
    (hc : c ≠ 0) :
    AllPrivate (fun r => r.sent ≠ [] → r.outcome =
      Outcome.error (GoError.errorf (serverErrorText respT.statusCode respT.text)))
      lib envT b ∧
    AllPrivate (fun r => r.sent ≠ [] → r.outcome =
      Outcome.error (GoError.errorf (serverErrorText c (GetErrorMessage c))))
      lib envD b ∧
    (∀ env, AllPrivate (fun r => r.signed = [] →
      ∃ msg, msg ∈ localMessages ∧ r.failedLocally msg) lib env b) ∧
    GoError.errorf (serverErrorText respT.statusCode respT.text) ≠
      GoError.errorf (serverErrorText c (GetErrorMessage c)) ∧
    (∀ msg, msg ∈ localMessages →
      GoError.errorf (serverErrorText respT.statusCode respT.text) ≠ GoError.errorf msg ∧
      GoError.errorf (serverErrorText c (GetErrorMessage c)) ≠ GoError.errorf msg) := by
  refine ⟨allPrivate_of_shape _ lib envT b
      (fun r h => (privateShape_status lib envT b respT htransportT hstatusT r h).2),
    allPrivate_of_shape _ lib envD b
      (fun r h => privateShape_domain lib envD b respD c res pag htransportD hstatusD
        hbody hc r h),
    fun env => allPrivate_of_shape _ lib env b (fun r h => privateShape_local lib env b r h),
    ?_, ?_⟩
  · intro h
    have ht := serverErrorText_tail _ _ _ _ (GoError.errorf.inj h)
    exact GetErrorMessage_not_http c (ht ▸ htext)
  · intro msg hmsg
    exact ⟨fun h => local_ne_serverErrorText msg hmsg _ _ (GoError.errorf.inj h),
      fun h => local_ne_serverErrorText msg hmsg _ _ (GoError.errorf.inj h)⟩

theorem failure_classes_disjoint_witness :
    (GetWallet (decodingLib ⟨11, Dyn.null, Dyn.null⟩)
      (answering ⟨1627000000, 0⟩ ⟨404, "Invalid symbol", "HTTP/1.1 404 Not Found"⟩)
      (NewBitkub "key" "secret" [])).outcome =
      Outcome.error (GoError.errorf "got server error (404) : HTTP/1.1 404 Not Found") ∧
    (GetWallet (decodingLib ⟨11, Dyn.null, Dyn.null⟩)
      (answering ⟨1627000000, 0⟩ ⟨200, "\x7b\"error\":11\x7d", "HTTP/1.1 200 OK"⟩)
      (NewBitkub "key" "secret" [])).outcome =
      Outcome.error (GoError.errorf "got server error (11) : Invalid symbol") ∧
    GoError.errorf "got server error (404) : HTTP/1.1 404 Not Found" ≠
      GoError.errorf "got server error (11) : Invalid symbol" :=
  have h := failure_classes_disjoint (decodingLib ⟨11, Dyn.null, Dyn.null⟩)
    (answering ⟨1627000000, 0⟩ ⟨404, "Invalid symbol", "HTTP/1.1 404 Not Found"⟩)
    (answering ⟨1627000000, 0⟩ ⟨200, "\x7b\"error\":11\x7d", "HTTP/1.1 200 OK"⟩)
    (NewBitkub "key" "secret" []) _ _ 11 Dyn.null Dyn.null
    (fun _ _ => rfl) (by decide) (by decide) (fun _ _ => rfl) rfl (fun _ => rfl) (by decide)
  ⟨h.1.1 (by decide), h.2.1.1 (by decide), h.2.2.2.1⟩

/-! ### What the private operations hand to the transport -/

theorem plain_empty : PlainPayload (∅ : Payload) := by
  refine ⟨by simp, by simp, ?_⟩
  intro k v h
  simp at h

theorem plain_set_str (p : Payload) (key s : String) (h : PlainPayload p)
    (hts : key ≠ "ts") (hsig : key ≠ "sig") : PlainPayload (p.set key (Value.str s)) := by
  obtain ⟨h₁, h₂, h₃⟩ := h
  refine ⟨?_, ?_, ?_⟩
  · rw [mem_keys_set]
    exact fun hc => hc.elim (fun e => hts e.symm) h₁
  · rw [mem_keys_set]
    exact fun hc => hc.elim (fun e => hsig e.symm) h₂
  · intro k v hk
    rw [lookup_set] at hk
    by_cases hkey : k = key
    · rw [if_pos hkey] at hk
      exact Or.inl ⟨s, (Option.some.inj hk).symm⟩
    · rw [if_neg hkey] at hk
      exact h₃ k v hk

theorem plain_set_int (p : Payload) (key : String) (n : Int) (h : PlainPayload p)
    (hts : key ≠ "ts") (hsig : key ≠ "sig") : PlainPayload (p.set key (Value.int n)) := by
  obtain ⟨h₁, h₂, h₃⟩ := h
  refine ⟨?_, ?_, ?_⟩
  · rw [mem_keys_set]
    exact fun hc => hc.elim (fun e => hts e.symm) h₁
  · rw [mem_keys_set]
    exact fun hc => hc.elim (fun e => hsig e.symm) h₂
  · intro k v hk
    rw [lookup_set] at hk
    by_cases hkey : k = key
    · rw [if_pos hkey] at hk
      exact Or.inr ⟨n, (Option.some.inj hk).symm⟩
    · rw [if_neg hkey] at hk
      exact h₃ k v hk

theorem plain_ite (c : Prop) [Decidable c] (p q : Payload) (hp : PlainPayload p)
    (hq : PlainPayload q) : PlainPayload (if c then p else q) := by
  split_ifs
  · exact hp
  · exact hq

theorem plain_encodable (lib : Lib) (p : Payload) (h : PlainPayload p) : Encodable lib p := by
  intro k v hk
  rcases h.2.2 k v hk with ⟨s, rfl⟩ | ⟨n, rfl⟩ <;> rfl

theorem baseURL_start (path : String) : baseURL.data <+: (baseURL ++ path).data := by
  rw [String.data_append]
  exact List.prefix_append _ _

theorem GetWallet_call (lib : Lib) (env : Env) (b : bitkubApi) :
    PrivateCall lib env b (CallSpec b none PlainPayload)
      (GetWallet lib env b) := by
  unfold GetWallet
  split_ifs <;>
    first
    | (refine Or.inr ⟨_, _, _, _, _, ?_, rfl⟩
       refine ⟨baseURL_start _, rfl, rfl, ?_⟩
       repeat (first | exact plain_empty | apply plain_set_str | apply plain_set_int | apply plain_ite | decide))
    | exact Or.inl ⟨_, by decide, rfl⟩

theorem GetBalances_call (lib : Lib) (env : Env) (b : bitkubApi) :
    PrivateCall lib env b (CallSpec b none PlainPayload)
      (GetBalances lib env b) := by
  unfold GetBalances
  split_ifs <;>
    first
    | (refine Or.inr ⟨_, _, _, _, _, ?_, rfl⟩
       refine ⟨baseURL_start _, rfl, rfl, ?_⟩
       repeat (first | exact plain_empty | apply plain_set_str | apply plain_set_int | apply plain_ite | decide))
    | exact Or.inl ⟨_, by decide, rfl⟩

theorem PlaceBid_call (lib : Lib) (env : Env) (b : bitkubApi) (symbol : String) (bitType : String) (amount : Float64) (rate : Float64) (clientID : List String) :
    PrivateCall lib env b (CallSpec b (some "application/json") PlainPayload)
      (PlaceBid lib env b symbol bitType amount rate clientID) := by
  cases clientID <;>
  (unfold PlaceBid
   split_ifs <;>
     first
     | (refine Or.inr ⟨_, _, _, _, _, ?_, rfl⟩
        refine ⟨baseURL_start _, rfl, rfl, ?_⟩
        repeat (first | exact plain_empty | apply plain_set_str | apply plain_set_int | apply plain_ite | decide))
     | exact Or.inl ⟨_, by decide, rfl⟩)

theorem PlaceBidTest_call (lib : Lib) (env : Env) (b : bitkubApi) (symbol : String) (bitType : String) (amount : Float64) (rate : Float64) (clientID : List String) :
    PrivateCall lib env b (CallSpec b (some "application/json") PlainPayload)
      (PlaceBidTest lib env b symbol bitType amount rate clientID) := by
  cases clientID <;>
  (unfold PlaceBidTest
   split_ifs <;>
     first
     | (refine Or.inr ⟨_, _, _, _, _, ?_, rfl⟩
        refine ⟨baseURL_start _, rfl, rfl, ?_⟩
        repeat (first | exact plain_empty | apply plain_set_str | apply plain_set_int | apply plain_ite | decide))
     | exact Or.inl ⟨_, by decide, rfl⟩)

theorem PlaceAsk_call (lib : Lib) (env : Env) (b : bitkubApi) (symbol : String) (bitType : String) (amount : Float64) (rate : Float64) (clientID : List String) :
    PrivateCall lib env b (CallSpec b (some "application/json") PlainPayload)
      (PlaceAsk lib env b symbol bitType amount rate clientID) := by
  cases clientID <;>
  (unfold PlaceAsk
   split_ifs <;>
     first
     | (refine Or.inr ⟨_, _, _, _, _, ?_, rfl⟩
        refine ⟨baseURL_start _, rfl, rfl, ?_⟩
        repeat (first | exact plain_empty | apply plain_set_str | apply plain_set_int | apply plain_ite | decide))
     | exact Or.inl ⟨_, by decide, rfl⟩)

theorem PlaceAskTest_call (lib : Lib) (env : Env) (b : bitkubApi) (symbol : String) (bitType : String) (amount : Float64) (rate : Float64) (clientID : List String) :
    PrivateCall lib env b (CallSpec b (some "application/json") PlainPayload)
      (PlaceAskTest lib env b symbol bitType amount rate clientID) := by
  cases clientID <;>
  (unfold PlaceAskTest
   split_ifs <;>
     first
     | (refine Or.inr ⟨_, _, _, _, _, ?_, rfl⟩
        refine ⟨baseURL_start _, rfl, rfl, ?_⟩
        repeat (first | exact plain_empty | apply plain_set_str | apply plain_set_int | apply plain_ite | decide))
     | exact Or.inl ⟨_, by decide, rfl⟩)

theorem PlaceAskByFiat_call (lib : Lib) (env : Env) (b : bitkubApi) (symbol : String) (bitType : String) (amount : Float64) (rate : Float64) :
    PrivateCall lib env b (CallSpec b (some "application/json") PlainPayload)
      (PlaceAskByFiat lib env b symbol bitType amount rate) := by
  unfold PlaceAskByFiat
  split_ifs <;>
    first
    | (refine Or.inr ⟨_, _, _, _, _, ?_, rfl⟩
       refine ⟨baseURL_start _, rfl, rfl, ?_⟩
       repeat (first | exact plain_empty | apply plain_set_str | apply plain_set_int | apply plain_ite | decide))
    | exact Or.inl ⟨_, by decide, rfl⟩

theorem CancelOrder_call (lib : Lib) (env : Env) (b : bitkubApi) (symbol : String) (side : String) (hash : String) (id : Int) :
    PrivateCall lib env b (CallSpec b (some "application/json") PlainPayload)
      (CancelOrder lib env b symbol side hash id) := by
  unfold CancelOrder
  split_ifs <;>
    first
    | (refine Or.inr ⟨_, _, _, _, _, ?_, rfl⟩
       refine ⟨baseURL_start _, rfl, rfl, ?_⟩
       repeat (first | exact plain_empty | apply plain_set_str | apply plain_set_int | apply plain_ite | decide))
    | exact Or.inl ⟨_, by decide, rfl⟩

theorem GetOpenOrder_call (lib : Lib) (env : Env) (b : bitkubApi) (symbol : String) :
    PrivateCall lib env b (CallSpec b (some "application/json") PlainPayload)
      (GetOpenOrder lib env b symbol) := by
  unfold GetOpenOrder
  split_ifs <;>
    first
    | (refine Or.inr ⟨_, _, _, _, _, ?_, rfl⟩
       refine ⟨baseURL_start _, rfl, rfl, ?_⟩
       repeat (first | exact plain_empty | apply plain_set_str | apply plain_set_int | apply plain_ite | decide))
    | exact Or.inl ⟨_, by decide, rfl⟩

theorem GetOrderHistory_call (lib : Lib) (env : Env) (b : bitkubApi) (symbol : String) (page : Int) (limit : Int) (start : Int) (end_ : Int) :
    PrivateCall lib env b (CallSpec b (some "application/json") PlainPayload)
      (GetOrderHistory lib env b symbol page limit start end_) := by
  unfold GetOrderHistory
  split_ifs <;>
    first
    | (refine Or.inr ⟨_, _, _, _, _, ?_, rfl⟩
       refine ⟨baseURL_start _, rfl, rfl, ?_⟩
       repeat (first | exact plain_empty | apply plain_set_str | apply plain_set_int | apply plain_ite | decide))
    | exact Or.inl ⟨_, by decide, rfl⟩

theorem GetOrderInfo_call (lib : Lib) (env : Env) (b : bitkubApi) (symbol : String) (side : String) (hash : String) (id : Int) :
    PrivateCall lib env b (CallSpec b (some "application/json") PlainPayload)
      (GetOrderInfo lib env b symbol side hash id) := by
  unfold GetOrderInfo
  split_ifs <;>
    first
    | (refine Or.inr ⟨_, _, _, _, _, ?_, rfl⟩
       refine ⟨baseURL_start _, rfl, rfl, ?_⟩
       repeat (first | exact plain_empty | apply plain_set_str | apply plain_set_int | apply plain_ite | decide))
    | exact Or.inl ⟨_, by decide, rfl⟩

theorem GetCryptoAddresses_call (lib : Lib) (env : Env) (b : bitkubApi) (page : Int) (limit : Int) :
    PrivateCall lib env b (CallSpec b (some "application/json") PlainPayload)
      (GetCryptoAddresses lib env b page limit) := by
  unfold GetCryptoAddresses
  split_ifs <;>
    first
    | (refine Or.inr ⟨_, _, _, _, _, ?_, rfl⟩
       refine ⟨baseURL_start _, rfl, rfl, ?_⟩
       repeat (first | exact plain_empty | apply plain_set_str | apply plain_set_int | apply plain_ite | decide))
    | exact Or.inl ⟨_, by decide, rfl⟩

theorem CryptoWithdraw_call (lib : Lib) (env : Env) (b : bitkubApi) (currency : String) (address : String) (amount : Float64) (memo : String) :
    PrivateCall lib env b (CallSpec b (some "application/json") PlainPayload)
      (CryptoWithdraw lib env b currency address amount memo) := by
  unfold CryptoWithdraw
  split_ifs <;>
    first
    | (refine Or.inr ⟨_, _, _, _, _, ?_, rfl⟩
       refine ⟨baseURL_start _, rfl, rfl, ?_⟩
       repeat (first | exact plain_empty | apply plain_set_str | apply plain_set_int | apply plain_ite | decide))
    | exact Or.inl ⟨_, by decide, rfl⟩

theorem CryptoInternalWithdraw_call (lib : Lib) (env : Env) (b : bitkubApi) (currency : String) (address : String) (amount : Float64) (memo : String) :
    PrivateCall lib env b (CallSpec b (some "application/json") PlainPayload)
      (CryptoInternalWithdraw lib env b currency address amount memo) := by
  unfold CryptoInternalWithdraw
  split_ifs <;>
    first
    | (refine Or.inr ⟨_, _, _, _, _, ?_, rfl⟩
       refine ⟨baseURL_start _, rfl, rfl, ?_⟩
       repeat (first | exact plain_empty | apply plain_set_str | apply plain_set_int | apply plain_ite | decide))
    | exact Or.inl ⟨_, by decide, rfl⟩

theorem GetCryptoDepositHistory_call (lib : Lib) (env : Env) (b : bitkubApi) (page : Int) (limit : Int) :
    PrivateCall lib env b (CallSpec b (some "application/json") PlainPayload)
      (GetCryptoDepositHistory lib env b page limit) := by
  unfold GetCryptoDepositHistory
  split_ifs <;>
    first
    | (refine Or.inr ⟨_, _, _, _, _, ?_, rfl⟩
       refine ⟨baseURL_start _, rfl, rfl, ?_⟩
       repeat (first | exact plain_empty | apply plain_set_str | apply plain_set_int | apply plain_ite | decide))
    | exact Or.inl ⟨_, by decide, rfl⟩

theorem GetCryptoWithdrawHistory_call (lib : Lib) (env : Env) (b : bitkubApi) (page : Int) (limit : Int) :
    PrivateCall lib env b (CallSpec b (some "application/json") PlainPayload)
      (GetCryptoWithdrawHistory lib env b page limit) := by
  unfold GetCryptoWithdrawHistory
  split_ifs <;>
    first
    | (refine Or.inr ⟨_, _, _, _, _, ?_, rfl⟩
       refine ⟨baseURL_start _, rfl, rfl, ?_⟩
       repeat (first | exact plain_empty | apply plain_set_str | apply plain_set_int | apply plain_ite | decide))
    | exact Or.inl ⟨_, by decide, rfl⟩

theorem CryptoGenerateAddress_call (lib : Lib) (env : Env) (b : bitkubApi) (symbol : String) :
    PrivateCall lib env b (CallSpec b (some "application/json") PlainPayload)
      (CryptoGenerateAddress lib env b symbol) := by
  unfold CryptoGenerateAddress
  split_ifs <;>
    first
    | (refine Or.inr ⟨_, _, _, _, _, ?_, rfl⟩
       refine ⟨baseURL_start _, rfl, rfl, ?_⟩
       repeat (first | exact plain_empty | apply plain_set_str | apply plain_set_int | apply plain_ite | decide))
    | exact Or.inl ⟨_, by decide, rfl⟩

theorem GetBankAccounts_call (lib : Lib) (env : Env) (b : bitkubApi) (page : Int) (limit : Int) :
    PrivateCall lib env b (CallSpec b (some "application/json") PlainPayload)
      (GetBankAccounts lib env b page limit) := by
  unfold GetBankAccounts
  split_ifs <;>
    first
    | (refine Or.inr ⟨_, _, _, _, _, ?_, rfl⟩
       refine ⟨baseURL_start _, rfl, rfl, ?_⟩
       repeat (first | exact plain_empty | apply plain_set_str | apply plain_set_int | apply plain_ite | decide))
    | exact Or.inl ⟨_, by decide, rfl⟩

theorem FiatWithdraw_call (lib : Lib) (env : Env) (b : bitkubApi) (bankID : String) (amount : Float64) :
    PrivateCall lib env b (CallSpec b (some "application/json") (fun p => p = ((∅ : Payload).set "id" (Value.str bankID)).set "amount"
      (Value.float amount)))
      (FiatWithdraw lib env b bankID amount) := by
  unfold FiatWithdraw
  split_ifs <;>
    first
    | (refine Or.inr ⟨_, _, _, _, _, ?_, rfl⟩
       refine ⟨baseURL_start _, rfl, rfl, ?_⟩
       rfl)
    | exact Or.inl ⟨_, by decide, rfl⟩

theorem GetFiatDepositHistory_call (lib : Lib) (env : Env) (b : bitkubApi) (page : Int) (limit : Int) :
    PrivateCall lib env b (CallSpec b (some "application/json") PlainPayload)
      (GetFiatDepositHistory lib env b page limit) := by
  unfold GetFiatDepositHistory
  split_ifs <;>
    first
    | (refine Or.inr ⟨_, _, _, _, _, ?_, rfl⟩
       refine ⟨baseURL_start _, rfl, rfl, ?_⟩
       repeat (first | exact plain_empty | apply plain_set_str | apply plain_set_int | apply plain_ite | decide))
    | exact Or.inl ⟨_, by decide, rfl⟩

theorem GetFiatWithdrawHistory_call (lib : Lib) (env : Env) (b : bitkubApi) (page : Int) (limit : Int) :
    PrivateCall lib env b (CallSpec b (some "application/json") PlainPayload)
      (GetFiatWithdrawHistory lib env b page limit) := by
  unfold GetFiatWithdrawHistory
  split_ifs <;>
    first
    | (refine Or.inr ⟨_, _, _, _, _, ?_, rfl⟩
       refine ⟨baseURL_start _, rfl, rfl, ?_⟩
       repeat (first | exact plain_empty | apply plain_set_str | apply plain_set_int | apply plain_ite | decide))
    | exact Or.inl ⟨_, by decide, rfl⟩

theorem GetWebSocketToken_call (lib : Lib) (env : Env) (b : bitkubApi) :
    PrivateCall lib env b (CallSpec b (some "application/json") PlainPayload)
      (GetWebSocketToken lib env b) := by
  unfold GetWebSocketToken
  split_ifs <;>
    first
    | (refine Or.inr ⟨_, _, _, _, _, ?_, rfl⟩
       refine ⟨baseURL_start _, rfl, rfl, ?_⟩
       repeat (first | exact plain_empty | apply plain_set_str | apply plain_set_int | apply plain_ite | decide))
    | exact Or.inl ⟨_, by decide, rfl⟩

theorem GetUserLimits_call (lib : Lib) (env : Env) (b : bitkubApi) :
    PrivateCall lib env b (CallSpec b (some "application/json") PlainPayload)
      (GetUserLimits lib env b) := by
  unfold GetUserLimits
  split_ifs <;>
    first
    | (refine Or.inr ⟨_, _, _, _, _, ?_, rfl⟩
       refine ⟨baseURL_start _, rfl, rfl, ?_⟩
       repeat (first | exact plain_empty | apply plain_set_str | apply plain_set_int | apply plain_ite | decide))
    | exact Or.inl ⟨_, by decide, rfl⟩

theorem GetUserTradingCredits_call (lib : Lib) (env : Env) (b : bitkubApi) :
    PrivateCall lib env b (CallSpec b (some "application/json") PlainPayload)
      (GetUserTradingCredits lib env b) := by
  unfold GetUserTradingCredits
  split_ifs <;>
    first
    | (refine Or.inr ⟨_, _, _, _, _, ?_, rfl⟩
       refine ⟨baseURL_start _, rfl, rfl, ?_⟩
       repeat (first | exact plain_empty | apply plain_set_str | apply plain_set_int | apply plain_ite | decide))
    | exact Or.inl ⟨_, by decide, rfl⟩

theorem signedPost_sent_mem (lib : Lib) (env : Env) (b : bitkubApi) (url : String)
    (headers : List (String × String)) (payload : Payload) (rt : ResponseType) :
    ∀ req ∈ (signedPost lib env b url headers payload rt).sent,
      ∃ body, (sigPayload lib b env.now payload).1 = Except.ok body ∧
        req = postRequest url headers body := by
  intro req hreq
  cases h : (sigPayload lib b env.now payload).1 with
  | error e =>
    have hnil : (signedPost lib env b url headers payload rt).sent = [] := by
      simp only [signedPost, h]
    rw [hnil] at hreq
    cases hreq
  | ok body =>
    rw [signedPost_sent _ _ _ _ _ _ _ body h] at hreq
    exact ⟨body, rfl, List.mem_singleton.1 hreq⟩

/-- Every request a private call hands to the transport is the POST of the bytes
`sigPayload` returned for the one map the call signed, to the URL and with the header map
the operation chose. -/
theorem privateCall_sent {α : Type} (lib : Lib) (env : Env) (b : bitkubApi)
    (Q : String → List (String × String) → Payload → Prop) (r : Run α)
    (h : PrivateCall lib env b Q r) :
    ∀ req ∈ r.sent, ∃ url headers payload body, Q url headers payload ∧
      r.signed = [payload] ∧ (sigPayload lib b env.now payload).1 = Except.ok body ∧
      req = postRequest url headers body := by
  rcases h with ⟨msg, _, rfl⟩ | ⟨url, headers, payload, rt, f, hQ, rfl⟩
  · intro req hreq
    cases hreq
  · intro req hreq
    rw [decode_sent] at hreq
    obtain ⟨body, hbody, hreq⟩ := signedPost_sent_mem lib env b url headers payload rt req hreq
    exact ⟨url, headers, payload, body, hQ,
      by rw [decode_signed, signedPost_signed], hbody, hreq⟩

theorem privateCall_signed {α : Type} (lib : Lib) (env : Env) (b : bitkubApi)
    (Q : String → List (String × String) → Payload → Prop) (r : Run α)
    (h : PrivateCall lib env b Q r) :
    ∀ p ∈ r.signed, ∃ url headers, Q url headers p := by
  rcases h with ⟨msg, _, rfl⟩ | ⟨url, headers, payload, rt, f, hQ, rfl⟩
  · intro p hp
    cases hp
  · intro p hp
    rw [decode_signed, signedPost_signed] at hp
    rw [List.mem_singleton.1 hp]
    exact ⟨url, headers, hQ⟩

theorem allPrivate_of_call (P : {α : Type} → Run α → Prop) (lib : Lib) (env : Env)
    (b : bitkubApi)
    (h : ∀ {α : Type} (r : Run α) (ct : Option String) (Qp : Payload → Prop),
      PrivateCall lib env b (CallSpec b ct Qp) r → P r) :
    AllPrivate P lib env b :=
  ⟨h _ _ _ (GetWallet_call lib env b),
   h _ _ _ (GetBalances_call lib env b),
   fun symbol bitType amount rate clientID => h _ _ _ (PlaceBid_call lib env b symbol bitType amount rate clientID),
   fun symbol bitType amount rate clientID => h _ _ _ (PlaceBidTest_call lib env b symbol bitType amount rate clientID),
   fun symbol bitType amount rate clientID => h _ _ _ (PlaceAsk_call lib env b symbol bitType amount rate clientID),
   fun symbol bitType amount rate clientID => h _ _ _ (PlaceAskTest_call lib env b symbol bitType amount rate clientID),
   fun symbol bitType amount rate => h _ _ _ (PlaceAskByFiat_call lib env b symbol bitType amount rate),
   fun symbol side hash id => h _ _ _ (CancelOrder_call lib env b symbol side hash id),
   fun symbol => h _ _ _ (GetOpenOrder_call lib env b symbol),
   fun symbol page limit start end_ => h _ _ _ (GetOrderHistory_call lib env b symbol page limit start end_),
   fun symbol side hash id => h _ _ _ (GetOrderInfo_call lib env b symbol side hash id),
   fun page limit => h _ _ _ (GetCryptoAddresses_call lib env b page limit),
   fun currency address amount memo => h _ _ _ (CryptoWithdraw_call lib env b currency address amount memo),
   fun currency address amount memo => h _ _ _ (CryptoInternalWithdraw_call lib env b currency address amount memo),
   fun page limit => h _ _ _ (GetCryptoDepositHistory_call lib env b page limit),
   fun page limit => h _ _ _ (GetCryptoWithdrawHistory_call lib env b page limit),
   fun symbol => h _ _ _ (CryptoGenerateAddress_call lib env b symbol),
   fun page limit => h _ _ _ (GetBankAccounts_call lib env b page limit),
   fun bankID amount => h _ _ _ (FiatWithdraw_call lib env b bankID amount),
   fun page limit => h _ _ _ (GetFiatDepositHistory_call lib env b page limit),
   fun page limit => h _ _ _ (GetFiatWithdrawHistory_call lib env b page limit),
   h _ _ _ (GetWebSocketToken_call lib env b),
   h _ _ _ (GetUserLimits_call lib env b),
   h _ _ _ (GetUserTradingCredits_call lib env b)⟩

theorem getBody_sent (env : Env) (b : bitkubApi) (url : String) :
    (getBody env b url).sent = [getRequest url] := by
  simp only [getBody, Get, doRequest, getRequest]
  cases env.DoTimeout _ _ with
  | error d => rfl
  | ok resp =>
    simp only
    split_ifs <;> rfl

theorem getMarketResult_sent (lib : Lib) (env : Env) (b : bitkubApi) (url : String) :
    (getMarketResult lib env b url).sent = [getRequest url] := by
  simp only [getMarketResult, Get, doRequest, getRequest]
  cases env.DoTimeout _ _ with
  | error d => rfl
  | ok resp =>
    simp only
    split_ifs
    · rfl
    · cases lib.unmarshal ResponseType.DefaultResponse resp.body with
      | none => rfl
      | some ret =>
        simp only
        split_ifs <;> rfl

theorem andThen_sent {α β : Type} (r : Run α) (next : α → Except GoError β) :
    (r.andThen next).sent = r.sent := by
  simp only [Run.andThen]
  split
  · split <;> rfl
  · rfl
  · rfl

/-- C21: every request a private operation hands to the transport is a POST whose header
map has "X-BTK-APIKEY" equal to the client's API key, and each of the ten public
operations hands the transport exactly one request, a GET whose only header line is the
User-Agent line `doRequest` adds: the header map they pass is empty, so it has no
"X-BTK-APIKEY". -/
theorem auth_header (lib : Lib) (env : Env) (b : bitkubApi) :
    AllPrivate (fun r => ∀ req ∈ r.sent, req.method = "POST" ∧
      req.headers.lookup "X-BTK-APIKEY" = some b.ApiKey) lib env b ∧
    (∃ url, (GetServerStatus lib env b).sent = [getRequest url]) ∧
    (∃ url, (GetServerTime env b).sent = [getRequest url]) ∧
    (∃ url, (GetMarketSymbols lib env b).sent = [getRequest url]) ∧
    (∀ symbol, ∃ url, (GetMarketTickers lib env b symbol).sent = [getRequest url]) ∧
    (∀ symbol limit, ∃ url, (GetMarketTrades lib env b symbol limit).sent = [getRequest url]) ∧
    (∀ symbol limit, ∃ url, (GetMarketBids lib env b symbol limit).sent = [getRequest url]) ∧
    (∀ symbol limit, ∃ url, (GetMarketAsks lib env b symbol limit).sent = [getRequest url]) ∧
    (∀ symbol limit, ∃ url, (GetMarketBooks lib env b symbol limit).sent = [getRequest url]) ∧
    (∀ symbol resolution from_ to_, ∃ url, (GetTradingViewHistory lib env b symbol resolution from_ to_).sent = [getRequest url]) ∧
    (∀ symbol limit, ∃ url, (GetMarketDepth lib env b symbol limit).sent = [getRequest url]) ∧
    (∀ url, (getRequest url).headers.lookup "X-BTK-APIKEY" = none) :=
  ⟨allPrivate_of_call _ lib env b (fun r ct Qp h req hreq => by
      obtain ⟨url, headers, payload, body, hQ, _, _, rfl⟩ :=
        privateCall_sent lib env b _ r h req hreq
      exact ⟨rfl, hQ.2.1⟩),
   ⟨_, (andThen_sent _ _).trans (getBody_sent env b _)⟩,
   ⟨_, (andThen_sent _ _).trans (getBody_sent env b _)⟩,
   ⟨_, (andThen_sent _ _).trans (getBody_sent env b _)⟩,
   fun _ => ⟨_, (andThen_sent _ _).trans (getBody_sent env b _)⟩,
   fun _ _ => ⟨_, (decode_sent _ _).trans (getMarketResult_sent lib env b _)⟩,
   fun _ _ => ⟨_, (decode_sent _ _).trans (getMarketResult_sent lib env b _)⟩,
   fun _ _ => ⟨_, (decode_sent _ _).trans (getMarketResult_sent lib env b _)⟩,
   fun _ _ => ⟨_, (decode_sent _ _).trans (getMarketResult_sent lib env b _)⟩,
   fun _ _ _ _ => ⟨_, (andThen_sent _ _).trans (getBody_sent env b _)⟩,
   fun _ _ => ⟨_, (decode_sent _ _).trans ((andThen_sent _ _).trans (getBody_sent env b _))⟩,
   fun _ => rfl⟩

theorem auth_header_witness :
    (GetWallet plainLib (answering ⟨1627000000, 0⟩ ⟨200, "", ""⟩)
      (NewBitkub "key" "secret" [])).sent.map (fun req => req.headers) =
      [[("User-Agent", "bitkub-go/1.0"), ("X-BTK-APIKEY", "key")]] ∧
    (∀ req ∈ (GetWallet plainLib (answering ⟨1627000000, 0⟩ ⟨200, "", ""⟩)
      (NewBitkub "key" "secret" [])).sent,
      req.method = "POST" ∧ req.headers.lookup "X-BTK-APIKEY" = some "key") ∧
    (GetMarketTrades plainLib (answering ⟨1627000000, 0⟩ ⟨200, "", ""⟩)
      (NewBitkub "key" "secret" []) "THB_BTC" 10).sent.map (fun req => req.headers) =
      [[("User-Agent", "bitkub-go/1.0")]] :=
  ⟨by decide,
   (auth_header plainLib (answering ⟨1627000000, 0⟩ ⟨200, "", ""⟩)
      (NewBitkub "key" "secret" [])).1.1,
   by decide⟩

/-! ### The Content-Type header -/

theorem call_content_type {α : Type} (lib : Lib) (env : Env) (b : bitkubApi)
    (ct : Option String) (Qp : Payload → Prop) (r : Run α)
    (h : PrivateCall lib env b (CallSpec b ct Qp) r) :
    ∀ req ∈ r.sent, req.method = "POST" ∧ baseURL.data <+: req.uri.data ∧
      (∃ p, r.signed = [p] ∧ (sigPayload lib b env.now p).1 = Except.ok req.body) ∧
      req.headers.lookup "Content-Type" = ct := by
  intro req hreq
  obtain ⟨url, headers, payload, body, hQ, hs, hbody, rfl⟩ :=
    privateCall_sent lib env b _ r h req hreq
  exact ⟨rfl, hQ.1, ⟨payload, hs, hbody⟩, hQ.2.2.1⟩

/-- C22 (the code at the failing inputs): every request a private operation hands to the
transport is a POST to a URL that begins with "https://api.bitkub.com", and its body is
the bytes `sigPayload` returned for the map the call signed. Twenty-two of the operations
send it with "Content-Type: application/json"; `GetWallet` and `GetBalances` pass a header
map that has only "X-BTK-APIKEY", so their request carries no Content-Type line. -/
theorem content_type_header :
    (∀ (lib : Lib) (env : Env) (b : bitkubApi),
      EachPrivate (fun op => fun r => ∀ req ∈ r.sent,
        req.method = "POST" ∧ baseURL.data <+: req.uri.data ∧
        (∃ p, r.signed = [p] ∧ (sigPayload lib b env.now p).1 = Except.ok req.body) ∧
        req.headers.lookup "Content-Type" =
          if op = PrivateOp.GetWallet ∨ op = PrivateOp.GetBalances then none
          else some "application/json") lib env b) ∧
    (GetWallet plainLib (answering ⟨1627000000, 0⟩ ⟨200, "", ""⟩)
      (NewBitkub "key" "secret" [])).sent.map (fun req => (req.uri, req.headers)) =
      [("https://api.bitkub.com/api/market/wallet",
        [("User-Agent", "bitkub-go/1.0"), ("X-BTK-APIKEY", "key")])] ∧
    (GetBalances plainLib (answering ⟨1627000000, 0⟩ ⟨200, "", ""⟩)
      (NewBitkub "key" "secret" [])).sent.map (fun req => (req.uri, req.headers)) =
      [("https://api.bitkub.com/api/market/balances",
        [("User-Agent", "bitkub-go/1.0"), ("X-BTK-APIKEY", "key")])] ∧
    (GetUserLimits plainLib (answering ⟨1627000000, 0⟩ ⟨200, "", ""⟩)
      (NewBitkub "key" "secret" [])).sent.map (fun req => (req.uri, req.headers)) =
      [("https://api.bitkub.com/api/user/limits",
        [("User-Agent", "bitkub-go/1.0"), ("X-BTK-APIKEY", "key"),
         ("Content-Type", "application/json"), ("Accept", "application/json")])] :=
  ⟨fun lib env b =>
    ⟨call_content_type lib env b _ _ _ (GetWallet_call lib env b),
     call_content_type lib env b _ _ _ (GetBalances_call lib env b),
     fun symbol bitType amount rate clientID => call_content_type lib env b _ _ _ (PlaceBid_call lib env b symbol bitType amount rate clientID),
     fun symbol bitType amount rate clientID => call_content_type lib env b _ _ _ (PlaceBidTest_call lib env b symbol bitType amount rate clientID),
     fun symbol bitType amount rate clientID => call_content_type lib env b _ _ _ (PlaceAsk_call lib env b symbol bitType amount rate clientID),
     fun symbol bitType amount rate clientID => call_content_type lib env b _ _ _ (PlaceAskTest_call lib env b symbol bitType amount rate clientID),
     fun symbol bitType amount rate => call_content_type lib env b _ _ _ (PlaceAskByFiat_call lib env b symbol bitType amount rate),
     fun symbol side hash id => call_content_type lib env b _ _ _ (CancelOrder_call lib env b symbol side hash id),
     fun symbol => call_content_type lib env b _ _ _ (GetOpenOrder_call lib env b symbol),
     fun symbol page limit start end_ => call_content_type lib env b _ _ _ (GetOrderHistory_call lib env b symbol page limit start end_),
     fun symbol side hash id => call_content_type lib env b _ _ _ (GetOrderInfo_call lib env b symbol side hash id),
     fun page limit => call_content_type lib env b _ _ _ (GetCryptoAddresses_call lib env b page limit),
     fun currency address amount memo => call_content_type lib env b _ _ _ (CryptoWithdraw_call lib env b currency address amount memo),
     fun currency address amount memo => call_content_type lib env b _ _ _ (CryptoInternalWithdraw_call lib env b currency address amount memo),
     fun page limit => call_content_type lib env b _ _ _ (GetCryptoDepositHistory_call lib env b page limit),
     fun page limit => call_content_type lib env b _ _ _ (GetCryptoWithdrawHistory_call lib env b page limit),
     fun symbol => call_content_type lib env b _ _ _ (CryptoGenerateAddress_call lib env b symbol),
     fun page limit => call_content_type lib env b _ _ _ (GetBankAccounts_call lib env b page limit),
     fun bankID amount => call_content_type lib env b _ _ _ (FiatWithdraw_call lib env b bankID amount),
     fun page limit => call_content_type lib env b _ _ _ (GetFiatDepositHistory_call lib env b page limit),
     fun page limit => call_content_type lib env b _ _ _ (GetFiatWithdrawHistory_call lib env b page limit),
     call_content_type lib env b _ _ _ (GetWebSocketToken_call lib env b),
     call_content_type lib env b _ _ _ (GetUserLimits_call lib env b),
     call_content_type lib env b _ _ _ (GetUserTradingCredits_call lib env b)⟩,
   by decide, by decide, by decide⟩

/-! ### The amount in the payload -/

theorem privateCall_payload {α : Type} (lib : Lib) (env : Env) (b : bitkubApi)
    (Qp : Payload → Prop) (r : Run α) (h : PrivateCall lib env b (fun _ _ p => Qp p) r) :
    ∀ p ∈ r.signed, Qp p := by
  intro p hp
  obtain ⟨_, _, hQ⟩ := privateCall_signed lib env b _ r h p hp
  exact hQ

theorem PlaceBid_amt (lib : Lib) (env : Env) (b : bitkubApi) (symbol : String) (bitType : String) (amount : Float64) (rate : Float64) (clientID : List String) :
    PrivateCall lib env b (fun _ _ p => p.lookup "amt" = some (Value.str (formatFloatWithoutZeroTrail amount)))
      (PlaceBid lib env b symbol bitType amount rate clientID) := by
  cases clientID <;>
  (unfold PlaceBid
   split_ifs <;>
     first
     | (refine Or.inr ⟨_, _, _, _, _, ?_, rfl⟩
        simp [lookup_set])
     | exact Or.inl ⟨_, by decide, rfl⟩)

theorem PlaceBidTest_amt (lib : Lib) (env : Env) (b : bitkubApi) (symbol : String) (bitType : String) (amount : Float64) (rate : Float64) (clientID : List String) :
    PrivateCall lib env b (fun _ _ p => p.lookup "amt" = some (Value.str (formatFloatWithoutZeroTrail amount)))
      (PlaceBidTest lib env b symbol bitType amount rate clientID) := by
  cases clientID <;>
  (unfold PlaceBidTest
   split_ifs <;>
     first
     | (refine Or.inr ⟨_, _, _, _, _, ?_, rfl⟩
        simp [lookup_set])
     | exact Or.inl ⟨_, by decide, rfl⟩)

theorem PlaceAsk_amt (lib : Lib) (env : Env) (b : bitkubApi) (symbol : String) (bitType : String) (amount : Float64) (rate : Float64) (clientID : List String) :
    PrivateCall lib env b (fun _ _ p => p.lookup "amt" = some (Value.str (formatFloatWithoutZeroTrail amount)))
      (PlaceAsk lib env b symbol bitType amount rate clientID) := by
  cases clientID <;>
  (unfold PlaceAsk
   split_ifs <;>
     first
     | (refine Or.inr ⟨_, _, _, _, _, ?_, rfl⟩
        simp [lookup_set])
     | exact Or.inl ⟨_, by decide, rfl⟩)

theorem PlaceAskTest_amt (lib : Lib) (env : Env) (b : bitkubApi) (symbol : String) (bitType : String) (amount : Float64) (rate : Float64) (clientID : List String) :
    PrivateCall lib env b (fun _ _ p => p.lookup "amt" = some (Value.str (formatFloatWithoutZeroTrail amount)))
      (PlaceAskTest lib env b symbol bitType amount rate clientID) := by
  cases clientID <;>
  (unfold PlaceAskTest
   split_ifs <;>
     first
     | (refine Or.inr ⟨_, _, _, _, _, ?_, rfl⟩
        simp [lookup_set])
     | exact Or.inl ⟨_, by decide, rfl⟩)

theorem PlaceAskByFiat_amt (lib : Lib) (env : Env) (b : bitkubApi) (symbol : String) (bitType : String) (amount : Float64) (rate : Float64) :
    PrivateCall lib env b (fun _ _ p => p.lookup "amt" = some (Value.str (formatFloatWithoutZeroTrail amount)))
      (PlaceAskByFiat lib env b symbol bitType amount rate) := by
  unfold PlaceAskByFiat
  split_ifs <;>
    first
    | (refine Or.inr ⟨_, _, _, _, _, ?_, rfl⟩
       simp [lookup_set])
    | exact Or.inl ⟨_, by decide, rfl⟩

theorem CryptoWithdraw_amt (lib : Lib) (env : Env) (b : bitkubApi) (currency : String) (address : String) (amount : Float64) (memo : String) :
    PrivateCall lib env b (fun _ _ p => p.lookup "amt" = some (Value.str (Sprintf_f amount)))
      (CryptoWithdraw lib env b currency address amount memo) := by
  unfold CryptoWithdraw
  split_ifs <;>
    first
    | (refine Or.inr ⟨_, _, _, _, _, ?_, rfl⟩
       simp [lookup_set])
    | exact Or.inl ⟨_, by decide, rfl⟩

theorem CryptoInternalWithdraw_amt (lib : Lib) (env : Env) (b : bitkubApi) (currency : String) (address : String) (amount : Float64) (memo : String) :
    PrivateCall lib env b (fun _ _ p => p.lookup "amt" = some (Value.str (Sprintf_f amount)))
      (CryptoInternalWithdraw lib env b currency address amount memo) := by
  unfold CryptoInternalWithdraw
  split_ifs <;>
    first
    | (refine Or.inr ⟨_, _, _, _, _, ?_, rfl⟩
       simp [lookup_set])
    | exact Or.inl ⟨_, by decide, rfl⟩

theorem FiatWithdraw_amt (lib : Lib) (env : Env) (b : bitkubApi) (bankID : String) (amount : Float64) :
    PrivateCall lib env b (fun _ _ p => p.lookup "amount" = some (Value.float amount) ∧ p.lookup "amt" = none)
      (FiatWithdraw lib env b bankID amount) := by
  unfold FiatWithdraw
  split_ifs <;>
    first
    | (refine Or.inr ⟨_, _, _, _, _, ?_, rfl⟩
       simp [lookup_set])
    | exact Or.inl ⟨_, by decide, rfl⟩

/-- C23 (as amended): the five order operations place the string
`formatFloatWithoutZeroTrail amount` under "amt" of the map they sign (1.5 gives "1.5");
`CryptoWithdraw` and `CryptoInternalWithdraw` place the untrimmed `fmt.Sprintf("%f", amount)`
under "amt" (1.5 gives "1.500000"); `FiatWithdraw` places the `float64` itself under
"amount" and has no "amt". For every private operation the body of a request it sends is
the bytes `sigPayload` returned for the one map it signed, so what is transmitted is the
representation that was signed. -/
theorem amount_representation (lib : Lib) (env : Env) (b : bitkubApi) :
    (∀ symbol bitType amount rate clientID, ∀ p ∈ (PlaceBid lib env b symbol bitType amount rate clientID).signed,
      p.lookup "amt" = some (Value.str (formatFloatWithoutZeroTrail amount))) ∧
    (∀ symbol bitType amount rate clientID, ∀ p ∈ (PlaceBidTest lib env b symbol bitType amount rate clientID).signed,
      p.lookup "amt" = some (Value.str (formatFloatWithoutZeroTrail amount))) ∧
    (∀ symbol bitType amount rate clientID, ∀ p ∈ (PlaceAsk lib env b symbol bitType amount rate clientID).signed,
      p.lookup "amt" = some (Value.str (formatFloatWithoutZeroTrail amount))) ∧
    (∀ symbol bitType amount rate clientID, ∀ p ∈ (PlaceAskTest lib env b symbol bitType amount rate clientID).signed,
      p.lookup "amt" = some (Value.str (formatFloatWithoutZeroTrail amount))) ∧
    (∀ symbol bitType amount rate, ∀ p ∈ (PlaceAskByFiat lib env b symbol bitType amount rate).signed,
      p.lookup "amt" = some (Value.str (formatFloatWithoutZeroTrail amount))) ∧
    (∀ currency address amount memo, ∀ p ∈ (CryptoWithdraw lib env b currency address amount memo).signed,
      p.lookup "amt" = some (Value.str (Sprintf_f amount))) ∧
    (∀ currency address amount memo, ∀ p ∈ (CryptoInternalWithdraw lib env b currency address amount memo).signed,
      p.lookup "amt" = some (Value.str (Sprintf_f amount))) ∧
    (∀ bankID amount, ∀ p ∈ (FiatWithdraw lib env b bankID amount).signed,
      p.lookup "amount" = some (Value.float amount) ∧ p.lookup "amt" = none) ∧
    AllPrivate (fun r => ∀ req ∈ r.sent, ∃ p, r.signed = [p] ∧
      (sigPayload lib b env.now p).1 = Except.ok req.body) lib env b ∧
    formatFloatWithoutZeroTrail f64_1_5 = "1.5" ∧
    Sprintf_f f64_1_5 = "1.500000" :=
  ⟨fun symbol bitType amount rate clientID p hp =>
     privateCall_payload lib env b _ _ (PlaceBid_amt lib env b symbol bitType amount rate clientID) p hp,
   fun symbol bitType amount rate clientID p hp =>
     privateCall_payload lib env b _ _ (PlaceBidTest_amt lib env b symbol bitType amount rate clientID) p hp,
   fun symbol bitType amount rate clientID p hp =>
     privateCall_payload lib env b _ _ (PlaceAsk_amt lib env b symbol bitType amount rate clientID) p hp,
   fun symbol bitType amount rate clientID p hp =>
     privateCall_payload lib env b _ _ (PlaceAskTest_amt lib env b symbol bitType amount rate clientID) p hp,
   fun symbol bitType amount rate p hp =>
     privateCall_payload lib env b _ _ (PlaceAskByFiat_amt lib env b symbol bitType amount rate) p hp,
   fun currency address amount memo p hp =>
     privateCall_payload lib env b _ _ (CryptoWithdraw_amt lib env b currency address amount memo) p hp,
   fun currency address amount memo p hp =>
     privateCall_payload lib env b _ _ (CryptoInternalWithdraw_amt lib env b currency address amount memo) p hp,
   fun bankID amount p hp =>
     privateCall_payload lib env b _ _ (FiatWithdraw_amt lib env b bankID amount) p hp,
   allPrivate_of_call _ lib env b (fun r ct Qp h req hreq =>
     (call_content_type lib env b ct Qp r h req hreq).2.2.1),
   by decide, by decide⟩

theorem amount_representation_witness :
    (∀ p ∈ (PlaceBid plainLib (answering ⟨1627000000, 0⟩ ⟨200, "", ""⟩)
        (NewBitkub "key" "secret" []) "THB_BTC" "limit" f64_1_5 f64_10 []).signed,
      p.lookup "amt" = some (Value.str (formatFloatWithoutZeroTrail f64_1_5))) ∧
    (PlaceBid plainLib (answering ⟨1627000000, 0⟩ ⟨200, "", ""⟩)
        (NewBitkub "key" "secret" []) "THB_BTC" "limit" f64_1_5 f64_10 []).signed.map
      (fun p => p.lookup "amt") = [some (Value.str "1.5")] :=
  ⟨(amount_representation plainLib (answering ⟨1627000000, 0⟩ ⟨200, "", ""⟩)
      (NewBitkub "key" "secret" [])).1 "THB_BTC" "limit" f64_1_5 f64_10 [],
   by decide⟩

/-- C23 (counterexample): with the amount 1.5, whose trimmed rendering is "1.5",
`CryptoWithdraw` and `CryptoInternalWithdraw` sign a map whose "amt" is the string
"1.500000", and `FiatWithdraw` signs a map without "amt" whose "amount" is the float. -/
theorem withdraw_amount_not_trimmed :
    formatFloatWithoutZeroTrail f64_1_5 = "1.5" ∧
    (CryptoWithdraw plainLib (answering ⟨1627000000, 0⟩ ⟨200, "", ""⟩)
        (NewBitkub "key" "secret" []) "BTC" "address" f64_1_5 "").signed.map
      (fun p => p.lookup "amt") = [some (Value.str "1.500000")] ∧
    (CryptoInternalWithdraw plainLib (answering ⟨1627000000, 0⟩ ⟨200, "", ""⟩)
        (NewBitkub "key" "secret" []) "BTC" "address" f64_1_5 "").signed.map
      (fun p => p.lookup "amt") = [some (Value.str "1.500000")] ∧
    (FiatWithdraw plainLib (answering ⟨1627000000, 0⟩ ⟨200, "", ""⟩)
        (NewBitkub "key" "secret" []) "bank" f64_1_5).signed.map
      (fun p => (p.lookup "amt", p.lookup "amount")) =
      [(none, some (Value.float f64_1_5))] := by
  decide

/-! ### The signature and a change of one value -/

theorem hextable_getD_inj :
    ∀ i j : Fin 16, hextable.data.getD i.val '0' = hextable.data.getD j.val '0' → i = j := by
  decide

theorem hexPair_inj (v w : UInt8)
    (h₁ : hextable.data.getD (v.toNat / 16) '0' = hextable.data.getD (w.toNat / 16) '0')
    (h₂ : hextable.data.getD (v.toNat % 16) '0' = hextable.data.getD (w.toNat % 16) '0') :
    v = w := by
  have hv : v.toNat < 256 := v.toNat_lt
  have hw : w.toNat < 256 := w.toNat_lt
  have e₁ := hextable_getD_inj ⟨v.toNat / 16, by omega⟩ ⟨w.toNat / 16, by omega⟩ h₁
  have e₂ := hextable_getD_inj ⟨v.toNat % 16, by omega⟩ ⟨w.toNat % 16, by omega⟩ h₂
  have e₁' : v.toNat / 16 = w.toNat / 16 := congrArg Fin.val e₁
  have e₂' : v.toNat % 16 = w.toNat % 16 := congrArg Fin.val e₂
  have e : v.toNat = w.toNat := by omega
  exact UInt8.ext e

/-- `hex.EncodeToString` is injective: different byte strings have different hex texts. -/
theorem hexEncode_inj : ∀ (l₁ l₂ : List UInt8), hexEncode l₁ = hexEncode l₂ → l₁ = l₂
  | [], [], _ => rfl
  | [], w :: l₂, h => by
    have := congrArg String.data h
    simp [hexEncode] at this
  | v :: l₁, [], h => by
    have := congrArg String.data h
    simp [hexEncode] at this
  | v :: l₁, w :: l₂, h => by
    have hd := congrArg String.data h
    simp only [hexEncode, List.map_cons, List.flatten_cons, List.cons_append,
      List.nil_append, List.cons.injEq] at hd
    obtain ⟨h₁, h₂, h₃⟩ := hd
    have hvw := hexPair_inj v w h₁ h₂
    have hrest : hexEncode l₁ = hexEncode l₂ := by
      simp only [hexEncode]
      exact congrArg String.mk h₃
    rw [hvw, hexEncode_inj l₁ l₂ hrest]

theorem intercalate_go_data (acc : String) (l : List String) :
    (String.intercalate.go acc "," l).data = acc.data ++ membersTail l := by
  induction l generalizing acc with
  | nil => simp [String.intercalate.go, membersTail]
  | cons a l ih =>
    simp only [String.intercalate.go, ih, String.data_append, membersTail, List.map_cons,
      List.flatten_cons, List.append_assoc]
    rfl

theorem intercalate_cons_data (x : String) (l : List String) :
    (",".intercalate (x :: l)).data = x.data ++ membersTail l := by
  simp only [String.intercalate, intercalate_go_data]

/-- The members of two payloads that agree outside `key`, for keys other than `key`. -/
theorem marshalMembers_agree (lib : Lib) (q₁ q₂ : Payload) (key : String)
    (hsame : ∀ k, k ≠ key → q₁.lookup k = q₂.lookup k) :
    ∀ ks : List String, key ∉ ks → marshalMembers lib q₁ ks = marshalMembers lib q₂ ks := by
  intro ks
  induction ks with
  | nil => intro _; rfl
  | cons a l ih =>
    intro hk
    have ha : a ≠ key := fun e => hk (e ▸ List.mem_cons_self _ _)
    have hl : key ∉ l := fun e => hk (List.mem_cons_of_mem _ e)
    simp only [marshalMembers, marshalMember, hsame a ha, ih hl]

theorem membersTail_differ (lib : Lib) (q₁ q₂ : Payload) (key : String) (v₁ v₂ : Value)
    (h₁ : q₁.lookup key = some v₁) (h₂ : q₂.lookup key = some v₂)
    (hsame : ∀ k, k ≠ key → q₁.lookup k = q₂.lookup k)
    (henc : marshalValue lib v₁ ≠ marshalValue lib v₂) :
    ∀ (ks : List String) (ms₁ ms₂ : List String), key ∈ ks → ks.Nodup →
      marshalMembers lib q₁ ks = some ms₁ → marshalMembers lib q₂ ks = some ms₂ →
      membersTail ms₁ ≠ membersTail ms₂ ∧
      (∀ x₁ l₁ x₂ l₂, ms₁ = x₁ :: l₁ → ms₂ = x₂ :: l₂ →
        x₁.data ++ membersTail l₁ ≠ x₂.data ++ membersTail l₂) := by
  intro ks
  induction ks with
  | nil => intro _ _ hk; simp at hk
  | cons a l ih =>
    intro ms₁ ms₂ hk hnd hm₁ hm₂
    simp only [marshalMembers] at hm₁ hm₂
    cases ha₁ : marshalMember lib q₁ a with
    | none => simp [ha₁] at hm₁
    | some x₁ =>
      cases ha₂ : marshalMember lib q₂ a with
      | none => simp [ha₂] at hm₂
      | some x₂ =>
        cases hl₁ : marshalMembers lib q₁ l with
        | none => simp [ha₁, hl₁] at hm₁
        | some l₁ =>
          cases hl₂ : marshalMembers lib q₂ l with
          | none => simp [ha₂, hl₂] at hm₂
          | some l₂ =>
            simp only [ha₁, hl₁, Option.some.injEq] at hm₁
            simp only [ha₂, hl₂, Option.some.injEq] at hm₂
            subst hm₁ hm₂
            have hnd' := List.nodup_cons.1 hnd
            have hmain : x₁.data ++ membersTail l₁ ≠ x₂.data ++ membersTail l₂ := by
              by_cases hak : a = key
              · subst hak
                have hll : l₁ = l₂ := by
                  have := marshalMembers_agree lib q₁ q₂ a hsame l hnd'.1
                  rw [hl₁, hl₂] at this
                  exact Option.some.inj this
                subst hll
                intro hc
                have hx : x₁.data = x₂.data := List.append_cancel_right hc
                simp only [marshalMember, h₁, h₂] at ha₁ ha₂
                cases he₁ : marshalValue lib v₁ with
                | none => simp [he₁] at ha₁
                | some e₁ =>
                  cases he₂ : marshalValue lib v₂ with
                  | none => simp [he₂] at ha₂
                  | some e₂ =>
                    simp only [he₁, Option.some.injEq] at ha₁
                    simp only [he₂, Option.some.injEq] at ha₂
                    subst ha₁ ha₂
                    simp only [String.data_append] at hx
                    have he : e₁.data = e₂.data := List.append_cancel_left hx
                    exact henc (by rw [he₁, he₂, String.ext he])
              · have hkl : key ∈ l := by
                  rcases List.mem_cons.1 hk with e | e
                  · exact absurd e.symm hak
                  · exact e
                have hxx : x₁ = x₂ := by
                  have hm : marshalMember lib q₁ a = marshalMember lib q₂ a := by
                    simp only [marshalMember, hsame a hak]
                  rw [ha₁, ha₂] at hm
                  exact Option.some.inj hm
                subst hxx
                intro hc
                exact (ih l₁ l₂ hkl hnd'.2 hl₁ hl₂).1
                  (List.append_cancel_left hc)
            refine ⟨?_, ?_⟩
            · intro hc
              simp only [membersTail, List.map_cons, List.flatten_cons, List.cons_append,
                List.cons.injEq, true_and] at hc
              exact hmain hc
            · intro y₁ k₁ y₂ k₂ e₁ e₂
              cases e₁
              cases e₂
              exact hmain

theorem sortedKeys_of_mem (p₁ p₂ : Payload)
    (h : ∀ k, (p₁.lookup k).isSome = (p₂.lookup k).isSome) :
    sortedKeys p₁ = sortedKeys p₂ := by
  have hperm : p₁.keys.Perm p₂.keys := by
    rw [List.perm_ext_iff_of_nodup p₁.keys_nodup p₂.keys_nodup]
    intro k
    rw [mem_keys_iff_lookup, mem_keys_iff_lookup, h k]
  exact List.eq_of_perm_of_sorted
    (((List.perm_insertionSort keyLE p₁.keys).trans hperm).trans
      (List.perm_insertionSort keyLE p₂.keys).symm)
    (List.sorted_insertionSort keyLE _) (List.sorted_insertionSort keyLE _)

/-- Two payloads with the same keys that differ in the value of one key, the two values
having different encodings, have different `json.Marshal` texts. -/
theorem marshal_differs (lib : Lib) (q₁ q₂ : Payload) (key : String) (v₁ v₂ : Value)
    (m₁ m₂ : String)
    (h₁ : q₁.lookup key = some v₁) (h₂ : q₂.lookup key = some v₂)
    (hsame : ∀ k, k ≠ key → q₁.lookup k = q₂.lookup k)
    (henc : marshalValue lib v₁ ≠ marshalValue lib v₂)
    (hm₁ : marshal lib q₁ = some m₁) (hm₂ : marshal lib q₂ = some m₂) : m₁ ≠ m₂ := by
  obtain ⟨ms₁, hms₁, rfl⟩ := marshal_members lib q₁ m₁ hm₁
  obtain ⟨ms₂, hms₂, rfl⟩ := marshal_members lib q₂ m₂ hm₂
  have hkeys : sortedKeys q₁ = sortedKeys q₂ := by
    apply sortedKeys_of_mem
    intro k
    by_cases hk : k = key
    · rw [hk, h₁, h₂]
      rfl
    · rw [hsame k hk]
  rw [← hkeys] at hms₂
  have hmem : key ∈ sortedKeys q₁ := (mem_sortedKeys q₁ key).2 (by rw [h₁]; rfl)
  have hnd : (sortedKeys q₁).Nodup :=
    (List.perm_insertionSort keyLE q₁.keys).nodup_iff.2 q₁.keys_nodup
  have hd := (membersTail_differ lib q₁ q₂ key v₁ v₂ h₁ h₂ hsame henc (sortedKeys q₁) ms₁ ms₂
    hmem hnd hms₁ hms₂).2
  intro hc
  have hdata := congrArg String.data hc
  simp only [String.data_append] at hdata
  have hj : (",".intercalate ms₁).data = (",".intercalate ms₂).data :=
    List.append_cancel_left (List.append_cancel_right hdata)
  cases ms₁ with
  | nil =>
    cases hks : sortedKeys q₁ with
    | nil => rw [hks] at hmem; cases hmem
    | cons a l =>
      rw [hks] at hms₁
      simp only [marshalMembers] at hms₁
      cases ha : marshalMember lib q₁ a with
      | none => simp [ha] at hms₁
      | some x =>
        cases hl : marshalMembers lib q₁ l with
        | none => simp [ha, hl] at hms₁
        | some xs => simp [ha, hl] at hms₁
  | cons x₁ l₁ =>
    cases ms₂ with
    | nil =>
      cases hks : sortedKeys q₁ with
      | nil => rw [hks] at hmem; cases hmem
      | cons a l =>
        rw [hks] at hms₂
        simp only [marshalMembers] at hms₂
        cases ha : marshalMember lib q₂ a with
        | none => simp [ha] at hms₂
        | some x =>
          cases hl : marshalMembers lib q₂ l with
          | none => simp [ha, hl] at hms₂
          | some xs => simp [ha, hl] at hms₂
    | cons x₂ l₂ =>
      rw [intercalate_cons_data, intercalate_cons_data] at hj
      exact hd x₁ l₁ x₂ l₂ rfl rfl hj

theorem sigPayload_sig_value (lib : Lib) (b : bitkubApi) (now : Time) (p : Payload)
    (body : String) (hok : (sigPayload lib b now p).1 = Except.ok body) :
    ∃ m : String,
      marshal lib (p.set "ts" (Value.int (wrapInt64 (now.Unix * 1000)))) = some m ∧
      (sigPayload lib b now p).2.lookup "sig" =
        some (Value.str (hexEncode (lib.hmacSha256 b.ApiSecret m))) := by
  obtain ⟨m, h₁, h₂⟩ := sigPayload_ok_inv lib b now p body hok
  refine ⟨m, h₁, ?_⟩
  rw [sigPayload_ok lib b now p m body h₁ h₂, lookup_set, if_pos rfl]

/-- A value stored under "ts" has no influence on what `sigPayload` returns: the function
overwrites it with the reading of the clock. -/
theorem sigPayload_ts_overwritten (lib : Lib) (b : bitkubApi) (now : Time) (p₁ p₂ : Payload)
    (h : ∀ k, k ≠ "ts" → p₁.lookup k = p₂.lookup k) :
    (sigPayload lib b now p₁).1 = (sigPayload lib b now p₂).1 ∧
    (sigPayload lib b now p₁).2.lookup "sig" = (sigPayload lib b now p₂).2.lookup "sig" := by
  have hts : ∀ k, (p₁.set "ts" (Value.int (wrapInt64 (now.Unix * 1000)))).lookup k =
      (p₂.set "ts" (Value.int (wrapInt64 (now.Unix * 1000)))).lookup k := by
    intro k
    rw [lookup_set, lookup_set]
    split_ifs with hk
    · rfl
    · exact h k hk
  have hm₁ := marshal_congr lib _ _ hts
  simp only [sigPayload, ← hm₁]
  cases marshal lib (p₁.set "ts" (Value.int (wrapInt64 (now.Unix * 1000)))) with
  | none => exact ⟨rfl, hts "sig"⟩
  | some signedBytes =>
    have hsig := set_congr _ _ hts "sig"
      (Value.str (hexEncode (lib.hmacSha256 b.ApiSecret signedBytes)))
    have hm₂ := marshal_congr lib _ _ hsig
    simp only [← hm₂]
    cases marshal lib ((p₁.set "ts" (Value.int (wrapInt64 (now.Unix * 1000)))).set "sig"
        (Value.str (hexEncode (lib.hmacSha256 b.ApiSecret signedBytes)))) with
    | none => exact ⟨rfl, hsig "sig"⟩
    | some body => exact ⟨rfl, hsig "sig"⟩

theorem marshalMember_same_encoding (lib : Lib) (p₁ p₂ : Payload) (k : String)
    (h : (p₁.lookup k).map (marshalValue lib) = (p₂.lookup k).map (marshalValue lib)) :
    marshalMember lib p₁ k = marshalMember lib p₂ k := by
  simp only [marshalMember]
  cases h₁ : p₁.lookup k with
  | none =>
    cases h₂ : p₂.lookup k with
    | none => rfl
    | some v₂ => simp [h₁, h₂] at h
  | some v₁ =>
    cases h₂ : p₂.lookup k with
    | none => simp [h₁, h₂] at h
    | some v₂ =>
      simp only [h₁, h₂, Option.map_some', Option.some.injEq] at h
      simp only [h]

/-- Two payloads with the same keys whose values have the same encodings key by key get
the same bytes from `json.Marshal`. -/
theorem marshal_same_encoding (lib : Lib) (p₁ p₂ : Payload)
    (h : ∀ k, (p₁.lookup k).map (marshalValue lib) = (p₂.lookup k).map (marshalValue lib)) :
    marshal lib p₁ = marshal lib p₂ := by
  have hf : marshalMember lib p₁ = marshalMember lib p₂ :=
    funext (fun k => marshalMember_same_encoding lib p₁ p₂ k (h k))
  have hms : ∀ keys, marshalMembers lib p₁ keys = marshalMembers lib p₂ keys := by
    intro keys
    induction keys with
    | nil => rfl
    | cons a l ih => simp only [marshalMembers, hf, ih]
  have hkeys : sortedKeys p₁ = sortedKeys p₂ := by
    apply sortedKeys_of_mem
    intro k
    have hk := congrArg Option.isSome (h k)
    simpa using hk
  simp only [marshal, hkeys, hms]

theorem set_same_encoding (lib : Lib) (p₁ p₂ : Payload)
    (h : ∀ k, (p₁.lookup k).map (marshalValue lib) = (p₂.lookup k).map (marshalValue lib))
    (key : String) (v : Value) :
    ∀ k, ((p₁.set key v).lookup k).map (marshalValue lib) =
      ((p₂.set key v).lookup k).map (marshalValue lib) := by
  intro k
  rw [lookup_set, lookup_set]
  split_ifs
  · rfl
  · exact h k

/-- Two payloads with the same keys whose values have the same encodings key by key get
the same bytes and the same "sig" from `sigPayload`, whether or not the values are the
same. -/
theorem sigPayload_same_encoding (lib : Lib) (b : bitkubApi) (now : Time) (p₁ p₂ : Payload)
    (h : ∀ k, (p₁.lookup k).map (marshalValue lib) = (p₂.lookup k).map (marshalValue lib)) :
    (sigPayload lib b now p₁).1 = (sigPayload lib b now p₂).1 ∧
    ∀ body, (sigPayload lib b now p₁).1 = Except.ok body →
      (sigPayload lib b now p₁).2.lookup "sig" = (sigPayload lib b now p₂).2.lookup "sig" := by
  have hts := set_same_encoding lib p₁ p₂ h "ts" (Value.int (wrapInt64 (now.Unix * 1000)))
  have hm₁ := marshal_same_encoding lib _ _ hts
  simp only [sigPayload, ← hm₁]
  cases marshal lib (p₁.set "ts" (Value.int (wrapInt64 (now.Unix * 1000)))) with
  | none => exact ⟨rfl, fun body hb => Except.noConfusion hb⟩
  | some signedBytes =>
    have hsig := set_same_encoding lib _ _ hts "sig"
      (Value.str (hexEncode (lib.hmacSha256 b.ApiSecret signedBytes)))
    have hm₂ := marshal_same_encoding lib _ _ hsig
    simp only [← hm₂]
    cases marshal lib ((p₁.set "ts" (Value.int (wrapInt64 (now.Unix * 1000)))).set "sig"
        (Value.str (hexEncode (lib.hmacSha256 b.ApiSecret signedBytes)))) with
    | none => exact ⟨rfl, fun body hb => Except.noConfusion hb⟩
    | some body =>
      refine ⟨rfl, fun _ _ => ?_⟩
      simp only [lookup_set, if_pos]

theorem bitString_inj (x y : Fin 257 → Bool) (h : bitString x = bitString y) : x = y := by
  have h₁ : (List.finRange 257).map (fun i => if x i then '1' else '0') =
      (List.finRange 257).map (fun i => if y i then '1' else '0') := by
    unfold bitString at h
    injection h
  funext i
  have hi := List.map_inj_left.mp h₁ i (List.mem_finRange i)
  revert hi
  cases x i <;> cases y i <;> simp

theorem bitString_length (x : Fin 257 → Bool) : (bitString x).length = 257 := by
  simp [bitString, String.length]

/-- Two MACs of 32 bytes with the same byte at each of the 32 positions are the same. -/
theorem mac_eq_of_bytes (m₁ m₂ : List UInt8) (h₁ : m₁.length = 32) (h₂ : m₂.length = 32)
    (h : (fun i : Fin 32 => (⟨(m₁.getD i.val 0).toNat, (m₁.getD i.val 0).toNat_lt⟩ : Fin 256)) =
      (fun i : Fin 32 => (⟨(m₂.getD i.val 0).toNat, (m₂.getD i.val 0).toNat_lt⟩ : Fin 256))) :
    m₁ = m₂ := by
  apply List.ext_getElem (h₁.trans h₂.symm)
  intro i hi₁ hi₂
  have hi : i < 32 := h₁ ▸ hi₁
  have hf := congrArg Fin.val (congrFun h ⟨i, hi⟩)
  simp only [List.getD_eq_getElem _ _ hi₁, List.getD_eq_getElem _ _ hi₂] at hf
  exact UInt8.ext hf

/-- Whatever function of 32 bytes stands for HMAC-SHA256, and for every secret and clock
reading, two of the maps `{"sym": s}` with `s` a string of 257 characters '0' or '1' get the
same "sig": there are 2^257 such strings and 2^256 MACs. -/
theorem sig_collision_exists (lib : Lib) (b : bitkubApi) (now : Time) :
    ∃ x y : Fin 257 → Bool, x ≠ y ∧
      (∃ body, (sigPayload lib b now
        ((∅ : Payload).set "sym" (Value.str (bitString x)))).1 = Except.ok body) ∧
      (∃ body, (sigPayload lib b now
        ((∅ : Payload).set "sym" (Value.str (bitString y)))).1 = Except.ok body) ∧
      ∃ sig : String,
        (sigPayload lib b now
          ((∅ : Payload).set "sym" (Value.str (bitString x)))).2.lookup "sig" =
            some (Value.str sig) ∧
        (sigPayload lib b now
          ((∅ : Payload).set "sym" (Value.str (bitString y)))).2.lookup "sig" =
            some (Value.str sig) := by
  have hok : ∀ x : Fin 257 → Bool, ∃ body, (sigPayload lib b now
      ((∅ : Payload).set "sym" (Value.str (bitString x)))).1 = Except.ok body :=
    fun x => sigPayload_succeeds lib b now _
      (encodable_set_str lib _ "sym" (bitString x) (encodable_empty lib))
  have hsig : ∀ x : Fin 257 → Bool, ∃ m : String,
      (sigPayload lib b now ((∅ : Payload).set "sym" (Value.str (bitString x)))).2.lookup
        "sig" = some (Value.str (hexEncode (lib.hmacSha256 b.ApiSecret m))) := by
    intro x
    obtain ⟨body, hbody⟩ := hok x
    obtain ⟨m, _, hm⟩ := sigPayload_sig_value lib b now _ body hbody
    exact ⟨m, hm⟩
  choose msg hmsg using hsig
  let f : (Fin 257 → Bool) → (Fin 32 → Fin 256) :=
    fun x i => ⟨((lib.hmacSha256 b.ApiSecret (msg x)).getD i.val 0).toNat,
      ((lib.hmacSha256 b.ApiSecret (msg x)).getD i.val 0).toNat_lt⟩
  have hcard : Fintype.card (Fin 32 → Fin 256) < Fintype.card (Fin 257 → Bool) := by
    simp only [Fintype.card_fun, Fintype.card_fin, Fintype.card_bool]
    norm_num
  obtain ⟨x, y, hne, hf⟩ := Fintype.exists_ne_map_eq_of_card_lt f hcard
  have hmac : lib.hmacSha256 b.ApiSecret (msg x) = lib.hmacSha256 b.ApiSecret (msg y) :=
    mac_eq_of_bytes _ _ (lib.hmacSha256_size _ _) (lib.hmacSha256_size _ _) hf
  refine ⟨x, y, hne, hok x, hok y,
    hexEncode (lib.hmacSha256 b.ApiSecret (msg x)), hmsg x, ?_⟩
  rw [hmsg y, hmac]

/-- C24 (as amended): take a secret, a clock reading, and two maps that agree on every key
but `key`, where `key` is not the timestamp entry "ts" and the two values under `key` have
different JSON encodings, and let `sigPayload` succeed on both. The texts that are signed
(the first serializations) are different, each "sig" is the lowercase hex of the
HMAC-SHA256 of its text under the secret, and the two "sig" values are different exactly
when the two MACs are: the signatures differ unless HMAC-SHA256 gives both texts the same
MAC. -/
theorem sig_sensitivity (lib : Lib) (b : bitkubApi) (now : Time) (p₁ p₂ : Payload)
    (key : String) (v₁ v₂ : Value) (body₁ body₂ : String)
    (hkey : key ≠ "ts")
    (h₁ : p₁.lookup key = some v₁) (h₂ : p₂.lookup key = some v₂)
    (hsame : ∀ k, k ≠ key → p₁.lookup k = p₂.lookup k)
    (henc : marshalValue lib v₁ ≠ marshalValue lib v₂)
    (hok₁ : (sigPayload lib b now p₁).1 = Except.ok body₁)
    (hok₂ : (sigPayload lib b now p₂).1 = Except.ok body₂) :
    ∃ m₁ m₂ : String,
      marshal lib (p₁.set "ts" (Value.int (wrapInt64 (now.Unix * 1000)))) = some m₁ ∧
      marshal lib (p₂.set "ts" (Value.int (wrapInt64 (now.Unix * 1000)))) = some m₂ ∧
      m₁ ≠ m₂ ∧
      (sigPayload lib b now p₁).2.lookup "sig" =
        some (Value.str (hexEncode (lib.hmacSha256 b.ApiSecret m₁))) ∧
      (sigPayload lib b now p₂).2.lookup "sig" =
        some (Value.str (hexEncode (lib.hmacSha256 b.ApiSecret m₂))) ∧
      ((sigPayload lib b now p₁).2.lookup "sig" = (sigPayload lib b now p₂).2.lookup "sig" ↔
        lib.hmacSha256 b.ApiSecret m₁ = lib.hmacSha256 b.ApiSecret m₂) ∧
      ((sigPayload lib b now p₁).2.lookup "sig" ≠ (sigPayload lib b now p₂).2.lookup "sig" ↔
        lib.hmacSha256 b.ApiSecret m₁ ≠ lib.hmacSha256 b.ApiSecret m₂) := by
  obtain ⟨m₁, hm₁, hs₁⟩ := sigPayload_sig_value lib b now p₁ body₁ hok₁
  obtain ⟨m₂, hm₂, hs₂⟩ := sigPayload_sig_value lib b now p₂ body₂ hok₂
  have hiff : (sigPayload lib b now p₁).2.lookup "sig" =
      (sigPayload lib b now p₂).2.lookup "sig" ↔
        lib.hmacSha256 b.ApiSecret m₁ = lib.hmacSha256 b.ApiSecret m₂ := by
    rw [hs₁, hs₂]
    constructor
    · intro h
      exact hexEncode_inj _ _ (Value.str.inj (Option.some.inj h))
    · intro h
      rw [h]
  refine ⟨m₁, m₂, hm₁, hm₂, ?_, hs₁, hs₂, hiff, not_congr hiff⟩
  refine marshal_differs lib _ _ key v₁ v₂ m₁ m₂ ?_ ?_ ?_ henc hm₁ hm₂
  · rw [lookup_set, if_neg hkey, h₁]
  · rw [lookup_set, if_neg hkey, h₂]
  · intro k hk
    rw [lookup_set, lookup_set, hsame k hk]

theorem sig_sensitivity_witness :
    ∃ m₁ m₂ : String,
      marshal plainLib (((∅ : Payload).set "amt" (Value.str "1")).set "ts"
        (Value.int 1627000000000)) = some m₁ ∧
      marshal plainLib (((∅ : Payload).set "amt" (Value.str "2")).set "ts"
        (Value.int 1627000000000)) = some m₂ ∧
      m₁ ≠ m₂ :=
  have h := sig_sensitivity plainLib (NewBitkub "key" "secret" []) ⟨1627000000, 0⟩
    ((∅ : Payload).set "amt" (Value.str "1")) ((∅ : Payload).set "amt" (Value.str "2"))
    "amt" (Value.str "1") (Value.str "2")
    "\x7b\"amt\":\"1\",\"sig\":\"0000000000000000000000000000000000000000000000000000000000000000\",\"ts\":1627000000000\x7d"
    "\x7b\"amt\":\"2\",\"sig\":\"0000000000000000000000000000000000000000000000000000000000000000\",\"ts\":1627000000000\x7d"
    (by decide) (by decide) (by decide) (fun k hk => by simp [lookup_set, hk]) (by decide)
    rfl rfl
  h.elim fun m₁ h => h.elim fun m₂ h => ⟨m₁, m₂, h.1, h.2.1, h.2.2.1⟩

theorem marshalValue_int_one (lib : Lib) : marshalValue lib (Value.int 1) = some "1" := rfl

theorem marshalValue_f64_1 (lib : Lib) (h : lib.formatFloat f64_1 = "1") :
    marshalValue lib (Value.float f64_1) = some "1" := by
  simp only [f64_1, marshalValue, Option.some.injEq]
  exact h

theorem int_float_same_encoding (lib : Lib) (h : lib.formatFloat f64_1 = "1") (k : String) :
    (((∅ : Payload).set "amt" (Value.int 1)).lookup k).map (marshalValue lib) =
      (((∅ : Payload).set "amt" (Value.float f64_1)).lookup k).map (marshalValue lib) := by
  rw [lookup_set, lookup_set]
  split_ifs
  · simp only [Option.map_some', marshalValue_int_one, marshalValue_f64_1 lib h]
  · rfl

/-- The bytes of `json.Marshal` for the map with the keys "amt" and "ts". -/
theorem marshal_amt_ts (lib : Lib) (v : Value) (enc : String) (ts : Int)
    (h : marshalValue lib v = some enc) :
    marshal lib (((∅ : Payload).set "amt" v).set "ts" (Value.int ts)) =
      some ("\x7b" ++ lib.quote "amt" ++ ":" ++ enc ++ "," ++ lib.quote "ts" ++ ":" ++
        toString ts ++ "\x7d") := by
  have hk : sortedKeys (((∅ : Payload).set "amt" v).set "ts" (Value.int ts)) =
      ["amt", "ts"] := by
    rfl
  have h₁ : (((∅ : Payload).set "amt" v).set "ts" (Value.int ts)).lookup "amt" = some v := by
    rw [lookup_set, if_neg (by decide), lookup_set, if_pos rfl]
  have h₂ : (((∅ : Payload).set "amt" v).set "ts" (Value.int ts)).lookup "ts" =
      some (Value.int ts) := by
    rw [lookup_set, if_pos rfl]
  have h₃ : marshalValue lib (Value.int ts) = some (toString ts) := rfl
  simp only [marshal, hk, marshalMembers, marshalMember, h₁, h₂, h, h₃]
  simp [String.intercalate, String.intercalate.go, String.append_assoc]

/-- C24 (counterexample): two pairs of parameter maps with the same keys that differ in the
value of exactly one key and get the same "sig" with the timestamp held fixed. (1) For
every secret and clock reading, and whatever function of 32 bytes stands for HMAC-SHA256,
there are two strings `s`, `t` of 257 characters '0' or '1' for which `sigPayload` succeeds
on `{"sym": s}` and `{"sym": t}` and stores the same "sig"; the two strings are different
values, with different encodings when the quoting of strings is injective. (2) The maps
`{"amt": 1}` with the `int` 1 and `{"amt": 1.0}` with the `float64` 1.0 hold different
values under "amt"; `json.Marshal` writes both as `1`, and then for every secret and clock
reading `sigPayload` signs the same text, returns the same bytes and stores the same
"sig" for both: the text signed is `{"amt":1,"ts":<ms>}` in both calls. -/
theorem sig_not_sensitive :
    (∀ (lib : Lib) (b : bitkubApi) (now : Time), ∃ x y : Fin 257 → Bool,
      Value.str (bitString x) ≠ Value.str (bitString y) ∧
      (bitString x).length = 257 ∧ (bitString y).length = 257 ∧
      ((∀ s t, lib.quote s = lib.quote t → s = t) →
        marshalValue lib (Value.str (bitString x)) ≠
          marshalValue lib (Value.str (bitString y))) ∧
      (∃ body, (sigPayload lib b now
        ((∅ : Payload).set "sym" (Value.str (bitString x)))).1 = Except.ok body) ∧
      (∃ body, (sigPayload lib b now
        ((∅ : Payload).set "sym" (Value.str (bitString y)))).1 = Except.ok body) ∧
      ∃ sig : String,
        (sigPayload lib b now
          ((∅ : Payload).set "sym" (Value.str (bitString x)))).2.lookup "sig" =
            some (Value.str sig) ∧
        (sigPayload lib b now
          ((∅ : Payload).set "sym" (Value.str (bitString y)))).2.lookup "sig" =
            some (Value.str sig)) ∧
    ((∅ : Payload).set "amt" (Value.int 1)).keys =
      ((∅ : Payload).set "amt" (Value.float f64_1)).keys ∧
    ((∅ : Payload).set "amt" (Value.int 1)).lookup "amt" ≠
      ((∅ : Payload).set "amt" (Value.float f64_1)).lookup "amt" ∧
    f64_1.toRat = 1 ∧
    (∀ (lib : Lib) (b : bitkubApi) (now : Time), lib.formatFloat f64_1 = "1" →
      marshal lib (((∅ : Payload).set "amt" (Value.int 1)).set "ts"
          (Value.int (wrapInt64 (now.Unix * 1000)))) =
        some ("\x7b" ++ lib.quote "amt" ++ ":" ++ "1" ++ "," ++ lib.quote "ts" ++ ":" ++
          toString (wrapInt64 (now.Unix * 1000)) ++ "\x7d") ∧
      marshal lib (((∅ : Payload).set "amt" (Value.float f64_1)).set "ts"
          (Value.int (wrapInt64 (now.Unix * 1000)))) =
        some ("\x7b" ++ lib.quote "amt" ++ ":" ++ "1" ++ "," ++ lib.quote "ts" ++ ":" ++
          toString (wrapInt64 (now.Unix * 1000)) ++ "\x7d") ∧
      (∃ body,
        (sigPayload lib b now ((∅ : Payload).set "amt" (Value.int 1))).1 = Except.ok body ∧
        (sigPayload lib b now ((∅ : Payload).set "amt" (Value.float f64_1))).1 =
          Except.ok body) ∧
      ∃ sig : String,
        (sigPayload lib b now ((∅ : Payload).set "amt" (Value.int 1))).2.lookup "sig" =
          some (Value.str sig) ∧
        (sigPayload lib b now ((∅ : Payload).set "amt" (Value.float f64_1))).2.lookup "sig" =
          some (Value.str sig)) := by
  refine ⟨?_, by decide, by decide, ?_, ?_⟩
  · intro lib b now
    obtain ⟨x, y, hne, hx, hy, hsig⟩ := sig_collision_exists lib b now
    have hs : bitString x ≠ bitString y := fun h => hne (bitString_inj x y h)
    refine ⟨x, y, fun h => hs (Value.str.inj h), bitString_length x, bitString_length y,
      ?_, hx, hy, hsig⟩
    intro hq h
    simp only [marshalValue, Option.some.injEq] at h
    exact hs (hq _ _ h)
  · simp [f64_1, Float64.toRat]
    norm_num
  · intro lib b now hf
    have henc := int_float_same_encoding lib hf
    obtain ⟨hbody, hsig⟩ := sigPayload_same_encoding lib b now _ _ henc
    obtain ⟨body, hok⟩ := sigPayload_succeeds lib b now _
      (encodable_set_int lib _ "amt" 1 (encodable_empty lib))
    obtain ⟨m, _, hm⟩ := sigPayload_sig_value lib b now _ body hok
    refine ⟨marshal_amt_ts lib _ _ _ (marshalValue_int_one lib),
      marshal_amt_ts lib _ _ _ (marshalValue_f64_1 lib hf),
      ⟨body, hok, hbody ▸ hok⟩, _, hm, ?_⟩
    rw [← hsig body hok, hm]

/-! ### GetServerTime -/

/-- C25: when the transport answers with status 200, `GetServerTime` returns the zero time
and no error for every body that `strconv.Atoi` parses, whatever the integer is, and the
zero time with the parse error for every body it does not parse. The time returned is the
zero time in every case, so the server's timestamp has no influence on it. -/
theorem server_time_is_zero (env : Env) (b : bitkubApi) (resp : Response)
    (htransport : ∀ req t, env.DoTimeout req t = Except.ok resp)
    (hstatus : resp.statusCode = 200) :
    (∀ i, Atoi resp.body = some i →
      GetServerTimeReturn env b = (Time.zero, none) ∧
      (GetServerTime env b).outcome = Outcome.ok Time.zero) ∧
    (Atoi resp.body = none →
      GetServerTimeReturn env b = (Time.zero, some GoError.strconv) ∧
      (GetServerTime env b).outcome = Outcome.error GoError.strconv) ∧
    (∀ (env₀ : Env) (b₀ : bitkubApi), (GetServerTimeReturn env₀ b₀).1 = Time.zero) ∧
    Time.zero.Unix = -62135596800 := by
  have hbody := getBody_ok env b (baseURL ++ "/api/servertime") resp htransport hstatus
  refine ⟨?_, ?_, ?_, rfl⟩
  · intro i hi
    constructor
    · simp [GetServerTimeReturn, Get, doRequest, htransport, hstatus, hi]
    · simp only [GetServerTime]
      rw [andThen_outcome _ _ _ hbody]
      simp [hi, Outcome.ofExcept]
  · intro hi
    constructor
    · simp [GetServerTimeReturn, Get, doRequest, htransport, hstatus, hi]
    · simp only [GetServerTime]
      rw [andThen_outcome _ _ _ hbody]
      simp [hi, Outcome.ofExcept]
  · intro env₀ b₀
    simp only [GetServerTimeReturn]
    split
    · rfl
    · split_ifs
      · rfl
      · split <;> rfl

theorem server_time_is_zero_witness :
    Atoi "1627000000" = some 1627000000 ∧
    GetServerTimeReturn (answering ⟨1700000000, 0⟩ ⟨200, "1627000000", ""⟩)
      (NewBitkub "" "" []) = (Time.zero, none) ∧
    Atoi "soon" = none ∧
    GetServerTimeReturn (answering ⟨1700000000, 0⟩ ⟨200, "soon", ""⟩)
      (NewBitkub "" "" []) = (Time.zero, some GoError.strconv) :=
  ⟨by decide,
   ((server_time_is_zero (answering ⟨1700000000, 0⟩ ⟨200, "1627000000", ""⟩)
      (NewBitkub "" "" []) ⟨200, "1627000000", ""⟩ (fun _ _ => rfl) rfl).1
      1627000000 (by decide)).1,
   by decide,
   ((server_time_is_zero (answering ⟨1700000000, 0⟩ ⟨200, "soon", ""⟩)
      (NewBitkub "" "" []) ⟨200, "soon", ""⟩ (fun _ _ => rfl) rfl).2.1 (by decide)).1⟩

/-! ### The conversion of the integral positions -/

theorem truncate_nonneg (x : ℚ) (hx : 0 ≤ x) : truncateTowardZero x = ⌊x⌋ := by
  simp only [truncateTowardZero, if_pos hx]

theorem truncate_neg (x : ℚ) (hx : 0 ≤ x) : truncateTowardZero (-x) = -⌊x⌋ := by
  simp only [truncateTowardZero]
  split_ifs with h
  · have hx0 : x = 0 := le_antisymm (by linarith) hx
    simp [hx0]
  · exact Int.ceil_neg

theorem floor_mant_ofNat (mant e : Nat) :
    ⌊(mant : ℚ) * (2 : ℚ) ^ (Int.ofNat e)⌋ = ((mant * 2 ^ e : Nat) : Int) := by
  simp only [Int.ofNat_eq_coe, zpow_natCast]
  have h : (mant : ℚ) * (2 : ℚ) ^ e = (((mant * 2 ^ e : Nat) : Int) : ℚ) := by
    push_cast
    ring
  rw [h, Int.floor_intCast]

theorem floor_mant_negSucc (mant e : Nat) :
    ⌊(mant : ℚ) * (2 : ℚ) ^ (Int.negSucc e)⌋ = ((mant / 2 ^ (e + 1) : Nat) : Int) := by
  simp only [zpow_negSucc]
  have h : (mant : ℚ) * ((2 : ℚ) ^ (e + 1))⁻¹ =
      (((mant : Int) : ℚ)) / (((2 ^ (e + 1) : Nat)) : ℚ) := by
    push_cast
    rw [div_eq_mul_inv]
  rw [h, Rat.floor_intCast_div_natCast]
  norm_cast

theorem toRat_finite_false (mant : Nat) (exp : Int) :
    (Float64.finite false mant exp).toRat = (mant : ℚ) * (2 : ℚ) ^ exp := by
  simp [Float64.toRat]

theorem toRat_finite_true (mant : Nat) (exp : Int) :
    (Float64.finite true mant exp).toRat = -((mant : ℚ) * (2 : ℚ) ^ exp) := by
  simp [Float64.toRat]

theorem mant_exp_nonneg (mant : Nat) (exp : Int) : 0 ≤ (mant : ℚ) * (2 : ℚ) ^ exp :=
  mul_nonneg (Nat.cast_nonneg _) (zpow_nonneg (by norm_num) _)

theorem truncate_range (q : ℚ) (h₁ : -2 ^ 63 ≤ q) (h₂ : q < 2 ^ 63) :
    -2 ^ 63 ≤ truncateTowardZero q ∧ truncateTowardZero q < 2 ^ 63 := by
  simp only [truncateTowardZero]
  split_ifs with h
  · constructor
    · have : (0 : Int) ≤ ⌊q⌋ := Int.floor_nonneg.2 h
      omega
    · rw [Int.floor_lt]
      exact_mod_cast h₂
  · constructor
    · have hle : (((-2 ^ 63 : Int)) : ℚ) ≤ q := by exact_mod_cast h₁
      have := Int.ceil_mono hle
      rwa [Int.ceil_intCast] at this
    · have hq : q ≤ 0 := le_of_lt (not_le.1 h)
      have : ⌈q⌉ ≤ 0 := Int.ceil_le.2 (by exact_mod_cast hq)
      omega

theorem floatToInt_truncate (lib : Lib) (neg : Bool) (mant : Nat) (exp : Int)
    (h₁ : -2 ^ 63 ≤ (Float64.finite neg mant exp).toRat)
    (h₂ : (Float64.finite neg mant exp).toRat < 2 ^ 63) :
    floatToInt lib (Float64.finite neg mant exp) =
      truncateTowardZero (Float64.finite neg mant exp).toRat := by
  have hr := truncate_range _ h₁ h₂
  have key : ∀ (v c : Int),
      v = truncateTowardZero (Float64.finite neg mant exp).toRat →
      (if -2 ^ 63 ≤ v ∧ v < 2 ^ 63 then v else c) =
        truncateTowardZero (Float64.finite neg mant exp).toRat := by
    intro v c hv
    rw [if_pos (hv ▸ hr), hv]
  cases exp with
  | ofNat e =>
    cases neg with
    | false =>
      simp only [floatToInt, Bool.false_eq_true, if_false]
      apply key
      rw [toRat_finite_false, truncate_nonneg _ (mant_exp_nonneg _ _), floor_mant_ofNat]
    | true =>
      simp only [floatToInt, if_true]
      apply key
      rw [toRat_finite_true, truncate_neg _ (mant_exp_nonneg _ _), floor_mant_ofNat]
  | negSucc e =>
    cases neg with
    | false =>
      simp only [floatToInt, Bool.false_eq_true, if_false]
      apply key
      rw [toRat_finite_false, truncate_nonneg _ (mant_exp_nonneg _ _), floor_mant_negSucc]
    | true =>
      simp only [floatToInt, if_true]
      apply key
      rw [toRat_finite_true, truncate_neg _ (mant_exp_nonneg _ _), floor_mant_negSucc]

theorem truncate_intCast (n : Int) : truncateTowardZero (n : ℚ) = n := by
  simp only [truncateTowardZero]
  split_ifs <;> simp

/-- C26: in the decoders of `GetMarketTrades`, `GetMarketBids`, `GetMarketAsks` and
`GetMarketBooks`, the timestamp of a trade row (position 0) and the order id and timestamp
of a bid or ask row (positions 0 and 1) are `floatToInt` of the number at that position.
For every finite `float64` whose value lies in the 64-bit integer range, `floatToInt` is
the value truncated toward zero; the double nearest 1.9 gives 1 and its negative gives -1;
and a `float64` that holds an integer of magnitude at most 2 ^ 53 is converted to that
integer. -/
theorem integral_positions_truncate (lib : Lib) (neg : Bool) (mant : Nat) (exp : Int)
    (h₁ : -2 ^ 63 ≤ (Float64.finite neg mant exp).toRat)
    (h₂ : (Float64.finite neg mant exp).toRat < 2 ^ 63) :
    floatToInt lib (Float64.finite neg mant exp) =
      truncateTowardZero (Float64.finite neg mant exp).toRat ∧
    (∀ (t1 t2 : Float64) (side : String) (extra : List Dyn),
      tradeOfRow lib (tradeRow (Float64.finite neg mant exp, t1, t2, side, extra)) =
        some { Timestamp := truncateTowardZero (Float64.finite neg mant exp).toRat,
               Rate := t1, Amount := t2, Side := side }) ∧
    (∀ (b2 b3 b4 : Float64) (extra : List Dyn),
      bidAndAskOfRow lib (bidAskRow (Float64.finite neg mant exp,
          Float64.finite neg mant exp, b2, b3, b4, extra)) =
        some { OrderID := truncateTowardZero (Float64.finite neg mant exp).toRat,
               Timestamp := truncateTowardZero (Float64.finite neg mant exp).toRat,
               Volumn := b2, Rate := b3, Amount := b4 }) ∧
    (∀ (neg₀ : Bool) (mant₀ : Nat) (exp₀ : Int) (n : Int),
      (Float64.finite neg₀ mant₀ exp₀).toRat = n → -2 ^ 53 ≤ n → n ≤ 2 ^ 53 →
      floatToInt lib (Float64.finite neg₀ mant₀ exp₀) = n) ∧
    (∀ n : Int, (Float64.finite (decide (n < 0)) n.natAbs 0).toRat = n) ∧
    f64_1_9.toRat = 8556839292003942 / 4503599627370496 ∧
    floatToInt lib f64_1_9 = 1 ∧
    floatToInt lib f64_neg_1_9 = -1 := by
  have hmain := floatToInt_truncate lib neg mant exp h₁ h₂
  refine ⟨hmain, ?_, ?_, ?_, ?_, ?_, rfl, rfl⟩
  · intro t1 t2 side extra
    simp only [tradeRow, tradeOfRow_row, hmain]
  · intro b2 b3 b4 extra
    simp only [bidAskRow, bidAndAskOfRow_row, hmain]
  · intro neg₀ mant₀ exp₀ n hn hlo hhi
    have hlo' : (-2 ^ 63 : ℚ) ≤ (n : ℚ) := by
      have : (-2 ^ 63 : Int) ≤ n := by omega
      exact_mod_cast this
    have hhi' : (n : ℚ) < 2 ^ 63 := by
      have : n < (2 ^ 63 : Int) := by omega
      exact_mod_cast this
    rw [floatToInt_truncate lib neg₀ mant₀ exp₀ (hn ▸ hlo') (hn ▸ hhi'), hn,
      truncate_intCast]
  · intro n
    by_cases hneg : n < 0
    · simp only [hneg, decide_True, toRat_finite_true, zpow_zero, mul_one]
      have h : ((n.natAbs : Int)) = -n := by omega
      rw [← Int.cast_natCast, h]
      push_cast
      ring
    · simp only [hneg, decide_False, toRat_finite_false, zpow_zero, mul_one]
      have h : ((n.natAbs : Int)) = n := by omega
      rw [← Int.cast_natCast, h]
  · simp only [f64_1_9, toRat_finite_false]
    norm_num

theorem integral_positions_truncate_witness :
    floatToInt plainLib f64_1627000000 = truncateTowardZero f64_1627000000.toRat ∧
    f64_1627000000.toRat = 1627000000 :=
  ⟨(integral_positions_truncate plainLib false 6824132608000000 (-22)
      (by simp only [toRat_finite_false]; norm_num)
      (by simp only [toRat_finite_false]; norm_num)).1,
   by simp only [f64_1627000000, toRat_finite_false]; norm_num⟩

/-! ### GetMarketDepth and the error envelope -/

theorem collect_none_of_mem {α β : Type} (f : α → Option β) (a : α) (hf : f a = none) :
    ∀ l : List α, a ∈ l → collect f l = none
  | [], h => by cases h
  | x :: l, h => by
    rcases List.mem_cons.1 h with e | e
    · subst e
      simp only [collect, hf]
    · have ih := collect_none_of_mem f a hf l e
      simp only [collect, ih]
      cases f x <;> rfl

theorem decode_andThen_outcome {α β γ : Type} (r : Run α) (next : α → Except GoError β)
    (f : β → Option γ) (v : α) (w : β) (hr : r.outcome = Outcome.ok v)
    (hn : next v = Except.ok w) :
    ((r.andThen next).decode f).outcome = Outcome.ofOption (f w) := by
  have h := andThen_outcome r next v hr
  rw [hn] at h
  exact decode_outcome _ f w h

/-- C27 (the code at the failing inputs): when the transport answers with status 200 and
the body is the envelope with the members "error": c and "result": null, in whatever order
the decoded map lists them, `GetMarketDepth` panics: it asserts that the value of every
member is an array, which neither the number `c` nor `null` is. It returns no error, and
in particular not the error of the code `c`. -/
theorem market_depth_error_envelope (lib : Lib) (env : Env) (b : bitkubApi)
    (symbol : String) (limit : Int) (resp : Response) (c : Float64)
    (entries : List (String × Dyn))
    (htransport : ∀ req t, env.DoTimeout req t = Except.ok resp)
    (hstatus : resp.statusCode = 200)
    (hbody : lib.unmarshalMap resp.body = some entries)
    (hentries : ∀ e, e ∈ entries ↔ (e = ("error", Dyn.float64 c) ∨ e = ("result", Dyn.null))) :
    (GetMarketDepth lib env b symbol limit).outcome = Outcome.panic ∧
    ∀ err : GoError, (GetMarketDepth lib env b symbol limit).outcome ≠ Outcome.error err := by
  have hout : (GetMarketDepth lib env b symbol limit).outcome = Outcome.panic := by
    have hb := getBody_ok env b (baseURL ++ "/api/market/depth" ++ marketQuery symbol limit)
      resp htransport hstatus
    have hmem : (("error", Dyn.float64 c) : String × Dyn) ∈ entries :=
      (hentries _).2 (Or.inl rfl)
    simp only [GetMarketDepth]
    refine (decode_andThen_outcome _ _ _ _ entries hb ?_).trans ?_
    · simp only [hbody]
    · rw [collect_none_of_mem _ ("error", Dyn.float64 c) rfl entries hmem]
      rfl
  exact ⟨hout, fun err h => by rw [hout] at h; cases h⟩

theorem market_depth_error_envelope_witness :
    (GetMarketDepth (mapLib [("error", Dyn.float64 f64_11), ("result", Dyn.null)])
      (answering ⟨1627000000, 0⟩ ⟨200, "\x7b\"error\":11,\"result\":null\x7d", ""⟩)
      (NewBitkub "" "" []) "NOPE" 10).outcome = Outcome.panic ∧
    (GetMarketDepth (mapLib [("result", Dyn.null), ("error", Dyn.float64 f64_11)])
      (answering ⟨1627000000, 0⟩ ⟨200, "\x7b\"error\":11,\"result\":null\x7d", ""⟩)
      (NewBitkub "" "" []) "NOPE" 10).outcome = Outcome.panic ∧
    f64_11.toRat = 11 :=
  ⟨(market_depth_error_envelope
      (mapLib [("error", Dyn.float64 f64_11), ("result", Dyn.null)])
      (answering ⟨1627000000, 0⟩ ⟨200, "\x7b\"error\":11,\"result\":null\x7d", ""⟩)
      (NewBitkub "" "" []) "NOPE" 10 _ f64_11 _ (fun _ _ => rfl) rfl rfl
      (fun e => by simp)).1,
   (market_depth_error_envelope
      (mapLib [("result", Dyn.null), ("error", Dyn.float64 f64_11)])
      (answering ⟨1627000000, 0⟩ ⟨200, "\x7b\"error\":11,\"result\":null\x7d", ""⟩)
      (NewBitkub "" "" []) "NOPE" 10 _ f64_11 _ (fun _ _ => rfl) rfl rfl
      (fun e => by simp [or_comm])).1,
   by simp only [f64_11, toRat_finite_false]; norm_num⟩

/-! ### The maps of the order operations -/

theorem formatFloatWithoutZeroTrail_zero : formatFloatWithoutZeroTrail f64_0 = "0" := by
  have h : Sprintf_f f64_0 = "0.000000" := by
    simp only [f64_0, Sprintf_f, micros_zero]
    decide
  simp only [formatFloatWithoutZeroTrail, h]
  decide

theorem privateCall_reached {α : Type} (lib : Lib) (env : Env) (b : bitkubApi)
    (Q : String → List (String × String) → Payload → Prop) (r : Run α)
    (h : PrivateCall lib env b Q r) (hs : r.signed ≠ [])
    (henc : ∀ url headers p, Q url headers p → Encodable lib p) :
    ∃ url headers p body, Q url headers p ∧ r.signed = [p] ∧
      (sigPayload lib b env.now p).1 = Except.ok body ∧
      r.sent = [postRequest url headers body] := by
  rcases h with ⟨msg, _, rfl⟩ | ⟨url, headers, payload, rt, f, hQ, rfl⟩
  · exact absurd rfl hs
  · obtain ⟨h₁, body, hbody, h₂⟩ :=
      signedPost_reached lib env b url headers payload rt f (henc url headers payload hQ)
    exact ⟨url, headers, payload, body, hQ, h₁, hbody, h₂⟩

theorem PlaceBid_order (lib : Lib) (env : Env) (b : bitkubApi) (symbol : String) (bitType : String) (amount : Float64) (rate : Float64) (clientID : List String) :
    PrivateCall lib env b (fun url headers p =>
      url = baseURL ++ "/api/market/place-bid" ∧
      headers = [("X-BTK-APIKEY", b.ApiKey), ("Content-Type", "application/json"),
        ("Accept", "application/json")] ∧
      PlainPayload p ∧ ∀ k, p.lookup k = orderMap symbol bitType amount rate clientID k)
      (PlaceBid lib env b symbol bitType amount rate clientID) := by
  cases clientID <;>
  (unfold PlaceBid
   split_ifs <;>
     first
     | (refine Or.inr ⟨_, _, _, _, _, ?_, rfl⟩
        refine ⟨rfl, rfl, ?_, ?_⟩
        · repeat (first | exact plain_empty | apply plain_set_str | apply plain_set_int | decide)
        · intro k
          simp only [lookup_set, orderMap, OrderTypeMarket, List.head?, Option.map,
            AList.lookup_empty]
          simp only [OrderTypeMarket] at *
          simp only [*, if_true, if_false]
          split_ifs <;>
            first
            | (with_reducible rfl)
            | (exfalso
               subst_vars
               simp_all only [reduceCtorEq, String.reduceEq]))
     | exact Or.inl ⟨_, by decide, rfl⟩)

theorem PlaceBidTest_order (lib : Lib) (env : Env) (b : bitkubApi) (symbol : String) (bitType : String) (amount : Float64) (rate : Float64) (clientID : List String) :
    PrivateCall lib env b (fun url headers p =>
      url = baseURL ++ "/api/market/place-bid/test" ∧
      headers = [("X-BTK-APIKEY", b.ApiKey), ("Content-Type", "application/json"),
        ("Accept", "application/json")] ∧
      PlainPayload p ∧ ∀ k, p.lookup k = orderMap symbol bitType amount rate clientID k)
      (PlaceBidTest lib env b symbol bitType amount rate clientID) := by
  cases clientID <;>
  (unfold PlaceBidTest
   split_ifs <;>
     first
     | (refine Or.inr ⟨_, _, _, _, _, ?_, rfl⟩
        refine ⟨rfl, rfl, ?_, ?_⟩
        · repeat (first | exact plain_empty | apply plain_set_str | apply plain_set_int | decide)
        · intro k
          simp only [lookup_set, orderMap, OrderTypeMarket, List.head?, Option.map,
            AList.lookup_empty]
          simp only [OrderTypeMarket] at *
          simp only [*, if_true, if_false]
          split_ifs <;>
            first
            | (with_reducible rfl)
            | (exfalso
               subst_vars
               simp_all only [reduceCtorEq, String.reduceEq]))
     | exact Or.inl ⟨_, by decide, rfl⟩)

theorem PlaceAsk_order (lib : Lib) (env : Env) (b : bitkubApi) (symbol : String) (bitType : String) (amount : Float64) (rate : Float64) (clientID : List String) :
    PrivateCall lib env b (fun url headers p =>
      url = baseURL ++ "/api/market/place-ask" ∧
      headers = [("X-BTK-APIKEY", b.ApiKey), ("Content-Type", "application/json"),
        ("Accept", "application/json")] ∧
      PlainPayload p ∧ ∀ k, p.lookup k = orderMap symbol bitType amount rate clientID k)
      (PlaceAsk lib env b symbol bitType amount rate clientID) := by
  cases clientID <;>
  (unfold PlaceAsk
   split_ifs <;>
     first
     | (refine Or.inr ⟨_, _, _, _, _, ?_, rfl⟩
        refine ⟨rfl, rfl, ?_, ?_⟩
        · repeat (first | exact plain_empty | apply plain_set_str | apply plain_set_int | decide)
        · intro k
          simp only [lookup_set, orderMap, OrderTypeMarket, List.head?, Option.map,
            AList.lookup_empty]
          simp only [OrderTypeMarket] at *
          simp only [*, if_true, if_false]
          split_ifs <;>
            first
            | (with_reducible rfl)
            | (exfalso
               subst_vars
               simp_all only [reduceCtorEq, String.reduceEq]))
     | exact Or.inl ⟨_, by decide, rfl⟩)

theorem PlaceAskTest_order (lib : Lib) (env : Env) (b : bitkubApi) (symbol : String) (bitType : String) (amount : Float64) (rate : Float64) (clientID : List String) :
    PrivateCall lib env b (fun url headers p =>
      url = baseURL ++ "/api/market/place-ask/test" ∧
      headers = [("X-BTK-APIKEY", b.ApiKey), ("Content-Type", "application/json"),
        ("Accept", "application/json")] ∧
      PlainPayload p ∧ ∀ k, p.lookup k = orderMap symbol bitType amount rate clientID k)
      (PlaceAskTest lib env b symbol bitType amount rate clientID) := by
  cases clientID <;>
  (unfold PlaceAskTest
   split_ifs <;>
     first
     | (refine Or.inr ⟨_, _, _, _, _, ?_, rfl⟩
        refine ⟨rfl, rfl, ?_, ?_⟩
        · repeat (first | exact plain_empty | apply plain_set_str | apply plain_set_int | decide)
        · intro k
          simp only [lookup_set, orderMap, OrderTypeMarket, List.head?, Option.map,
            AList.lookup_empty]
          simp only [OrderTypeMarket] at *
          simp only [*, if_true, if_false]
          split_ifs <;>
            first
            | (with_reducible rfl)
            | (exfalso
               subst_vars
               simp_all only [reduceCtorEq, String.reduceEq]))
     | exact Or.inl ⟨_, by decide, rfl⟩)

theorem CancelOrder_order (lib : Lib) (env : Env) (b : bitkubApi) (symbol : String) (side : String) (hash : String) (id : Int) :
    PrivateCall lib env b (fun url headers p =>
      url = baseURL ++ "/api/market/cancel-order" ∧
      headers = [("X-BTK-APIKEY", b.ApiKey), ("Content-Type", "application/json"),
        ("Accept", "application/json")] ∧
      PlainPayload p ∧
      (hash ≠ "" → ∀ k, p.lookup k = if k = "hash" then some (Value.str hash) else none) ∧
      (hash = "" → ∀ k, p.lookup k =
        if k = "sym" then some (Value.str symbol)
        else if k = "id" then some (Value.str (toString id))
        else if k = "sd" then some (Value.str side)
        else none))
      (CancelOrder lib env b symbol side hash id) := by
  unfold CancelOrder
  split_ifs <;>
    first
    | (refine Or.inr ⟨_, _, _, _, _, ?_, rfl⟩
       refine ⟨rfl, rfl, ?_, ?_, ?_⟩
       · repeat (first | exact plain_empty | apply plain_set_str | apply plain_set_int | decide)
       · intro hh
         first
         | exact absurd ‹hash = ""› hh
         | (intro k
            simp only [lookup_set, AList.lookup_empty])
       · intro hh
         first
         | exact absurd hh ‹¬hash = ""›
         | (intro k
            simp only [lookup_set, AList.lookup_empty]
            split_ifs <;> simp_all))
    | exact Or.inl ⟨_, by decide, rfl⟩

theorem GetOrderInfo_order (lib : Lib) (env : Env) (b : bitkubApi) (symbol : String) (side : String) (hash : String) (id : Int) :
    PrivateCall lib env b (fun url headers p =>
      url = baseURL ++ "/api/market/order-info" ∧
      headers = [("X-BTK-APIKEY", b.ApiKey), ("Content-Type", "application/json"),
        ("Accept", "application/json")] ∧
      PlainPayload p ∧
      (hash ≠ "" → ∀ k, p.lookup k = if k = "hash" then some (Value.str hash) else none) ∧
      (hash = "" → ∀ k, p.lookup k =
        if k = "sym" then some (Value.str symbol)
        else if k = "id" then some (Value.str (toString id))
        else if k = "sd" then some (Value.str side)
        else none))
      (GetOrderInfo lib env b symbol side hash id) := by
  unfold GetOrderInfo
  split_ifs <;>
    first
    | (refine Or.inr ⟨_, _, _, _, _, ?_, rfl⟩
       refine ⟨rfl, rfl, ?_, ?_, ?_⟩
       · repeat (first | exact plain_empty | apply plain_set_str | apply plain_set_int | decide)
       · intro hh
         first
         | exact absurd ‹hash = ""› hh
         | (intro k
            simp only [lookup_set, AList.lookup_empty])
       · intro hh
         first
         | exact absurd hh ‹¬hash = ""›
         | (intro k
            simp only [lookup_set, AList.lookup_empty]
            split_ifs <;> simp_all))
    | exact Or.inl ⟨_, by decide, rfl⟩

/-- C28: for `PlaceBid`, `PlaceBidTest`, `PlaceAsk` and `PlaceAskTest` with inputs that pass
the local checks, the one map handed to `sigPayload` is `orderMap`: "sym", "typ", "amt" with
the trimmed amount, "rat" with the trimmed rate (the rate replaced by 0 for the type
"market", so "rat" is "0" whatever rate was passed), "client_id" with the first client id
exactly when one was supplied, and no other key. `sigPayload` succeeds on it, and the one
request handed to the transport is the POST of the bytes it returned. The amount 10.01 is
written "10.01" and the rate 0 is written "0". -/
theorem place_order_payload (lib : Lib) (env : Env) (b : bitkubApi) (symbol bitType : String)
    (amount rate : Float64) (clientID : List String)
    (hgate : ¬ (b.ApiKey = "" ∨ b.ApiSecret = "" ∨ symbol = "" ∨
        (bitType ≠ "limit" ∧ bitType ≠ "market"))) :
    (∃ p body, (PlaceBid lib env b symbol bitType amount rate clientID).signed = [p] ∧
      (∀ k, p.lookup k = orderMap symbol bitType amount rate clientID k) ∧
      (sigPayload lib b env.now p).1 = Except.ok body ∧
      (PlaceBid lib env b symbol bitType amount rate clientID).sent =
        [postRequest (baseURL ++ "/api/market/place-bid")
          [("X-BTK-APIKEY", b.ApiKey), ("Content-Type", "application/json"),
            ("Accept", "application/json")] body]) ∧
    (∃ p body, (PlaceBidTest lib env b symbol bitType amount rate clientID).signed = [p] ∧
      (∀ k, p.lookup k = orderMap symbol bitType amount rate clientID k) ∧
      (sigPayload lib b env.now p).1 = Except.ok body ∧
      (PlaceBidTest lib env b symbol bitType amount rate clientID).sent =
        [postRequest (baseURL ++ "/api/market/place-bid/test")
          [("X-BTK-APIKEY", b.ApiKey), ("Content-Type", "application/json"),
            ("Accept", "application/json")] body]) ∧
    (∃ p body, (PlaceAsk lib env b symbol bitType amount rate clientID).signed = [p] ∧
      (∀ k, p.lookup k = orderMap symbol bitType amount rate clientID k) ∧
      (sigPayload lib b env.now p).1 = Except.ok body ∧
      (PlaceAsk lib env b symbol bitType amount rate clientID).sent =
        [postRequest (baseURL ++ "/api/market/place-ask")
          [("X-BTK-APIKEY", b.ApiKey), ("Content-Type", "application/json"),
            ("Accept", "application/json")] body]) ∧
    (∃ p body, (PlaceAskTest lib env b symbol bitType amount rate clientID).signed = [p] ∧
      (∀ k, p.lookup k = orderMap symbol bitType amount rate clientID k) ∧
      (sigPayload lib b env.now p).1 = Except.ok body ∧
      (PlaceAskTest lib env b symbol bitType amount rate clientID).sent =
        [postRequest (baseURL ++ "/api/market/place-ask/test")
          [("X-BTK-APIKEY", b.ApiKey), ("Content-Type", "application/json"),
            ("Accept", "application/json")] body]) ∧
    (bitType = "market" →
      orderMap symbol bitType amount rate clientID "rat" = some (Value.str "0")) ∧
    (bitType = "limit" → orderMap symbol bitType amount rate clientID "rat" =
      some (Value.str (formatFloatWithoutZeroTrail rate))) ∧
    (clientID = [] → orderMap symbol bitType amount rate clientID "client_id" = none) ∧
    (∀ first rest, clientID = first :: rest →
      orderMap symbol bitType amount rate clientID "client_id" = some (Value.str first)) ∧
    formatFloatWithoutZeroTrail f64_10_01 = "10.01" ∧
    formatFloatWithoutZeroTrail f64_0 = "0" :=
  ⟨(by
      obtain ⟨url, headers, p, body, ⟨rfl, rfl, _, htab⟩, hs, hbody, hsent⟩ :=
        privateCall_reached lib env b _ _ (PlaceBid_order lib env b symbol bitType amount rate clientID)
          (PlaceBid_reached lib env b symbol bitType amount rate clientID hgate).1
          (fun _ _ p hQ => plain_encodable lib p hQ.2.2.1)
      exact ⟨p, body, hs, htab, hbody, hsent⟩),
   (by
      obtain ⟨url, headers, p, body, ⟨rfl, rfl, _, htab⟩, hs, hbody, hsent⟩ :=
        privateCall_reached lib env b _ _ (PlaceBidTest_order lib env b symbol bitType amount rate clientID)
          (PlaceBidTest_reached lib env b symbol bitType amount rate clientID hgate).1
          (fun _ _ p hQ => plain_encodable lib p hQ.2.2.1)
      exact ⟨p, body, hs, htab, hbody, hsent⟩),
   (by
      obtain ⟨url, headers, p, body, ⟨rfl, rfl, _, htab⟩, hs, hbody, hsent⟩ :=
        privateCall_reached lib env b _ _ (PlaceAsk_order lib env b symbol bitType amount rate clientID)
          (PlaceAsk_reached lib env b symbol bitType amount rate clientID hgate).1
          (fun _ _ p hQ => plain_encodable lib p hQ.2.2.1)
      exact ⟨p, body, hs, htab, hbody, hsent⟩),
   (by
      obtain ⟨url, headers, p, body, ⟨rfl, rfl, _, htab⟩, hs, hbody, hsent⟩ :=
        privateCall_reached lib env b _ _ (PlaceAskTest_order lib env b symbol bitType amount rate clientID)
          (PlaceAskTest_reached lib env b symbol bitType amount rate clientID hgate).1
          (fun _ _ p hQ => plain_encodable lib p hQ.2.2.1)
      exact ⟨p, body, hs, htab, hbody, hsent⟩),
   (fun h => by subst h; simp [orderMap, formatFloatWithoutZeroTrail_zero]),
   (fun h => by subst h; simp [orderMap]),
   (fun h => by subst h; simp [orderMap]),
   (fun first rest h => by subst h; simp [orderMap]),
   by decide, formatFloatWithoutZeroTrail_zero⟩

theorem place_order_payload_witness :
    ∃ p body,
      (PlaceBidTest plainLib (answering ⟨1627000000, 0⟩ ⟨200, "", ""⟩)
        (NewBitkub "key" "secret" []) "THB_BTC" "market" f64_10_01 f64_10 []).signed = [p] ∧
      (∀ k, p.lookup k = orderMap "THB_BTC" "market" f64_10_01 f64_10 [] k) ∧
      orderMap "THB_BTC" "market" f64_10_01 f64_10 [] "amt" = some (Value.str "10.01") ∧
      orderMap "THB_BTC" "market" f64_10_01 f64_10 [] "rat" = some (Value.str "0") ∧
      (PlaceBidTest plainLib (answering ⟨1627000000, 0⟩ ⟨200, "", ""⟩)
        (NewBitkub "key" "secret" []) "THB_BTC" "market" f64_10_01 f64_10 []).sent =
        [postRequest "https://api.bitkub.com/api/market/place-bid/test"
          [("X-BTK-APIKEY", "key"), ("Content-Type", "application/json"),
            ("Accept", "application/json")] body] :=
  have h := (place_order_payload plainLib (answering ⟨1627000000, 0⟩ ⟨200, "", ""⟩)
    (NewBitkub "key" "secret" []) "THB_BTC" "market" f64_10_01 f64_10 [] (by decide)).2.1
  h.elim fun p h => h.elim fun body h => ⟨p, body, h.1, h.2.1, by decide,
    by simp [orderMap, formatFloatWithoutZeroTrail_zero], h.2.2.2⟩

/-! ### The maps of CancelOrder and GetOrderInfo -/

/-- C29: for `CancelOrder` and `GetOrderInfo` with a key and a secret that are not empty:
when `hash` is not empty the one map handed to `sigPayload` has the entry "hash" and no
other, whatever `symbol`, `side` and `id` are; when `hash` is empty and the checks pass it
has exactly "sym", "id" with the decimal text of `id` as a string, and "sd". A negative id
passes the checks and is sent as text: -1 is sent as "-1". In both cases `sigPayload`
succeeds and the request handed to the transport is the POST of the bytes it returned. -/
theorem order_reference_payload (lib : Lib) (env : Env) (b : bitkubApi)
    (symbol side hash : String) (id : Int)
    (hkey : b.ApiKey ≠ "") (hsecret : b.ApiSecret ≠ "") :
    (hash ≠ "" →
      (∃ p body, (CancelOrder lib env b symbol side hash id).signed = [p] ∧
      (∀ k, p.lookup k =
        if k = "hash" then some (Value.str hash) else none) ∧
      (sigPayload lib b env.now p).1 = Except.ok body ∧
      (CancelOrder lib env b symbol side hash id).sent =
        [postRequest (baseURL ++ "/api/market/cancel-order")
          [("X-BTK-APIKEY", b.ApiKey), ("Content-Type", "application/json"),
            ("Accept", "application/json")] body]) ∧
      (∃ p body, (GetOrderInfo lib env b symbol side hash id).signed = [p] ∧
      (∀ k, p.lookup k =
        if k = "hash" then some (Value.str hash) else none) ∧
      (sigPayload lib b env.now p).1 = Except.ok body ∧
      (GetOrderInfo lib env b symbol side hash id).sent =
        [postRequest (baseURL ++ "/api/market/order-info")
          [("X-BTK-APIKEY", b.ApiKey), ("Content-Type", "application/json"),
            ("Accept", "application/json")] body])) ∧
    (hash = "" → symbol ≠ "" → (side = "buy" ∨ side = "sell") → id ≠ 0 →
      (∃ p body, (CancelOrder lib env b symbol side hash id).signed = [p] ∧
      (∀ k, p.lookup k =
        if k = "sym" then some (Value.str symbol)
        else if k = "id" then some (Value.str (toString id))
        else if k = "sd" then some (Value.str side)
        else none) ∧
      (sigPayload lib b env.now p).1 = Except.ok body ∧
      (CancelOrder lib env b symbol side hash id).sent =
        [postRequest (baseURL ++ "/api/market/cancel-order")
          [("X-BTK-APIKEY", b.ApiKey), ("Content-Type", "application/json"),
            ("Accept", "application/json")] body]) ∧
      (∃ p body, (GetOrderInfo lib env b symbol side hash id).signed = [p] ∧
      (∀ k, p.lookup k =
        if k = "sym" then some (Value.str symbol)
        else if k = "id" then some (Value.str (toString id))
        else if k = "sd" then some (Value.str side)
        else none) ∧
      (sigPayload lib b env.now p).1 = Except.ok body ∧
      (GetOrderInfo lib env b symbol side hash id).sent =
        [postRequest (baseURL ++ "/api/market/order-info")
          [("X-BTK-APIKEY", b.ApiKey), ("Content-Type", "application/json"),
            ("Accept", "application/json")] body])) ∧
    toString (-1 : Int) = "-1" := by
  refine ⟨fun hh => ?_, fun hh hsym hside hid => ?_, by decide⟩
  · have hgate : ¬ (b.ApiKey = "" ∨ b.ApiSecret = "" ∨
        (hash = "" ∧ (symbol = "" ∨ (side ≠ "buy" ∧ side ≠ "sell") ∨ id = 0))) := by
      rintro (h | h | ⟨h, _⟩)
      · exact hkey h
      · exact hsecret h
      · exact hh h
    constructor
    · obtain ⟨url, headers, p, body, ⟨rfl, rfl, _, htab, _⟩, hs, hbody, hsent⟩ :=
        privateCall_reached lib env b _ _ (CancelOrder_order lib env b symbol side hash id)
          (CancelOrder_reached lib env b symbol side hash id hgate).1
          (fun _ _ p hQ => plain_encodable lib p hQ.2.2.1)
      exact ⟨p, body, hs, htab hh, hbody, hsent⟩
    · obtain ⟨url, headers, p, body, ⟨rfl, rfl, _, htab, _⟩, hs, hbody, hsent⟩ :=
        privateCall_reached lib env b _ _ (GetOrderInfo_order lib env b symbol side hash id)
          (GetOrderInfo_reached lib env b symbol side hash id hgate).1
          (fun _ _ p hQ => plain_encodable lib p hQ.2.2.1)
      exact ⟨p, body, hs, htab hh, hbody, hsent⟩
  · have hgate : ¬ (b.ApiKey = "" ∨ b.ApiSecret = "" ∨
        (hash = "" ∧ (symbol = "" ∨ (side ≠ "buy" ∧ side ≠ "sell") ∨ id = 0))) := by
      rintro (h | h | ⟨_, h | h | h⟩)
      · exact hkey h
      · exact hsecret h
      · exact hsym h
      · rcases hside with e | e
        · exact h.1 e
        · exact h.2 e
      · exact hid h
    constructor
    · obtain ⟨url, headers, p, body, ⟨rfl, rfl, _, _, htab⟩, hs, hbody, hsent⟩ :=
        privateCall_reached lib env b _ _ (CancelOrder_order lib env b symbol side hash id)
          (CancelOrder_reached lib env b symbol side hash id hgate).1
          (fun _ _ p hQ => plain_encodable lib p hQ.2.2.1)
      exact ⟨p, body, hs, htab hh, hbody, hsent⟩
    · obtain ⟨url, headers, p, body, ⟨rfl, rfl, _, _, htab⟩, hs, hbody, hsent⟩ :=
        privateCall_reached lib env b _ _ (GetOrderInfo_order lib env b symbol side hash id)
          (GetOrderInfo_reached lib env b symbol side hash id hgate).1
          (fun _ _ p hQ => plain_encodable lib p hQ.2.2.1)
      exact ⟨p, body, hs, htab hh, hbody, hsent⟩

theorem order_reference_payload_witness :
    (∃ p body,
      (GetOrderInfo plainLib (answering ⟨1627000000, 0⟩ ⟨200, "", ""⟩)
        (NewBitkub "key" "secret" []) "THB_BTC" "buy" "fwQ6dnQWQq71S9vZ9PNzX59MF28" 1).signed
        = [p] ∧
      (∀ k, p.lookup k =
        if k = "hash" then some (Value.str "fwQ6dnQWQq71S9vZ9PNzX59MF28") else none) ∧
      (sigPayload plainLib (NewBitkub "key" "secret" []) ⟨1627000000, 0⟩ p).1 =
        Except.ok body) ∧
    (∃ p body,
      (CancelOrder plainLib (answering ⟨1627000000, 0⟩ ⟨200, "", ""⟩)
        (NewBitkub "key" "secret" []) "THB_BTC" "sell" "" (-1)).signed = [p] ∧
      (∀ k, p.lookup k =
        if k = "sym" then some (Value.str "THB_BTC")
        else if k = "id" then some (Value.str "-1")
        else if k = "sd" then some (Value.str "sell")
        else none) ∧
      (sigPayload plainLib (NewBitkub "key" "secret" []) ⟨1627000000, 0⟩ p).1 =
        Except.ok body) :=
  have h₁ := ((order_reference_payload plainLib (answering ⟨1627000000, 0⟩ ⟨200, "", ""⟩)
    (NewBitkub "key" "secret" []) "THB_BTC" "buy" "fwQ6dnQWQq71S9vZ9PNzX59MF28" 1
    (by decide) (by decide)).1 (by decide)).2
  have h₂ := ((order_reference_payload plainLib (answering ⟨1627000000, 0⟩ ⟨200, "", ""⟩)
    (NewBitkub "key" "secret" []) "THB_BTC" "sell" "" (-1)
    (by decide) (by decide)).2.1 rfl (by decide) (Or.inr rfl) (by decide)).1
  ⟨h₁.elim fun p h => h.elim fun body h => ⟨p, body, h.1, h.2.1, h.2.2.1⟩,
   h₂.elim fun p h => h.elim fun body h => ⟨p, body, h.1, h.2.1, h.2.2.1⟩⟩

/-! ### The keys and values of the maps the private operations sign -/

theorem sig_not_mem_set_ts (p : Payload) (v : Value) (h : "sig" ∉ p.keys) :
    "sig" ∉ (p.set "ts" v).keys := by
  rw [mem_keys_set]
  exact fun hc => hc.elim (fun e => absurd e (by decide)) h

theorem call_plain {α : Type} (lib : Lib) (env : Env) (b : bitkubApi) (ct : Option String)
    (op : PrivateOp) (r : Run α)
    (h : PrivateCall lib env b (CallSpec b ct PlainPayload) r) :
    ∀ p ∈ r.signed, "ts" ∉ p.keys ∧ "sig" ∉ p.keys ∧
      "sig" ∉ (p.set "ts" (Value.int (wrapInt64 (env.now.Unix * 1000)))).keys ∧
      (op ≠ PrivateOp.FiatWithdraw →
        (∀ k v, p.lookup k = some v → (∃ s, v = Value.str s) ∨ (∃ n, v = Value.int n)) ∧
        ∃ body, (sigPayload lib b env.now p).1 = Except.ok body) := by
  intro p hp
  obtain ⟨_, _, hQ⟩ := privateCall_signed lib env b _ r h p hp
  have hplain : PlainPayload p := hQ.2.2.2
  exact ⟨hplain.1, hplain.2.1, sig_not_mem_set_ts p _ hplain.2.1,
    fun _ => ⟨hplain.2.2, sigPayload_succeeds lib b env.now p (plain_encodable lib p hplain)⟩⟩

theorem call_fiat {α : Type} (lib : Lib) (env : Env) (b : bitkubApi) (bankID : String)
    (amount : Float64) (r : Run α)
    (h : PrivateCall lib env b (CallSpec b (some "application/json")
      (fun p => p = ((∅ : Payload).set "id" (Value.str bankID)).set "amount"
        (Value.float amount))) r) :
    ∀ p ∈ r.signed, "ts" ∉ p.keys ∧ "sig" ∉ p.keys ∧
      "sig" ∉ (p.set "ts" (Value.int (wrapInt64 (env.now.Unix * 1000)))).keys ∧
      (PrivateOp.FiatWithdraw ≠ PrivateOp.FiatWithdraw →
        (∀ k v, p.lookup k = some v → (∃ s, v = Value.str s) ∨ (∃ n, v = Value.int n)) ∧
        ∃ body, (sigPayload lib b env.now p).1 = Except.ok body) := by
  intro p hp
  obtain ⟨_, _, hQ⟩ := privateCall_signed lib env b _ r h p hp
  have hp' : p = ((∅ : Payload).set "id" (Value.str bankID)).set "amount"
      (Value.float amount) := hQ.2.2.2
  have hts : "ts" ∉ p.keys := by
    rw [hp', mem_keys_set, mem_keys_set]
    simp
  have hsig : "sig" ∉ p.keys := by
    rw [hp', mem_keys_set, mem_keys_set]
    simp
  exact ⟨hts, hsig, sig_not_mem_set_ts p _ hsig, fun hne => absurd rfl hne⟩

/-- C30: for every private operation and every input, the map handed to `sigPayload` has
neither a "ts" nor a "sig" key, so the map of the first serialization (the map with "ts"
set) has no "sig". For every operation other than `FiatWithdraw` every value of the map
is a string or an integer, and `sigPayload` returns without error on it: its two error
branches cannot be taken. The map of `FiatWithdraw` is "id" with the bank id and "amount"
with the `float64` itself; with the amount NaN or +Inf, which pass the check `amount <= 0`,
`sigPayload` returns the error of `json.Marshal` and no request is sent. -/
theorem payload_keys_and_values :
    (∀ (lib : Lib) (env : Env) (b : bitkubApi),
      EachPrivate (fun op => fun r => ∀ p ∈ r.signed,
        "ts" ∉ p.keys ∧ "sig" ∉ p.keys ∧
        "sig" ∉ (p.set "ts" (Value.int (wrapInt64 (env.now.Unix * 1000)))).keys ∧
        (op ≠ PrivateOp.FiatWithdraw →
          (∀ k v, p.lookup k = some v → (∃ s, v = Value.str s) ∨ (∃ n, v = Value.int n)) ∧
          ∃ body, (sigPayload lib b env.now p).1 = Except.ok body)) lib env b) ∧
    (∀ (lib : Lib) (env : Env) (b : bitkubApi) (bankID : String) (amount : Float64),
      ∀ p ∈ (FiatWithdraw lib env b bankID amount).signed, ∀ k, p.lookup k =
        if k = "amount" then some (Value.float amount)
        else if k = "id" then some (Value.str bankID)
        else none) ∧
    (FiatWithdraw plainLib (answering ⟨1627000000, 0⟩ ⟨200, "", ""⟩)
      (NewBitkub "key" "secret" []) "bank" Float64.nan).outcome =
      Outcome.error GoError.json ∧
    (FiatWithdraw plainLib (answering ⟨1627000000, 0⟩ ⟨200, "", ""⟩)
      (NewBitkub "key" "secret" []) "bank" (Float64.inf false)).outcome =
      Outcome.error GoError.json ∧
    (FiatWithdraw plainLib (answering ⟨1627000000, 0⟩ ⟨200, "", ""⟩)
      (NewBitkub "key" "secret" []) "bank" Float64.nan).signed.length = 1 ∧
    (FiatWithdraw plainLib (answering ⟨1627000000, 0⟩ ⟨200, "", ""⟩)
      (NewBitkub "key" "secret" []) "bank" Float64.nan).sent = [] :=
  ⟨fun lib env b =>
    ⟨call_plain lib env b _ PrivateOp.GetWallet _ (GetWallet_call lib env b),
     call_plain lib env b _ PrivateOp.GetBalances _ (GetBalances_call lib env b),
     fun symbol bitType amount rate clientID => call_plain lib env b _ PrivateOp.PlaceBid _ (PlaceBid_call lib env b symbol bitType amount rate clientID),
     fun symbol bitType amount rate clientID => call_plain lib env b _ PrivateOp.PlaceBidTest _ (PlaceBidTest_call lib env b symbol bitType amount rate clientID),
     fun symbol bitType amount rate clientID => call_plain lib env b _ PrivateOp.PlaceAsk _ (PlaceAsk_call lib env b symbol bitType amount rate clientID),
     fun symbol bitType amount rate clientID => call_plain lib env b _ PrivateOp.PlaceAskTest _ (PlaceAskTest_call lib env b symbol bitType amount rate clientID),
     fun symbol bitType amount rate => call_plain lib env b _ PrivateOp.PlaceAskByFiat _ (PlaceAskByFiat_call lib env b symbol bitType amount rate),
     fun symbol side hash id => call_plain lib env b _ PrivateOp.CancelOrder _ (CancelOrder_call lib env b symbol side hash id),
     fun symbol => call_plain lib env b _ PrivateOp.GetOpenOrder _ (GetOpenOrder_call lib env b symbol),
     fun symbol page limit start end_ => call_plain lib env b _ PrivateOp.GetOrderHistory _ (GetOrderHistory_call lib env b symbol page limit start end_),
     fun symbol side hash id => call_plain lib env b _ PrivateOp.GetOrderInfo _ (GetOrderInfo_call lib env b symbol side hash id),
     fun page limit => call_plain lib env b _ PrivateOp.GetCryptoAddresses _ (GetCryptoAddresses_call lib env b page limit),
     fun currency address amount memo => call_plain lib env b _ PrivateOp.CryptoWithdraw _ (CryptoWithdraw_call lib env b currency address amount memo),
     fun currency address amount memo => call_plain lib env b _ PrivateOp.CryptoInternalWithdraw _ (CryptoInternalWithdraw_call lib env b currency address amount memo),
     fun page limit => call_plain lib env b _ PrivateOp.GetCryptoDepositHistory _ (GetCryptoDepositHistory_call lib env b page limit),
     fun page limit => call_plain lib env b _ PrivateOp.GetCryptoWithdrawHistory _ (GetCryptoWithdrawHistory_call lib env b page limit),
     fun symbol => call_plain lib env b _ PrivateOp.CryptoGenerateAddress _ (CryptoGenerateAddress_call lib env b symbol),
     fun page limit => call_plain lib env b _ PrivateOp.GetBankAccounts _ (GetBankAccounts_call lib env b page limit),
     fun bankID amount => call_fiat lib env b bankID amount _ (FiatWithdraw_call lib env b bankID amount),
     fun page limit => call_plain lib env b _ PrivateOp.GetFiatDepositHistory _ (GetFiatDepositHistory_call lib env b page limit),
     fun page limit => call_plain lib env b _ PrivateOp.GetFiatWithdrawHistory _ (GetFiatWithdrawHistory_call lib env b page limit),
     call_plain lib env b _ PrivateOp.GetWebSocketToken _ (GetWebSocketToken_call lib env b),
     call_plain lib env b _ PrivateOp.GetUserLimits _ (GetUserLimits_call lib env b),
     call_plain lib env b _ PrivateOp.GetUserTradingCredits _ (GetUserTradingCredits_call lib env b)⟩,
   fun lib env b bankID amount p hp k => by
     obtain ⟨_, _, hQ⟩ := privateCall_signed lib env b _ _
       (FiatWithdraw_call lib env b bankID amount) p hp
     have hp' : p = ((∅ : Payload).set "id" (Value.str bankID)).set "amount"
         (Value.float amount) := hQ.2.2.2
     rw [hp']
     simp only [lookup_set, AList.lookup_empty],
   rfl, rfl, by decide, by decide⟩

theorem payload_keys_and_values_witness :
    (∀ p ∈ (GetOrderHistory plainLib (answering ⟨1627000000, 0⟩ ⟨200, "", ""⟩)
        (NewBitkub "key" "secret" []) "THB_BTC" 1 10 0 0).signed,
      "ts" ∉ p.keys ∧ "sig" ∉ p.keys) ∧
    (GetOrderHistory plainLib (answering ⟨1627000000, 0⟩ ⟨200, "", ""⟩)
        (NewBitkub "key" "secret" []) "THB_BTC" 1 10 0 0).signed.map
      (fun p => (p.lookup "sym", p.lookup "p", p.lookup "lmt", p.lookup "start",
        p.lookup "end")) =
      [(some (Value.str "THB_BTC"), some (Value.int 1), some (Value.int 10), none, none)] :=
  ⟨fun p hp =>
    have h := (payload_keys_and_values.1 plainLib (answering ⟨1627000000, 0⟩ ⟨200, "", ""⟩)
      (NewBitkub "key" "secret" [])).2.2.2.2.2.2.2.2.2.1 "THB_BTC" 1 10 0 0 p hp
    ⟨h.1, h.2.1⟩,
   by decide⟩

end Bitkub
